import Mathlib

/-!
# NesCpu: the 6502 interpreter of `src/libgme/NesCpu.cpp`

A shallow embedding of `NesCpu::run`.

* Machine integers are `Nat` / `Int` with explicit wrap-around: `uint8_t` values are
  kept modulo `0x100`, `uint16_t` values modulo `0x10000`, the `int16_t` cycle counter
  `s_time` is wrapped by `i16`.
* The labels of `run` (`loop`, `adc_imm`, `write_nz_zp`, `interrupt`, `out_of_time`,
  `stop`, ...) become functions of the same name; one pass from the label `loop` to the
  next `goto loop` / `goto stop` is `step`.
* The I/O macros `CPU_READ`, `CPU_WRITE` (header `nes_cpu_io.h`) are parameters, see
  `Bridge`.
-/

namespace NesCpu

/-! ## Machine integers -/

/-- Conversion of an `int` value to `uint16_t`. -/
def u16i (z : Int) : Nat := (z % 65536).toNat

/-- Conversion of an `int` value to `uint8_t`. -/
def u8i (z : Int) : Nat := (z % 256).toNat

/-- Conversion of an integer value to `int16_t` (two's complement wrap-around). -/
def i16 (z : Int) : Int := (z + 32768) % 65536 - 32768

/-- The cast `(int8_t) v`: the low eight bits of `v` read as a signed byte. -/
def i8 (v : Nat) : Int := if v % 256 < 128 then (v % 256 : Nat) else ((v % 256 : Nat) : Int) - 256

/-- The value `z & m` for an `int` `z` (32-bit two's complement) and a mask `m ≥ 0`. -/
def iand (z : Int) (m : Nat) : Nat := (z % 4294967296).toNat &&& m

/-! ## Constants -/

def ST_N : Nat := 0x80

def ST_V : Nat := 0x40

def ST_R : Nat := 0x20

def ST_B : Nat := 0x10

def ST_D : Nat := 0x08

def ST_I : Nat := 0x04

def ST_Z : Nat := 0x02

def ST_C : Nat := 0x01

/-- `PAGE_SIZE`; `reset` asserts `PAGE_SIZE == 0x800`. -/
def PAGE_SIZE : Nat := 0x800

/-- `PAGE_BITS`, with `PAGE_SIZE = 1 << PAGE_BITS`. -/
def PAGE_BITS : Nat := 11

/-- `PAGES_NUM = 0x10000 / PAGE_SIZE`. -/
def PAGES_NUM : Nat := 32

/-- `BAD_OPCODE`: the header is not among the sources; the comment next to `CLOCK_TABLE`
("0xF2 was 2") and the one halt opcode missing from the `HLT` list identify it. -/
def BAD_OPCODE : Nat := 0xF2

/-- `PAGE_OFFSET(addr)` (portable variant). -/
def PAGE_OFFSET (addr : Nat) : Nat := addr &&& (PAGE_SIZE - 1)

def CLOCK_TABLE : List Nat := [
  0, 6, 2, 8, 3, 3, 5, 5, 3, 2, 2, 2, 4, 4, 6, 6,
  3, 5, 2, 8, 4, 4, 6, 6, 2, 4, 2, 7, 4, 4, 7, 7,
  6, 6, 2, 8, 3, 3, 5, 5, 4, 2, 2, 2, 4, 4, 6, 6,
  3, 5, 2, 8, 4, 4, 6, 6, 2, 4, 2, 7, 4, 4, 7, 7,
  6, 6, 2, 8, 3, 3, 5, 5, 3, 2, 2, 2, 3, 4, 6, 6,
  3, 5, 2, 8, 4, 4, 6, 6, 2, 4, 2, 7, 4, 4, 7, 7,
  6, 6, 2, 8, 3, 3, 5, 5, 4, 2, 2, 2, 5, 4, 6, 6,
  3, 5, 2, 8, 4, 4, 6, 6, 2, 4, 2, 7, 4, 4, 7, 7,
  2, 6, 2, 6, 3, 3, 3, 3, 2, 2, 2, 2, 4, 4, 4, 4,
  3, 6, 2, 6, 4, 4, 4, 4, 2, 5, 2, 5, 5, 5, 5, 5,
  2, 6, 2, 6, 3, 3, 3, 3, 2, 2, 2, 2, 4, 4, 4, 4,
  3, 5, 2, 5, 4, 4, 4, 4, 2, 4, 2, 4, 4, 4, 4, 4,
  2, 6, 2, 8, 3, 3, 5, 5, 2, 2, 2, 2, 4, 4, 6, 6,
  3, 5, 2, 8, 4, 4, 6, 6, 2, 4, 2, 7, 4, 4, 7, 7,
  2, 6, 2, 8, 3, 3, 5, 5, 2, 2, 2, 2, 4, 4, 6, 6,
  3, 5, 0, 8, 4, 4, 6, 6, 2, 4, 2, 7, 4, 4, 7, 7]

/-- `CLOCK_TABLE[opcode]`. -/
def clock (opcode : Nat) : Nat := CLOCK_TABLE.getD opcode 0

def illop_lens : List Nat := [0x40, 0x40, 0x40, 0x80, 0x40, 0x40, 0x80, 0xA0]

/-! ## State -/

/-- A `const uint8_t *`: a buffer and an offset into it. Buffer `0` is the low-memory
array `m_lowMem`; every other buffer belongs to the host (ROM banks, the unmapped page). -/
structure Ptr where
  buf : Nat
  off : Nat
deriving DecidableEq, Repr

/-- Pointer arithmetic `p + n`. -/
def Ptr.add (p : Ptr) (n : Nat) : Ptr := { p with off := p.off + n }

/-- The `registers_t m_regs` snapshot. -/
structure Regs where
  pc : Nat
  a : Nat
  x : Nat
  y : Nat
  status : Nat
  sp : Nat
deriving DecidableEq, Repr

/-- The object state that outlives a call of `run` and that the I/O callbacks can reach:
`m_regs`, `m_lowMem`, the `state_t` in use (`code_map`, `time`, `base`), `m_irqTime`,
`m_endTime`, `m_errorsNum`, the host's buffers `ext` and the rest of the host `host`. -/
structure Obj (H : Type) where
  regs : Regs
  lowMem : Nat → Nat
  code_map : Nat → Ptr
  time : Int
  base : Int
  irqTime : Int
  endTime : Int
  errorsNum : Nat
  ext : Nat → Nat → Nat
  host : H

/-- The locals of `run` together with the object. `sp` is the internal stack pointer
(`0x100 | value`), `status` holds only V, D and I, `c` and `nz` are the packed carry and
negative/zero words. -/
structure St (H : Type) where
  pc : Nat
  a : Nat
  x : Nat
  y : Nat
  sp : Nat
  status : Nat
  c : Nat
  nz : Nat
  s_time : Int
  o : Obj H

/-- The host side of the interpreter: `CPU_READ(cpu, addr, time)`,
`CPU_WRITE(cpu, addr, data, time)` and `CPU_DONE(cpu, time, result_out)`. The callbacks
see and may change the object, never the locals of `run`. -/
structure Bridge (H : Type) where
  read : Obj H → Nat → Int → Nat × Obj H
  write : Obj H → Nat → Nat → Int → Obj H
  done : Obj H → Int → Int × Obj H

/-- The `CPU_DONE` of NesCpu.cpp (used unless the host header defines its own):
`result_out = -1`. -/
def CPU_DONE_default {H : Type} (o : Obj H) (_time : Int) : Int × Obj H := (-1, o)

/-- Where `run` goes after one pass: back to `loop`, or to `stop`. -/
inductive Next (H : Type) where
  | loop (s : St H)
  | stop (s : St H)

/-! ## Memory access -/

/-- `READ_LOW(addr)`: a cell of the `uint8_t` array `m_lowMem`. -/
def READ_LOW {H : Type} (o : Obj H) (addr : Nat) : Nat := o.lowMem addr % 256

/-- `WRITE_LOW(addr, data)`: the stored value is converted to `uint8_t`. -/
def WRITE_LOW {H : Type} (o : Obj H) (addr : Nat) (data : Nat) : Obj H :=
  { o with lowMem := fun i => if i = addr then data % 256 else o.lowMem i }

/-- The byte `p[i]` behind a code pointer. -/
def deref {H : Type} (o : Obj H) (p : Ptr) (i : Nat) : Nat :=
  if p.buf = 0 then o.lowMem (p.off + i) % 256 else o.ext p.buf (p.off + i) % 256

/-- `READ_PROG(addr)`. -/
def READ_PROG {H : Type} (o : Obj H) (addr : Nat) : Nat :=
  deref o (o.code_map (addr >>> PAGE_BITS)) (PAGE_OFFSET addr)

/-- Modelled from the spec: `GET_LE16` (header `blargg_endian.h`, not among the sources)
loads a 16-bit value little-endian, low byte first. -/
def GET_LE16 {H : Type} (o : Obj H) (p : Ptr) : Nat := deref o p 0 + 0x100 * deref o p 1

/-- `TIME`: `s_time + s.base`. -/
def TIME {H : Type} (s : St H) : Int := s.s_time + s.o.base

/-- `FLUSH_TIME()`. -/
def FLUSH_TIME {H : Type} (s : St H) : St H := { s with o := { s.o with time := s.s_time } }

/-- `CACHE_TIME()`. -/
def CACHE_TIME {H : Type} (s : St H) : St H := { s with s_time := i16 s.o.time }

/-- `READ(addr)`: the value and the state the callback leaves. -/
def READ {H : Type} (br : Bridge H) (s : St H) (addr : Nat) : Nat × St H :=
  let r := br.read s.o addr (TIME s)
  (r.1, { s with o := r.2 })

/-- `WRITE(addr, data)`. -/
def WRITE {H : Type} (br : Bridge H) (s : St H) (addr : Nat) (data : Nat) : St H :=
  { s with o := br.write s.o addr data (TIME s) }

/-- `SET_SP(v)`. -/
def SET_SP (v : Nat) : Nat := (v + 1) ||| 0x100

/-- `GET_SP()`. -/
def GET_SP (sp : Nat) : Nat := u8i ((sp : Int) - 1)

/-! ## Status flags -/

/-- `IS_NEG`. -/
def IS_NEG {H : Type} (s : St H) : Bool := s.nz &&& 0x8080 != 0

/-- `CALC_STATUS(out)` for a `uint8_t out`. -/
def CALC_STATUS {H : Type} (s : St H) : Nat :=
  let out := s.status &&& (ST_V ||| ST_D ||| ST_I)
  let out := (out ||| (((s.nz >>> 8) ||| s.nz) &&& ST_N)) % 256
  let out := (out ||| (s.c >>> 8 &&& ST_C)) % 256
  if s.nz &&& 0xFF = 0 then (out ||| ST_Z) % 256 else out

/-- `SET_STATUS(in)` for a `uint8_t in`. -/
def SET_STATUS {H : Type} (s : St H) (inp : Nat) : St H :=
  let nz := (inp <<< 8) % 65536
  { s with
    status := inp &&& (ST_V ||| ST_D ||| ST_I)
    c := nz
    nz := nz ||| ((inp ^^^ 0xFF) &&& ST_Z) }

/-! ## Macros of `run` -/

variable {H : Type}

/-- The statement `pc += n` on the `uint16_t pc`. -/
def addPc (s : St H) (n : Nat) : St H := { s with pc := (s.pc + n) % 65536 }

/-- The statement `s_time += n` on the `int16_t s_time`. -/
def addTime (s : St H) (n : Int) : St H := { s with s_time := i16 (s.s_time + n) }

/-- `GET_MSB()`: `instr[1]`. -/
def GET_MSB (s : St H) (instr : Ptr) : Nat := deref s.o instr 1

/-- `GET_ADDR()`: `GET_LE16(instr)`. -/
def GET_ADDR (s : St H) (instr : Ptr) : Nat := GET_LE16 s.o instr

/-- `HANDLE_PAGE_CROSSING(lsb)`: `s_time += (lsb) >> 8`. -/
def HANDLE_PAGE_CROSSING (s : St H) (lsb : Nat) : St H := addTime s ((lsb >>> 8 : Nat) : Int)

/-- `IND_X(out)`: the value assigned to `out`. -/
def IND_X (s : St H) (data : Nat) : Nat :=
  let temp := (data + s.x) % 65536
  (0x100 * READ_LOW s.o ((temp + 1) % 256) + READ_LOW s.o (temp % 256)) % 65536

/-- `IND_Y(cross, out)`: the local `temp` handed to `cross`. -/
def IND_Y_temp (s : St H) (data : Nat) : Nat := (READ_LOW s.o data + s.y) % 65536

/-- `IND_Y(cross, out)`: the value assigned to `out`. -/
def IND_Y (s : St H) (data : Nat) : Nat :=
  (IND_Y_temp s data + 0x100 * READ_LOW s.o ((data + 1) % 256)) % 65536

/-- The tail of `ARITH_ADDR_MODES` from the label `ptr##op`:
`FLUSH_TIME(); data = READ(data); CACHE_TIME();`. -/
def arith_ptr (br : Bridge H) (s : St H) (data : Nat) : Nat × St H :=
  let r := READ br (FLUSH_TIME s) data
  (r.1 % 65536, CACHE_TIME r.2)

/-- The tail of `ARITH_ADDR_MODES` from `case op + 0x08` (abs): `ADD_PAGE()`, then
`ptr##op`. -/
def arith_abs (br : Bridge H) (s : St H) (instr : Ptr) (data : Nat) : Nat × St H :=
  arith_ptr br (addPc s 1) ((data + 0x100 * GET_MSB s instr) % 65536)

/-- The tail of `ARITH_ADDR_MODES` from the label `ind##op`: `HANDLE_PAGE_CROSSING(data)`,
then the abs case. -/
def arith_ind (br : Bridge H) (s : St H) (instr : Ptr) (data : Nat) : Nat × St H :=
  arith_abs br (HANDLE_PAGE_CROSSING s data) instr data

/-- `ARITH_ADDR_MODES(op)`: the operand `data` and the state with which the label
`imm##op` is reached from the case of `opcode`. -/
def ARITH_ADDR_MODES (br : Bridge H) (op opcode : Nat) (instr : Ptr) (data : Nat)
    (s : St H) : Nat × St H :=
  if opcode + 0x04 = op then arith_ptr br s (IND_X s data)
  else if opcode = op + 0x0C then
    arith_ptr br (HANDLE_PAGE_CROSSING s (IND_Y_temp s data)) (IND_Y s data)
  else if opcode = op + 0x10 then (READ_LOW s.o ((data + s.x) % 256), s)
  else if opcode = op + 0x00 then (READ_LOW s.o data, s)
  else if opcode = op + 0x14 then arith_ind br s instr ((data + s.y) % 65536)
  else if opcode = op + 0x18 then arith_ind br s instr ((data + s.x) % 65536)
  else if opcode = op + 0x08 then arith_abs br s instr data
  else (data, s)

/-- The eight case labels of `ARITH_ADDR_MODES(op)`. -/
def isArith (op opcode : Nat) : Bool :=
  opcode + 0x04 == op || opcode == op + 0x0C || opcode == op + 0x10 || opcode == op
    || opcode == op + 0x14 || opcode == op + 0x18 || opcode == op + 0x08
    || opcode == op + 0x04

/-- `BRANCH(cond)`. -/
def BRANCH (cond : Bool) (data : Nat) (s : St H) : St H :=
  let offset : Int := i8 data
  let pc := (s.pc + 1) % 65536
  let extra_clock := u16i (((pc &&& 0xFF : Nat) : Int) + offset)
  if !cond then { s with pc := pc, s_time := i16 (s.s_time - 1) }
  else addTime { s with pc := u16i ((pc : Int) + offset) } (((extra_clock >>> 8) &&& 1 : Nat) : Int)

/-- `INC_DEC_XY(reg, n)`: the new `nz`; the register becomes its low byte. -/
def INC_DEC_nz (reg : Nat) (n : Int) : Nat := u16i ((reg : Int) + n)

/-- `PUSH(v)`. -/
def PUSH (s : St H) (v : Nat) : St H :=
  let sp := (s.sp - 1) ||| 0x100
  { s with sp := sp, o := WRITE_LOW s.o sp v }

/-! ## Labels of `run` shared by several opcodes -/

/-- The body shared by CMP, CPX and CPY (`cpx_data`, `cpy_data`):
`nz = reg - data; pc++; c = ~nz; nz &= 0xFF;`. -/
def cmp_data (s : St H) (reg data : Nat) : St H :=
  let nz := u16i ((reg : Int) - (data : Int))
  { s with pc := (s.pc + 1) % 65536, c := nz ^^^ 0xFFFF, nz := nz &&& 0xFF }

/-- The label `adc_imm`. -/
def adc_imm (s : St H) (data : Nat) : St H :=
  let carry : Nat := (s.c >>> 8) &&& 1
  let ov : Int := i16 (((s.a ^^^ 0x80 : Nat) : Int) + (carry : Int) + i8 data)
  let status := s.status &&& (0xFF ^^^ ST_V)
  let status := (status ||| iand (ov >>> (2 : Nat)) 0x40) % 256
  let nz := (s.a + data + carry) % 65536
  { s with status := status, c := nz, nz := nz, pc := (s.pc + 1) % 65536, a := nz % 256 }

/-- The label `write_nz_zp`: `pc++; WRITE_LOW(data, nz);`. -/
def write_nz_zp (s : St H) (data : Nat) : St H :=
  { s with pc := (s.pc + 1) % 65536, o := WRITE_LOW s.o data s.nz }

/-- The label `ror_zp`. -/
def ror_zp (s : St H) (data : Nat) : St H :=
  let temp := READ_LOW s.o data
  write_nz_zp { s with nz := (((s.c >>> 1) &&& 0x80) ||| (temp >>> 1)) % 65536,
                       c := (temp <<< 8) % 65536 } data

/-- The label `rol_zp`. -/
def rol_zp (s : St H) (data : Nat) : St H :=
  let nz := (s.c >>> 8) &&& 1
  let c := (READ_LOW s.o data <<< 1) % 65536
  write_nz_zp { s with nz := nz ||| c, c := c } data

/-- The label `add_nz_zp`, entered with `nz` set to `n`. -/
def add_nz_zp (s : St H) (n data : Nat) : St H :=
  write_nz_zp { s with nz := (n + READ_LOW s.o data) % 65536 } data

/-- The label `rotate_common`: `pc++; WRITE(data, (uint8_t) nz); CACHE_TIME();`. -/
def rotate_common (br : Bridge H) (s : St H) (data : Nat) : St H :=
  let s := addPc s 1
  CACHE_TIME (WRITE br s data (s.nz % 256))

/-- The label `ror_abs`. -/
def ror_abs (br : Bridge H) (s : St H) (instr : Ptr) (data : Nat) : St H :=
  let data := (data + 0x100 * GET_MSB s instr) % 65536
  let r := READ br (FLUSH_TIME (addPc s 1)) data
  let temp := r.1
  rotate_common br { r.2 with nz := (((s.c >>> 1) &&& 0x80) ||| (temp >>> 1)) % 65536,
                              c := (temp <<< 8) % 65536 } data

/-- The label `rol_abs`. -/
def rol_abs (br : Bridge H) (s : St H) (instr : Ptr) (data : Nat) : St H :=
  let data := (data + 0x100 * GET_MSB s instr) % 65536
  let nz := (s.c >>> 8) &&& 1
  let r := READ br (FLUSH_TIME (addPc s 1)) data
  let c := (r.1 <<< 1) % 65536
  rotate_common br { r.2 with nz := nz ||| c, c := c } data

/-- The label `inc_common`, entered with `nz` set to `n`. -/
def inc_common (br : Bridge H) (s : St H) (n data : Nat) : St H :=
  let r := READ br (FLUSH_TIME s) data
  let s := addPc { r.2 with nz := (n + r.1) % 65536 } 2
  CACHE_TIME (WRITE br s data (s.nz % 256))

/-- The label `sta_ptr`: `FLUSH_TIME(); WRITE(addr, a); CACHE_TIME();`. -/
def sta_ptr (br : Bridge H) (s : St H) (addr : Nat) : St H :=
  CACHE_TIME (WRITE br (FLUSH_TIME s) addr s.a)

/-- The store used by STA/STX/STY abs: low memory directly when `addr <= 0x7FF`,
the bridge otherwise. -/
def store_addr (br : Bridge H) (s : St H) (addr v : Nat) : St H :=
  if addr ≤ 0x7FF then { s with o := WRITE_LOW s.o addr v }
  else CACHE_TIME (WRITE br (FLUSH_TIME s) addr v)

/-- The label `a_nz_read_addr`: `FLUSH_TIME(); a = nz = READ(addr); CACHE_TIME();`. -/
def a_nz_read_addr (br : Bridge H) (s : St H) (addr : Nat) : St H :=
  let r := READ br (FLUSH_TIME s) addr
  CACHE_TIME { r.2 with nz := r.1 % 65536, a := r.1 % 65536 % 256 }

/-- The tail shared by LDA (ind),Y / abs,Y / abs,X: `a = nz = READ_PROG(addr)`, then
`a_nz_read_addr` unless `(addr ^ 0x8000) <= 0x9FFF`. -/
def lda_prog (br : Bridge H) (s : St H) (addr : Nat) : St H :=
  let v := READ_PROG s.o addr
  let s := { s with nz := v, a := v % 256 }
  if (addr ^^^ 0x8000) ≤ 0x9FFF then s else a_nz_read_addr br s addr

/-- `READ_LIKELY_PPU(addr, out)` with the `CPU_READ_PPU` of NesCpu.cpp:
`FLUSH_TIME(); out = CPU_READ(cpu, addr, time); CACHE_TIME();`. -/
def READ_LIKELY_PPU (br : Bridge H) (s : St H) (addr : Nat) : Nat × St H :=
  let r := READ br (FLUSH_TIME s) addr
  (r.1, CACHE_TIME r.2)

/-- The statement `m_regs.status = status`. -/
def publishStatus (s : St H) : St H :=
  { s with o := { s.o with regs := { s.o.regs with status := s.status } } }

/-- The label `handle_cli`. -/
def handle_cli (s : St H) : St H :=
  let s := publishStatus s
  let delta := s.o.base - s.o.irqTime
  if delta ≤ 0 then s
  else
    let s := addTime { s with o := { s.o with base := s.o.irqTime } } delta
    if s.s_time < 0 then s
    else if delta ≥ s.s_time + 1 then
      { s with o := { s.o with base := s.o.base + (s.s_time + 1) }, s_time := -1 }
    else s

/-- The label `handle_sei`. -/
def handle_sei (s : St H) : St H :=
  let s := publishStatus s
  let delta := s.o.base - s.o.endTime
  addTime { s with o := { s.o with base := s.o.endTime } } delta

/-- The label `interrupt`, entered with `result_`. -/
def interrupt (s : St H) (result_ : Int) : St H :=
  let s := addTime s 7
  let o := WRITE_LOW s.o (0x100 ||| (s.sp - 1)) (s.pc >>> 8)
  let o := WRITE_LOW o (0x100 ||| (s.sp - 2)) s.pc
  let pc := GET_LE16 o (((o.code_map (0xFFFA >>> PAGE_BITS)).add (PAGE_OFFSET 0xFFFA)).add
    result_.toNat)
  let sp := (s.sp - 3) ||| 0x100
  let temp := (CALC_STATUS s ||| ST_R) % 256
  let temp := if result_ ≠ 0 then (temp ||| ST_B) % 256 else temp
  let o := WRITE_LOW o sp temp
  let status := (s.status ||| ST_I) % 256
  let o := { o with regs := { o.regs with status := status } }
  let s := { s with pc := pc % 65536, sp := sp, status := status, o := o }
  let delta := s.o.base - s.o.endTime
  if delta ≥ 0 then s
  else addTime { s with o := { s.o with base := s.o.endTime } } delta

/-- The label `handle_brk`: `pc++; result_ = 4;`, then `interrupt`. -/
def handle_brk (s : St H) : St H := interrupt (addPc s 1) 4

/-- The label `out_of_time`. -/
def out_of_time (br : Bridge H) (s : St H) : Next H :=
  let s := FLUSH_TIME { s with pc := (s.pc + 65535) % 65536 }
  let r := br.done s.o (TIME s)
  let s := CACHE_TIME { s with o := r.2 }
  if r.1 ≥ 0 then Next.loop (interrupt s r.1)
  else if s.s_time < 0 then Next.loop s
  else Next.stop s

/-! ## The `switch (opcode)` of `run`, one function for each of its sections

Each function holds the cases of one section of the switch and answers `none` for an
opcode that has no case label there. `instr` points at the byte after the opcode, `data` is
`*instr`, and `s` is the state after `pc++` and the charge of `CLOCK_TABLE[opcode]`. -/

/-- The statement `a = nz = v` for a byte or `int` value `v`. -/
def set_a_nz (s : St H) (v : Nat) : St H := { s with nz := v % 65536, a := v % 65536 % 256 }

/-- Section "Often-Used". -/
def often_used (br : Bridge H) (opcode : Nat) (instr : Ptr) (data : Nat) (s : St H) :
    Option (Next H) :=
  if opcode = 0xB5 then  -- LDA zp,x
    some (.loop (addPc (set_a_nz s (READ_LOW s.o ((data + s.x) % 256))) 1))
  else if opcode = 0xA5 then  -- LDA zp
    some (.loop (addPc (set_a_nz s (READ_LOW s.o data)) 1))
  else if opcode = 0xD0 then  -- BNE
    some (.loop (BRANCH (s.nz % 256 != 0) data s))
  else if opcode = 0x20 then  -- JSR
    let temp := (s.pc + 1) % 65536
    let pc := GET_ADDR s instr
    let o := WRITE_LOW s.o (0x100 ||| (s.sp - 1)) (temp >>> 8)
    let sp := (s.sp - 2) ||| 0x100
    some (.loop { s with pc := pc, sp := sp, o := WRITE_LOW o sp temp })
  else if opcode = 0x4C then  -- JMP abs
    some (.loop { s with pc := GET_ADDR s instr })
  else if opcode = 0xE8 then  -- INX
    let nz := INC_DEC_nz s.x 1
    some (.loop { s with nz := nz, x := nz % 256 })
  else if opcode = 0x10 then  -- BPL
    some (.loop (BRANCH (!IS_NEG s) data s))
  else if isArith 0xC5 opcode then  -- CMP
    let r := ARITH_ADDR_MODES br 0xC5 opcode instr data s
    some (.loop (cmp_data r.2 r.2.a r.1))
  else if opcode = 0x30 then  -- BMI
    some (.loop (BRANCH (IS_NEG s) data s))
  else if opcode = 0xF0 then  -- BEQ
    some (.loop (BRANCH (s.nz % 256 == 0) data s))
  else if opcode = 0x95 then  -- STA zp,x
    some (.loop { addPc s 1 with o := WRITE_LOW s.o ((data + s.x) % 256) s.a })
  else if opcode = 0x85 then  -- STA zp
    some (.loop { addPc s 1 with o := WRITE_LOW s.o data s.a })
  else if opcode = 0xC8 then  -- INY
    let nz := INC_DEC_nz s.y 1
    some (.loop { s with nz := nz, y := nz % 256 })
  else if opcode = 0xA8 then  -- TAY
    some (.loop { s with y := s.a, nz := s.a })
  else if opcode = 0x98 then  -- TYA
    some (.loop { s with a := s.y, nz := s.y })
  else if opcode = 0xAD then  -- LDA abs
    let r := READ_LIKELY_PPU br (addPc s 2) (GET_ADDR s instr)
    some (.loop (set_a_nz r.2 r.1))
  else if opcode = 0x60 then  -- RTS
    let pc := (1 + READ_LOW s.o s.sp) % 65536
    let pc := (pc + 0x100 * READ_LOW s.o (0x100 ||| (s.sp - 0xFF))) % 65536
    some (.loop { s with pc := pc, sp := (s.sp - 0xFE) ||| 0x100 })
  else if opcode = 0x99 then  -- STA abs,Y
    some (.loop (store_addr br (addPc s 2) ((s.y + GET_ADDR s instr) % 65536) s.a))
  else if opcode = 0x8D then  -- STA abs
    some (.loop (store_addr br (addPc s 2) (GET_ADDR s instr % 65536) s.a))
  else if opcode = 0x9D then  -- STA abs,X
    some (.loop (store_addr br (addPc s 2) ((s.x + GET_ADDR s instr) % 65536) s.a))
  else if opcode = 0x91 then  -- STA (ind),Y
    some (.loop (sta_ptr br (addPc s 1) (IND_Y s data)))
  else if opcode = 0x81 then  -- STA (ind,X)
    some (.loop (sta_ptr br (addPc s 1) (IND_X s data)))
  else if opcode = 0xA9 then  -- LDA #imm
    some (.loop { addPc s 1 with a := data % 256, nz := data })
  else if opcode = 0xA1 then  -- LDA (ind,X)
    some (.loop (a_nz_read_addr br (addPc s 1) (IND_X s data)))
  else if opcode = 0xB1 then  -- LDA (ind),Y
    some (.loop (lda_prog br (addPc (HANDLE_PAGE_CROSSING s (IND_Y_temp s data)) 1)
      (IND_Y s data)))
  else if opcode = 0xB9 then  -- LDA abs,Y
    some (.loop (lda_prog br (addPc (HANDLE_PAGE_CROSSING s (data + s.y)) 2)
      ((GET_ADDR s instr + s.y) % 65536)))
  else if opcode = 0xBD then  -- LDA abs,X
    some (.loop (lda_prog br (addPc (HANDLE_PAGE_CROSSING s (data + s.x)) 2)
      ((GET_ADDR s instr + s.x) % 65536)))
  else none

/-- Section "Branch". -/
def branch_ops (opcode : Nat) (data : Nat) (s : St H) : Option (Next H) :=
  if opcode = 0x50 then some (.loop (BRANCH (s.status &&& ST_V == 0) data s))       -- BVC
  else if opcode = 0x70 then some (.loop (BRANCH (s.status &&& ST_V != 0) data s))  -- BVS
  else if opcode = 0xB0 then some (.loop (BRANCH (s.c &&& 0x100 != 0) data s))      -- BCS
  else if opcode = 0x90 then some (.loop (BRANCH (s.c &&& 0x100 == 0) data s))      -- BCC
  else none

/-- The tail shared by LDY abs,X / LDY abs (`isX = false`) and LDX abs,y / LDX abs
(`isX = true`), entered with the possibly indexed `data`. -/
def ld_xy_abs (br : Bridge H) (isX : Bool) (s : St H) (instr : Ptr) (data : Nat) : St H :=
  let addr := data + 0x100 * GET_MSB s instr
  let r := READ br (FLUSH_TIME (addPc s 2)) addr
  let nz := r.1 % 65536
  if isX then CACHE_TIME { r.2 with nz := nz, x := nz % 256 }
  else CACHE_TIME { r.2 with nz := nz, y := nz % 256 }

/-- Section "Load/store". -/
def load_store (br : Bridge H) (opcode : Nat) (instr : Ptr) (data : Nat) (s : St H) :
    Option (Next H) :=
  if opcode = 0x94 then  -- STY zp,x
    some (.loop { addPc s 1 with o := WRITE_LOW s.o ((data + s.x) % 256) s.y })
  else if opcode = 0x84 then  -- STY zp
    some (.loop { addPc s 1 with o := WRITE_LOW s.o data s.y })
  else if opcode = 0x96 then  -- STX zp,y
    some (.loop { addPc s 1 with o := WRITE_LOW s.o ((data + s.y) % 256) s.x })
  else if opcode = 0x86 then  -- STX zp
    some (.loop { addPc s 1 with o := WRITE_LOW s.o data s.x })
  else if opcode = 0xB6 then  -- LDX zp,y
    let data := READ_LOW s.o ((data + s.y) % 256)
    some (.loop { addPc s 1 with x := data % 256, nz := data })
  else if opcode = 0xA6 then  -- LDX zp
    let data := READ_LOW s.o data
    some (.loop { addPc s 1 with x := data % 256, nz := data })
  else if opcode = 0xA2 then  -- LDX #imm
    some (.loop { addPc s 1 with x := data % 256, nz := data })
  else if opcode = 0xB4 then  -- LDY zp,x
    let data := READ_LOW s.o ((data + s.x) % 256)
    some (.loop { addPc s 1 with y := data % 256, nz := data })
  else if opcode = 0xA4 then  -- LDY zp
    let data := READ_LOW s.o data
    some (.loop { addPc s 1 with y := data % 256, nz := data })
  else if opcode = 0xA0 then  -- LDY #imm
    some (.loop { addPc s 1 with y := data % 256, nz := data })
  else if opcode = 0xBC then  -- LDY abs,X
    let data := (data + s.x) % 65536
    some (.loop (ld_xy_abs br false (HANDLE_PAGE_CROSSING s data) instr data))
  else if opcode = 0xAC then  -- LDY abs
    some (.loop (ld_xy_abs br false s instr data))
  else if opcode = 0xBE then  -- LDX abs,y
    let data := (data + s.y) % 65536
    some (.loop (ld_xy_abs br true (HANDLE_PAGE_CROSSING s data) instr data))
  else if opcode = 0xAE then  -- LDX abs
    some (.loop (ld_xy_abs br true s instr data))
  else if opcode = 0x8C then  -- STY abs
    some (.loop (store_addr br (addPc s 2) (GET_ADDR s instr) s.y))
  else if opcode = 0x8E then  -- STX abs
    some (.loop (store_addr br (addPc s 2) (GET_ADDR s instr) s.x))
  else none

/-- The case of CPX abs / CPY abs up to `goto cpx_data` / `goto cpy_data`:
`addr = GET_ADDR(); pc++; FLUSH_TIME(); data = READ(addr); CACHE_TIME();`. -/
def cp_abs (br : Bridge H) (s : St H) (instr : Ptr) : Nat × St H :=
  let r := READ br (FLUSH_TIME (addPc s 1)) (GET_ADDR s instr)
  (r.1 % 65536, CACHE_TIME r.2)

/-- Section "Compare". -/
def compare (br : Bridge H) (opcode : Nat) (instr : Ptr) (data : Nat) (s : St H) :
    Option (Next H) :=
  if opcode = 0xEC then  -- CPX abs
    let r := cp_abs br s instr
    some (.loop (cmp_data r.2 r.2.x r.1))
  else if opcode = 0xE4 then  -- CPX zp
    some (.loop (cmp_data s s.x (READ_LOW s.o data)))
  else if opcode = 0xE0 then  -- CPX #imm
    some (.loop (cmp_data s s.x data))
  else if opcode = 0xCC then  -- CPY abs
    let r := cp_abs br s instr
    some (.loop (cmp_data r.2 r.2.y r.1))
  else if opcode = 0xC4 then  -- CPY zp
    some (.loop (cmp_data s s.y (READ_LOW s.o data)))
  else if opcode = 0xC0 then  -- CPY #imm
    some (.loop (cmp_data s s.y data))
  else none

/-- The tail shared by BIT abs and BIT zp once `nz` holds the operand `v` and `status`
has lost V: `status |= nz & ST_V; if (a & nz) goto loop; nz <<= 8;`. -/
def bit_tail (s : St H) (v : Nat) : St H :=
  let nz := v % 65536
  let status := ((s.status &&& (0xFF ^^^ ST_V)) ||| (nz &&& ST_V)) % 256
  if s.a &&& nz ≠ 0 then { s with status := status, nz := nz }
  else { s with status := status, nz := (nz <<< 8) % 65536 }

/-- Section "Logical". -/
def logical (br : Bridge H) (opcode : Nat) (instr : Ptr) (data : Nat) (s : St H) :
    Option (Next H) :=
  if isArith 0x25 opcode then  -- AND
    let r := ARITH_ADDR_MODES br 0x25 opcode instr data s
    let a := (r.2.a &&& r.1) % 256
    some (.loop (addPc { r.2 with a := a, nz := a } 1))
  else if isArith 0x45 opcode then  -- EOR
    let r := ARITH_ADDR_MODES br 0x45 opcode instr data s
    let a := (r.2.a ^^^ r.1) % 256
    some (.loop (addPc { r.2 with a := a, nz := a } 1))
  else if isArith 0x05 opcode then  -- ORA
    let r := ARITH_ADDR_MODES br 0x05 opcode instr data s
    let a := (r.2.a ||| r.1) % 256
    some (.loop (addPc { r.2 with a := a, nz := a } 1))
  else if opcode = 0x2C then  -- BIT abs
    let r := READ_LIKELY_PPU br (addPc s 2) (GET_ADDR s instr)
    some (.loop (bit_tail r.2 r.1))
  else if opcode = 0x24 then  -- BIT zp
    some (.loop (bit_tail (addPc s 1) (READ_LOW s.o data)))
  else none

/-- Section "Add/subtract". -/
def add_subtract (br : Bridge H) (opcode : Nat) (instr : Ptr) (data : Nat) (s : St H) :
    Option (Next H) :=
  if isArith 0xE5 opcode then  -- SBC
    let r := ARITH_ADDR_MODES br 0xE5 opcode instr data s
    some (.loop (adc_imm r.2 (r.1 ^^^ 0xFF)))
  else if opcode = 0xEB then  -- unofficial equivalent
    some (.loop (adc_imm s (data ^^^ 0xFF)))
  else if isArith 0x65 opcode then  -- ADC
    let r := ARITH_ADDR_MODES br 0x65 opcode instr data s
    some (.loop (adc_imm r.2 r.1))
  else none

/-- The case of ROR A, entered with the carry word `c` (LSR A enters with `c = 0`). -/
def ror_a (s : St H) (c : Nat) : St H :=
  let nz := (((c >>> 1) &&& 0x80) ||| (s.a >>> 1)) % 65536
  { s with nz := nz, c := (s.a <<< 8) % 65536, a := nz % 256 }

/-- Section "Shift/rotate". -/
def shift_rotate (br : Bridge H) (opcode : Nat) (instr : Ptr) (data : Nat) (s : St H) :
    Option (Next H) :=
  if opcode = 0x4A then some (.loop (ror_a s 0))  -- LSR A
  else if opcode = 0x6A then some (.loop (ror_a s s.c))  -- ROR A
  else if opcode = 0x0A then  -- ASL A
    let nz := (s.a <<< 1) % 65536
    some (.loop { s with nz := nz, c := nz, a := nz % 256 })
  else if opcode = 0x2A then  -- ROL A
    let nz := (s.a <<< 1) % 65536
    let temp := (s.c >>> 8) &&& 1
    some (.loop { s with c := nz, nz := nz ||| temp, a := (nz ||| temp) % 256 })
  else if opcode = 0x5E then  -- LSR abs,X
    some (.loop (ror_abs br { s with c := 0 } instr ((data + s.x) % 65536)))
  else if opcode = 0x4E then  -- LSR abs
    some (.loop (ror_abs br { s with c := 0 } instr data))
  else if opcode = 0x6E then  -- ROR abs
    some (.loop (ror_abs br s instr data))
  else if opcode = 0x3E then  -- ROL abs,X
    some (.loop (rol_abs br s instr ((data + s.x) % 65536)))
  else if opcode = 0x1E then  -- ASL abs,X
    some (.loop (rol_abs br { s with c := 0 } instr ((data + s.x) % 65536)))
  else if opcode = 0x0E then  -- ASL abs
    some (.loop (rol_abs br { s with c := 0 } instr data))
  else if opcode = 0x2E then  -- ROL abs
    some (.loop (rol_abs br s instr data))
  else if opcode = 0x7E then  -- ROR abs,X
    some (.loop (ror_abs br s instr ((data + s.x) % 65536)))
  else if opcode = 0x76 then  -- ROR zp,x
    some (.loop (ror_zp s ((data + s.x) % 256)))
  else if opcode = 0x56 then  -- LSR zp,x
    some (.loop (ror_zp { s with c := 0 } ((data + s.x) % 256)))
  else if opcode = 0x46 then  -- LSR zp
    some (.loop (ror_zp { s with c := 0 } data))
  else if opcode = 0x66 then  -- ROR zp
    some (.loop (ror_zp s data))
  else if opcode = 0x36 then  -- ROL zp,x
    some (.loop (rol_zp s ((data + s.x) % 256)))
  else if opcode = 0x16 then  -- ASL zp,x
    some (.loop (rol_zp { s with c := 0 } ((data + s.x) % 256)))
  else if opcode = 0x06 then  -- ASL zp
    some (.loop (rol_zp { s with c := 0 } data))
  else if opcode = 0x26 then  -- ROL zp
    some (.loop (rol_zp s data))
  else none

/-- Section "Increment/decrement". -/
def inc_dec (br : Bridge H) (opcode : Nat) (instr : Ptr) (data : Nat) (s : St H) :
    Option (Next H) :=
  if opcode = 0xCA then  -- DEX
    let nz := INC_DEC_nz s.x (-1)
    some (.loop { s with nz := nz, x := nz % 256 })
  else if opcode = 0x88 then  -- DEY
    let nz := INC_DEC_nz s.y (-1)
    some (.loop { s with nz := nz, y := nz % 256 })
  else if opcode = 0xF6 then  -- INC zp,x
    some (.loop (add_nz_zp s 1 ((data + s.x) % 256)))
  else if opcode = 0xE6 then  -- INC zp
    some (.loop (add_nz_zp s 1 data))
  else if opcode = 0xD6 then  -- DEC zp,x
    some (.loop (add_nz_zp s 0xFFFF ((data + s.x) % 256)))
  else if opcode = 0xC6 then  -- DEC zp
    some (.loop (add_nz_zp s 0xFFFF data))
  else if opcode = 0xFE then  -- INC abs,x
    some (.loop (inc_common br s 1 ((s.x + GET_ADDR s instr) % 65536)))
  else if opcode = 0xEE then  -- INC abs
    some (.loop (inc_common br s 1 (GET_ADDR s instr % 65536)))
  else if opcode = 0xDE then  -- DEC abs,x
    some (.loop (inc_common br s 0xFFFF ((s.x + GET_ADDR s instr) % 65536)))
  else if opcode = 0xCE then  -- DEC abs
    some (.loop (inc_common br s 0xFFFF (GET_ADDR s instr % 65536)))
  else none

/-- Section "Transfer". -/
def transfer (opcode : Nat) (s : St H) : Option (Next H) :=
  if opcode = 0xAA then some (.loop { s with x := s.a, nz := s.a })  -- TAX
  else if opcode = 0x8A then some (.loop { s with a := s.x, nz := s.x })  -- TXA
  else if opcode = 0x9A then some (.loop { s with sp := SET_SP s.x })  -- TXS
  else if opcode = 0xBA then  -- TSX
    some (.loop { s with x := GET_SP s.sp, nz := GET_SP s.sp })
  else none

/-- The case of RTI. -/
def rti (s : St H) : St H :=
  let temp := READ_LOW s.o s.sp
  let pc := READ_LOW s.o (0x100 ||| (s.sp - 0xFF))
  let pc := (pc ||| (READ_LOW s.o (0x100 ||| (s.sp - 0xFE)) * 0x100)) % 65536
  let data := s.status
  let s := SET_STATUS { s with pc := pc, sp := (s.sp - 0xFD) ||| 0x100 } temp
  if (data ^^^ s.status) &&& ST_I = 0 then s
  else
    let s := publishStatus s
    let delta := s.o.base - s.o.irqTime
    if delta ≤ 0 then s
    else if s.status &&& ST_I ≠ 0 then s
    else { addTime s delta with o := { s.o with base := s.o.irqTime } }

/-- The case of PLP. -/
def plp (s : St H) : St H :=
  let temp := READ_LOW s.o s.sp
  let changed := s.status ^^^ temp
  let s := SET_STATUS { s with sp := (s.sp - 0xFF) ||| 0x100 } temp
  if changed &&& ST_I = 0 then s
  else if s.status &&& ST_I ≠ 0 then handle_sei s
  else handle_cli s

/-- The case of JMP (ind): the new `pc`. The `check` that the pointer lies outside the I/O
space is a debugging aid (header `blargg_source.h`, not among the sources) and changes
nothing. -/
def jmp_ind (s : St H) (instr : Ptr) : Nat :=
  let data := GET_ADDR s instr % 65536
  let page := s.o.code_map (data >>> PAGE_BITS)
  let pc := deref s.o page (PAGE_OFFSET data)
  let data := (data &&& 0xFF00) ||| ((data + 1) &&& 0xFF)
  (pc ||| (deref s.o page (PAGE_OFFSET data) <<< 8)) % 65536

/-- Section "Stack". -/
def stack (opcode : Nat) (instr : Ptr) (s : St H) : Option (Next H) :=
  if opcode = 0x48 then some (.loop (PUSH s s.a))  -- PHA
  else if opcode = 0x68 then  -- PLA
    some (.loop { set_a_nz s (READ_LOW s.o s.sp) with sp := (s.sp - 0xFF) ||| 0x100 })
  else if opcode = 0x40 then some (.loop (rti s))  -- RTI
  else if opcode = 0x28 then some (.loop (plp s))  -- PLP
  else if opcode = 0x08 then  -- PHP
    some (.loop (PUSH s (CALC_STATUS s ||| (ST_B ||| ST_R))))
  else if opcode = 0x6C then some (.loop { s with pc := jmp_ind s instr })  -- JMP (ind)
  else if opcode = 0x00 then some (.loop (handle_brk s))  -- BRK
  else none

/-- Section "Flags". -/
def flags (opcode : Nat) (s : St H) : Option (Next H) :=
  if opcode = 0x38 then some (.loop { s with c := 0xFFFF })  -- SEC
  else if opcode = 0x18 then some (.loop { s with c := 0 })  -- CLC
  else if opcode = 0xB8 then  -- CLV
    some (.loop { s with status := s.status &&& (0xFF ^^^ ST_V) })
  else if opcode = 0xD8 then  -- CLD
    some (.loop { s with status := s.status &&& (0xFF ^^^ ST_D) })
  else if opcode = 0xF8 then  -- SED
    some (.loop { s with status := (s.status ||| ST_D) % 256 })
  else if opcode = 0x58 then  -- CLI
    if s.status &&& ST_I = 0 then some (.loop s)
    else some (.loop (handle_cli { s with status := s.status &&& (0xFF ^^^ ST_I) }))
  else if opcode = 0x78 then  -- SEI
    if s.status &&& ST_I ≠ 0 then some (.loop s)
    else some (.loop (handle_sei { s with status := (s.status ||| ST_I) % 256 }))
  else none

/-- The case labels of SKW that charge a page crossing. -/
def isSKW (opcode : Nat) : Bool :=
  opcode == 0x1C || opcode == 0x3C || opcode == 0x5C || opcode == 0x7C || opcode == 0xDC
    || opcode == 0xFC

/-- The case labels of SKB. -/
def isSKB (opcode : Nat) : Bool :=
  opcode == 0x74 || opcode == 0x04 || opcode == 0x14 || opcode == 0x34 || opcode == 0x44
    || opcode == 0x54 || opcode == 0x64 || opcode == 0x80 || opcode == 0x82 || opcode == 0x89
    || opcode == 0xC2 || opcode == 0xD4 || opcode == 0xE2 || opcode == 0xF4

/-- The case labels of the unofficial NOP (with 0xEA). -/
def isNOP (opcode : Nat) : Bool :=
  opcode == 0xEA || opcode == 0x1A || opcode == 0x3A || opcode == 0x5A || opcode == 0x7A
    || opcode == 0xDA || opcode == 0xFA

/-- The case labels of HLT below `BAD_OPCODE`. -/
def isHLT (opcode : Nat) : Bool :=
  opcode == 0x02 || opcode == 0x12 || opcode == 0x22 || opcode == 0x32 || opcode == 0x42
    || opcode == 0x52 || opcode == 0x62 || opcode == 0x72 || opcode == 0x92 || opcode == 0xB2
    || opcode == 0xD2

/-- Section "Unofficial": SKW, SKB, NOP and HLT. -/
def unofficial (opcode : Nat) (data : Nat) (s : St H) : Option (Next H) :=
  if isSKW opcode then some (.loop (addPc (addPc (HANDLE_PAGE_CROSSING s (data + s.x)) 1) 1))
  else if opcode = 0x0C then some (.loop (addPc (addPc s 1) 1))
  else if isSKB opcode then some (.loop (addPc s 1))
  else if isNOP opcode then some (.loop s)
  else if opcode = BAD_OPCODE then some (.stop { s with pc := (s.pc + 65535) % 65536 })
  else if isHLT opcode then some (.stop s)
  else none

/-- Section "Unimplemented": `case 0xFF` and `default`. -/
def unimplemented (opcode : Nat) (data : Nat) (s : St H) : St H :=
  let s := if opcode = 0xFF then { s with c := (s.c ||| 1) % 65536 } else s
  let len := ((illop_lens.getD ((opcode >>> 2) &&& 7) 0) >>> ((opcode <<< 1) &&& 6)) &&& 3
  let len := if opcode = 0x9C then 2 else len
  let s := addPc s len
  let s := { s with o := { s.o with errorsNum := s.o.errorsNum + 1 } }
  if opcode >>> 4 = 0x0B then
    let data := if opcode = 0xB3 then READ_LOW s.o data else data
    if opcode ≠ 0xB7 then HANDLE_PAGE_CROSSING s (data + s.y) else s
  else s

/-- The `switch (opcode)`. -/
def exec (br : Bridge H) (opcode : Nat) (instr : Ptr) (data : Nat) (s : St H) : Next H :=
  match often_used br opcode instr data s with
  | some r => r
  | none =>
  match branch_ops opcode data s with
  | some r => r
  | none =>
  match load_store br opcode instr data s with
  | some r => r
  | none =>
  match compare br opcode instr data s with
  | some r => r
  | none =>
  match logical br opcode instr data s with
  | some r => r
  | none =>
  match add_subtract br opcode instr data s with
  | some r => r
  | none =>
  match shift_rotate br opcode instr data s with
  | some r => r
  | none =>
  match inc_dec br opcode instr data s with
  | some r => r
  | none =>
  match transfer opcode s with
  | some r => r
  | none =>
  match stack opcode instr s with
  | some r => r
  | none =>
  match flags opcode s with
  | some r => r
  | none =>
  match unofficial opcode data s with
  | some r => r
  | none => .loop (unimplemented opcode data s)

/-! ## The loop of `run` -/

/-- The pointer `instr` at the label `loop`, before the opcode is read. -/
def fetchPtr (s : St H) : Ptr := (s.o.code_map (s.pc >>> PAGE_BITS)).add (PAGE_OFFSET s.pc)

/-- The opcode fetched at the label `loop`. -/
def fetchOpcode (s : St H) : Nat := deref s.o (fetchPtr s) 0

/-- One pass of `run` from the label `loop` (the `BLARGG_CPU_X86` variant of the time
check, which is the one compiled): fetch, `s_time += CLOCK_TABLE[opcode]`, then either
the undo and `out_of_time`, or the `switch`. -/
def step (br : Bridge H) (s : St H) : Next H :=
  let opcode := fetchOpcode s
  let instr := (fetchPtr s).add 1
  let data := clock opcode
  let s := addTime (addPc s 1) (data : Int)
  if s.s_time ≥ 0 ∧ ¬ (s.s_time < (data : Int)) then out_of_time br (addTime s (-(data : Int)))
  else exec br opcode instr (deref s.o instr 0) s

/-- One pass of `run` from the label `loop` with the time check of the
`!BLARGG_CPU_X86` variant: `if (s_time >= 0) goto out_of_time; s_time += CLOCK_TABLE[opcode];`. -/
def step_plain (br : Bridge H) (s : St H) : Next H :=
  let opcode := fetchOpcode s
  let instr := (fetchPtr s).add 1
  let s := addPc s 1
  if s.s_time ≥ 0 then out_of_time br s
  else exec br opcode instr (deref s.o instr 0) (addTime s (clock opcode : Int))

/-- The locals of `run` on entry, after `setEndTime`. -/
def enter (o : Obj H) : St H :=
  SET_STATUS { pc := o.regs.pc, a := o.regs.a, x := o.regs.x, y := o.regs.y,
               sp := SET_SP o.regs.sp, status := 0, c := 0, nz := 0,
               s_time := i16 o.time, o := o } o.regs.status

/-- The label `stop`: the object that `run` leaves. -/
def commit (s : St H) : Obj H :=
  { s.o with
    time := s.s_time
    regs := { pc := s.pc, sp := GET_SP s.sp, a := s.a, x := s.x, y := s.y,
              status := CALC_STATUS s } }

/-- The value `run` returns from the label `stop`: `s_time < 0`. -/
def result (s : St H) : Bool := decide (s.s_time < 0)

/-- The loop of `run`: passes are made until one reaches `stop`; `none` when `fuel`
passes did not reach it. -/
def runLoop (br : Bridge H) : Nat → St H → Option (St H)
  | 0, _ => none
  | fuel + 1, s =>
    match step br s with
    | .loop s1 => runLoop br fuel s1
    | .stop s1 => some s1

/-- The function `NesCpu::run(end_time)`: the returned flag and the object it leaves.
`setEndTime` (declared in the header) is a parameter. -/
def run (br : Bridge H) (setEndTime : Obj H → Int → Obj H) (fuel : Nat) (o : Obj H)
    (end_time : Int) : Option (Bool × Obj H) :=
  match runLoop br fuel (enter (setEndTime o end_time)) with
  | some s => some (result s, commit s)
  | none => none

/-! ## Reading the flags off the packed representation -/

/-- Carry: "carry set if (c & 0x100) != 0". -/
def flagC (s : St H) : Bool := s.c &&& 0x100 != 0

/-- Zero: "Z set if (nz & 0xFF) == 0". -/
def flagZ (s : St H) : Bool := s.nz &&& 0xFF == 0

/-- Negative: "N set if (nz & 0x8080) != 0". -/
def flagN (s : St H) : Bool := IS_NEG s

/-- Overflow: bit `ST_V` of `status`. -/
def flagV (s : St H) : Bool := s.status &&& ST_V != 0

/-- Decimal: bit `ST_D` of `status`. -/
def flagD (s : St H) : Bool := s.status &&& ST_D != 0

/-- Interrupt disable: bit `ST_I` of `status`. -/
def flagI (s : St H) : Bool := s.status &&& ST_I != 0

/-- The carry as a number, as `adc_imm` and the rotates read it: `c >> 8 & 1`. -/
def carryIn (s : St H) : Nat := (s.c >>> 8) &&& 1

/-- The signed value of a byte. -/
def signed (v : Nat) : Int := if v < 128 then (v : Int) else (v : Int) - 256

/-- The state a pass ends in. -/
def Next.st : Next H → St H
  | .loop s => s
  | .stop s => s

/-- Whether a pass ends at the label `stop`. -/
def Next.isStop : Next H → Bool
  | .loop _ => false
  | .stop _ => true

/-- The result `r` of a section of the `switch` does not leave the loop. -/
def NoStop (r : Option (Next H)) : Prop := ∀ x, r = some x → x.isStop = false

/-- The time check of the compiled (`BLARGG_CPU_X86`) variant sends the pass to
`out_of_time`: `(s_time += data) >= 0` and not `s_time < (int) data`. -/
def timeCheck (s : St H) : Bool :=
  decide (0 ≤ i16 (s.s_time + (clock (fetchOpcode s) : Int))
    ∧ ¬ i16 (s.s_time + (clock (fetchOpcode s) : Int)) < (clock (fetchOpcode s) : Int))

/-- The halt opcodes: `BAD_OPCODE` and the eleven `HLT` case labels below it. -/
def isHalt (opcode : Nat) : Bool := opcode == BAD_OPCODE || isHLT opcode

/-- The case labels of CMP, CPX and CPY. -/
def isCompare (opcode : Nat) : Bool :=
  isArith 0xC5 opcode || opcode == 0xEC || opcode == 0xE4 || opcode == 0xE0
    || opcode == 0xCC || opcode == 0xC4 || opcode == 0xC0

/-- The register a compare opcode reads: A for CMP, X for CPX, Y for CPY. -/
def compareReg (opcode : Nat) (s : St H) : Nat :=
  if isArith 0xC5 opcode then s.a
  else if opcode = 0xEC ∨ opcode = 0xE4 ∨ opcode = 0xE0 then s.x
  else s.y

/-- The operand a compare opcode resolves before `nz = reg - data`, with the state in
which the subtraction is made. -/
def compareOperand (br : Bridge H) (opcode : Nat) (instr : Ptr) (data : Nat) (s : St H) :
    Nat × St H :=
  if isArith 0xC5 opcode then ARITH_ADDR_MODES br 0xC5 opcode instr data s
  else if opcode = 0xEC ∨ opcode = 0xCC then cp_abs br s instr
  else if opcode = 0xE4 ∨ opcode = 0xC4 then (READ_LOW s.o data, s)
  else (data, s)

/-- What the compare instructions promise about the flags, for register value `r` and
operand `m`: C = 1 iff r >= m, Z = 1 iff r = m, N = bit 7 of (r - m) mod 256. -/
def CompareFlags (s : St H) (r m : Nat) : Prop :=
  (flagC s = true ↔ m ≤ r) ∧ (flagZ s = true ↔ r = m)
    ∧ (flagN s = true ↔ 128 ≤ ((r : Int) - (m : Int)) % 256)

/-- The four shift and rotate operations. -/
inductive ShiftKind where
  | ASL
  | LSR
  | ROL
  | ROR
deriving DecidableEq, Repr

/-- The operation of a shift/rotate opcode, read off its three high bits
(0x0A/0x06/0x16 ASL, 0x2A/0x26/0x36 ROL, 0x4A/0x46/0x56 LSR, 0x6A/0x66/0x76 ROR). -/
def shiftKind (opcode : Nat) : ShiftKind :=
  if opcode / 32 = 0 then .ASL else if opcode / 32 = 1 then .ROL
  else if opcode / 32 = 2 then .LSR else .ROR

/-- What a shift or rotate must produce from the byte `v` and the carry-in `c`, in the
words of the specification: ASL `(v<<1) mod 256`, LSR `v>>1`, ROL `((v<<1) mod 256) OR c`,
ROR `(v>>1) OR (c<<7)`. -/
def shiftResult (k : ShiftKind) (v c : Nat) : Nat :=
  match k with
  | .ASL => (v <<< 1) % 256
  | .LSR => v >>> 1
  | .ROL => ((v <<< 1) % 256) ||| c
  | .ROR => (v >>> 1) ||| (c <<< 7)

/-- The carry a shift or rotate must leave: the bit shifted off, bit 7 of `v` for the
left shifts and rotates, bit 0 for the right ones. -/
def shiftCarry (k : ShiftKind) (v : Nat) : Bool :=
  match k with
  | .ASL => v.testBit 7
  | .ROL => v.testBit 7
  | .LSR => v.testBit 0
  | .ROR => v.testBit 0

/-- What a shift or rotate promises about the flags for the result byte `res` and the
carry-out `cout`: C = `cout`, Z = 1 iff the result is 0, N = bit 7 of the result. -/
def ShiftFlags (s : St H) (res : Nat) (cout : Bool) : Prop :=
  flagC s = cout ∧ (flagZ s = true ↔ res = 0) ∧ (flagN s = true ↔ 128 ≤ res)

/-! ## A small concrete machine, used to evaluate the interpreter -/

/-- A host without devices: reads answer the high address byte (open bus), writes are
dropped, and the quantum-boundary hook is the `CPU_DONE` of NesCpu.cpp. -/
def demoBridge : Bridge Unit :=
  { read := fun o addr _ => ((addr >>> 8) % 256, o)
    write := fun o _ _ _ => o
    done := CPU_DONE_default }

/-- A machine after `reset`-like mapping: addresses below `0x2000` mirror the low memory,
which holds `bytes` from address `0`; every other page is one filler page (buffer `1`)
of `BAD_OPCODE` bytes whose last two bytes are `0x34 0x12`. The counter starts at `t`. -/
def demoObj (bytes : List Nat) (t : Int) : Obj Unit :=
  { regs := { pc := 0, a := 0, x := 0, y := 0, status := ST_I, sp := 0xFF }
    lowMem := fun i => bytes.getD i 0
    code_map := fun p => if p < 4 then ⟨0, 0⟩ else ⟨1, 0⟩
    time := t
    base := 0
    irqTime := 0x40000000
    endTime := 0
    errorsNum := 0
    ext := fun _ i => if i = 0x7FE then 0x34 else if i = 0x7FF then 0x12 else 0xF2
    host := () }

/-- The locals `run` starts with on `demoObj`. -/
def demoSt (bytes : List Nat) (t : Int) : St Unit := enter (demoObj bytes t)

/-- A state about to execute a BRK at address 0 with one cycle left. -/
def demoBrkSt : St Unit := demoSt [0x00] (-1)

/-- A state about to fetch the halt opcode 0x02 at address 0 with four cycles left. -/
def demoHltSt : St Unit := demoSt [0x02] (-4)

/-- A state about to fetch the 2-cycle opcode 0xEA at address 0 with one cycle left. -/
def demoNopSt : St Unit := demoSt [0xEA] (-1)

/-- A state about to fetch the 2-cycle opcode 0xEA at address 0 with the counter at 32766,
two below the top of the 16-bit counter. -/
def demoWrapSt : St Unit := demoSt [0xEA] 32766

/-- A state about to rotate the accumulator `0x81` left with the carry set. -/
def demoRolSt : St Unit := { demoSt [0x2A] (-2) with a := 0x81, c := 0x100 }

/-! ## Branches, subroutine calls -/

/-- The case labels of the eight conditional branches. -/
def isBranch (opcode : Nat) : Bool :=
  opcode == 0x10 || opcode == 0x30 || opcode == 0x50 || opcode == 0x70 || opcode == 0x90
    || opcode == 0xB0 || opcode == 0xD0 || opcode == 0xF0

/-- The condition of a conditional branch, in terms of the flags: BPL (0x10) N clear,
BMI (0x30) N set, BVC (0x50) V clear, BVS (0x70) V set, BCC (0x90) C clear, BCS (0xB0) C set,
BNE (0xD0) Z clear, BEQ (0xF0) Z set. -/
def branchTaken (opcode : Nat) (s : St H) : Bool :=
  if opcode = 0x10 then !flagN s
  else if opcode = 0x30 then flagN s
  else if opcode = 0x50 then !flagV s
  else if opcode = 0x70 then flagV s
  else if opcode = 0x90 then !flagC s
  else if opcode = 0xB0 then flagC s
  else if opcode = 0xD0 then !flagZ s
  else flagZ s

/-- A state about to execute `BNE +4` at address 0 with Z clear and three cycles left. -/
def demoBneSt : St Unit := demoSt [0xD0, 0x04] (-3)

/-- The internal stack pointer after JSR: `sp = (sp - 2) | 0x100`. -/
def jsr_sp (sp : Nat) : Nat := (sp - 2) ||| 0x100

/-- The internal stack pointer after RTS: `sp = (sp - 0xFE) | 0x100`. -/
def rts_sp (sp : Nat) : Nat := (sp - 0xFE) ||| 0x100

/-- The internal stack pointer after a sequence of calls (`true`, JSR) and returns
(`false`, RTS), starting from `sp`. -/
def spAfter : List Bool → Nat → Nat
  | [], sp => sp
  | true :: ops, sp => spAfter ops (jsr_sp sp)
  | false :: ops, sp => spAfter ops (rts_sp sp)

/-- A state about to execute `JSR 0x0010` at address 0 with SP = 0x00, six cycles left. -/
def demoJsrSt : St Unit := { demoSt [0x20, 0x10, 0x00] (-6) with sp := SET_SP 0x00 }

/-! ## The fallback path, the error counter -/

/-- Whether some section of the `switch` has a case label for `opcode` (the sections decide
this from the opcode alone, so any state can be used to ask). -/
def hasCase (opcode : Nat) : Bool :=
  (often_used demoBridge opcode ⟨0, 0⟩ 0 (demoSt [] 0)).isSome
    || (branch_ops opcode 0 (demoSt [] 0)).isSome
    || (load_store demoBridge opcode ⟨0, 0⟩ 0 (demoSt [] 0)).isSome
    || (compare demoBridge opcode ⟨0, 0⟩ 0 (demoSt [] 0)).isSome
    || (logical demoBridge opcode ⟨0, 0⟩ 0 (demoSt [] 0)).isSome
    || (add_subtract demoBridge opcode ⟨0, 0⟩ 0 (demoSt [] 0)).isSome
    || (shift_rotate demoBridge opcode ⟨0, 0⟩ 0 (demoSt [] 0)).isSome
    || (inc_dec demoBridge opcode ⟨0, 0⟩ 0 (demoSt [] 0)).isSome
    || (transfer opcode (demoSt [] 0)).isSome
    || (stack opcode ⟨0, 0⟩ (demoSt [] 0)).isSome
    || (flags opcode (demoSt [] 0)).isSome
    || (unofficial opcode 0 (demoSt [] 0)).isSome

/-- The opcodes the specification assigns to the fallback path: low two bits 11 except
0xEB, plus 0x9C and 0x9E. -/
def isFallback (opcode : Nat) : Bool :=
  (opcode % 4 == 3 && opcode != 0xEB) || opcode == 0x9C || opcode == 0x9E

/-- The operand bytes the specification assigns to a fallback opcode: 2 for the columns
xF, xB in odd rows, 0x9C and 0x9E; 1 for x3, x7 and xB in even rows. -/
def fallbackLen (opcode : Nat) : Nat :=
  if opcode % 16 = 0x0F ∨ (opcode % 16 = 0x0B ∧ (opcode / 16) % 2 = 1) ∨ opcode = 0x9C
      ∨ opcode = 0x9E then 2
  else 1

/-- A state about to execute the undocumented opcode 0x9C at address 0, five cycles left. -/
def demoIllSt : St Unit := demoSt [0x9C] (-5)


/-- A state about to execute the unofficial NOP 0x1A at address 0, two cycles left. -/
def demoNop1ASt : St Unit := demoSt [0x1A] (-2)

/-- The read and write callbacks of the bridge leave the error counter alone. -/
def KeepsErrors (br : Bridge H) : Prop :=
  (∀ o addr t, (br.read o addr t).2.errorsNum = o.errorsNum)
    ∧ (∀ o addr v t, (br.write o addr v t).errorsNum = o.errorsNum)

/-- The pass `x` of a section entered with state `s` leaves the error counter as it
was. -/
def ErrKept (s : St H) (r : Option (Next H)) : Prop :=
  ∀ x, r = some x → x.st.o.errorsNum = s.o.errorsNum

/-! ## Cycle counts -/

/-- The result of a section of the `switch`, when there is one, satisfies `P`. -/
def SecAll (P : Next H → Prop) (r : Option (Next H)) : Prop := ∀ x, r = some x → P x

/-- The read and write callbacks of the bridge leave the clock of the object (`time` and
`base`) alone. -/
def KeepsTime (br : Bridge H) : Prop :=
  (∀ o addr t, (br.read o addr t).2.time = o.time)
    ∧ (∀ o addr t, (br.read o addr t).2.base = o.base)
    ∧ (∀ o addr v t, (br.write o addr v t).time = o.time)
    ∧ (∀ o addr v t, (br.write o addr v t).base = o.base)

/-- The read opcodes with (ind),Y addressing: ORA, AND, EOR, ADC, LDA, CMP, SBC. -/
def isIndY (opcode : Nat) : Bool :=
  opcode == 0x11 || opcode == 0x31 || opcode == 0x51 || opcode == 0x71 || opcode == 0xB1
    || opcode == 0xD1 || opcode == 0xF1

/-- The read opcodes with abs,Y addressing: ORA, AND, EOR, ADC, LDA, CMP, SBC and LDX. -/
def isAbsY (opcode : Nat) : Bool :=
  opcode == 0x19 || opcode == 0x39 || opcode == 0x59 || opcode == 0x79 || opcode == 0xB9
    || opcode == 0xD9 || opcode == 0xF9 || opcode == 0xBE

/-- The read opcodes with abs,X addressing: ORA, AND, EOR, ADC, LDA, CMP, SBC and LDY. -/
def isAbsX (opcode : Nat) : Bool :=
  opcode == 0x1D || opcode == 0x3D || opcode == 0x5D || opcode == 0x7D || opcode == 0xBD
    || opcode == 0xDD || opcode == 0xFD || opcode == 0xBC

/-- The read opcodes with abs,X, abs,Y or (ind),Y addressing. -/
def isIndexedRead (opcode : Nat) : Bool := isIndY opcode || isAbsY opcode || isAbsX opcode

/-- The immediate, zero-page, zero-page-indexed, absolute and (ind,X) forms of the read
instructions ORA, AND, EOR, ADC, SBC, CMP, LDA, LDX, LDY, CPX, CPY and BIT. -/
def isPlainRead (opcode : Nat) : Bool :=
  [0x09, 0x05, 0x15, 0x0D, 0x01, 0x29, 0x25, 0x35, 0x2D, 0x21, 0x49, 0x45, 0x55, 0x4D, 0x41,
   0x69, 0x65, 0x75, 0x6D, 0x61, 0xE9, 0xE5, 0xF5, 0xED, 0xE1, 0xC9, 0xC5, 0xD5, 0xCD, 0xC1,
   0xA9, 0xA5, 0xB5, 0xAD, 0xA1, 0xA2, 0xA6, 0xB6, 0xAE, 0xA0, 0xA4, 0xB4, 0xAC,
   0xE0, 0xE4, 0xEC, 0xC0, 0xC4, 0xCC, 0x24, 0x2C].contains opcode

/-- The low byte of the un-indexed address of an indexed read whose operand byte is
`data`: the operand byte itself for abs,X and abs,Y, and the low byte of the pointer held
in zero page at `data` for (ind),Y. -/
def unindexedLow (opcode data : Nat) (s : St H) : Nat :=
  if isIndY opcode then READ_LOW s.o data else data

/-- The index register of an indexed read: X for abs,X (the SKW opcodes index by X as
well), Y for abs,Y and (ind),Y. -/
def indexReg (opcode : Nat) (s : St H) : Nat :=
  if isAbsX opcode || isSKW opcode then s.x else s.y

/-- The opcodes whose case may move the time base: BRK, PLP, RTI, CLI and SEI. -/
def isRebasing (opcode : Nat) : Bool :=
  opcode == 0x00 || opcode == 0x28 || opcode == 0x40 || opcode == 0x58 || opcode == 0x78

/-- The cycles the case of an opcode other than a branch adds to its table cost: 7 in
the interrupt sequence of BRK, the carry of (low byte + index) for the indexed reads and
the SKW opcodes, nothing otherwise. -/
def extraCycles (opcode data : Nat) (s : St H) : Nat :=
  if opcode = 0x00 then 7
  else if isIndexedRead opcode || isSKW opcode then
    (unindexedLow opcode data s + indexReg opcode s) / 256
  else 0

/-- The counter after the case of `opcode` (not a branch), entered with state `s`: the
counter of `s` plus `extraCycles`, re-expressed against the base the case leaves; and
the base is left alone by every opcode that is not rebasing. -/
def TimeOK (opcode data : Nat) (s : St H) (x : Next H) : Prop :=
  isBranch opcode = false →
    x.st.s_time = i16 (s.s_time + (extraCycles opcode data s : Int)
      + (s.o.base - x.st.o.base))
    ∧ (isRebasing opcode = false → x.st.o.base = s.o.base)

/-- The documented 6502 cycle count of a documented opcode executed without page crossing,
by the classes of the specification: 3 for a conditional branch (the count when taken), and
0 for an opcode that is not documented. -/
def referenceCycles (opcode : Nat) : Nat :=
  -- implied, accumulator, immediate
  if [0x18, 0x38, 0x58, 0x78, 0xB8, 0xD8, 0xF8, 0xAA, 0x8A, 0xA8, 0x98, 0xBA, 0x9A, 0xE8, 0xC8,
      0xCA, 0x88, 0xEA, 0x0A, 0x2A, 0x4A, 0x6A, 0x09, 0x29, 0x49, 0x69, 0xC9, 0xE9, 0xA9, 0xA2,
      0xA0, 0xE0, 0xC0].contains opcode then 2
  -- zero-page read or store
  else if [0x05, 0x25, 0x45, 0x65, 0xC5, 0xE5, 0xA5, 0xA6, 0xA4, 0xE4, 0xC4, 0x24, 0x85, 0x86,
      0x84].contains opcode then 3
  -- zp,X / zp,Y / absolute read or store
  else if [0x15, 0x35, 0x55, 0x75, 0xD5, 0xF5, 0xB5, 0xB4, 0xB6, 0x95, 0x94, 0x96, 0x0D, 0x2D,
      0x4D, 0x6D, 0xCD, 0xED, 0xAD, 0xAE, 0xAC, 0xEC, 0xCC, 0x2C, 0x8D, 0x8E,
      0x8C].contains opcode then 4
  -- abs,X / abs,Y read
  else if isAbsX opcode || isAbsY opcode then 4
  -- (ind),Y read
  else if isIndY opcode then 5
  -- (ind,X)
  else if [0x01, 0x21, 0x41, 0x61, 0xC1, 0xE1, 0xA1, 0x81].contains opcode then 6
  -- STA abs,X and abs,Y
  else if opcode = 0x9D ∨ opcode = 0x99 then 5
  -- STA (ind),Y
  else if opcode = 0x91 then 6
  -- read-modify-write zp
  else if [0x06, 0x26, 0x46, 0x66, 0xC6, 0xE6].contains opcode then 5
  -- read-modify-write zp,X and abs
  else if [0x16, 0x36, 0x56, 0x76, 0xD6, 0xF6, 0x0E, 0x2E, 0x4E, 0x6E, 0xCE,
      0xEE].contains opcode then 6
  -- read-modify-write abs,X
  else if [0x1E, 0x3E, 0x5E, 0x7E, 0xDE, 0xFE].contains opcode then 7
  -- PHA, PHP
  else if opcode = 0x48 ∨ opcode = 0x08 then 3
  -- PLA, PLP
  else if opcode = 0x68 ∨ opcode = 0x28 then 4
  -- JMP abs
  else if opcode = 0x4C then 3
  -- JMP (ind)
  else if opcode = 0x6C then 5
  -- JSR, RTS, RTI
  else if opcode = 0x20 ∨ opcode = 0x60 ∨ opcode = 0x40 then 6
  -- BRK
  else if opcode = 0x00 then 7
  -- conditional branch, taken
  else if isBranch opcode then 3
  else 0

/-- The documented opcodes: the 151 opcodes with a reference cycle count. -/
def isDocumented (opcode : Nat) : Bool := referenceCycles opcode != 0

/-- A state about to execute `LDA 0x00FF,X` at address 0 with X = 1, five cycles left. -/
def demoLdaSt : St Unit := { demoSt [0xBD, 0xFF, 0x00] (-5) with x := 1 }

/-- A state about to execute `LDA 0x0010,X` at address 0 with X = 1 (no page is crossed),
five cycles left. -/
def demoLdaNearSt : St Unit := { demoSt [0xBD, 0x10, 0x00] (-5) with x := 1 }

/-! ## Interrupts at the quantum boundary -/

/-- The demo machine at the quantum boundary (counter 0, base 0) with the I flag clear and
`irqTime = 0` already reached; the opcode at `pc = 0` is 0xEA. -/
def demoIrqObj : Obj Unit :=
  { regs := { pc := 0, a := 0, x := 0, y := 0, status := 0, sp := 0xFF }
    lowMem := fun i => [0xEA].getD i 0
    code_map := fun p => if p < 4 then ⟨0, 0⟩ else ⟨1, 0⟩
    time := 0
    base := 0
    irqTime := 0
    endTime := 0
    errorsNum := 0
    ext := fun _ i => if i = 0x7FE then 0x34 else if i = 0x7FF then 0x12 else 0xF2
    host := () }

/-- The locals `run` starts with on `demoIrqObj`. -/
def demoIrqSt : St Unit := enter demoIrqObj

/-- A host whose quantum-boundary hook requests an interrupt through the vector bytes at
0xFFFE/0xFFFF (`result_ = 4`, the selector of a hardware IRQ that shares the vector of
BRK), leaving the object as it is. -/
def demoIrqBridge : Bridge Unit :=
  { read := fun o addr _ => ((addr >>> 8) % 256, o)
    write := fun o _ _ _ => o
    done := fun o _ => (4, o) }

/-! ## CLI and the pending interrupt -/

/-- The demo machine about to execute CLI at address 0 with the I flag set, the counter at
`t`, the time base at `base` and `irqTime = 0`. -/
def demoCliObj (t base : Int) : Obj Unit :=
  { regs := { pc := 0, a := 0, x := 0, y := 0, status := ST_I, sp := 0xFF }
    lowMem := fun i => [0x58, 0xEA].getD i 0
    code_map := fun p => if p < 4 then ⟨0, 0⟩ else ⟨1, 0⟩
    time := t
    base := base
    irqTime := 0
    endTime := 0
    errorsNum := 0
    ext := fun _ i => if i = 0x7FE then 0x34 else if i = 0x7FF then 0x12 else 0xF2
    host := () }

/-- CLI fetched at counter -10 with base 5: it finishes at absolute time -3, before
`irqTime = 0`. -/
def demoCliEarlySt : St Unit := enter (demoCliObj (-10) 5)

/-- CLI fetched at counter -3 with base 5: it finishes at absolute time 4, after
`irqTime = 0`. -/
def demoCliLateSt : St Unit := enter (demoCliObj (-3) 5)

/-- CLI fetched at counter -1 with base 65540: the counter re-based to `irqTime = 0`
would be 65541, which does not fit the 16-bit counter. -/
def demoCliWrapSt : St Unit := enter (demoCliObj (-1) 65540)

/-! ## `reset` and `mapCode` -/

/-- Modelled from the spec: `m_setCodePage(i, p)` (declared in the header `NesCpu.h`, not
among the sources) makes page `i` of the code map point at `p`, so that "lookup resolves
an address to {page pointer, intra-page offset}" as `READ_PROG` does. -/
def m_setCodePage (o : Obj H) (i : Nat) (p : Ptr) : Obj H :=
  { o with code_map := fun j => if j = i then p else o.code_map j }

/-- The loop of `mapCode`,
`do { m_setCodePage(page++, data); if (!mirror) data += PAGE_SIZE; } while (--cnt);`,
on the `unsigned` (32-bit) locals `page` and `cnt`. The result is the object and the
number of page assignments made, counted in `n`. The first argument bounds the number of
passes; a 32-bit counter reaches 0 within 2^32 decrements. -/
def mapCode_loop : Nat → Obj H → Nat → Nat → Ptr → Bool → Nat → Obj H × Nat
  | 0, o, _, _, _, _, n => (o, n)
  | fuel + 1, o, page, cnt, data, mirror, n =>
    let o := m_setCodePage o page data
    let page := (page + 1) % 4294967296
    let data := if !mirror then data.add PAGE_SIZE else data
    let cnt := (cnt + 4294967295) % 4294967296
    if cnt ≠ 0 then mapCode_loop fuel o page cnt data mirror (n + 1) else (o, n + 1)

/-- The three `require` checks of `mapCode`, on `unsigned` (32-bit) arithmetic:
`start % PAGE_SIZE == 0`, `size % PAGE_SIZE == 0`, `start + size <= 0x10000`. -/
def mapCode_require (start size : Nat) : Bool :=
  decide (start % PAGE_SIZE = 0) && decide (size % PAGE_SIZE = 0)
    && decide ((start + size) % 4294967296 ≤ 0x10000)

/-- The function `NesCpu::mapCode(start, size, data, mirror)`: the object it leaves and the
number of page assignments it made. Modelled from the spec: a failing `require` (header
`blargg_source.h`, not among the sources) "should fail fast (abort/assert)"; the result is
`none` then. -/
def mapCode_run (o : Obj H) (start size : Nat) (data : Ptr) (mirror : Bool) :
    Option (Obj H × Nat) :=
  if mapCode_require start size then
    some (mapCode_loop 4294967296 o (start / PAGE_SIZE) (size / PAGE_SIZE) data mirror 0)
  else none

/-- The object `mapCode` leaves. -/
def mapCode (o : Obj H) (start size : Nat) (data : Ptr) (mirror : Bool) : Option (Obj H) :=
  (mapCode_run o start size data mirror).map Prod.fst

/-- The function `NesCpu::reset(unmapped_page)`. The constant `future_nes_time` (header
`NesCpu.h`, not among the sources) is a parameter; `m_lowMem.data()` is the pointer to
buffer `0`. -/
def reset (future_nes_time : Int) (unmapped_page : Ptr) (o : Obj H) : Option (Obj H) :=
  let o := { o with time := 0, base := 0,
                    regs := { pc := 0, a := 0, x := 0, y := 0, status := ST_I, sp := 0xFF },
                    irqTime := future_nes_time, endTime := future_nes_time, errorsNum := 0 }
  match mapCode o 0x0000 0x2000 ⟨0, 0⟩ true with
  | none => none
  | some o =>
    match mapCode o 0x2000 0xE000 unmapped_page true with
    | none => none
    | some o => some (m_setCodePage o PAGES_NUM unmapped_page)

/-- The page a region of `mapCode` assigns to page index `j`: `data` when mirrored, and
`data + i * PAGE_SIZE` for the `i`-th page of the region otherwise. -/
def regionPage (start : Nat) (data : Ptr) (mirror : Bool) (j : Nat) : Ptr :=
  if mirror then data else data.add ((j - start / PAGE_SIZE) * PAGE_SIZE)

/-! ## The status byte, `run` at the quantum boundary -/

/-- The demo machine with the program `bytes` at address 0, the status byte `status`, the
counter at `t`, the time base at `base`, the quantum end at `endTime`, and `irqTime` far
in the future. -/
def demoClockObj (bytes : List Nat) (status : Nat) (t base endTime : Int) : Obj Unit :=
  { regs := { pc := 0, a := 0, x := 0, y := 0, status := status, sp := 0xFF }
    lowMem := fun i => bytes.getD i 0
    code_map := fun p => if p < 4 then ⟨0, 0⟩ else ⟨1, 0⟩
    time := t
    base := base
    irqTime := 0x40000000
    endTime := endTime
    errorsNum := 0
    ext := fun _ i => if i = 0x7FE then 0x34 else if i = 0x7FF then 0x12 else 0xF2
    host := () }

/-- The program 0xEA (NOP), 0x02 (halt) entered with the counter at 32766. -/
def demoEdgeObj : Obj Unit := demoClockObj [0xEA, 0x02] ST_I 32766 0 0

/-- The program 0xEA entered at the quantum boundary, counter 0, status 0xFF. -/
def demoStopObj : Obj Unit := demoClockObj [0xEA] 0xFF 0 0 0

/-! ## Setting the I flag, rebasing -/

/-- SEI fetched at counter -10 with the I flag clear, base 5 and `endTime = 0`. -/
def demoSeiSt : St Unit := enter (demoClockObj [0x78] 0 (-10) 5 0)

/-- SEI fetched at counter -1 with the I flag clear, base 40000 and `endTime = 0`: the
counter re-based to `endTime` would be 40001, which does not fit the 16-bit counter. -/
def demoSeiWrapSt : St Unit := enter (demoClockObj [0x78] 0 (-1) 40000 0)

/-- The demo machine about to execute RTI at address 0 with the I flag clear, the counter at
-10, base 5 and `endTime = 0`; the status byte on the stack (at 0x100) has the I flag
set, the return address on the stack is 0. -/
def demoRtiObj : Obj Unit :=
  { regs := { pc := 0, a := 0, x := 0, y := 0, status := 0, sp := 0xFF }
    lowMem := fun i => if i = 0 then 0x40 else if i = 0x100 then ST_I else 0
    code_map := fun p => if p < 4 then ⟨0, 0⟩ else ⟨1, 0⟩
    time := -10
    base := 5
    irqTime := 0x40000000
    endTime := 0
    errorsNum := 0
    ext := fun _ i => if i = 0x7FE then 0x34 else if i = 0x7FF then 0x12 else 0xF2
    host := () }

/-- The locals `run` starts with on `demoRtiObj`. -/
def demoRtiSt : St Unit := enter demoRtiObj

/-! ## The stack pointer -/

/-- The registers are in range: the internal stack pointer lies in `0x100..0x1FF` and
`a`, `x`, `y` are bytes (the `check`s at the label `loop`). -/
def RegsOk (s : St H) : Prop :=
  0x100 ≤ s.sp ∧ s.sp ≤ 0x1FF ∧ s.a < 256 ∧ s.x < 256 ∧ s.y < 256

/-- The stack cell `0x100 + (SP + k) mod 256`, where SP = `GET_SP()` is the stack pointer
register behind the internal `sp`. -/
def stackAddr (sp k : Nat) : Nat := 0x100 + (GET_SP sp + k) % 256

/-- The state of `run` after at most `n` passes of its loop from `s` (a pass that reaches
`stop` ends the loop). -/
def passes (br : Bridge H) : Nat → St H → Next H
  | 0, s => .loop s
  | n + 1, s =>
    match passes br n s with
    | .loop s1 => step br s1
    | .stop s1 => .stop s1

/-! ## A program run from the reset state -/

/-- An object whose low memory holds the program `LDA #5; STA $10; LDA $10; ADC #3; BRK`
from address 0. -/
def demoProgObj : Obj Unit := demoObj [0xA9, 0x05, 0x85, 0x10, 0xA5, 0x10, 0x69, 0x03, 0x00] 0

/-- The object `demoProgObj` as `reset` with the filler page in buffer 1 leaves it, with the
clock set for a quantum of 20 cycles. -/
def demoProgRun : Obj Unit :=
  { demoObj [0xA9, 0x05, 0x85, 0x10, 0xA5, 0x10, 0x69, 0x03, 0x00] (-20) with
    base := 20, endTime := 20 }

/-! ## Addresses handed to the bridge -/

/-- A host that records the last address handed to the read or write callback; reads
answer 0. -/
def traceBridge : Bridge Nat :=
  { read := fun o addr _ => (0, { o with host := addr })
    write := fun o addr _ _ => { o with host := addr }
    done := CPU_DONE_default }

/-- The demo machine on the recording host with the program `bytes` at address 0, the
index registers `x` and `y`, and five cycles left. -/
def demoTraceObj (bytes : List Nat) (x y : Nat) : Obj Nat :=
  { regs := { pc := 0, a := 0, x := x, y := y, status := ST_I, sp := 0xFF }
    lowMem := fun i => bytes.getD i 0
    code_map := fun p => if p < 4 then ⟨0, 0⟩ else ⟨1, 0⟩
    time := -5
    base := 0
    irqTime := 0x40000000
    endTime := 0
    errorsNum := 0
    ext := fun _ i => if i = 0x7FE then 0x34 else if i = 0x7FF then 0x12 else 0xF2
    host := 0 }

/-- LDY $FFFF,X with X = 1. -/
def demoLdySt : St Nat := enter (demoTraceObj [0xBC, 0xFF, 0xFF] 1 0)

/-- LDX $FFFF,Y with Y = 1. -/
def demoLdxSt : St Nat := enter (demoTraceObj [0xBE, 0xFF, 0xFF] 0 1)

/-- ADC $FFFF,X with X = 1. -/
def demoAdcAbsXSt : St Nat := enter (demoTraceObj [0x7D, 0xFF, 0xFF] 1 0)

/-- STA $FFFF,X with X = 1. -/
def demoStaAbsXSt : St Nat := enter (demoTraceObj [0x9D, 0xFF, 0xFF] 1 0)

/-- JMP ($00FF): the pointer sits at the end of page zero. -/
def demoJmpIndSt : St Unit := demoSt [0x6C, 0xFF, 0x00] (-5)

/-! ## The footprint of a pass in the low-memory array -/

/-- The object `o` with every low-memory cell outside the set `A` replaced by the cell of
`m`: what a pass makes of it shows which cells the pass touches. -/
def fenceO (A : Nat → Bool) (m : Nat → Nat) (o : Obj H) : Obj H :=
  { o with lowMem := fun i => if A i then o.lowMem i else m i }

/-- The state `s` on the object `fenceO A m s.o`. -/
def fence (A : Nat → Bool) (m : Nat → Nat) (s : St H) : St H := { s with o := fenceO A m s.o }

/-- The outcome of a pass, on the fenced object. -/
def fenceN (A : Nat → Bool) (m : Nat → Nat) : Next H → Next H
  | .loop s => .loop (fence A m s)
  | .stop s => .stop (fence A m s)

/-- The callbacks of the host neither look at nor change the low-memory cells outside `A`. -/
def FencedBridge (A : Nat → Bool) (br : Bridge H) : Prop :=
  (∀ m o addr t, br.read (fenceO A m o) addr t
      = ((br.read o addr t).1, fenceO A m (br.read o addr t).2))
  ∧ (∀ m o addr v t, br.write (fenceO A m o) addr v t = fenceO A m (br.write o addr v t))

/-- The case labels with zero-page addressing: the cell is the operand byte `data`. -/
def isZpCase (opcode : Nat) : Bool :=
  [0xA5, 0x85, 0x84, 0x86, 0xA6, 0xA4, 0xE4, 0xC4, 0x24, 0x46, 0x66, 0x06, 0x26, 0xE6, 0xC6,
   0xC5, 0x25, 0x45, 0x05, 0xE5, 0x65, 0xB3].contains opcode

/-- The case labels with zp,X addressing: the cell is `uint8_t(data + x)`. -/
def isZpXCase (opcode : Nat) : Bool :=
  [0xB5, 0x95, 0x94, 0xB4, 0x76, 0x56, 0x36, 0x16, 0xF6, 0xD6,
   0xD5, 0x35, 0x55, 0x15, 0xF5, 0x75].contains opcode

/-- The case labels with zp,Y addressing: the cell is `uint8_t(data + y)`. -/
def isZpYCase (opcode : Nat) : Bool := [0x96, 0xB6].contains opcode

/-- The case labels with (ind,X) addressing, which use `IND_X`. -/
def isIndXCase (opcode : Nat) : Bool :=
  [0x81, 0xA1, 0xC1, 0x21, 0x41, 0x01, 0xE1, 0x61].contains opcode

/-- The case labels with (ind),Y addressing, which use `IND_Y` (LDA reads the two cells
inline). -/
def isIndYCase (opcode : Nat) : Bool :=
  [0x91, 0xB1, 0xD1, 0x31, 0x51, 0x11, 0xF1, 0x71].contains opcode

/-- The cells that the label `interrupt` writes. -/
def interruptCells (s : St H) : List Nat :=
  [0x100 ||| (s.sp - 1), 0x100 ||| (s.sp - 2), (s.sp - 3) ||| 0x100]

/-- The cell of the fast path of STA/STX/STY with a 16-bit address: `addr` itself when
`addr <= 0x7FF`, none otherwise. -/
def storeCells (addr : Nat) : List Nat := if addr ≤ 0x7FF then [addr] else []

/-- The index expressions that the case of `opcode` hands to `READ_LOW` and `WRITE_LOW`
(also through `PUSH`, `IND_X` and `IND_Y`), for the operand pointer `instr`, its first
byte `data` and the state `s` at the `switch`. -/
def lowCells (opcode : Nat) (instr : Ptr) (data : Nat) (s : St H) : List Nat :=
  if isZpCase opcode then [data]
  else if isZpXCase opcode then [(data + s.x) % 256]
  else if isZpYCase opcode then [(data + s.y) % 256]
  else if isIndXCase opcode then [((data + s.x) % 65536 + 1) % 256, (data + s.x) % 65536 % 256]
  else if isIndYCase opcode then [data, (data + 1) % 256]
  else if opcode = 0x48 ∨ opcode = 0x08 then [(s.sp - 1) ||| 0x100]  -- PHA, PHP
  else if opcode = 0x68 ∨ opcode = 0x28 then [s.sp]  -- PLA, PLP
  else if opcode = 0x20 then [0x100 ||| (s.sp - 1), (s.sp - 2) ||| 0x100]  -- JSR
  else if opcode = 0x60 then [s.sp, 0x100 ||| (s.sp - 0xFF)]  -- RTS
  else if opcode = 0x40 then  -- RTI
    [s.sp, 0x100 ||| (s.sp - 0xFF), 0x100 ||| (s.sp - 0xFE)]
  else if opcode = 0x00 then interruptCells s  -- BRK
  else if opcode = 0x8D then storeCells (GET_ADDR s instr % 65536)  -- STA abs
  else if opcode = 0x9D then storeCells ((s.x + GET_ADDR s instr) % 65536)  -- STA abs,X
  else if opcode = 0x99 then storeCells ((s.y + GET_ADDR s instr) % 65536)  -- STA abs,Y
  else if opcode = 0x8C ∨ opcode = 0x8E then storeCells (GET_ADDR s instr)  -- STY, STX abs
  else []

/-- The cases that read the operand bytes through `GET_ADDR()` or `GET_MSB()`. -/
def readsOperand (opcode : Nat) : Bool :=
  [0x20, 0x4C, 0x6C, 0xAD, 0x99, 0x8D, 0x9D, 0xB9, 0xBD, 0xBC, 0xAC, 0xBE, 0xAE, 0x8C, 0x8E,
   0xEC, 0xCC, 0x2C, 0x5E, 0x4E, 0x6E, 0x3E, 0x1E, 0x0E, 0x2E, 0x7E, 0xFE, 0xEE, 0xDE, 0xCE,
   0xCD, 0xD9, 0xDD, 0x2D, 0x39, 0x3D, 0x4D, 0x59, 0x5D, 0x0D, 0x19, 0x1D, 0xED, 0xF9, 0xFD,
   0x6D, 0x79, 0x7D].contains opcode

/-- The cases that read program bytes through `code_map`: LDA (ind),Y / abs,Y / abs,X
(`READ_PROG`), JMP (ind) and BRK (the vector). -/
def readsProg (opcode : Nat) : Bool := [0xB1, 0xB9, 0xBD, 0x6C, 0x00].contains opcode

/-- The cells of the 2 KB array `m_lowMem`: the indices `0..0x7FF`. -/
def lowArray (i : Nat) : Bool := decide (i < 0x800)

/-- LDA $FF,X with X = 2 (the cell is 0x01) and Y = 3 (the cell of a zp,Y form is 0x02),
four cycles left. -/
def demoZpxSt : St Unit := { demoSt [0xB5, 0xFF] (-4) with x := 2, y := 3 }

/-! ## Arithmetic of the bit operations -/

theorem i16_of_range (z : Int) (h1 : -32768 ≤ z) (h2 : z < 32768) : i16 z = z := by
  unfold i16; omega

theorem and_0x100 (n : Nat) : n &&& 0x100 = (n / 256 % 2) * 256 := by
  have h := Nat.and_two_pow n 8
  rw [Nat.toNat_testBit] at h
  simpa using h

theorem and_0x80 (n : Nat) : n &&& 0x80 = (n / 128 % 2) * 128 := by
  have h := Nat.and_two_pow n 7
  rw [Nat.toNat_testBit] at h
  simpa using h

theorem and_0x8000 (n : Nat) : n &&& 0x8000 = (n / 32768 % 2) * 32768 := by
  have h := Nat.and_two_pow n 15
  rw [Nat.toNat_testBit] at h
  simpa using h

theorem and_0x40 (n : Nat) : n &&& 0x40 = (n / 64 % 2) * 64 := by
  have h := Nat.and_two_pow n 6
  rw [Nat.toNat_testBit] at h
  simpa using h

theorem and_0xFF (n : Nat) : n &&& 0xFF = n % 256 := by
  simpa using Nat.and_pow_two_sub_one_eq_mod n 8

theorem shr8 (n : Nat) : n >>> 8 = n / 256 := by
  simp [Nat.shiftRight_eq_div_pow]

theorem and_0x8080_ne (n : Nat) :
    (n &&& 0x8080 ≠ 0) ↔ (n / 128 % 2 = 1 ∨ n / 32768 % 2 = 1) := by
  have h : (0x8080 : Nat) = 0x8000 ||| 0x80 := by decide
  rw [h, Nat.and_or_distrib_left, and_0x80, and_0x8000]
  rcases Nat.mod_two_eq_zero_or_one (n / 128) with h1 | h1 <;>
    rcases Nat.mod_two_eq_zero_or_one (n / 32768) with h2 | h2 <;>
    simp [h1, h2]

theorem iand_vbit (ov : Int) (h1 : -128 ≤ ov) (h2 : ov ≤ 383) :
    iand (ov >>> (2 : Nat)) 0x40 = if ov < 0 ∨ 256 ≤ ov then 64 else 0 := by
  unfold iand
  rw [Int.shiftRight_eq_div_pow, and_0x40]
  split <;> omega

set_option maxRecDepth 100000 in
theorem xor_0x80 (a : Nat) (h : a < 256) : a ^^^ 0x80 = if a < 128 then a + 128 else a - 128 := by
  revert a
  decide

set_option maxRecDepth 100000 in
theorem xor_0xFF (a : Nat) (h : a < 256) : a ^^^ 0xFF = 255 - a := by
  revert a
  decide

theorem set_vbit (st v : Nat) (hv : v = 0 ∨ v = 64) :
    (((st &&& (0xFF ^^^ ST_V)) ||| v) % 256) &&& ST_V = v := by
  have h := Nat.and_two_pow (((st &&& (0xFF ^^^ 0x40)) ||| v) % 2 ^ 8) 6
  rw [Nat.testBit_mod_two_pow, Nat.testBit_or, Nat.testBit_and] at h
  have hb : ((0xFF : Nat) ^^^ 0x40).testBit 6 = false := by decide
  rw [hb] at h
  simp only [ST_V]
  rcases hv with hv | hv <;> subst hv <;> simpa using h

theorem carryIn_le (s : St H) : carryIn s ≤ 1 := by
  unfold carryIn; rw [Nat.and_one_is_mod]; omega

theorem carryIn_eq (s : St H) : carryIn s = if flagC s then 1 else 0 := by
  unfold carryIn flagC
  rw [Nat.and_one_is_mod, shr8]
  simp only [bne_iff_ne, ne_eq, and_0x100]
  split <;> omega

theorem adc_imm_spec (s : St H) (m : Nat) (ha : s.a < 256) (hm : m < 256) :
    (adc_imm s m).a = (s.a + m + carryIn s) % 256
    ∧ (flagC (adc_imm s m) = true ↔ 256 ≤ s.a + m + carryIn s)
    ∧ (flagZ (adc_imm s m) = true ↔ (s.a + m + carryIn s) % 256 = 0)
    ∧ (flagN (adc_imm s m) = true ↔ 128 ≤ (s.a + m + carryIn s) % 256)
    ∧ (flagV (adc_imm s m) = true ↔
        ((128 ≤ s.a ↔ 128 ≤ m) ∧ ¬ (128 ≤ (s.a + m + carryIn s) % 256 ↔ 128 ≤ s.a))) := by
  have hc := carryIn_le s
  have hov : -128 ≤ ((s.a ^^^ 0x80 : Nat) : Int) + (carryIn s : Int) + i8 m
      ∧ ((s.a ^^^ 0x80 : Nat) : Int) + (carryIn s : Int) + i8 m ≤ 383 := by
    rw [xor_0x80 _ ha]; unfold i8; split <;> split <;> omega
  have hv := iand_vbit (i16 (((s.a ^^^ 0x80 : Nat) : Int) + (carryIn s : Int) + i8 m))
    (by rw [i16_of_range _ (by omega) (by omega)]; exact hov.1)
    (by rw [i16_of_range _ (by omega) (by omega)]; exact hov.2)
  have hi := i16_of_range (((s.a ^^^ 0x80 : Nat) : Int) + (carryIn s : Int) + i8 m)
    (by omega) (by omega)
  refine ⟨?_, ?_, ?_, ?_, ?_⟩
  · simp only [adc_imm, carryIn]; omega
  · simp only [adc_imm, flagC, ← carryIn.eq_1 s, bne_iff_ne, ne_eq, and_0x100]; omega
  · simp only [adc_imm, flagZ, ← carryIn.eq_1 s, beq_iff_eq, and_0xFF]; omega
  · simp only [adc_imm, flagN, IS_NEG, ← carryIn.eq_1 s, bne_iff_ne]
    rw [and_0x8080_ne]; omega
  · simp only [adc_imm, flagV, ← carryIn.eq_1 s, bne_iff_ne]
    rw [set_vbit _ _ (by rw [hv]; split <;> simp), hv, hi]
    rw [xor_0x80 _ ha]; unfold i8
    split <;> split <;> split <;> simp <;> omega

/-! ## Dispatch of the `switch` -/

theorem isArith_iff (op opcode : Nat) (hop : 4 ≤ op) :
    isArith op opcode = true ↔
      opcode = op - 4 ∨ opcode = op + 0x0C ∨ opcode = op + 0x10 ∨ opcode = op
        ∨ opcode = op + 0x14 ∨ opcode = op + 0x18 ∨ opcode = op + 0x08 ∨ opcode = op + 0x04 := by
  simp only [isArith, Bool.or_eq_true, beq_iff_eq]
  omega

theorem exec_adc (br : Bridge H) (opcode : Nat) (instr : Ptr) (data : Nat) (s : St H)
    (h : isArith 0x65 opcode = true) :
    exec br opcode instr data s =
      .loop (adc_imm (ARITH_ADDR_MODES br 0x65 opcode instr data s).2
        (ARITH_ADDR_MODES br 0x65 opcode instr data s).1) := by
  rw [isArith_iff _ _ (by decide)] at h
  rcases h with h | h | h | h | h | h | h | h <;> subst h <;>
    simp [exec, often_used, branch_ops, load_store, compare, logical, add_subtract, isArith]

theorem ARITH_locals (br : Bridge H) (op opcode : Nat) (instr : Ptr) (data : Nat) (s : St H) :
    (ARITH_ADDR_MODES br op opcode instr data s).2.a = s.a
    ∧ (ARITH_ADDR_MODES br op opcode instr data s).2.x = s.x
    ∧ (ARITH_ADDR_MODES br op opcode instr data s).2.y = s.y
    ∧ (ARITH_ADDR_MODES br op opcode instr data s).2.sp = s.sp
    ∧ (ARITH_ADDR_MODES br op opcode instr data s).2.status = s.status
    ∧ (ARITH_ADDR_MODES br op opcode instr data s).2.c = s.c
    ∧ (ARITH_ADDR_MODES br op opcode instr data s).2.nz = s.nz := by
  unfold ARITH_ADDR_MODES
  split_ifs <;>
    simp [arith_ptr, arith_abs, arith_ind, READ, FLUSH_TIME, CACHE_TIME, HANDLE_PAGE_CROSSING,
      addTime, addPc]

/-! ## ADC and SBC -/

/-- C1: for every accumulator value `a` and operand `m` in 0..255 and every carry-in `c`,
each of the eight ADC opcodes (immediate, zp, zp,X, abs, abs,X, abs,Y, (ind,X), (ind),Y)
reaches `adc_imm` with the operand its addressing form resolved, and leaves
A = (a+m+c) mod 256, C = 1 iff a+m+c >= 256, Z = 1 iff (a+m+c) mod 256 = 0, N = bit 7 of
(a+m+c) mod 256, and V = 1 iff `a` and `m` have the same sign bit and the 8-bit result has
the opposite sign bit. -/
theorem adc_result (br : Bridge H) (s : St H) (opcode : Nat) (instr : Ptr) (data a m c : Nat)
    (hop : isArith 0x65 opcode = true)
    (ha : s.a = a) (ha256 : a < 256)
    (hm : (ARITH_ADDR_MODES br 0x65 opcode instr data s).1 = m) (hm256 : m < 256)
    (hc : c = if flagC s then 1 else 0) :
    ∃ s1, exec br opcode instr data s = .loop s1
      ∧ s1 = adc_imm (ARITH_ADDR_MODES br 0x65 opcode instr data s).2 m
      ∧ s1.a = (a + m + c) % 256
      ∧ (flagC s1 = true ↔ 256 ≤ a + m + c)
      ∧ (flagZ s1 = true ↔ (a + m + c) % 256 = 0)
      ∧ (flagN s1 = true ↔ 128 ≤ (a + m + c) % 256)
      ∧ (flagV s1 = true ↔
          ((128 ≤ a ↔ 128 ≤ m) ∧ ¬ (128 ≤ (a + m + c) % 256 ↔ 128 ≤ a))) := by
  have hl := ARITH_locals br 0x65 opcode instr data s
  have hcin : carryIn (ARITH_ADDR_MODES br 0x65 opcode instr data s).2 = c := by
    rw [hc, ← carryIn_eq]; unfold carryIn; rw [hl.2.2.2.2.2.1]
  have hspec := adc_imm_spec (ARITH_ADDR_MODES br 0x65 opcode instr data s).2 m
    (by rw [hl.1, ha]; exact ha256) hm256
  rw [hcin, hl.1, ha] at hspec
  exact ⟨_, by rw [exec_adc br opcode instr data s hop, hm], rfl, hspec⟩

theorem adc_result_witness :
    isArith 0x65 0x69 = true ∧ (0x50 : Nat) < 256
    ∧ ∃ s1, exec demoBridge 0x69 ⟨0, 1⟩ 0x50 { demoSt [0x69, 0x50] (-2) with a := 0x50, c := 0x100 }
        = .loop s1
      ∧ s1 = adc_imm (ARITH_ADDR_MODES demoBridge 0x65 0x69 ⟨0, 1⟩ 0x50
          { demoSt [0x69, 0x50] (-2) with a := 0x50, c := 0x100 }).2 0x50
      ∧ s1.a = (0x50 + 0x50 + 1) % 256
      ∧ (flagC s1 = true ↔ 256 ≤ 0x50 + 0x50 + 1)
      ∧ (flagZ s1 = true ↔ (0x50 + 0x50 + 1) % 256 = 0)
      ∧ (flagN s1 = true ↔ 128 ≤ (0x50 + 0x50 + 1) % 256)
      ∧ (flagV s1 = true ↔
          ((128 ≤ 0x50 ↔ 128 ≤ 0x50) ∧ ¬ (128 ≤ (0x50 + 0x50 + 1) % 256 ↔ 128 ≤ 0x50))) :=
  ⟨by decide, by decide,
    adc_result demoBridge { demoSt [0x69, 0x50] (-2) with a := 0x50, c := 0x100 } 0x69 ⟨0, 1⟩
      0x50 0x50 0x50 1 (by decide) rfl (by decide) rfl (by decide) (by decide)⟩

theorem exec_sbc (br : Bridge H) (opcode : Nat) (instr : Ptr) (data : Nat) (s : St H)
    (h : isArith 0xE5 opcode = true ∨ opcode = 0xEB) :
    exec br opcode instr data s =
      .loop (adc_imm (ARITH_ADDR_MODES br 0xE5 opcode instr data s).2
        ((ARITH_ADDR_MODES br 0xE5 opcode instr data s).1 ^^^ 0xFF)) := by
  rw [isArith_iff _ _ (by decide)] at h
  rcases h with (h | h | h | h | h | h | h | h) | h <;> subst h <;>
    simp [exec, often_used, branch_ops, load_store, compare, logical, add_subtract, isArith,
      ARITH_ADDR_MODES]

theorem signed_cases (v : Nat) : signed v = if v < 128 then (v : Int) else (v : Int) - 256 := rfl

/-- C2: for every accumulator value `a` and operand `m` in 0..255 and every carry-in `c`,
SBC (its eight opcodes and the unofficial 0xEB) leaves A = (a - m - (1 - c)) mod 256,
C = 1 iff no borrow occurred (a >= m + (1 - c)), V = 1 iff the signed value
signed(a) - signed(m) - (1 - c) lies outside [-128, 127], Z = 1 iff the 8-bit result is 0
and N = bit 7 of the 8-bit result. -/
theorem sbc_result (br : Bridge H) (s : St H) (opcode : Nat) (instr : Ptr) (data a m c : Nat)
    (hop : isArith 0xE5 opcode = true ∨ opcode = 0xEB)
    (ha : s.a = a) (ha256 : a < 256)
    (hm : (ARITH_ADDR_MODES br 0xE5 opcode instr data s).1 = m) (hm256 : m < 256)
    (hc : c = if flagC s then 1 else 0) :
    ∃ s1, exec br opcode instr data s = .loop s1
      ∧ (s1.a : Int) = ((a : Int) - (m : Int) - (1 - (c : Int))) % 256
      ∧ (flagC s1 = true ↔ m + (1 - c) ≤ a)
      ∧ (flagV s1 = true ↔
          (signed a - signed m - (1 - (c : Int)) < -128
            ∨ 127 < signed a - signed m - (1 - (c : Int))))
      ∧ (flagZ s1 = true ↔ s1.a = 0)
      ∧ (flagN s1 = true ↔ 128 ≤ s1.a) := by
  have hl := ARITH_locals br 0xE5 opcode instr data s
  have hcin : carryIn (ARITH_ADDR_MODES br 0xE5 opcode instr data s).2 = c := by
    rw [hc, ← carryIn_eq]; unfold carryIn; rw [hl.2.2.2.2.2.1]
  have hc1 : c ≤ 1 := by rw [hc]; split <;> omega
  have hspec := adc_imm_spec (ARITH_ADDR_MODES br 0xE5 opcode instr data s).2 (m ^^^ 0xFF)
    (by rw [hl.1, ha]; exact ha256) (by rw [xor_0xFF _ hm256]; omega)
  rw [hcin, hl.1, ha, xor_0xFF _ hm256] at hspec
  obtain ⟨h1, h2, h3, h4, h5⟩ := hspec
  refine ⟨adc_imm (ARITH_ADDR_MODES br 0xE5 opcode instr data s).2 (255 - m),
    by rw [exec_sbc br opcode instr data s hop, hm, xor_0xFF _ hm256], ?_, ?_, ?_, ?_, ?_⟩
  · rw [h1]; omega
  · rw [h2]; omega
  · rw [h5, signed_cases, signed_cases]; split <;> split <;> omega
  · rw [h3, h1]
  · rw [h4, h1]

theorem sbc_result_witness :
    (isArith 0xE5 0xE9 = true ∨ (0xE9 : Nat) = 0xEB) ∧ (0x50 : Nat) < 256 ∧ (0xB0 : Nat) < 256
    ∧ ∃ s1, exec demoBridge 0xE9 ⟨0, 1⟩ 0xB0 { demoSt [0xE9, 0xB0] (-2) with a := 0x50, c := 0x100 }
        = .loop s1
      ∧ (s1.a : Int) = (((0x50 : Nat) : Int) - ((0xB0 : Nat) : Int) - (1 - ((1 : Nat) : Int))) % 256
      ∧ (flagC s1 = true ↔ 0xB0 + (1 - 1) ≤ 0x50)
      ∧ (flagV s1 = true ↔
          (signed 0x50 - signed 0xB0 - (1 - ((1 : Nat) : Int)) < -128
            ∨ 127 < signed 0x50 - signed 0xB0 - (1 - ((1 : Nat) : Int))))
      ∧ (flagZ s1 = true ↔ s1.a = 0)
      ∧ (flagN s1 = true ↔ 128 ≤ s1.a) :=
  ⟨by decide, by decide, by decide,
    sbc_result demoBridge { demoSt [0xE9, 0xB0] (-2) with a := 0x50, c := 0x100 } 0xE9 ⟨0, 1⟩
      0xB0 0x50 0xB0 1 (by decide) rfl (by decide) rfl (by decide) (by decide)⟩

/-- C3: SBC has no subtract path of its own. For every state and every addressing form, the
SBC opcode (`opcode + 0x80`) resolves its operand exactly like the ADC opcode `opcode` (same
operand, same pc advance, same page-crossing charge, same bridge calls) and then runs
`adc_imm` on the operand XOR 0xFF, where ADC runs `adc_imm` on the operand itself; both
opcodes have the same table cost, so A, N, V, Z, C, pc and the cycle count of SBC with
operand `m` are those of ADC with operand `m XOR 0xFF`. In the immediate form SBC #m and
ADC #(m XOR 0xFF) end in the same state, and the unofficial 0xEB behaves and costs exactly
like SBC immediate (0xE9). -/
theorem sbc_eq_adc_inverted (br : Bridge H) (s : St H) (opcode : Nat) (instr : Ptr) (data : Nat)
    (hop : isArith 0x65 opcode = true) :
    ARITH_ADDR_MODES br 0xE5 (opcode + 0x80) instr data s
        = ARITH_ADDR_MODES br 0x65 opcode instr data s
    ∧ exec br opcode instr data s
        = .loop (adc_imm (ARITH_ADDR_MODES br 0x65 opcode instr data s).2
            (ARITH_ADDR_MODES br 0x65 opcode instr data s).1)
    ∧ exec br (opcode + 0x80) instr data s
        = .loop (adc_imm (ARITH_ADDR_MODES br 0x65 opcode instr data s).2
            ((ARITH_ADDR_MODES br 0x65 opcode instr data s).1 ^^^ 0xFF))
    ∧ clock (opcode + 0x80) = clock opcode
    ∧ exec br 0xE9 instr data s = exec br 0x69 instr (data ^^^ 0xFF) s
    ∧ exec br 0xEB instr data s = exec br 0xE9 instr data s
    ∧ clock 0xEB = clock 0xE9 := by
  have hmodes : ARITH_ADDR_MODES br 0xE5 (opcode + 0x80) instr data s
      = ARITH_ADDR_MODES br 0x65 opcode instr data s := by
    unfold ARITH_ADDR_MODES
    have e1 : (opcode + 0x80 + 0x04 = 0xE5) = (opcode + 0x04 = 0x65) := by
      apply propext; omega
    have e2 : ∀ k, (opcode + 0x80 = 0xE5 + k) = (opcode = 0x65 + k) := by
      intro k; apply propext; omega
    simp only [e1, e2]
  have hsb : isArith 0xE5 (opcode + 0x80) = true := by
    rw [isArith_iff _ _ (by decide)] at hop ⊢; omega
  refine ⟨hmodes, exec_adc br opcode instr data s hop, ?_, ?_, ?_, ?_, by decide⟩
  · rw [exec_sbc br _ instr data s (Or.inl hsb), hmodes]
  · rw [isArith_iff _ _ (by decide)] at hop
    rcases hop with h | h | h | h | h | h | h | h <;> subst h <;> decide
  · rw [exec_sbc br _ instr data s (Or.inl (by decide)), exec_adc br _ instr _ s (by decide)]
    simp [ARITH_ADDR_MODES]
  · rw [exec_sbc br _ instr data s (Or.inr rfl), exec_sbc br _ instr data s (Or.inl (by decide))]
    simp [ARITH_ADDR_MODES]

theorem sbc_eq_adc_inverted_witness :
    isArith 0x65 0x6D = true
    ∧ ARITH_ADDR_MODES demoBridge 0xE5 (0x6D + 0x80) ⟨0, 1⟩ 0x10 (demoSt [0xED, 0x10, 0x20] (-4))
        = ARITH_ADDR_MODES demoBridge 0x65 0x6D ⟨0, 1⟩ 0x10 (demoSt [0xED, 0x10, 0x20] (-4))
    ∧ exec demoBridge 0x6D ⟨0, 1⟩ 0x10 (demoSt [0xED, 0x10, 0x20] (-4))
        = .loop (adc_imm (ARITH_ADDR_MODES demoBridge 0x65 0x6D ⟨0, 1⟩ 0x10
              (demoSt [0xED, 0x10, 0x20] (-4))).2
            (ARITH_ADDR_MODES demoBridge 0x65 0x6D ⟨0, 1⟩ 0x10
              (demoSt [0xED, 0x10, 0x20] (-4))).1)
    ∧ exec demoBridge (0x6D + 0x80) ⟨0, 1⟩ 0x10 (demoSt [0xED, 0x10, 0x20] (-4))
        = .loop (adc_imm (ARITH_ADDR_MODES demoBridge 0x65 0x6D ⟨0, 1⟩ 0x10
              (demoSt [0xED, 0x10, 0x20] (-4))).2
            ((ARITH_ADDR_MODES demoBridge 0x65 0x6D ⟨0, 1⟩ 0x10
              (demoSt [0xED, 0x10, 0x20] (-4))).1 ^^^ 0xFF))
    ∧ clock (0x6D + 0x80) = clock 0x6D
    ∧ exec demoBridge 0xE9 ⟨0, 1⟩ 0x10 (demoSt [0xED, 0x10, 0x20] (-4))
        = exec demoBridge 0x69 ⟨0, 1⟩ (0x10 ^^^ 0xFF) (demoSt [0xED, 0x10, 0x20] (-4))
    ∧ exec demoBridge 0xEB ⟨0, 1⟩ 0x10 (demoSt [0xED, 0x10, 0x20] (-4))
        = exec demoBridge 0xE9 ⟨0, 1⟩ 0x10 (demoSt [0xED, 0x10, 0x20] (-4))
    ∧ clock 0xEB = clock 0xE9 :=
  ⟨by decide, sbc_eq_adc_inverted demoBridge (demoSt [0xED, 0x10, 0x20] (-4)) 0x6D ⟨0, 1⟩ 0x10
    (by decide)⟩

/-! ## CMP, CPX and CPY -/

theorem exec_compare (br : Bridge H) (opcode : Nat) (instr : Ptr) (data : Nat) (s : St H)
    (h : isCompare opcode = true) :
    exec br opcode instr data s =
      .loop (cmp_data (compareOperand br opcode instr data s).2 (compareReg opcode s)
        (compareOperand br opcode instr data s).1) := by
  have hl := ARITH_locals br 0xC5 opcode instr data s
  simp only [isCompare, Bool.or_eq_true, beq_iff_eq] at h
  rw [isArith_iff _ _ (by decide)] at h
  rcases h with (((((((h | h | h | h | h | h | h | h) | h) | h) | h) | h) | h) | h) <;> subst h <;>
    simp [exec, often_used, branch_ops, load_store, compare, isArith, compareOperand,
      compareReg, hl.1, cp_abs, READ, FLUSH_TIME, CACHE_TIME, addPc]

theorem xor_0xFFFF_bit8 (n : Nat) :
    (n ^^^ 0xFFFF) &&& 0x100 = if n / 256 % 2 = 1 then 0 else 256 := by
  have h1 := Nat.toNat_testBit (n ^^^ 0xFFFF) 8
  have h2 := Nat.toNat_testBit n 8
  rw [Nat.testBit_xor] at h1
  have hb : (0xFFFF : Nat).testBit 8 = true := by decide
  rw [hb] at h1
  rw [and_0x100]
  cases hn : n.testBit 8 <;> simp [hn] at h1 h2 <;> split <;> omega

theorem cmp_data_flags (s : St H) (r m : Nat) (hr : r < 256) (hm : m < 256) :
    CompareFlags (cmp_data s r m) r m := by
  have hnz : u16i ((r : Int) - (m : Int)) = if m ≤ r then r - m else 65536 + r - m := by
    unfold u16i; split <;> omega
  refine ⟨?_, ?_, ?_⟩
  · simp only [cmp_data, flagC, bne_iff_ne, ne_eq, xor_0xFFFF_bit8, hnz]
    split <;> split <;> omega
  · simp only [cmp_data, flagZ, beq_iff_eq, and_0xFF, hnz]
    split <;> omega
  · simp only [cmp_data, flagN, IS_NEG, bne_iff_ne, and_0xFF, hnz]
    rw [and_0x8080_ne]
    split <;> omega

theorem cmp_data_carry_irrelevant (s : St H) (r m c0 : Nat) :
    cmp_data { s with c := c0 } r m = cmp_data s r m := rfl

theorem compareOperand_carry (br : Bridge H) (opcode : Nat) (instr : Ptr) (data : Nat)
    (s : St H) (c0 : Nat) :
    (compareOperand br opcode instr data { s with c := c0 }).1
        = (compareOperand br opcode instr data s).1
    ∧ (compareOperand br opcode instr data { s with c := c0 }).2
        = { (compareOperand br opcode instr data s).2 with c := c0 } := by
  unfold compareOperand ARITH_ADDR_MODES
  split_ifs <;>
    simp [arith_ptr, arith_abs, arith_ind, cp_abs, READ, FLUSH_TIME, CACHE_TIME,
      HANDLE_PAGE_CROSSING, addTime, addPc, TIME, IND_X, IND_Y, IND_Y_temp, GET_MSB, GET_ADDR]

theorem compareOperand_frame (br : Bridge H) (opcode : Nat) (instr : Ptr) (data : Nat)
    (s : St H) :
    (compareOperand br opcode instr data s).2.a = s.a
    ∧ (compareOperand br opcode instr data s).2.x = s.x
    ∧ (compareOperand br opcode instr data s).2.y = s.y
    ∧ (compareOperand br opcode instr data s).2.sp = s.sp
    ∧ (compareOperand br opcode instr data s).2.status = s.status
    ∧ ((∀ o addr t, (br.read o addr t).2.lowMem = o.lowMem) →
        (compareOperand br opcode instr data s).2.o.lowMem = s.o.lowMem) := by
  unfold compareOperand ARITH_ADDR_MODES
  split_ifs <;>
    simp +contextual [arith_ptr, arith_abs, arith_ind, cp_abs, READ, FLUSH_TIME, CACHE_TIME,
      HANDLE_PAGE_CROSSING, addTime, addPc, TIME]

theorem compareReg_carry (opcode : Nat) (s : St H) (c0 : Nat) :
    compareReg opcode { s with c := c0 } = compareReg opcode s := by
  unfold compareReg; split_ifs <;> rfl

/-- C4: for every register value `r` (A for CMP, X for CPX, Y for CPY) and every operand
`m` in 0..255, each compare opcode leaves C = 1 iff r >= m (no borrow), Z = 1 iff r = m,
and N = bit 7 of (r - m) mod 256; the flags do not depend on the carry before the
instruction: started with any other carry word `c0`, the instruction ends in the same
state. -/
theorem compare_flags (br : Bridge H) (s : St H) (opcode : Nat) (instr : Ptr) (data r m : Nat)
    (hop : isCompare opcode = true)
    (hr : compareReg opcode s = r) (hr256 : r < 256)
    (hm : (compareOperand br opcode instr data s).1 = m) (hm256 : m < 256) :
    ∃ s1, exec br opcode instr data s = .loop s1
      ∧ CompareFlags s1 r m
      ∧ ∀ c0, exec br opcode instr data { s with c := c0 } = .loop s1 := by
  refine ⟨_, exec_compare br opcode instr data s hop, ?_, ?_⟩
  · rw [hr, hm]; exact cmp_data_flags _ r m hr256 hm256
  · intro c0
    have h := compareOperand_carry br opcode instr data s c0
    rw [exec_compare br opcode instr data _ hop, h.1, h.2, compareReg_carry]
    rfl

theorem compare_flags_witness :
    isCompare 0xE0 = true ∧ (0x10 : Nat) < 256 ∧ (0x20 : Nat) < 256
    ∧ ∃ s1, exec demoBridge 0xE0 ⟨0, 1⟩ 0x20 { demoSt [0xE0, 0x20] (-2) with x := 0x10 }
        = .loop s1
      ∧ CompareFlags s1 0x10 0x20
      ∧ ∀ c0, exec demoBridge 0xE0 ⟨0, 1⟩ 0x20
          { { demoSt [0xE0, 0x20] (-2) with x := 0x10 } with c := c0 } = .loop s1 :=
  ⟨by decide, by decide, by decide,
    compare_flags demoBridge { demoSt [0xE0, 0x20] (-2) with x := 0x10 } 0xE0 ⟨0, 1⟩ 0x20
      0x10 0x20 (by decide) rfl (by decide) rfl (by decide)⟩

/-- C5: for every state, each compare opcode (CMP in its eight forms, CPX and CPY in
their three) leaves a, x, y, sp and the V, D and I flags (the whole `status` byte)
unchanged, and writes nothing to low memory: low memory is as before in the immediate
and zero-page forms, where the whole object and the counter are untouched, and in the
forms that read through the bridge it is what the host's read callback leaves, hence
unchanged whenever that callback does not write low memory. Only `nz`, `c`, `pc` and the
time change. -/
theorem compare_frame (br : Bridge H) (s : St H) (opcode : Nat) (instr : Ptr) (data : Nat)
    (hop : isCompare opcode = true) :
    ∃ s1, exec br opcode instr data s = .loop s1
      ∧ s1.a = s.a ∧ s1.x = s.x ∧ s1.y = s.y ∧ s1.sp = s.sp ∧ s1.status = s.status
      ∧ flagV s1 = flagV s ∧ flagD s1 = flagD s ∧ flagI s1 = flagI s
      ∧ ((∀ o addr t, (br.read o addr t).2.lowMem = o.lowMem) → s1.o.lowMem = s.o.lowMem)
      ∧ (opcode ∈ [0xC9, 0xC5, 0xD5, 0xE0, 0xE4, 0xC0, 0xC4] →
          s1.o = s.o ∧ s1.s_time = s.s_time) := by
  obtain ⟨h1, h2, h3, h4, h5, h6⟩ := compareOperand_frame br opcode instr data s
  refine ⟨_, exec_compare br opcode instr data s hop, ?_, ?_, ?_, ?_, ?_, ?_, ?_, ?_, ?_, ?_⟩
  · simpa [cmp_data] using h1
  · simpa [cmp_data] using h2
  · simpa [cmp_data] using h3
  · simpa [cmp_data] using h4
  · simpa [cmp_data] using h5
  · simp [cmp_data, flagV, h5]
  · simp [cmp_data, flagD, h5]
  · simp [cmp_data, flagI, h5]
  · intro hread; simpa [cmp_data] using h6 hread
  · intro hmem
    simp only [List.mem_cons, List.mem_singleton, List.mem_nil_iff, or_false] at hmem
    rcases hmem with h | h | h | h | h | h | h <;> subst h <;>
      simp [cmp_data, compareOperand, ARITH_ADDR_MODES, isArith]

theorem compare_frame_witness :
    isCompare 0xCD = true
    ∧ ∃ s1, exec demoBridge 0xCD ⟨0, 1⟩ 0x00 (demoSt [0xCD, 0x00, 0x40] (-4)) = .loop s1
      ∧ s1.a = (demoSt [0xCD, 0x00, 0x40] (-4)).a ∧ s1.x = (demoSt [0xCD, 0x00, 0x40] (-4)).x
      ∧ s1.y = (demoSt [0xCD, 0x00, 0x40] (-4)).y ∧ s1.sp = (demoSt [0xCD, 0x00, 0x40] (-4)).sp
      ∧ s1.status = (demoSt [0xCD, 0x00, 0x40] (-4)).status
      ∧ flagV s1 = flagV (demoSt [0xCD, 0x00, 0x40] (-4))
      ∧ flagD s1 = flagD (demoSt [0xCD, 0x00, 0x40] (-4))
      ∧ flagI s1 = flagI (demoSt [0xCD, 0x00, 0x40] (-4))
      ∧ ((∀ o addr t, (demoBridge.read o addr t).2.lowMem = o.lowMem) →
          s1.o.lowMem = (demoSt [0xCD, 0x00, 0x40] (-4)).o.lowMem)
      ∧ ((0xCD : Nat) ∈ [0xC9, 0xC5, 0xD5, 0xE0, 0xE4, 0xC0, 0xC4] →
          s1.o = (demoSt [0xCD, 0x00, 0x40] (-4)).o
            ∧ s1.s_time = (demoSt [0xCD, 0x00, 0x40] (-4)).s_time) :=
  ⟨by decide, compare_frame demoBridge (demoSt [0xCD, 0x00, 0x40] (-4)) 0xCD ⟨0, 1⟩ 0x00
    (by decide)⟩

/-! ## Shifts and rotates -/

set_option maxRecDepth 100000 in
theorem rol_table : ∀ v, v < 256 → ∀ c, c < 2 →
    (((v <<< 1) % 65536 ||| c) % 256 = ((v <<< 1) % 256) ||| c)
    ∧ ((c ||| (v <<< 1) % 65536) % 256 = ((v <<< 1) % 256) ||| c)
    ∧ (((v <<< 1) % 65536 &&& 0x100 != 0) = v.testBit 7)
    ∧ (((v <<< 1) % 65536 ||| c) &&& 0xFF = 0 ↔ ((v <<< 1) % 256) ||| c = 0)
    ∧ (¬ ((v <<< 1) % 65536 ||| c) &&& 0x8080 = 0 ↔ 128 ≤ ((v <<< 1) % 256) ||| c)
    ∧ ((c ||| (v <<< 1) % 65536) &&& 0xFF = 0 ↔ ((v <<< 1) % 256) ||| c = 0)
    ∧ (¬ (c ||| (v <<< 1) % 65536) &&& 0x8080 = 0 ↔ 128 ≤ ((v <<< 1) % 256) ||| c)
    ∧ (((v <<< 1) % 256) ||| 0 = (v <<< 1) % 256) := by
  decide

set_option maxRecDepth 100000 in
theorem ror_table : ∀ v, v < 256 → ∀ c, c < 2 →
    (((c <<< 7) ||| (v >>> 1)) % 65536 % 256 = (v >>> 1) ||| (c <<< 7))
    ∧ (((v <<< 8) % 65536 &&& 0x100 != 0) = v.testBit 0)
    ∧ (((c <<< 7) ||| (v >>> 1)) % 65536 &&& 0xFF = 0 ↔ (v >>> 1) ||| (c <<< 7) = 0)
    ∧ (¬ ((c <<< 7) ||| (v >>> 1)) % 65536 &&& 0x8080 = 0 ↔ 128 ≤ (v >>> 1) ||| (c <<< 7))
    ∧ ((v >>> 1) ||| (0 <<< 7) = v >>> 1) := by
  decide

theorem ror_carry_bit (cw : Nat) : (cw >>> 1) &&& 0x80 = ((cw >>> 8) &&& 1) <<< 7 := by
  rw [and_0x80, Nat.and_one_is_mod, Nat.shiftLeft_eq, shr8, Nat.shiftRight_eq_div_pow]
  omega

theorem READ_LOW_lt (o : Obj H) (addr : Nat) : READ_LOW o addr < 256 := by
  unfold READ_LOW; omega

theorem rol_zp_spec (s : St H) (data : Nat) :
    (rol_zp s data).a = s.a
    ∧ READ_LOW (rol_zp s data).o data = shiftResult .ROL (READ_LOW s.o data) (carryIn s)
    ∧ ShiftFlags (rol_zp s data) (shiftResult .ROL (READ_LOW s.o data) (carryIn s))
        (shiftCarry .ROL (READ_LOW s.o data))
    ∧ (∀ i, i ≠ data → (rol_zp s data).o.lowMem i = s.o.lowMem i) := by
  obtain ⟨-, t2, t3, -, -, t6, t7, -⟩ :=
    rol_table (READ_LOW s.o data) (READ_LOW_lt _ _) (carryIn s) (by have := carryIn_le s; omega)
  have hlt : shiftResult .ROL (READ_LOW s.o data) (carryIn s) < 256 := by
    rw [shiftResult, ← t2]; omega
  refine ⟨rfl, ?_, ⟨?_, ?_, ?_⟩, ?_⟩
  · simp only [rol_zp, write_nz_zp, WRITE_LOW, shiftResult]
    rw [← t2]; simp [READ_LOW, carryIn]
  · simpa [rol_zp, write_nz_zp, flagC, shiftCarry] using t3
  · simpa [rol_zp, write_nz_zp, flagZ, shiftResult, carryIn] using t6
  · simpa [rol_zp, write_nz_zp, flagN, IS_NEG, shiftResult, carryIn] using t7
  · intro i hi
    simp [rol_zp, write_nz_zp, WRITE_LOW, hi]

theorem ror_zp_spec (s : St H) (data : Nat) :
    (ror_zp s data).a = s.a
    ∧ READ_LOW (ror_zp s data).o data = shiftResult .ROR (READ_LOW s.o data) (carryIn s)
    ∧ ShiftFlags (ror_zp s data) (shiftResult .ROR (READ_LOW s.o data) (carryIn s))
        (shiftCarry .ROR (READ_LOW s.o data))
    ∧ (∀ i, i ≠ data → (ror_zp s data).o.lowMem i = s.o.lowMem i) := by
  obtain ⟨t1, t2, t3, t4, -⟩ :=
    ror_table (READ_LOW s.o data) (READ_LOW_lt _ _) (carryIn s) (by have := carryIn_le s; omega)
  refine ⟨rfl, ?_, ⟨?_, ?_, ?_⟩, ?_⟩
  · simp only [ror_zp, write_nz_zp, WRITE_LOW, shiftResult]
    rw [← t1]; simp [READ_LOW, carryIn, ror_carry_bit]
  · simpa [ror_zp, write_nz_zp, flagC, shiftCarry] using t2
  · simpa [ror_zp, write_nz_zp, flagZ, shiftResult, carryIn, ror_carry_bit] using t3
  · simpa [ror_zp, write_nz_zp, flagN, IS_NEG, shiftResult, carryIn, ror_carry_bit] using t4
  · intro i hi
    simp [ror_zp, write_nz_zp, WRITE_LOW, hi]

theorem ror_a_spec (s : St H) (cw : Nat) (ha : s.a < 256) :
    (ror_a s cw).a = shiftResult .ROR s.a ((cw >>> 8) &&& 1)
    ∧ ShiftFlags (ror_a s cw) (shiftResult .ROR s.a ((cw >>> 8) &&& 1)) (shiftCarry .ROR s.a)
    ∧ (ror_a s cw).o = s.o := by
  obtain ⟨t1, t2, t3, t4, -⟩ :=
    ror_table s.a ha ((cw >>> 8) &&& 1) (by rw [Nat.and_one_is_mod]; omega)
  refine ⟨?_, ⟨?_, ?_, ?_⟩, rfl⟩
  · simpa [ror_a, shiftResult, ror_carry_bit] using t1
  · simpa [ror_a, flagC, shiftCarry] using t2
  · simpa [ror_a, flagZ, shiftResult, ror_carry_bit] using t3
  · simpa [ror_a, flagN, IS_NEG, shiftResult, ror_carry_bit] using t4

theorem exec_shift_acc (br : Bridge H) (instr : Ptr) (data : Nat) (s : St H) :
    exec br 0x4A instr data s = .loop (ror_a s 0)
    ∧ exec br 0x6A instr data s = .loop (ror_a s s.c)
    ∧ exec br 0x0A instr data s
        = .loop { s with nz := (s.a <<< 1) % 65536, c := (s.a <<< 1) % 65536,
                         a := (s.a <<< 1) % 65536 % 256 }
    ∧ exec br 0x2A instr data s
        = .loop { s with c := (s.a <<< 1) % 65536,
                         nz := (s.a <<< 1) % 65536 ||| ((s.c >>> 8) &&& 1),
                         a := ((s.a <<< 1) % 65536 ||| ((s.c >>> 8) &&& 1)) % 256 } := by
  refine ⟨?_, ?_, ?_, ?_⟩ <;>
    simp [exec, often_used, branch_ops, load_store, compare, logical, add_subtract,
      shift_rotate, isArith]

theorem exec_shift_zp (br : Bridge H) (instr : Ptr) (data : Nat) (s : St H) :
    exec br 0x06 instr data s = .loop (rol_zp { s with c := 0 } data)
    ∧ exec br 0x46 instr data s = .loop (ror_zp { s with c := 0 } data)
    ∧ exec br 0x26 instr data s = .loop (rol_zp s data)
    ∧ exec br 0x66 instr data s = .loop (ror_zp s data)
    ∧ exec br 0x16 instr data s = .loop (rol_zp { s with c := 0 } ((data + s.x) % 256))
    ∧ exec br 0x56 instr data s = .loop (ror_zp { s with c := 0 } ((data + s.x) % 256))
    ∧ exec br 0x36 instr data s = .loop (rol_zp s ((data + s.x) % 256))
    ∧ exec br 0x76 instr data s = .loop (ror_zp s ((data + s.x) % 256)) := by
  refine ⟨?_, ?_, ?_, ?_, ?_, ?_, ?_, ?_⟩ <;>
    simp [exec, often_used, branch_ops, load_store, compare, logical, add_subtract,
      shift_rotate, isArith]

theorem asl_zp_spec (s : St H) (addr : Nat) :
    READ_LOW (rol_zp { s with c := 0 } addr).o addr
        = shiftResult .ASL (READ_LOW s.o addr) (carryIn s)
    ∧ ShiftFlags (rol_zp { s with c := 0 } addr)
        (READ_LOW (rol_zp { s with c := 0 } addr).o addr) (shiftCarry .ASL (READ_LOW s.o addr))
    ∧ (rol_zp { s with c := 0 } addr).a = s.a
    ∧ (∀ i, i ≠ addr → (rol_zp { s with c := 0 } addr).o.lowMem i = s.o.lowMem i) := by
  obtain ⟨a1, a2, a3, a4⟩ := rol_zp_spec { s with c := 0 } addr
  have hz : carryIn { s with c := 0 } = 0 := by simp [carryIn]
  have e : shiftResult .ROL (READ_LOW s.o addr) 0
      = shiftResult .ASL (READ_LOW s.o addr) (carryIn s) := by
    simp [shiftResult]
  rw [hz] at a2 a3
  exact ⟨a2.trans e, by rw [a2]; exact a3, a1, a4⟩

theorem lsr_zp_spec (s : St H) (addr : Nat) :
    READ_LOW (ror_zp { s with c := 0 } addr).o addr
        = shiftResult .LSR (READ_LOW s.o addr) (carryIn s)
    ∧ ShiftFlags (ror_zp { s with c := 0 } addr)
        (READ_LOW (ror_zp { s with c := 0 } addr).o addr) (shiftCarry .LSR (READ_LOW s.o addr))
    ∧ (ror_zp { s with c := 0 } addr).a = s.a
    ∧ (∀ i, i ≠ addr → (ror_zp { s with c := 0 } addr).o.lowMem i = s.o.lowMem i) := by
  obtain ⟨a1, a2, a3, a4⟩ := ror_zp_spec { s with c := 0 } addr
  have hz : carryIn { s with c := 0 } = 0 := by simp [carryIn]
  have e : shiftResult .ROR (READ_LOW s.o addr) 0
      = shiftResult .LSR (READ_LOW s.o addr) (carryIn s) := by
    simp [shiftResult]
  rw [hz] at a2 a3
  exact ⟨a2.trans e, by rw [a2]; exact a3, a1, a4⟩

theorem rol_zp_spec2 (s : St H) (addr : Nat) :
    READ_LOW (rol_zp s addr).o addr = shiftResult .ROL (READ_LOW s.o addr) (carryIn s)
    ∧ ShiftFlags (rol_zp s addr) (READ_LOW (rol_zp s addr).o addr)
        (shiftCarry .ROL (READ_LOW s.o addr))
    ∧ (rol_zp s addr).a = s.a
    ∧ (∀ i, i ≠ addr → (rol_zp s addr).o.lowMem i = s.o.lowMem i) := by
  obtain ⟨a1, a2, a3, a4⟩ := rol_zp_spec s addr
  exact ⟨a2, by rw [a2]; exact a3, a1, a4⟩

theorem ror_zp_spec2 (s : St H) (addr : Nat) :
    READ_LOW (ror_zp s addr).o addr = shiftResult .ROR (READ_LOW s.o addr) (carryIn s)
    ∧ ShiftFlags (ror_zp s addr) (READ_LOW (ror_zp s addr).o addr)
        (shiftCarry .ROR (READ_LOW s.o addr))
    ∧ (ror_zp s addr).a = s.a
    ∧ (∀ i, i ≠ addr → (ror_zp s addr).o.lowMem i = s.o.lowMem i) := by
  obtain ⟨a1, a2, a3, a4⟩ := ror_zp_spec s addr
  exact ⟨a2, by rw [a2]; exact a3, a1, a4⟩

theorem rol_a_spec (s : St H) (ha : s.a < 256) (s1 : St H)
    (h1 : s1 = { s with c := (s.a <<< 1) % 65536,
                        nz := (s.a <<< 1) % 65536 ||| ((s.c >>> 8) &&& 1),
                        a := ((s.a <<< 1) % 65536 ||| ((s.c >>> 8) &&& 1)) % 256 }) :
    s1.a = shiftResult .ROL s.a (carryIn s)
    ∧ ShiftFlags s1 s1.a (shiftCarry .ROL s.a) ∧ s1.o = s.o := by
  obtain ⟨t1, -, t3, t4, t5, -, -, -⟩ :=
    rol_table s.a ha (carryIn s) (by have := carryIn_le s; omega)
  subst h1
  refine ⟨?_, ⟨?_, ?_, ?_⟩, rfl⟩
  · simpa [shiftResult, carryIn] using t1
  · simpa [flagC, shiftCarry] using t3
  · simp only [flagZ, beq_iff_eq]; rw [← carryIn.eq_1 s, t1]; exact t4
  · simp only [flagN, IS_NEG, bne_iff_ne, ne_eq]; rw [← carryIn.eq_1 s, t1]; exact t5

theorem asl_a_spec (s : St H) (ha : s.a < 256) (s1 : St H)
    (h1 : s1 = { s with nz := (s.a <<< 1) % 65536, c := (s.a <<< 1) % 65536,
                        a := (s.a <<< 1) % 65536 % 256 }) :
    s1.a = shiftResult .ASL s.a (carryIn s)
    ∧ ShiftFlags s1 s1.a (shiftCarry .ASL s.a) ∧ s1.o = s.o := by
  obtain ⟨t1, -, t3, t4, t5, -, -, -⟩ := rol_table s.a ha 0 (by omega)
  subst h1
  simp only [Nat.or_zero] at t1 t4 t5
  refine ⟨?_, ⟨?_, ?_, ?_⟩, rfl⟩
  · simpa [shiftResult] using t1
  · simpa [flagC, shiftCarry] using t3
  · simp only [flagZ, beq_iff_eq]; rw [t1]; exact t4
  · simp only [flagN, IS_NEG, bne_iff_ne, ne_eq]; rw [t1]; exact t5

theorem ror_a_carry_spec (s : St H) (ha : s.a < 256) :
    (ror_a s s.c).a = shiftResult .ROR s.a (carryIn s)
    ∧ ShiftFlags (ror_a s s.c) (ror_a s s.c).a (shiftCarry .ROR s.a)
    ∧ (ror_a s s.c).o = s.o := by
  obtain ⟨a1, a2, a3⟩ := ror_a_spec s s.c ha
  exact ⟨a1, by rw [a1]; exact a2, a3⟩

theorem lsr_a_spec (s : St H) (ha : s.a < 256) :
    (ror_a s 0).a = shiftResult .LSR s.a (carryIn s)
    ∧ ShiftFlags (ror_a s 0) (ror_a s 0).a (shiftCarry .LSR s.a)
    ∧ (ror_a s 0).o = s.o := by
  obtain ⟨a1, a2, a3⟩ := ror_a_spec s 0 ha
  have e : shiftResult .ROR s.a ((0 >>> 8) &&& 1) = shiftResult .LSR s.a (carryIn s) := by
    simp [shiftResult]
  exact ⟨a1.trans e, by rw [a1]; exact a2, a3⟩

/-- C6: for every byte `v` and carry-in `c`, the accumulator (0x0A, 0x4A, 0x2A, 0x6A),
zero-page (0x06, 0x46, 0x26, 0x66) and zero-page,X (0x16, 0x56, 0x36, 0x76) forms of ASL,
LSR, ROL and ROR produce: ASL `(v<<1) mod 256` with C = bit 7 of `v`; LSR `v>>1` with
C = bit 0 of `v`; ROL `((v<<1) mod 256) OR c` with C = bit 7 of `v`; ROR `(v>>1) OR (c<<7)`
with C = bit 0 of `v`; in every case Z = 1 iff the result is 0 and N = bit 7 of the
result. The accumulator form writes the result to A and leaves the object alone; the
memory form writes it to the addressed zero-page byte and leaves A and every other
low-memory cell unchanged. -/
theorem shift_rotate_result (br : Bridge H) (s : St H) (instr : Ptr) (data opcode : Nat)
    (ha : s.a < 256) :
    (opcode ∈ [0x0A, 0x4A, 0x2A, 0x6A] →
      ∃ s1, exec br opcode instr data s = .loop s1
        ∧ s1.a = shiftResult (shiftKind opcode) s.a (carryIn s)
        ∧ ShiftFlags s1 s1.a (shiftCarry (shiftKind opcode) s.a)
        ∧ s1.o = s.o)
    ∧ (opcode ∈ [0x06, 0x46, 0x26, 0x66] →
      ∃ s1, exec br opcode instr data s = .loop s1
        ∧ READ_LOW s1.o data = shiftResult (shiftKind opcode) (READ_LOW s.o data) (carryIn s)
        ∧ ShiftFlags s1 (READ_LOW s1.o data) (shiftCarry (shiftKind opcode) (READ_LOW s.o data))
        ∧ s1.a = s.a
        ∧ ∀ i, i ≠ data → s1.o.lowMem i = s.o.lowMem i)
    ∧ (opcode ∈ [0x16, 0x56, 0x36, 0x76] →
      ∃ s1, exec br opcode instr data s = .loop s1
        ∧ READ_LOW s1.o ((data + s.x) % 256)
            = shiftResult (shiftKind opcode) (READ_LOW s.o ((data + s.x) % 256)) (carryIn s)
        ∧ ShiftFlags s1 (READ_LOW s1.o ((data + s.x) % 256))
            (shiftCarry (shiftKind opcode) (READ_LOW s.o ((data + s.x) % 256)))
        ∧ s1.a = s.a
        ∧ ∀ i, i ≠ (data + s.x) % 256 → s1.o.lowMem i = s.o.lowMem i) := by
  obtain ⟨e1, e2, e3, e4⟩ := exec_shift_acc br instr data s
  obtain ⟨z1, z2, z3, z4, z5, z6, z7, z8⟩ := exec_shift_zp br instr data s
  have k0 : shiftKind 0x0A = .ASL ∧ shiftKind 0x4A = .LSR ∧ shiftKind 0x2A = .ROL
      ∧ shiftKind 0x6A = .ROR ∧ shiftKind 0x06 = .ASL ∧ shiftKind 0x46 = .LSR
      ∧ shiftKind 0x26 = .ROL ∧ shiftKind 0x66 = .ROR ∧ shiftKind 0x16 = .ASL
      ∧ shiftKind 0x56 = .LSR ∧ shiftKind 0x36 = .ROL ∧ shiftKind 0x76 = .ROR := by decide
  obtain ⟨k1, k2, k3, k4, k5, k6, k7, k8, k9, k10, k11, k12⟩ := k0
  refine ⟨?_, ?_, ?_⟩ <;> intro hmem <;>
    simp only [List.mem_cons, List.mem_singleton, List.mem_nil_iff, or_false] at hmem
  · rcases hmem with h | h | h | h <;> subst h
    · rw [k1]; exact ⟨_, e3, asl_a_spec s ha _ rfl⟩
    · rw [k2]; exact ⟨_, e1, lsr_a_spec s ha⟩
    · rw [k3]; exact ⟨_, e4, rol_a_spec s ha _ rfl⟩
    · rw [k4]; exact ⟨_, e2, ror_a_carry_spec s ha⟩
  · rcases hmem with h | h | h | h <;> subst h
    · rw [k5]; exact ⟨_, z1, asl_zp_spec s data⟩
    · rw [k6]; exact ⟨_, z2, lsr_zp_spec s data⟩
    · rw [k7]; exact ⟨_, z3, rol_zp_spec2 s data⟩
    · rw [k8]; exact ⟨_, z4, ror_zp_spec2 s data⟩
  · rcases hmem with h | h | h | h <;> subst h
    · rw [k9]; exact ⟨_, z5, asl_zp_spec s _⟩
    · rw [k10]; exact ⟨_, z6, lsr_zp_spec s _⟩
    · rw [k11]; exact ⟨_, z7, rol_zp_spec2 s _⟩
    · rw [k12]; exact ⟨_, z8, ror_zp_spec2 s _⟩

theorem shift_rotate_result_witness :
    demoRolSt.a < 256
    ∧ ((0x2A ∈ [0x0A, 0x4A, 0x2A, 0x6A] →
      ∃ s1, exec demoBridge 0x2A ⟨0, 1⟩ 0 demoRolSt = .loop s1
        ∧ s1.a = shiftResult (shiftKind 0x2A) demoRolSt.a (carryIn demoRolSt)
        ∧ ShiftFlags s1 s1.a (shiftCarry (shiftKind 0x2A) demoRolSt.a)
        ∧ s1.o = demoRolSt.o)
    ∧ (0x2A ∈ [0x06, 0x46, 0x26, 0x66] →
      ∃ s1, exec demoBridge 0x2A ⟨0, 1⟩ 0 demoRolSt = .loop s1
        ∧ READ_LOW s1.o 0
            = shiftResult (shiftKind 0x2A) (READ_LOW demoRolSt.o 0) (carryIn demoRolSt)
        ∧ ShiftFlags s1 (READ_LOW s1.o 0)
            (shiftCarry (shiftKind 0x2A) (READ_LOW demoRolSt.o 0))
        ∧ s1.a = demoRolSt.a
        ∧ ∀ i, i ≠ 0 → s1.o.lowMem i = demoRolSt.o.lowMem i)
    ∧ (0x2A ∈ [0x16, 0x56, 0x36, 0x76] →
      ∃ s1, exec demoBridge 0x2A ⟨0, 1⟩ 0 demoRolSt = .loop s1
        ∧ READ_LOW s1.o ((0 + demoRolSt.x) % 256)
            = shiftResult (shiftKind 0x2A)
                (READ_LOW demoRolSt.o ((0 + demoRolSt.x) % 256)) (carryIn demoRolSt)
        ∧ ShiftFlags s1 (READ_LOW s1.o ((0 + demoRolSt.x) % 256))
            (shiftCarry (shiftKind 0x2A)
              (READ_LOW demoRolSt.o ((0 + demoRolSt.x) % 256)))
        ∧ s1.a = demoRolSt.a
        ∧ ∀ i, i ≠ (0 + demoRolSt.x) % 256 →
            s1.o.lowMem i = demoRolSt.o.lowMem i)) :=
  ⟨by decide, shift_rotate_result demoBridge demoRolSt ⟨0, 1⟩ 0 0x2A (by decide)⟩

/-! ## BRK and the interrupt sequence -/

set_option maxRecDepth 100000 in
theorem or_0x100 : ∀ n, n < 512 → 0x100 ||| n = 0x100 + n % 256 ∧ n ||| 0x100 = 0x100 + n % 256 := by
  decide

theorem CALC_STATUS_lt (s : St H) : CALC_STATUS s < 256 := by
  unfold CALC_STATUS
  simp only
  split <;> omega

theorem or_lt_256 (a b : Nat) (ha : a < 256) (hb : b < 256) : a ||| b < 256 :=
  Nat.or_lt_two_pow (n := 8) ha hb

theorem exec_brk (br : Bridge H) (instr : Ptr) (data : Nat) (s : St H) :
    exec br 0x00 instr data s = .loop (handle_brk s) := by
  simp [exec, often_used, branch_ops, load_store, compare, logical, add_subtract,
    shift_rotate, inc_dec, transfer, stack, isArith]

set_option maxRecDepth 100000 in
theorem clock_le_small : ∀ n, n < 256 → clock n ≤ 8 := by
  decide

set_option maxRecDepth 100000 in
theorem clock_le (n : Nat) : clock n ≤ 8 := by
  by_cases hn : n < 256
  · exact clock_le_small n hn
  · have hl : CLOCK_TABLE.length ≤ n := by
      have : CLOCK_TABLE.length = 256 := by decide
      omega
    unfold clock
    rw [List.getD_eq_default _ _ hl]
    omega

/-- The time check lets an instruction fetched with a negative counter through. -/
theorem step_of_neg (br : Bridge H) (s : St H) (h1 : -32768 ≤ s.s_time) (h2 : s.s_time < 0) :
    step br s = exec br (fetchOpcode s) ((fetchPtr s).add 1)
      (deref s.o ((fetchPtr s).add 1) 0)
      { s with pc := (s.pc + 1) % 65536, s_time := s.s_time + (clock (fetchOpcode s) : Int) } := by
  have hk : (clock (fetchOpcode s) : Int) ≤ 8 := by exact_mod_cast clock_le _
  have hi : i16 (s.s_time + (clock (fetchOpcode s) : Int))
      = s.s_time + (clock (fetchOpcode s) : Int) :=
    i16_of_range _ (by omega) (by omega)
  unfold step
  simp only [addTime, addPc, hi]
  rw [if_neg (by omega)]

/-- The stack addresses `0x100 | (sp - k)` and `(sp - k) | 0x100` of a stack pointer in
`0x100..0x1FF`, as sums. -/
theorem sp_or (sp k : Nat) (h1 : 0x100 ≤ sp) (h2 : sp ≤ 0x1FF) (hk : k ≤ 0x100) :
    0x100 ||| (sp - k) = 0x100 + (sp + (256 - k)) % 256
    ∧ (sp - k) ||| 0x100 = 0x100 + (sp + (256 - k)) % 256 := by
  obtain ⟨e1, e2⟩ := or_0x100 (sp - k) (by omega)
  rw [e1, e2]
  omega

/-- The status byte that the interrupt sequence pushes. -/
theorem pushed_status (s : St H) :
    ((CALC_STATUS s ||| ST_R) % 256 ||| ST_B) % 256 = CALC_STATUS s ||| (ST_B ||| ST_R) := by
  have h := CALC_STATUS_lt s
  have h1 : CALC_STATUS s ||| ST_R < 256 := or_lt_256 _ _ h (by decide)
  have h2 : (CALC_STATUS s ||| ST_R) ||| ST_B < 256 := or_lt_256 _ _ h1 (by decide)
  rw [Nat.mod_eq_of_lt h1, Nat.mod_eq_of_lt h2, Nat.or_assoc, Nat.or_comm ST_R ST_B]

theorem interrupt_spec (s : St H) (r : Int) (h1 : 0x100 ≤ s.sp) (h2 : s.sp ≤ 0x1FF) :
    (interrupt s r).sp = 0x100 + (s.sp + 253) % 256
    ∧ (interrupt s r).o.lowMem =
        (fun i =>
          if i = 0x100 + (s.sp + 253) % 256 then
            (if r ≠ 0 then ((CALC_STATUS s ||| ST_R) % 256 ||| ST_B) % 256
              else (CALC_STATUS s ||| ST_R) % 256) % 256
          else if i = 0x100 + (s.sp + 254) % 256 then s.pc % 256
          else if i = 0x100 + (s.sp + 255) % 256 then (s.pc >>> 8) % 256
          else s.o.lowMem i)
    ∧ (interrupt s r).status = (s.status ||| ST_I) % 256
    ∧ (interrupt s r).o.regs.status = (s.status ||| ST_I) % 256
    ∧ (interrupt s r).a = s.a ∧ (interrupt s r).x = s.x ∧ (interrupt s r).y = s.y
    ∧ (interrupt s r).c = s.c ∧ (interrupt s r).nz = s.nz
    ∧ (interrupt s r).s_time
        = i16 (i16 (s.s_time + 7) + (if s.o.base - s.o.endTime ≥ 0 then 0 else s.o.base - s.o.endTime))
    ∧ (interrupt s r).o.base
        = s.o.base - (if s.o.base - s.o.endTime ≥ 0 then 0 else s.o.base - s.o.endTime) := by
  obtain ⟨a1, -⟩ := sp_or s.sp 1 h1 h2 (by omega)
  obtain ⟨a2, -⟩ := sp_or s.sp 2 h1 h2 (by omega)
  obtain ⟨-, a3⟩ := sp_or s.sp 3 h1 h2 (by omega)
  simp only [Nat.reduceSub] at a1 a2 a3
  have hc : CALC_STATUS (addTime s 7) = CALC_STATUS s := rfl
  unfold interrupt
  simp only [hc, show (addTime s 7).sp = s.sp from rfl, show (addTime s 7).pc = s.pc from rfl,
    show (addTime s 7).o = s.o from rfl, show (addTime s 7).status = s.status from rfl,
    a1, a2, a3, WRITE_LOW]
  by_cases hd : s.o.base - s.o.endTime ≥ 0
  · rw [if_pos hd, if_pos hd]
    refine ⟨rfl, ?_, rfl, rfl, rfl, rfl, rfl, rfl, rfl, ?_, ?_⟩
    · funext i; dsimp only
    · simp [addTime, i16]
    · simp
  · rw [if_neg hd, if_neg hd]
    refine ⟨rfl, ?_, rfl, rfl, rfl, rfl, rfl, rfl, rfl, ?_, ?_⟩
    · funext i; dsimp only [addTime]
    · simp [addTime]
    · simp [addTime]

theorem vector_page : (0xFFFA >>> PAGE_BITS = 31 ∧ PAGE_OFFSET 0xFFFA = 0x7FA)
    ∧ (0xFFFE >>> PAGE_BITS = 31 ∧ PAGE_OFFSET 0xFFFE = 0x7FE)
    ∧ (0xFFFF >>> PAGE_BITS = 31 ∧ PAGE_OFFSET 0xFFFF = 0x7FF) := by decide

theorem deref_lt (o : Obj H) (p : Ptr) (i : Nat) : deref o p i < 256 := by
  unfold deref; split <;> omega

/-- The new `pc` of the interrupt sequence comes from the vector bytes as they were
before the pushes: the pushes go to `0x100..0x1FF`, below every vector offset. -/
theorem interrupt_pc (s : St H) (r : Int) (h1 : 0x100 ≤ s.sp) (h2 : s.sp ≤ 0x1FF) :
    (interrupt s r).pc
      = deref s.o (s.o.code_map 31) (0x7FA + r.toNat)
        + 0x100 * deref s.o (s.o.code_map 31) (0x7FA + r.toNat + 1) := by
  obtain ⟨a1, -⟩ := sp_or s.sp 1 h1 h2 (by omega)
  obtain ⟨a2, -⟩ := sp_or s.sp 2 h1 h2 (by omega)
  simp only [Nat.reduceSub] at a1 a2
  have hb1 := deref_lt s.o (s.o.code_map 31) (0x7FA + r.toNat)
  have hb2 := deref_lt s.o (s.o.code_map 31) (0x7FA + r.toNat + 1)
  unfold interrupt
  simp only [show (addTime s 7).sp = s.sp from rfl, show (addTime s 7).pc = s.pc from rfl,
    show (addTime s 7).o = s.o from rfl, a1, a2, WRITE_LOW, vector_page.1.1, vector_page.1.2,
    GET_LE16]
  have e : ∀ k, deref
      { s.o with lowMem := fun i =>
          if i = 256 + (s.sp + 254) % 256 then s.pc % 256
          else if i = 256 + (s.sp + 255) % 256 then s.pc >>> 8 % 256 else s.o.lowMem i }
      (((s.o.code_map 31).add 0x7FA).add r.toNat) k
      = deref s.o (s.o.code_map 31) (0x7FA + r.toNat + k) := by
    intro k
    unfold deref
    simp only [Ptr.add]
    by_cases hb : (s.o.code_map 31).buf = 0
    · rw [if_pos hb, if_pos hb, if_neg (by omega), if_neg (by omega)]
      congr 2; omega
    · rw [if_neg hb, if_neg hb]
      congr 2; omega
  have e0 := e 0
  have e1 := e 1
  simp only [Nat.add_zero] at e0
  split_ifs <;> simp only [addTime] <;> rw [e0, e1] <;> omega

theorem GET_SP_eq (sp : Nat) (_h : 1 ≤ sp) : GET_SP sp = (sp + 255) % 256 := by
  unfold GET_SP u8i; omega

theorem READ_PROG_vector (o : Obj H) :
    READ_PROG o 0xFFFE = deref o (o.code_map 31) 0x7FE
    ∧ READ_PROG o 0xFFFF = deref o (o.code_map 31) 0x7FF := by
  simp only [READ_PROG, vector_page.2.1.1, vector_page.2.1.2, vector_page.2.2.1,
    vector_page.2.2.2, and_self]

theorem set_ibit (st : Nat) : ((st ||| ST_I) % 256) &&& ST_I = ST_I := by
  have hb := Nat.and_two_pow ((st ||| 4) % 2 ^ 8) 2
  rw [Nat.testBit_mod_two_pow, Nat.testBit_or] at hb
  have hI : (4 : Nat).testBit 2 = true := by decide
  rw [hI] at hb
  simpa [ST_I] using hb

/-- A BRK fetched with a negative counter enters `interrupt` with `result_ = 4` and the
`pc` two past the opcode. -/
theorem step_brk (br : Bridge H) (s : St H) (hop : fetchOpcode s = 0x00)
    (ht1 : -32768 ≤ s.s_time) (ht2 : s.s_time < 0) :
    step br s = .loop (interrupt { s with pc := (s.pc + 2) % 65536 } 4) := by
  have hk : clock 0 = 0 := by decide
  have hp : ((s.pc + 1) % 65536 + 1) % 65536 = (s.pc + 2) % 65536 := by omega
  rw [step_of_neg br s ht1 ht2, hop, exec_brk, hk]
  simp only [handle_brk, addPc, hp, Nat.cast_zero, add_zero]

/-- C7: for every BRK fetched with a negative time counter, PC is advanced to
(BRK address + 2) before pushing; PC high byte, then PC low byte, then the status byte
with both B (0x10) and the reserved bit (0x20) set are pushed at 0x100 + SP,
0x100 + (SP - 1) mod 256 and 0x100 + (SP - 2) mod 256, and SP decreases by 3 (mod 256);
no other low-memory cell and none of a, x, y changes; the I flag is set; PC is loaded
little-endian from the vector bytes at 0xFFFE/0xFFFF; and the sequence charges exactly 7
cycles (the table cost of opcode 0x00 is 0): the counter becomes `t + 7`, re-expressed
against the time base, which moves up to `endTime` when it was below it, so that absolute
time (counter + base) advances by exactly 7 whenever the re-based counter fits in the
16-bit counter. -/
theorem brk_sequence (br : Bridge H) (s : St H) (hop : fetchOpcode s = 0x00)
    (ht1 : -32768 ≤ s.s_time) (ht2 : s.s_time < 0)
    (hsp1 : 0x100 ≤ s.sp) (hsp2 : s.sp ≤ 0x1FF) :
    ∃ s1, step br s = .loop s1
      ∧ READ_LOW s1.o (0x100 + GET_SP s.sp) = ((s.pc + 2) % 65536) / 256
      ∧ READ_LOW s1.o (0x100 + (GET_SP s.sp + 255) % 256) = ((s.pc + 2) % 65536) % 256
      ∧ READ_LOW s1.o (0x100 + (GET_SP s.sp + 254) % 256) = CALC_STATUS s ||| (ST_B ||| ST_R)
      ∧ (∀ i, i ≠ 0x100 + GET_SP s.sp → i ≠ 0x100 + (GET_SP s.sp + 255) % 256 →
          i ≠ 0x100 + (GET_SP s.sp + 254) % 256 → s1.o.lowMem i = s.o.lowMem i)
      ∧ GET_SP s1.sp = (GET_SP s.sp + 253) % 256
      ∧ 0x100 ≤ s1.sp ∧ s1.sp ≤ 0x1FF
      ∧ s1.a = s.a ∧ s1.x = s.x ∧ s1.y = s.y
      ∧ flagI s1 = true
      ∧ s1.pc = READ_PROG s.o 0xFFFE + 0x100 * READ_PROG s.o 0xFFFF
      ∧ clock 0x00 = 0
      ∧ s1.s_time = i16 (s.s_time + 7 + min 0 (s.o.base - s.o.endTime))
      ∧ s1.o.base = s.o.base - min 0 (s.o.base - s.o.endTime)
      ∧ (-32768 ≤ s.s_time + 7 + min 0 (s.o.base - s.o.endTime) → TIME s1 = TIME s + 7) := by
  have hstep := step_brk br s hop ht1 ht2
  have hk : clock 0 = 0 := by decide
  obtain ⟨s0, hs0⟩ : ∃ s0 : St H, s0 = { s with pc := (s.pc + 2) % 65536 } := ⟨_, rfl⟩
  rw [← hs0] at hstep
  have hpc0 : s0.pc = (s.pc + 2) % 65536 := by rw [hs0]
  have hsp0 : s0.sp = s.sp := by rw [hs0]
  have ho0 : s0.o = s.o := by rw [hs0]
  have ht0 : s0.s_time = s.s_time := by rw [hs0]
  have hst0 : s0.status = s.status := by rw [hs0]
  have hcs0 : CALC_STATUS s0 = CALC_STATUS s := by rw [hs0]; rfl
  obtain ⟨i1, i2, i3, -, i5, i6, i7, -, -, i10, i11⟩ :=
    interrupt_spec s0 4 (by rw [hsp0]; exact hsp1) (by rw [hsp0]; exact hsp2)
  have ipc := interrupt_pc s0 4 (by rw [hsp0]; exact hsp1) (by rw [hsp0]; exact hsp2)
  rw [hsp0] at i1 i2
  rw [hpc0, hcs0] at i2
  rw [ho0] at i2 i10 i11 ipc
  rw [ht0] at i10
  have hg := GET_SP_eq s.sp (by omega)
  have hps := pushed_status s
  have hcl := CALC_STATUS_lt s
  have hlt : CALC_STATUS s ||| (ST_B ||| ST_R) < 256 := or_lt_256 _ _ hcl (by decide)
  have hmin : min 0 (s.o.base - s.o.endTime)
      = if s.o.base - s.o.endTime ≥ 0 then 0 else s.o.base - s.o.endTime := by
    split <;> omega
  have h7 : i16 (s.s_time + 7) = s.s_time + 7 := i16_of_range _ (by omega) (by omega)
  rw [if_pos (show (4 : Int) ≠ 0 by decide), hps] at i2
  refine ⟨_, hstep, ?_, ?_, ?_, ?_, ?_, ?_, ?_, ?_, ?_, ?_, ?_, ?_, hk, ?_, ?_, ?_⟩
  · simp only [READ_LOW, i2, hg, Nat.shiftRight_eq_div_pow]
    split_ifs <;> omega
  · simp only [READ_LOW, i2, hg, Nat.shiftRight_eq_div_pow]
    split_ifs <;> omega
  · simp only [READ_LOW, i2, hg, Nat.shiftRight_eq_div_pow]
    split_ifs <;> omega
  · intro i n1 n2 n3
    rw [hg] at n1 n2 n3
    rw [i2]
    simp only
    rw [if_neg (by omega), if_neg (by omega), if_neg (by omega)]
  · rw [i1, hg, GET_SP_eq _ (by omega)]; omega
  · rw [i1]; omega
  · rw [i1]; omega
  · rw [i5, hs0]
  · rw [i6, hs0]
  · rw [i7, hs0]
  · simp only [flagI, i3, hst0, set_ibit]
    decide
  · rw [ipc, (READ_PROG_vector s.o).1, (READ_PROG_vector s.o).2]
    rfl
  · rw [i10, h7, hmin]
  · rw [i11, hmin]
  · intro hfit
    have hi := i16_of_range (s.s_time + 7 + min 0 (s.o.base - s.o.endTime)) hfit
      (by have : min 0 (s.o.base - s.o.endTime) ≤ 0 := min_le_left _ _; omega)
    simp only [TIME, i10, i11, h7, ← hmin, hi]
    omega

theorem brk_sequence_witness :
    fetchOpcode demoBrkSt = 0x00 ∧ -32768 ≤ demoBrkSt.s_time ∧ demoBrkSt.s_time < 0
    ∧ 0x100 ≤ demoBrkSt.sp ∧ demoBrkSt.sp ≤ 0x1FF ∧
    ∃ s1, step demoBridge demoBrkSt = .loop s1
      ∧ READ_LOW s1.o (0x100 + GET_SP demoBrkSt.sp) = ((demoBrkSt.pc + 2) % 65536) / 256
      ∧ READ_LOW s1.o (0x100 + (GET_SP demoBrkSt.sp + 255) % 256) = ((demoBrkSt.pc + 2) % 65536) % 256
      ∧ READ_LOW s1.o (0x100 + (GET_SP demoBrkSt.sp + 254) % 256) = CALC_STATUS demoBrkSt ||| (ST_B ||| ST_R)
      ∧ (∀ i, i ≠ 0x100 + GET_SP demoBrkSt.sp → i ≠ 0x100 + (GET_SP demoBrkSt.sp + 255) % 256 →
          i ≠ 0x100 + (GET_SP demoBrkSt.sp + 254) % 256 → s1.o.lowMem i = demoBrkSt.o.lowMem i)
      ∧ GET_SP s1.sp = (GET_SP demoBrkSt.sp + 253) % 256
      ∧ 0x100 ≤ s1.sp ∧ s1.sp ≤ 0x1FF
      ∧ s1.a = demoBrkSt.a ∧ s1.x = demoBrkSt.x ∧ s1.y = demoBrkSt.y
      ∧ flagI s1 = true
      ∧ s1.pc = READ_PROG demoBrkSt.o 0xFFFE + 0x100 * READ_PROG demoBrkSt.o 0xFFFF
      ∧ clock 0x00 = 0
      ∧ s1.s_time = i16 (demoBrkSt.s_time + 7 + min 0 (demoBrkSt.o.base - demoBrkSt.o.endTime))
      ∧ s1.o.base = demoBrkSt.o.base - min 0 (demoBrkSt.o.base - demoBrkSt.o.endTime)
      ∧ (-32768 ≤ demoBrkSt.s_time + 7 + min 0 (demoBrkSt.o.base - demoBrkSt.o.endTime) → TIME s1 = TIME demoBrkSt + 7) :=
  ⟨by decide, by decide, by decide, by decide, by decide,
    brk_sequence demoBridge demoBrkSt (by decide) (by decide) (by decide) (by decide)
      (by decide)⟩

/-! ## Halt opcodes, the value `run` returns, and the time check -/

theorem NoStop_loop (s : St H) : NoStop (some (Next.loop s)) := by
  intro x hx; cases hx; rfl

theorem NoStop_none : NoStop (none : Option (Next H)) := by
  intro x hx; cases hx

theorem NoStop_ite {c : Prop} [Decidable c] {a b : Option (Next H)}
    (ha : NoStop a) (hb : NoStop b) : NoStop (if c then a else b) := by
  split <;> assumption

theorem often_used_loop (br : Bridge H) (opcode : Nat) (instr : Ptr) (data : Nat) (s : St H) :
    NoStop (often_used br opcode instr data s) := by
  unfold often_used
  repeat (first | exact NoStop_loop _ | exact NoStop_none | apply NoStop_ite)

theorem branch_ops_loop (opcode : Nat) (data : Nat) (s : St H) :
    NoStop (branch_ops opcode data s) := by
  unfold branch_ops
  repeat (first | exact NoStop_loop _ | exact NoStop_none | apply NoStop_ite)

theorem load_store_loop (br : Bridge H) (opcode : Nat) (instr : Ptr) (data : Nat) (s : St H) :
    NoStop (load_store br opcode instr data s) := by
  unfold load_store
  repeat (first | exact NoStop_loop _ | exact NoStop_none | apply NoStop_ite)

theorem compare_loop (br : Bridge H) (opcode : Nat) (instr : Ptr) (data : Nat) (s : St H) :
    NoStop (compare br opcode instr data s) := by
  unfold compare
  repeat (first | exact NoStop_loop _ | exact NoStop_none | apply NoStop_ite)

theorem logical_loop (br : Bridge H) (opcode : Nat) (instr : Ptr) (data : Nat) (s : St H) :
    NoStop (logical br opcode instr data s) := by
  unfold logical
  repeat (first | exact NoStop_loop _ | exact NoStop_none | apply NoStop_ite)

theorem add_subtract_loop (br : Bridge H) (opcode : Nat) (instr : Ptr) (data : Nat)
    (s : St H) : NoStop (add_subtract br opcode instr data s) := by
  unfold add_subtract
  repeat (first | exact NoStop_loop _ | exact NoStop_none | apply NoStop_ite)

theorem shift_rotate_loop (br : Bridge H) (opcode : Nat) (instr : Ptr) (data : Nat)
    (s : St H) : NoStop (shift_rotate br opcode instr data s) := by
  unfold shift_rotate
  repeat (first | exact NoStop_loop _ | exact NoStop_none | apply NoStop_ite)

theorem inc_dec_loop (br : Bridge H) (opcode : Nat) (instr : Ptr) (data : Nat) (s : St H) :
    NoStop (inc_dec br opcode instr data s) := by
  unfold inc_dec
  repeat (first | exact NoStop_loop _ | exact NoStop_none | apply NoStop_ite)

theorem transfer_loop (opcode : Nat) (s : St H) : NoStop (transfer opcode s) := by
  unfold transfer
  repeat (first | exact NoStop_loop _ | exact NoStop_none | apply NoStop_ite)

theorem stack_loop (opcode : Nat) (instr : Ptr) (s : St H) : NoStop (stack opcode instr s) := by
  unfold stack
  repeat (first | exact NoStop_loop _ | exact NoStop_none | apply NoStop_ite)

theorem flags_loop (opcode : Nat) (s : St H) : NoStop (flags opcode s) := by
  unfold flags
  repeat (first | exact NoStop_loop _ | exact NoStop_none | apply NoStop_ite)

/-- The only cases of the section "Unofficial" that leave the loop are the halt opcodes,
and they leave the counter as charged. -/
theorem unofficial_stop (opcode : Nat) (data : Nat) (s : St H)
    (r : Next H) (h : unofficial opcode data s = some r) (hr : r.isStop = true) :
    isHalt opcode = true ∧ r.st.s_time = s.s_time := by
  unfold unofficial at h
  by_cases h1 : isSKW opcode = true
  · rw [if_pos h1] at h; obtain rfl := Option.some.inj h; exact absurd hr (by simp [Next.isStop])
  rw [if_neg h1] at h
  by_cases h2 : opcode = 0x0C
  · rw [if_pos h2] at h; obtain rfl := Option.some.inj h; exact absurd hr (by simp [Next.isStop])
  rw [if_neg h2] at h
  by_cases h3 : isSKB opcode = true
  · rw [if_pos h3] at h; obtain rfl := Option.some.inj h; exact absurd hr (by simp [Next.isStop])
  rw [if_neg h3] at h
  by_cases h4 : isNOP opcode = true
  · rw [if_pos h4] at h; obtain rfl := Option.some.inj h; exact absurd hr (by simp [Next.isStop])
  rw [if_neg h4] at h
  by_cases h5 : opcode = BAD_OPCODE
  · rw [if_pos h5] at h; obtain rfl := Option.some.inj h
    exact ⟨by simp [isHalt, h5], by simp only [Next.st]⟩
  rw [if_neg h5] at h
  by_cases h6 : isHLT opcode = true
  · rw [if_pos h6] at h; obtain rfl := Option.some.inj h
    exact ⟨by simp [isHalt, h6], by simp only [Next.st]⟩
  rw [if_neg h6] at h
  cases h

/-- The `switch` leaves the loop only on a halt opcode, with the counter as charged. -/
theorem exec_stop (br : Bridge H) (opcode : Nat) (instr : Ptr) (data : Nat) (s s1 : St H)
    (h : exec br opcode instr data s = .stop s1) :
    isHalt opcode = true ∧ s1.s_time = s.s_time := by
  unfold exec at h
  split at h
  · next r hr => have := often_used_loop _ _ _ _ _ _ hr; rw [h] at this; cases this
  split at h
  · next r hr => have := branch_ops_loop _ _ _ _ hr; rw [h] at this; cases this
  split at h
  · next r hr => have := load_store_loop _ _ _ _ _ _ hr; rw [h] at this; cases this
  split at h
  · next r hr => have := compare_loop _ _ _ _ _ _ hr; rw [h] at this; cases this
  split at h
  · next r hr => have := logical_loop _ _ _ _ _ _ hr; rw [h] at this; cases this
  split at h
  · next r hr => have := add_subtract_loop _ _ _ _ _ _ hr; rw [h] at this; cases this
  split at h
  · next r hr => have := shift_rotate_loop _ _ _ _ _ _ hr; rw [h] at this; cases this
  split at h
  · next r hr => have := inc_dec_loop _ _ _ _ _ _ hr; rw [h] at this; cases this
  split at h
  · next r hr => have := transfer_loop _ _ _ hr; rw [h] at this; cases this
  split at h
  · next r hr => have := stack_loop _ _ _ _ hr; rw [h] at this; cases this
  split at h
  · next r hr => have := flags_loop _ _ _ hr; rw [h] at this; cases this
  split at h
  · next r hr =>
      have := unofficial_stop _ _ _ _ hr (by rw [h]; rfl)
      rw [h] at this
      exact this
  · cases h

theorem exec_bad_opcode (br : Bridge H) (instr : Ptr) (data : Nat) (s : St H) :
    exec br BAD_OPCODE instr data s = .stop { s with pc := (s.pc + 65535) % 65536 } := by
  simp [exec, often_used, branch_ops, load_store, compare, logical, add_subtract,
    shift_rotate, inc_dec, transfer, stack, flags, unofficial, isArith, isSKW, isSKB, isNOP,
    BAD_OPCODE]

theorem exec_hlt (br : Bridge H) (opcode : Nat) (instr : Ptr) (data : Nat) (s : St H)
    (h : isHLT opcode = true) : exec br opcode instr data s = .stop s := by
  simp only [isHLT, Bool.or_eq_true, beq_iff_eq] at h
  rcases h with (((((((((h | h) | h) | h) | h) | h) | h) | h) | h) | h) | h <;> subst h <;>
    simp [exec, often_used, branch_ops, load_store, compare, logical, add_subtract,
      shift_rotate, inc_dec, transfer, stack, flags, unofficial, isArith, isSKW, isSKB, isNOP,
      isHLT, BAD_OPCODE]

set_option maxRecDepth 100000 in
theorem clock_halt : clock BAD_OPCODE = 0 ∧ ∀ opcode, isHLT opcode = true → clock opcode = 2 := by
  refine ⟨by decide, ?_⟩
  intro opcode h
  simp only [isHLT, Bool.or_eq_true, beq_iff_eq] at h
  rcases h with (((((((((h | h) | h) | h) | h) | h) | h) | h) | h) | h) | h <;> subst h <;> decide

/-- C8, as the code has it: a halt opcode fetched with a negative time counter stops `run`
in that very pass, with no instruction executed after it and nothing changed but `pc` and
the counter. For `BAD_OPCODE` (0xF2, table cost 0) the committed PC is the address of the
halting opcode itself; for the other eleven halt opcodes (0x02, 0x12, 0x22, 0x32, 0x42,
0x52, 0x62, 0x72, 0x92, 0xB2, 0xD2, table cost 2) the committed PC is the address of the
halting opcode plus one (mod 0x10000). -/
theorem halt_stops (br : Bridge H) (s : St H) (fuel : Nat)
    (ht1 : -32768 ≤ s.s_time) (ht2 : s.s_time < 0) (hpc : s.pc < 65536) :
    (fetchOpcode s = BAD_OPCODE →
      step br s = .stop s ∧ runLoop br (fuel + 1) s = some s ∧ (commit s).regs.pc = s.pc)
    ∧ (isHLT (fetchOpcode s) = true →
      step br s = .stop { s with pc := (s.pc + 1) % 65536, s_time := s.s_time + 2 }
      ∧ runLoop br (fuel + 1) s
          = some { s with pc := (s.pc + 1) % 65536, s_time := s.s_time + 2 }
      ∧ (commit { s with pc := (s.pc + 1) % 65536, s_time := s.s_time + 2 }).regs.pc
          = (s.pc + 1) % 65536) := by
  have hstep := step_of_neg br s ht1 ht2
  refine ⟨?_, ?_⟩
  · intro hb
    have h1 : step br s = .stop s := by
      rw [hstep, hb, exec_bad_opcode, clock_halt.1]
      have hp : ((s.pc + 1) % 65536 + 65535) % 65536 = s.pc := by omega
      simp only [hp, Nat.cast_zero, add_zero]
    exact ⟨h1, by simp only [runLoop, h1], rfl⟩
  · intro hh
    have h1 : step br s = .stop { s with pc := (s.pc + 1) % 65536, s_time := s.s_time + 2 } := by
      rw [hstep, exec_hlt br _ _ _ _ hh, clock_halt.2 _ hh]
      rfl
    exact ⟨h1, by simp only [runLoop, h1], rfl⟩

theorem halt_stops_witness :
    -32768 ≤ demoHltSt.s_time ∧ demoHltSt.s_time < 0 ∧ demoHltSt.pc < 65536
    ∧ (fetchOpcode demoHltSt = BAD_OPCODE →
      step demoBridge demoHltSt = .stop demoHltSt
      ∧ runLoop demoBridge (0 + 1) demoHltSt = some demoHltSt
      ∧ (commit demoHltSt).regs.pc = demoHltSt.pc)
    ∧ (isHLT (fetchOpcode demoHltSt) = true →
      step demoBridge demoHltSt
        = .stop { demoHltSt with pc := (demoHltSt.pc + 1) % 65536, s_time := demoHltSt.s_time + 2 }
      ∧ runLoop demoBridge (0 + 1) demoHltSt
        = some { demoHltSt with pc := (demoHltSt.pc + 1) % 65536, s_time := demoHltSt.s_time + 2 }
      ∧ (commit { demoHltSt with pc := (demoHltSt.pc + 1) % 65536,
                                 s_time := demoHltSt.s_time + 2 }).regs.pc
          = (demoHltSt.pc + 1) % 65536) :=
  ⟨by decide, by decide, by decide,
    halt_stops demoBridge demoHltSt 0 (by decide) (by decide) (by decide)⟩

/-- C8 as stated fails: the halt opcode 0x02 at address 0, fetched with the counter at -4,
stops `run`, and the committed PC is 1, not the address 0 of the halting opcode. -/
theorem halt_pc_counterexample :
    isHalt (fetchOpcode (demoHltSt)) = true
    ∧ (demoHltSt).s_time < 0
    ∧ (demoHltSt).pc = 0
    ∧ (step demoBridge (demoHltSt)).isStop = true
    ∧ (commit (step demoBridge (demoHltSt)).st).regs.pc ≠ (demoHltSt).pc
    ∧ (run demoBridge (fun o _ => o) 1 (demoObj [0x02] (-4)) 0).map (fun r => r.2.regs.pc)
        = some 1 := by
  decide

/-- A pass that ends at `stop` either came through `out_of_time` and leaves a counter
that is not negative, or executed a halt opcode and leaves the counter as charged. -/
theorem step_stop_cases (br : Bridge H) (s s1 : St H) (h : step br s = .stop s1) :
    (timeCheck s = true ∧ 0 ≤ s1.s_time)
    ∨ (timeCheck s = false ∧ isHalt (fetchOpcode s) = true
        ∧ s1.s_time = i16 (s.s_time + (clock (fetchOpcode s) : Int))) := by
  unfold step at h
  simp only [addTime, addPc] at h
  by_cases hc : 0 ≤ i16 (s.s_time + (clock (fetchOpcode s) : Int))
      ∧ ¬ i16 (s.s_time + (clock (fetchOpcode s) : Int)) < (clock (fetchOpcode s) : Int)
  · left
    rw [if_pos (by simpa using hc)] at h
    refine ⟨by simp only [timeCheck]; exact decide_eq_true hc, ?_⟩
    unfold out_of_time at h
    simp only at h
    split_ifs at h with h1 h2
    obtain rfl := Next.stop.inj h
    omega
  · right
    rw [if_neg (by simpa using hc)] at h
    obtain ⟨e1, e2⟩ := exec_stop br _ _ _ _ _ h
    exact ⟨by simp only [timeCheck]; exact decide_eq_false hc, e1, e2⟩

/-- The loop of `run` returns the state in which its last pass reached `stop`. -/
theorem runLoop_last (br : Bridge H) (fuel : Nat) (s s1 : St H)
    (h : runLoop br fuel s = some s1) : ∃ sl, step br sl = .stop s1 := by
  induction fuel generalizing s with
  | zero => simp [runLoop] at h
  | succ n ih =>
    simp only [runLoop] at h
    split at h
    · next s2 hs2 => exact ih s2 h
    · next s2 hs2 => exact ⟨s, by rw [hs2, Option.some.inj h]⟩

/-- On a counter whose charge does not overflow the 16-bit counter, the compiled time
check is the plain test `s_time >= 0`. -/
theorem timeCheck_iff (s : St H) (h1 : -32768 ≤ s.s_time)
    (h2 : s.s_time + (clock (fetchOpcode s) : Int) ≤ 32767) :
    timeCheck s = true ↔ 0 ≤ s.s_time := by
  have hi := i16_of_range (s.s_time + (clock (fetchOpcode s) : Int)) (by omega) (by omega)
  simp only [timeCheck, hi, decide_eq_true_eq]
  omega

/-- C9, as the code has it: `run` returns `s_time < 0` for the counter it commits. When
its last pass stopped at the quantum boundary (the time check sent it to `out_of_time`,
no interrupt was requested) it returns false. When its last pass stopped on a halt opcode
it returns true iff the counter with the halt opcode's table cost added is still
negative: always for `BAD_OPCODE` (cost 0), and for the other halt opcodes (cost 2) only
when the counter at fetch was below -2. -/
theorem run_result (br : Bridge H) (setEndTime : Obj H → Int → Obj H) (fuel : Nat) (o : Obj H)
    (end_time : Int) (b : Bool) (o1 : Obj H)
    (h : run br setEndTime fuel o end_time = some (b, o1)) :
    ∃ s1, o1 = commit s1 ∧ (b = true ↔ s1.s_time < 0)
      ∧ (∃ sl, step br sl = .stop s1)
      ∧ ∀ sl, step br sl = .stop s1 →
        (timeCheck sl = true → b = false)
        ∧ (timeCheck sl = false →
            isHalt (fetchOpcode sl) = true
            ∧ (b = true ↔ i16 (sl.s_time + (clock (fetchOpcode sl) : Int)) < 0))
        ∧ (-32768 ≤ sl.s_time → sl.s_time < 0 →
            isHalt (fetchOpcode sl) = true
            ∧ (b = true ↔ sl.s_time + (clock (fetchOpcode sl) : Int) < 0)
            ∧ (fetchOpcode sl = BAD_OPCODE → b = true)
            ∧ (isHLT (fetchOpcode sl) = true → (b = true ↔ sl.s_time < -2))) := by
  unfold run at h
  split at h
  · next s1 hs1 =>
    have hb : b = result s1 := by
      have := Option.some.inj h; rw [Prod.mk.injEq] at this; exact this.1.symm
    have ho : o1 = commit s1 := by
      have := Option.some.inj h; rw [Prod.mk.injEq] at this; exact this.2.symm
    have hres : b = true ↔ s1.s_time < 0 := by rw [hb, result, decide_eq_true_eq]
    refine ⟨s1, ho, hres, runLoop_last br fuel _ s1 hs1, ?_⟩
    intro sl hsl
    refine ⟨?_, ?_, ?_⟩
    · intro htc
      rcases step_stop_cases br sl s1 hsl with ⟨-, h0⟩ | ⟨hf, -⟩
      · cases b
        · rfl
        · have := hres.mp rfl; omega
      · rw [htc] at hf; cases hf
    · intro htc
      rcases step_stop_cases br sl s1 hsl with ⟨ht, -⟩ | ⟨-, e1, e2⟩
      · rw [htc] at ht; cases ht
      · exact ⟨e1, by rw [hres, e2]⟩
    · intro g1 g2
      have hk : (clock (fetchOpcode sl) : Int) ≤ 8 := by exact_mod_cast clock_le _
      have hk0 : (0 : Int) ≤ (clock (fetchOpcode sl) : Int) := Int.natCast_nonneg _
      have htc : ¬ timeCheck sl = true := by
        rw [timeCheck_iff sl g1 (by omega)]; omega
      have hi := i16_of_range (sl.s_time + (clock (fetchOpcode sl) : Int)) (by omega) (by omega)
      rcases step_stop_cases br sl s1 hsl with ⟨ht, -⟩ | ⟨-, e1, e2⟩
      · exact absurd ht htc
      · rw [hi] at e2
        refine ⟨e1, by rw [hres, e2], ?_, ?_⟩
        · intro hbad
          rw [hbad, clock_halt.1] at e2
          exact hres.mpr (by rw [e2]; simpa using g2)
        · intro hh
          rw [clock_halt.2 _ hh] at e2
          rw [hres, e2]
          constructor <;> intro <;> omega
  · cases h

theorem run_result_witness :
    run demoBridge (fun o _ => o) 1 (demoObj [0x02] (-1)) 0
        = some (false, commit (step demoBridge (demoSt [0x02] (-1))).st)
    ∧ ∃ s1, commit (step demoBridge (demoSt [0x02] (-1))).st = commit s1
      ∧ (false = true ↔ s1.s_time < 0)
      ∧ (∃ sl, step demoBridge sl = .stop s1)
      ∧ ∀ sl, step demoBridge sl = .stop s1 →
        (timeCheck sl = true → false = false)
        ∧ (timeCheck sl = false →
            isHalt (fetchOpcode sl) = true
            ∧ (false = true ↔ i16 (sl.s_time + (clock (fetchOpcode sl) : Int)) < 0))
        ∧ (-32768 ≤ sl.s_time → sl.s_time < 0 →
            isHalt (fetchOpcode sl) = true
            ∧ (false = true ↔ sl.s_time + (clock (fetchOpcode sl) : Int) < 0)
            ∧ (fetchOpcode sl = BAD_OPCODE → false = true)
            ∧ (isHLT (fetchOpcode sl) = true → (false = true ↔ sl.s_time < -2))) :=
  ⟨rfl, run_result demoBridge (fun o _ => o) 1 (demoObj [0x02] (-1)) 0 false
    (commit (step demoBridge (demoSt [0x02] (-1))).st) rfl⟩

/-- C9 as stated fails: the halt opcode 0x02 fetched with the counter at -1 is executed
(the time check lets it through) and stops `run`, yet `run` returns false, because the
two cycles charged for the opcode leave the counter at 1. -/
theorem run_result_counterexample :
    isHalt (fetchOpcode (demoSt [0x02] (-1))) = true
    ∧ (demoSt [0x02] (-1)).s_time < 0
    ∧ timeCheck (demoSt [0x02] (-1)) = false
    ∧ (step demoBridge (demoSt [0x02] (-1))).isStop = true
    ∧ (run demoBridge (fun o _ => o) 1 (demoObj [0x02] (-1)) 0).map (fun r => r.1)
        = some false := by
  decide

/-- The pass from `out_of_time` on, written for the state `s` before the fetch: the hook
is consulted with the counter and `pc` of `s`. -/
theorem out_of_time_restores (br : Bridge H) (s : St H) (hpc : s.pc < 65536) :
    out_of_time br { s with pc := (s.pc + 1) % 65536 }
      = (if (br.done (FLUSH_TIME s).o (TIME s)).1 ≥ 0 then
          .loop (interrupt (CACHE_TIME { s with o := (br.done (FLUSH_TIME s).o (TIME s)).2 })
            (br.done (FLUSH_TIME s).o (TIME s)).1)
        else if (CACHE_TIME { s with o := (br.done (FLUSH_TIME s).o (TIME s)).2 }).s_time < 0
          then .loop (CACHE_TIME { s with o := (br.done (FLUSH_TIME s).o (TIME s)).2 })
        else .stop (CACHE_TIME { s with o := (br.done (FLUSH_TIME s).o (TIME s)).2 })) := by
  have hp : ((s.pc + 1) % 65536 + 65535) % 65536 = s.pc := by omega
  unfold out_of_time
  dsimp only [FLUSH_TIME, CACHE_TIME, TIME]
  rw [hp]

/-- C10, on the counters whose charge fits the 16-bit counter: for every opcode with table
cost `k` and every time counter `t` at fetch with `-32768 <= t` and `t + k <= 32767`, if
`t < 0` the instruction is executed in full and charged its `k` cycles, even when
`t + k >= 0`; if `t >= 0` no part of the instruction is executed and the counter and PC
are back at their pre-fetch values (`t`, the opcode address) when the quantum-boundary
hook is consulted; and the fused add-then-undo check of the compiled `BLARGG_CPU_X86`
path decides exactly like the plain path "if t >= 0 stop, else t += k". -/
theorem time_check (br : Bridge H) (s : St H) (ht1 : -32768 ≤ s.s_time)
    (ht2 : s.s_time + (clock (fetchOpcode s) : Int) ≤ 32767) (hpc : s.pc < 65536) :
    (s.s_time < 0 →
      step br s = exec br (fetchOpcode s) ((fetchPtr s).add 1)
        (deref s.o ((fetchPtr s).add 1) 0)
        { s with pc := (s.pc + 1) % 65536, s_time := s.s_time + (clock (fetchOpcode s) : Int) })
    ∧ (0 ≤ s.s_time →
      step br s
        = (if (br.done (FLUSH_TIME s).o (TIME s)).1 ≥ 0 then
            .loop (interrupt (CACHE_TIME { s with o := (br.done (FLUSH_TIME s).o (TIME s)).2 })
              (br.done (FLUSH_TIME s).o (TIME s)).1)
          else if (CACHE_TIME { s with o := (br.done (FLUSH_TIME s).o (TIME s)).2 }).s_time < 0
            then .loop (CACHE_TIME { s with o := (br.done (FLUSH_TIME s).o (TIME s)).2 })
          else .stop (CACHE_TIME { s with o := (br.done (FLUSH_TIME s).o (TIME s)).2 })))
    ∧ step br s = step_plain br s := by
  have hk0 : (0 : Int) ≤ (clock (fetchOpcode s) : Int) := Int.natCast_nonneg _
  have hi := i16_of_range (s.s_time + (clock (fetchOpcode s) : Int)) (by omega) (by omega)
  have hi2 := i16_of_range s.s_time ht1 (by omega)
  have hpos : 0 ≤ s.s_time → step br s = out_of_time br { s with pc := (s.pc + 1) % 65536 } := by
    intro h0
    unfold step
    simp only [addTime, addPc, hi]
    rw [if_pos (by omega)]
    congr 1
    have : s.s_time + (clock (fetchOpcode s) : Int) + -(clock (fetchOpcode s) : Int)
        = s.s_time := by omega
    rw [this, hi2]
  refine ⟨fun h => step_of_neg br s ht1 h, ?_, ?_⟩
  · intro h0
    rw [hpos h0, out_of_time_restores br s hpc]
  · by_cases h0 : 0 ≤ s.s_time
    · rw [hpos h0]
      unfold step_plain
      simp only [addPc]
      rw [if_pos h0]
    · rw [step_of_neg br s ht1 (by omega)]
      unfold step_plain
      simp only [addPc, addTime, hi]
      rw [if_neg h0]

theorem time_check_witness :
    -32768 ≤ demoNopSt.s_time
    ∧ demoNopSt.s_time + (clock (fetchOpcode demoNopSt) : Int) ≤ 32767
    ∧ demoNopSt.pc < 65536
    ∧ ((demoNopSt.s_time < 0 →
        step demoBridge demoNopSt
          = exec demoBridge (fetchOpcode demoNopSt)
              ((fetchPtr demoNopSt).add 1)
              (deref demoNopSt.o ((fetchPtr demoNopSt).add 1) 0)
              { demoNopSt with
                pc := (demoNopSt.pc + 1) % 65536
                s_time := demoNopSt.s_time
                  + (clock (fetchOpcode demoNopSt) : Int) })
      ∧ (0 ≤ demoNopSt.s_time →
        step demoBridge demoNopSt
          = (if (demoBridge.done (FLUSH_TIME demoNopSt).o
                  (TIME demoNopSt)).1 ≥ 0 then
              .loop (interrupt (CACHE_TIME { demoNopSt with
                  o := (demoBridge.done (FLUSH_TIME demoNopSt).o
                    (TIME demoNopSt)).2 })
                (demoBridge.done (FLUSH_TIME demoNopSt).o
                  (TIME demoNopSt)).1)
            else if (CACHE_TIME { demoNopSt with
                  o := (demoBridge.done (FLUSH_TIME demoNopSt).o
                    (TIME demoNopSt)).2 }).s_time < 0
              then .loop (CACHE_TIME { demoNopSt with
                  o := (demoBridge.done (FLUSH_TIME demoNopSt).o
                    (TIME demoNopSt)).2 })
            else .stop (CACHE_TIME { demoNopSt with
                  o := (demoBridge.done (FLUSH_TIME demoNopSt).o
                    (TIME demoNopSt)).2 })))
      ∧ step demoBridge demoNopSt = step_plain demoBridge demoNopSt) :=
  ⟨by decide, by decide, by decide,
    time_check demoBridge demoNopSt (by decide) (by decide) (by decide)⟩

/-- C10 as stated fails: with the counter at 32766 (not negative) and the 2-cycle opcode
0xEA at `pc`, the fused check adds 2, the 16-bit counter wraps to -32768, and the
instruction is executed (`pc` advances to 1, the pass goes back to `loop`), whereas the
plain path "if t >= 0 stop" executes nothing and stops. -/
theorem time_check_counterexample :
    (0 : Int) ≤ demoWrapSt.s_time
    ∧ clock (fetchOpcode demoWrapSt) = 2
    ∧ (step demoBridge demoWrapSt).isStop = false
    ∧ (step demoBridge demoWrapSt).st.pc = 1
    ∧ (step demoBridge demoWrapSt).st.s_time = -32768
    ∧ (step_plain demoBridge demoWrapSt).isStop = true
    ∧ (step_plain demoBridge demoWrapSt).st.pc = 0
    ∧ step demoBridge demoWrapSt ≠ step_plain demoBridge demoWrapSt := by
  refine ⟨by decide, by decide, by decide, by decide, by decide, by decide, by decide, ?_⟩
  intro h
  have h1 : (step demoBridge demoWrapSt).isStop = false := by decide
  have h2 : (step_plain demoBridge demoWrapSt).isStop = true := by decide
  rw [h, h2] at h1
  cases h1

/-! ## Conditional branches -/

theorem exec_branch (br : Bridge H) (opcode : Nat) (instr : Ptr) (data : Nat) (s : St H)
    (h : isBranch opcode = true) :
    exec br opcode instr data s = .loop (BRANCH (branchTaken opcode s) data s) := by
  simp only [isBranch, Bool.or_eq_true, beq_iff_eq] at h
  rcases h with ((((((h | h) | h) | h) | h) | h) | h) | h <;> subst h <;>
    simp [exec, often_used, branch_ops, isArith, branchTaken, flagN, flagV, flagC, flagZ,
      and_0xFF, bne]

set_option maxRecDepth 100000 in
theorem clock_branch (opcode : Nat) (h : isBranch opcode = true) : clock opcode = 3 := by
  simp only [isBranch, Bool.or_eq_true, beq_iff_eq] at h
  rcases h with ((((((h | h) | h) | h) | h) | h) | h) | h <;> subst h <;> decide

/-- The body of `BRANCH` on the state after the fetch: `pc` is one past the opcode. -/
theorem BRANCH_spec (s : St H) (cond : Bool) (d : Nat)
    (ht1 : -32768 < s.s_time) (ht2 : s.s_time < 32767) :
    (BRANCH cond d s).a = s.a ∧ (BRANCH cond d s).x = s.x ∧ (BRANCH cond d s).y = s.y
    ∧ (BRANCH cond d s).sp = s.sp ∧ (BRANCH cond d s).status = s.status
    ∧ (BRANCH cond d s).c = s.c ∧ (BRANCH cond d s).nz = s.nz ∧ (BRANCH cond d s).o = s.o
    ∧ (cond = false →
        (BRANCH cond d s).pc = (s.pc + 1) % 65536 ∧ (BRANCH cond d s).s_time = s.s_time - 1)
    ∧ (cond = true →
        ((BRANCH cond d s).pc : Int) = (((s.pc + 1) % 65536 : Nat) + i8 d) % 65536
        ∧ (BRANCH cond d s).s_time = s.s_time
            + (if (BRANCH cond d s).pc / 256 ≠ ((s.pc + 1) % 65536) / 256 then 1 else 0)) := by
  cases cond
  · refine ⟨rfl, rfl, rfl, rfl, rfl, rfl, rfl, rfl, ?_, ?_⟩
    · intro _
      simp only [BRANCH, Bool.not_false, if_true]
      exact ⟨trivial, i16_of_range _ (by omega) (by omega)⟩
    · intro h; cases h
  · refine ⟨rfl, rfl, rfl, rfl, rfl, rfl, rfl, rfl, ?_, ?_⟩
    · intro h; cases h
    · intro _
      simp only [BRANCH, Bool.not_true, Bool.false_eq_true, if_false, addTime, u16i, and_0xFF,
        Nat.and_one_is_mod, shr8]
      have hi8 : -128 ≤ i8 d ∧ i8 d ≤ 127 := by unfold i8; split <;> omega
      refine ⟨?_, ?_⟩
      · omega
      · rw [i16_of_range _ (by omega) (by omega)]
        split <;> omega

theorem exec_lda_imm (br : Bridge H) (instr : Ptr) (data : Nat) (s : St H) :
    exec br 0xA9 instr data s = .loop { addPc s 1 with a := data % 256, nz := data } := by
  simp [exec, often_used, isArith]

/-- C11: for every conditional branch (BPL, BMI, BVC, BVS, BCC, BCS, BNE, BEQ) fetched at
address `p` with a negative counter and operand byte `d` (a signed 8-bit offset), nothing
but `pc` and the counter changes; the table cost is 3; if the condition is false, PC
becomes `(p + 2) mod 0x10000` and exactly 2 cycles are charged; if it is true, PC becomes
`(p + 2 + d) mod 0x10000` and 3 cycles are charged, plus exactly 1 more when the target lies
in a different 256-byte page than `p + 2`. In particular BEQ after `LDA #0` is taken and
BEQ after `LDA #v` with `v` non-zero is not. -/
theorem branch_timing (br : Bridge H) (s : St H) (d : Nat)
    (hop : isBranch (fetchOpcode s) = true)
    (ht1 : -32768 ≤ s.s_time) (ht2 : s.s_time < 0)
    (hd : deref s.o ((fetchPtr s).add 1) 0 = d) :
    ∃ s1, step br s = .loop s1
      ∧ s1.a = s.a ∧ s1.x = s.x ∧ s1.y = s.y ∧ s1.sp = s.sp ∧ s1.status = s.status
      ∧ s1.c = s.c ∧ s1.nz = s.nz ∧ s1.o = s.o
      ∧ clock (fetchOpcode s) = 3
      ∧ (branchTaken (fetchOpcode s) s = false →
          s1.pc = (s.pc + 2) % 65536 ∧ s1.s_time = s.s_time + 2)
      ∧ (branchTaken (fetchOpcode s) s = true →
          (s1.pc : Int) = ((s.pc : Int) + 2 + i8 d) % 65536
          ∧ s1.s_time = s.s_time + 3
              + (if s1.pc / 256 ≠ ((s.pc + 2) % 65536) / 256 then 1 else 0))
      ∧ (∀ (instr0 : Ptr) (v : Nat) (s0 : St H), v < 256 →
          branchTaken 0xF0 (exec br 0xA9 instr0 v s0).st = decide (v = 0)) := by
  have hk := clock_branch _ hop
  have hstep := step_of_neg br s ht1 ht2
  rw [exec_branch br _ _ _ _ hop, hd, hk] at hstep
  obtain ⟨s0, hs0⟩ : ∃ s0 : St H,
      s0 = { s with pc := (s.pc + 1) % 65536, s_time := s.s_time + ((3 : Nat) : Int) } :=
    ⟨_, rfl⟩
  rw [← hs0] at hstep
  have hb : branchTaken (fetchOpcode s) s0 = branchTaken (fetchOpcode s) s := by rw [hs0]; rfl
  have hp0 : s0.pc = (s.pc + 1) % 65536 := by rw [hs0]
  have ht0 : s0.s_time = s.s_time + 3 := by rw [hs0]; rfl
  obtain ⟨b1, b2, b3, b4, b5, b6, b7, b8, b9, b10⟩ :=
    BRANCH_spec s0 (branchTaken (fetchOpcode s) s0) d (by omega) (by omega)
  rw [hb] at b1 b2 b3 b4 b5 b6 b7 b8 b9 b10 hstep
  have hp2 : (s0.pc + 1) % 65536 = (s.pc + 2) % 65536 := by rw [hp0]; omega
  refine ⟨_, hstep, ?_, ?_, ?_, ?_, ?_, ?_, ?_, ?_, hk, ?_, ?_, ?_⟩
  · rw [b1, hs0]
  · rw [b2, hs0]
  · rw [b3, hs0]
  · rw [b4, hs0]
  · rw [b5, hs0]
  · rw [b6, hs0]
  · rw [b7, hs0]
  · rw [b8, hs0]
  · intro hf
    obtain ⟨c1, c2⟩ := b9 hf
    exact ⟨by rw [c1, hp2], by rw [c2, ht0]; omega⟩
  · intro htk
    obtain ⟨c1, c2⟩ := b10 htk
    rw [hp2] at c1 c2
    refine ⟨?_, by rw [c2, ht0]⟩
    rw [c1]
    omega
  · intro instr0 v s1 hv
    rw [exec_lda_imm]
    simp only [branchTaken, Next.st, flagZ, and_0xFF]
    simp only [Nat.reduceEqDiff, if_false]
    rw [Nat.mod_eq_of_lt hv]
    cases hv0 : decide (v = 0) <;> simp_all

theorem branch_timing_witness :
    isBranch (fetchOpcode demoBneSt) = true
    ∧ -32768 ≤ demoBneSt.s_time ∧ demoBneSt.s_time < 0
    ∧ deref demoBneSt.o ((fetchPtr demoBneSt).add 1) 0 = 0x04 ∧
    ∃ s1, step demoBridge demoBneSt = .loop s1
      ∧ s1.a = demoBneSt.a ∧ s1.x = demoBneSt.x ∧ s1.y = demoBneSt.y ∧ s1.sp = demoBneSt.sp ∧ s1.status = demoBneSt.status
      ∧ s1.c = demoBneSt.c ∧ s1.nz = demoBneSt.nz ∧ s1.o = demoBneSt.o
      ∧ clock (fetchOpcode demoBneSt) = 3
      ∧ (branchTaken (fetchOpcode demoBneSt) demoBneSt = false →
          s1.pc = (demoBneSt.pc + 2) % 65536 ∧ s1.s_time = demoBneSt.s_time + 2)
      ∧ (branchTaken (fetchOpcode demoBneSt) demoBneSt = true →
          (s1.pc : Int) = ((demoBneSt.pc : Int) + 2 + i8 0x04) % 65536
          ∧ s1.s_time = demoBneSt.s_time + 3
              + (if s1.pc / 256 ≠ ((demoBneSt.pc + 2) % 65536) / 256 then 1 else 0))
      ∧ (∀ (instr0 : Ptr) (v : Nat) (s0 : St Unit), v < 256 →
          branchTaken 0xF0 (exec demoBridge 0xA9 instr0 v s0).st = decide (v = 0)) :=
  ⟨by decide, by decide, by decide, by decide,
    branch_timing demoBridge demoBneSt 0x04 (by decide) (by decide) (by decide) (by decide)⟩

/-! ## JSR and RTS -/

theorem exec_jsr (br : Bridge H) (instr : Ptr) (data : Nat) (s : St H) :
    exec br 0x20 instr data s
      = .loop { s with pc := GET_ADDR s instr, sp := (s.sp - 2) ||| 0x100,
                       o := WRITE_LOW (WRITE_LOW s.o (0x100 ||| (s.sp - 1))
                              (((s.pc + 1) % 65536) >>> 8))
                              ((s.sp - 2) ||| 0x100) ((s.pc + 1) % 65536) } := by
  simp [exec, often_used, isArith]

theorem exec_rts (br : Bridge H) (instr : Ptr) (data : Nat) (s : St H) :
    exec br 0x60 instr data s
      = .loop { s with pc := ((1 + READ_LOW s.o s.sp) % 65536
                              + 0x100 * READ_LOW s.o (0x100 ||| (s.sp - 0xFF))) % 65536,
                       sp := (s.sp - 0xFE) ||| 0x100 } := by
  simp [exec, often_used, isArith]

theorem clock_jsr_rts : clock 0x20 = 6 ∧ clock 0x60 = 6 := by decide

theorem jsr_sp_eq (sp : Nat) (h1 : 0x100 ≤ sp) (h2 : sp ≤ 0x1FF) :
    jsr_sp sp = 0x100 + (sp + 254) % 256 := (sp_or sp 2 h1 h2 (by omega)).2

theorem rts_sp_eq (sp : Nat) (h1 : 0x100 ≤ sp) (h2 : sp ≤ 0x1FF) :
    rts_sp sp = 0x100 + (sp + 2) % 256 := (sp_or sp 0xFE h1 h2 (by omega)).2

theorem spAfter_eq (ops : List Bool) (sp : Nat) (h1 : 0x100 ≤ sp) (h2 : sp ≤ 0x1FF) :
    spAfter ops sp = 0x100 + (sp + 254 * ops.count true + 2 * ops.count false) % 256 := by
  induction ops generalizing sp with
  | nil => simp [spAfter]; omega
  | cons b ops ih =>
    cases b
    · rw [spAfter, ih _ (by rw [rts_sp_eq sp h1 h2]; omega) (by rw [rts_sp_eq sp h1 h2]; omega),
        rts_sp_eq sp h1 h2]
      simp only [List.count_cons, beq_self_eq_true, if_true, Bool.false_eq_true, if_false,
        show ((false == true) = false) from rfl, Nat.add_zero]
      omega
    · rw [spAfter, ih _ (by rw [jsr_sp_eq sp h1 h2]; omega) (by rw [jsr_sp_eq sp h1 h2]; omega),
        jsr_sp_eq sp h1 h2]
      simp only [List.count_cons, beq_self_eq_true, if_true, Bool.false_eq_true, if_false,
        show ((true == false) = false) from rfl, Nat.add_zero]
      omega

/-- C12: for every JSR fetched at address `p` with a negative counter and every stack
pointer value (the pushes wrap within the stack page, also from SP = 0x00 and 0x01), JSR
pushes the two bytes of `(p + 2) mod 0x10000`, high byte first, at 0x100 + SP and
0x100 + (SP - 1) mod 256, changes no other low-memory cell, decreases SP by 2 mod 256 and
jumps to the operand address; an RTS executed with the same SP and the two pushed bytes
unchanged sets PC = `(p + 3) mod 0x10000` and restores SP to its value before the JSR.
Consequently every sequence of JSRs and RTSs with as many returns as calls, in particular
`n` calls followed by `n` returns, leaves SP unchanged. -/
theorem jsr_rts_round_trip (br : Bridge H) (s : St H) (hop : fetchOpcode s = 0x20)
    (ht1 : -32768 ≤ s.s_time) (ht2 : s.s_time < 0)
    (hsp1 : 0x100 ≤ s.sp) (hsp2 : s.sp ≤ 0x1FF) :
    ∃ s1, step br s = .loop s1
      ∧ READ_LOW s1.o (0x100 + GET_SP s.sp) = ((s.pc + 2) % 65536) / 256
      ∧ READ_LOW s1.o (0x100 + (GET_SP s.sp + 255) % 256) = ((s.pc + 2) % 65536) % 256
      ∧ (∀ i, i ≠ 0x100 + GET_SP s.sp → i ≠ 0x100 + (GET_SP s.sp + 255) % 256 →
          s1.o.lowMem i = s.o.lowMem i)
      ∧ s1.sp = jsr_sp s.sp
      ∧ GET_SP s1.sp = (GET_SP s.sp + 254) % 256
      ∧ s1.pc = GET_LE16 s.o ((fetchPtr s).add 1)
      ∧ (∀ s2 : St H, fetchOpcode s2 = 0x60 → -32768 ≤ s2.s_time → s2.s_time < 0 →
          s2.sp = s1.sp →
          READ_LOW s2.o (0x100 + GET_SP s.sp) = READ_LOW s1.o (0x100 + GET_SP s.sp) →
          READ_LOW s2.o (0x100 + (GET_SP s.sp + 255) % 256)
            = READ_LOW s1.o (0x100 + (GET_SP s.sp + 255) % 256) →
          ∃ s3, step br s2 = .loop s3 ∧ s3.pc = (s.pc + 3) % 65536 ∧ s3.sp = rts_sp s2.sp
            ∧ s3.sp = s.sp ∧ GET_SP s3.sp = GET_SP s.sp)
      ∧ (∀ ops : List Bool, ops.count true = ops.count false → spAfter ops s.sp = s.sp)
      ∧ (∀ n, spAfter (List.replicate n true ++ List.replicate n false) s.sp = s.sp) := by
  have hstep := step_of_neg br s ht1 ht2
  rw [hop, exec_jsr] at hstep
  have hg := GET_SP_eq s.sp (by omega)
  obtain ⟨a1, -⟩ := sp_or s.sp 1 hsp1 hsp2 (by omega)
  obtain ⟨-, a2⟩ := sp_or s.sp 2 hsp1 hsp2 (by omega)
  simp only [Nat.reduceSub] at a1 a2
  have hp2 : ((s.pc + 1) % 65536 + 1) % 65536 = (s.pc + 2) % 65536 := by omega
  simp only [hp2, a1, a2, WRITE_LOW] at hstep
  have hbal : ∀ ops : List Bool, ops.count true = ops.count false → spAfter ops s.sp = s.sp := by
    intro ops hcount
    rw [spAfter_eq ops s.sp hsp1 hsp2, hcount]
    omega
  refine ⟨_, hstep, ?_, ?_, ?_, ?_, ?_, ?_, ?_, hbal, ?_⟩
  · simp only [READ_LOW, hg, Nat.shiftRight_eq_div_pow]
    split_ifs <;> omega
  · simp only [READ_LOW, hg]
    split_ifs <;> omega
  · intro i n1 n2
    rw [hg] at n1 n2
    simp only
    rw [if_neg (by omega), if_neg (by omega)]
  · simp only [jsr_sp_eq s.sp hsp1 hsp2]
  · simp only [GET_SP_eq _ (show 1 ≤ 256 + (s.sp + 254) % 256 by omega), hg]; omega
  · rfl
  · intro s2 hop2 u1 u2 hsp hr1 hr2
    have hstep2 := step_of_neg br s2 u1 u2
    rw [hop2, exec_rts] at hstep2
    simp only at hsp
    have h2a : 0x100 ≤ s2.sp := by rw [hsp]; omega
    have h2b : s2.sp ≤ 0x1FF := by rw [hsp]; omega
    obtain ⟨b1, -⟩ := sp_or s2.sp 0xFF h2a h2b (by omega)
    obtain ⟨-, b2⟩ := sp_or s2.sp 0xFE h2a h2b (by omega)
    simp only [Nat.reduceSub] at b1 b2
    have e1 : 0x100 + (s2.sp + 1) % 256 = 0x100 + GET_SP s.sp := by rw [hsp, hg]; omega
    have e2 : s2.sp = 0x100 + (GET_SP s.sp + 255) % 256 := by rw [hsp, hg]; omega
    have v1 : READ_LOW s2.o (0x100 + (s2.sp + 1) % 256) = ((s.pc + 2) % 65536) / 256 := by
      rw [e1, hr1]
      simp only [READ_LOW, hg, Nat.shiftRight_eq_div_pow]
      split_ifs <;> omega
    have v2 : READ_LOW s2.o s2.sp = ((s.pc + 2) % 65536) % 256 := by
      rw [e2, hr2]
      simp only [READ_LOW, hg]
      split_ifs <;> omega
    simp only [b1, b2, v1, v2] at hstep2
    refine ⟨_, hstep2, ?_, ?_, ?_, ?_⟩
    · simp only; omega
    · simp only [rts_sp_eq s2.sp h2a h2b]
    · simp only [hsp]; omega
    · simp only [hsp]
      rw [GET_SP_eq _ (by omega), hg]; omega
  · intro n
    exact hbal _ (by simp [List.count_append, List.count_replicate])

theorem jsr_rts_round_trip_witness :
    fetchOpcode demoJsrSt = 0x20 ∧ -32768 ≤ demoJsrSt.s_time ∧ demoJsrSt.s_time < 0
    ∧ 0x100 ≤ demoJsrSt.sp ∧ demoJsrSt.sp ≤ 0x1FF ∧
    ∃ s1, step demoBridge demoJsrSt = .loop s1
      ∧ READ_LOW s1.o (0x100 + GET_SP demoJsrSt.sp) = ((demoJsrSt.pc + 2) % 65536) / 256
      ∧ READ_LOW s1.o (0x100 + (GET_SP demoJsrSt.sp + 255) % 256) = ((demoJsrSt.pc + 2) % 65536) % 256
      ∧ (∀ i, i ≠ 0x100 + GET_SP demoJsrSt.sp → i ≠ 0x100 + (GET_SP demoJsrSt.sp + 255) % 256 →
          s1.o.lowMem i = demoJsrSt.o.lowMem i)
      ∧ s1.sp = jsr_sp demoJsrSt.sp
      ∧ GET_SP s1.sp = (GET_SP demoJsrSt.sp + 254) % 256
      ∧ s1.pc = GET_LE16 demoJsrSt.o ((fetchPtr demoJsrSt).add 1)
      ∧ (∀ s2 : St Unit, fetchOpcode s2 = 0x60 → -32768 ≤ s2.s_time → s2.s_time < 0 →
          s2.sp = s1.sp →
          READ_LOW s2.o (0x100 + GET_SP demoJsrSt.sp) = READ_LOW s1.o (0x100 + GET_SP demoJsrSt.sp) →
          READ_LOW s2.o (0x100 + (GET_SP demoJsrSt.sp + 255) % 256)
            = READ_LOW s1.o (0x100 + (GET_SP demoJsrSt.sp + 255) % 256) →
          ∃ s3, step demoBridge s2 = .loop s3 ∧ s3.pc = (demoJsrSt.pc + 3) % 65536 ∧ s3.sp = rts_sp s2.sp
            ∧ s3.sp = demoJsrSt.sp ∧ GET_SP s3.sp = GET_SP demoJsrSt.sp)
      ∧ (∀ ops : List Bool, ops.count true = ops.count false → spAfter ops demoJsrSt.sp = demoJsrSt.sp)
      ∧ (∀ n, spAfter (List.replicate n true ++ List.replicate n false) demoJsrSt.sp = demoJsrSt.sp) :=
  ⟨by decide, by decide, by decide, by decide, by decide,
    jsr_rts_round_trip demoBridge demoJsrSt (by decide) (by decide) (by decide) (by decide)
      (by decide)⟩

/-! ## The fallback path -/

theorem often_used_isSome (br : Bridge H) (opcode : Nat) (instr : Ptr) (data : Nat) (s : St H) :
    (often_used br opcode instr data s).isSome = (often_used demoBridge opcode ⟨0, 0⟩ 0 (demoSt [] 0)).isSome := by
  unfold often_used
  simp only [apply_ite Option.isSome, Option.isSome_some, Option.isSome_none, ite_self]

theorem branch_ops_isSome (opcode : Nat) (data : Nat) (s : St H) :
    (branch_ops opcode data s).isSome = (branch_ops opcode 0 (demoSt [] 0)).isSome := by
  unfold branch_ops
  simp only [apply_ite Option.isSome, Option.isSome_some, Option.isSome_none, ite_self]

theorem load_store_isSome (br : Bridge H) (opcode : Nat) (instr : Ptr) (data : Nat) (s : St H) :
    (load_store br opcode instr data s).isSome = (load_store demoBridge opcode ⟨0, 0⟩ 0 (demoSt [] 0)).isSome := by
  unfold load_store
  simp only [apply_ite Option.isSome, Option.isSome_some, Option.isSome_none, ite_self]

theorem compare_isSome (br : Bridge H) (opcode : Nat) (instr : Ptr) (data : Nat) (s : St H) :
    (compare br opcode instr data s).isSome = (compare demoBridge opcode ⟨0, 0⟩ 0 (demoSt [] 0)).isSome := by
  unfold compare
  simp only [apply_ite Option.isSome, Option.isSome_some, Option.isSome_none, ite_self]

theorem logical_isSome (br : Bridge H) (opcode : Nat) (instr : Ptr) (data : Nat) (s : St H) :
    (logical br opcode instr data s).isSome = (logical demoBridge opcode ⟨0, 0⟩ 0 (demoSt [] 0)).isSome := by
  unfold logical
  simp only [apply_ite Option.isSome, Option.isSome_some, Option.isSome_none, ite_self]

theorem add_subtract_isSome (br : Bridge H) (opcode : Nat) (instr : Ptr) (data : Nat) (s : St H) :
    (add_subtract br opcode instr data s).isSome = (add_subtract demoBridge opcode ⟨0, 0⟩ 0 (demoSt [] 0)).isSome := by
  unfold add_subtract
  simp only [apply_ite Option.isSome, Option.isSome_some, Option.isSome_none, ite_self]

theorem shift_rotate_isSome (br : Bridge H) (opcode : Nat) (instr : Ptr) (data : Nat) (s : St H) :
    (shift_rotate br opcode instr data s).isSome = (shift_rotate demoBridge opcode ⟨0, 0⟩ 0 (demoSt [] 0)).isSome := by
  unfold shift_rotate
  simp only [apply_ite Option.isSome, Option.isSome_some, Option.isSome_none, ite_self]

theorem inc_dec_isSome (br : Bridge H) (opcode : Nat) (instr : Ptr) (data : Nat) (s : St H) :
    (inc_dec br opcode instr data s).isSome = (inc_dec demoBridge opcode ⟨0, 0⟩ 0 (demoSt [] 0)).isSome := by
  unfold inc_dec
  simp only [apply_ite Option.isSome, Option.isSome_some, Option.isSome_none, ite_self]

theorem transfer_isSome (opcode : Nat) (s : St H) :
    (transfer opcode s).isSome = (transfer opcode (demoSt [] 0)).isSome := by
  unfold transfer
  simp only [apply_ite Option.isSome, Option.isSome_some, Option.isSome_none, ite_self]

theorem stack_isSome (opcode : Nat) (instr : Ptr) (s : St H) :
    (stack opcode instr s).isSome = (stack opcode ⟨0, 0⟩ (demoSt [] 0)).isSome := by
  unfold stack
  simp only [apply_ite Option.isSome, Option.isSome_some, Option.isSome_none, ite_self]

theorem flags_isSome (opcode : Nat) (s : St H) :
    (flags opcode s).isSome = (flags opcode (demoSt [] 0)).isSome := by
  unfold flags
  simp only [apply_ite Option.isSome, Option.isSome_some, Option.isSome_none, ite_self]

theorem unofficial_isSome (opcode : Nat) (data : Nat) (s : St H) :
    (unofficial opcode data s).isSome = (unofficial opcode 0 (demoSt [] 0)).isSome := by
  unfold unofficial
  simp only [apply_ite Option.isSome, Option.isSome_some, Option.isSome_none, ite_self]

theorem isSome_false_none {α : Type} (x : Option α) (h : x.isSome = false) : x = none := by
  cases x
  · rfl
  · cases h

/-- An opcode without a case label reaches `default`. -/
theorem exec_default (br : Bridge H) (opcode : Nat) (instr : Ptr) (data : Nat) (s : St H)
    (h : hasCase opcode = false) :
    exec br opcode instr data s = .loop (unimplemented opcode data s) := by
  simp only [hasCase, Bool.or_eq_false_iff] at h
  obtain ⟨⟨⟨⟨⟨⟨⟨⟨⟨⟨⟨h1, h2⟩, h3⟩, h4⟩, h5⟩, h6⟩, h7⟩, h8⟩, h9⟩, h10⟩, h11⟩, h12⟩ := h
  rw [← often_used_isSome br opcode instr data s] at h1
  rw [← branch_ops_isSome opcode data s] at h2
  rw [← load_store_isSome br opcode instr data s] at h3
  rw [← compare_isSome br opcode instr data s] at h4
  rw [← logical_isSome br opcode instr data s] at h5
  rw [← add_subtract_isSome br opcode instr data s] at h6
  rw [← shift_rotate_isSome br opcode instr data s] at h7
  rw [← inc_dec_isSome br opcode instr data s] at h8
  rw [← transfer_isSome opcode s] at h9
  rw [← stack_isSome opcode instr s] at h10
  rw [← flags_isSome opcode s] at h11
  rw [← unofficial_isSome opcode data s] at h12
  unfold exec
  rw [isSome_false_none _ h1, isSome_false_none _ h2, isSome_false_none _ h3,
    isSome_false_none _ h4, isSome_false_none _ h5, isSome_false_none _ h6,
    isSome_false_none _ h7, isSome_false_none _ h8, isSome_false_none _ h9,
    isSome_false_none _ h10, isSome_false_none _ h11, isSome_false_none _ h12]

/-- An opcode with a case label is handled by the section that has it. -/
theorem exec_of_case (br : Bridge H) (opcode : Nat) (instr : Ptr) (data : Nat) (s : St H)
    (h : hasCase opcode = true) :
    often_used br opcode instr data s = some (exec br opcode instr data s)
    ∨ branch_ops opcode data s = some (exec br opcode instr data s)
    ∨ load_store br opcode instr data s = some (exec br opcode instr data s)
    ∨ compare br opcode instr data s = some (exec br opcode instr data s)
    ∨ logical br opcode instr data s = some (exec br opcode instr data s)
    ∨ add_subtract br opcode instr data s = some (exec br opcode instr data s)
    ∨ shift_rotate br opcode instr data s = some (exec br opcode instr data s)
    ∨ inc_dec br opcode instr data s = some (exec br opcode instr data s)
    ∨ transfer opcode s = some (exec br opcode instr data s)
    ∨ stack opcode instr s = some (exec br opcode instr data s)
    ∨ flags opcode s = some (exec br opcode instr data s)
    ∨ unofficial opcode data s = some (exec br opcode instr data s) := by
  unfold exec
  cases h1 : often_used br opcode instr data s with
  | some r => exact Or.inl rfl
  | none =>
  right
  cases h2 : branch_ops opcode data s with
  | some r => exact Or.inl rfl
  | none =>
  right
  cases h3 : load_store br opcode instr data s with
  | some r => exact Or.inl rfl
  | none =>
  right
  cases h4 : compare br opcode instr data s with
  | some r => exact Or.inl rfl
  | none =>
  right
  cases h5 : logical br opcode instr data s with
  | some r => exact Or.inl rfl
  | none =>
  right
  cases h6 : add_subtract br opcode instr data s with
  | some r => exact Or.inl rfl
  | none =>
  right
  cases h7 : shift_rotate br opcode instr data s with
  | some r => exact Or.inl rfl
  | none =>
  right
  cases h8 : inc_dec br opcode instr data s with
  | some r => exact Or.inl rfl
  | none =>
  right
  cases h9 : transfer opcode s with
  | some r => exact Or.inl rfl
  | none =>
  right
  cases h10 : stack opcode instr s with
  | some r => exact Or.inl rfl
  | none =>
  right
  cases h11 : flags opcode s with
  | some r => exact Or.inl rfl
  | none =>
  right
  cases h12 : unofficial opcode data s with
  | some r => rfl
  | none =>
    exfalso
    have e1 := often_used_isSome br opcode instr data s
    have e2 := branch_ops_isSome opcode data s
    have e3 := load_store_isSome br opcode instr data s
    have e4 := compare_isSome br opcode instr data s
    have e5 := logical_isSome br opcode instr data s
    have e6 := add_subtract_isSome br opcode instr data s
    have e7 := shift_rotate_isSome br opcode instr data s
    have e8 := inc_dec_isSome br opcode instr data s
    have e9 := transfer_isSome opcode s
    have e10 := stack_isSome opcode instr s
    have e11 := flags_isSome opcode s
    have e12 := unofficial_isSome opcode data s
    rw [h1] at e1; rw [h2] at e2; rw [h3] at e3; rw [h4] at e4; rw [h5] at e5; rw [h6] at e6
    rw [h7] at e7; rw [h8] at e8; rw [h9] at e9; rw [h10] at e10; rw [h11] at e11
    rw [h12] at e12
    simp only [hasCase, ← e1, ← e2, ← e3, ← e4, ← e5, ← e6, ← e7, ← e8, ← e9, ← e10, ← e11,
      ← e12, Option.isSome_none, Bool.or_self, Bool.false_eq_true] at h

set_option maxRecDepth 1000000 in
/-- The opcodes without a case label are the ones the specification names. -/
theorem hasCase_iff : ∀ opcode, opcode < 256 → hasCase opcode = !isFallback opcode := by
  decide

set_option maxRecDepth 1000000 in
/-- The byte count that `default` computes from `illop_lens` is the documented one. -/
theorem illop_len : ∀ opcode, opcode < 256 → isFallback opcode = true →
    (if opcode = 0x9C then 2
      else ((illop_lens.getD ((opcode >>> 2) &&& 7) 0) >>> ((opcode <<< 1) &&& 6)) &&& 3)
      = fallbackLen opcode := by
  decide

theorem or_one_bit8 (c : Nat) : ((c ||| 1) % 65536) / 256 % 2 = c / 256 % 2 := by
  have h : ((c ||| 1) % 65536).testBit 8 = c.testBit 8 := by
    have h1 : Nat.testBit 1 8 = false := by decide
    rw [show (65536 : Nat) = 2 ^ 16 from rfl, Nat.testBit_mod_two_pow, Nat.testBit_or, h1]
    simp
  simp only [Nat.testBit, Nat.shiftRight_eq_div_pow, Nat.one_and_eq_mod_two] at h
  have e : (2 : Nat) ^ 8 = 256 := rfl
  rw [e] at h
  have h1 := Nat.mod_two_eq_zero_or_one (((c ||| 1) % 65536) / 256)
  have h2 := Nat.mod_two_eq_zero_or_one (c / 256)
  rcases h1 with h1 | h1 <;> rcases h2 with h2 | h2 <;> simp_all

/-- The body of `case 0xFF` and `default` for an opcode of the fallback set. -/
theorem unimplemented_spec (opcode data : Nat) (s : St H) (hop : opcode < 256)
    (hf : isFallback opcode = true) :
    (unimplemented opcode data s).pc = (s.pc + fallbackLen opcode) % 65536
    ∧ (unimplemented opcode data s).a = s.a ∧ (unimplemented opcode data s).x = s.x
    ∧ (unimplemented opcode data s).y = s.y ∧ (unimplemented opcode data s).sp = s.sp
    ∧ (unimplemented opcode data s).status = s.status
    ∧ (unimplemented opcode data s).nz = s.nz
    ∧ flagC (unimplemented opcode data s) = flagC s
    ∧ CALC_STATUS (unimplemented opcode data s) = CALC_STATUS s
    ∧ (unimplemented opcode data s).o = { s.o with errorsNum := s.o.errorsNum + 1 } := by
  have hl := illop_len opcode hop hf
  have hc : ∀ c : Nat, (c ||| 1) % 65536 &&& 0x100 = c &&& 0x100 := by
    intro c; rw [and_0x100, and_0x100, or_one_bit8]
  have hc2 : ∀ c : Nat, ((c ||| 1) % 65536) >>> 8 &&& 1 = c >>> 8 &&& 1 := by
    intro c; rw [shr8, shr8, Nat.and_one_is_mod, Nat.and_one_is_mod, or_one_bit8]
  unfold unimplemented
  simp only [hl]
  split_ifs <;>
    simp [HANDLE_PAGE_CROSSING, addTime, addPc, flagC, CALC_STATUS, hc, hc2, ST_C]

/-- C15: every opcode of the fallback set (low two bits 11 except 0xEB, plus 0x9C and
0x9E) has no case label, so a pass that fetches one at address `p` with a negative counter
runs the `default` path: PC becomes `p + 1 +` the operand bytes of the opcode (1 for the
columns x3, x7 and xB in even rows, 2 for xF, xB in odd rows, 0x9C and 0x9E), mod 0x10000;
a, x, y, sp, the flags (status word, `nz`, the carry, hence the packed status byte) and the
whole object except the error counter, low memory included, are unchanged; and the pass
returns to `loop`. -/
theorem fallback_skips_operands (br : Bridge H) (s : St H)
    (hf : isFallback (fetchOpcode s) = true)
    (ht1 : -32768 ≤ s.s_time) (ht2 : s.s_time < 0) :
    hasCase (fetchOpcode s) = false
    ∧ ∃ s1, step br s = .loop s1
      ∧ s1.pc = (s.pc + 1 + fallbackLen (fetchOpcode s)) % 65536
      ∧ s1.a = s.a ∧ s1.x = s.x ∧ s1.y = s.y ∧ s1.sp = s.sp
      ∧ s1.status = s.status ∧ s1.nz = s.nz ∧ flagC s1 = flagC s
      ∧ CALC_STATUS s1 = CALC_STATUS s
      ∧ s1.o.lowMem = s.o.lowMem
      ∧ s1.o = { s.o with errorsNum := s.o.errorsNum + 1 } := by
  have hop : fetchOpcode s < 256 := deref_lt _ _ _
  have hcase : hasCase (fetchOpcode s) = false := by
    rw [hasCase_iff _ hop, hf]; rfl
  have hstep := step_of_neg br s ht1 ht2
  rw [exec_default br _ _ _ _ hcase] at hstep
  obtain ⟨u1, u2, u3, u4, u5, u6, u7, u8, u9, u10⟩ :=
    unimplemented_spec (fetchOpcode s) (deref s.o ((fetchPtr s).add 1) 0)
      { s with pc := (s.pc + 1) % 65536,
               s_time := s.s_time + (clock (fetchOpcode s) : Int) } hop hf
  refine ⟨hcase, _, hstep, ?_, u2, u3, u4, u5, u6, u7, ?_, ?_, ?_, u10⟩
  · rw [u1]; simp only; omega
  · rw [u8]; rfl
  · rw [u9]; rfl
  · rw [u10]

theorem fallback_skips_operands_witness :
    isFallback (fetchOpcode demoIllSt) = true
    ∧ -32768 ≤ demoIllSt.s_time ∧ demoIllSt.s_time < 0
    ∧ hasCase (fetchOpcode demoIllSt) = false
    ∧ ∃ s1, step demoBridge demoIllSt = .loop s1
      ∧ s1.pc = (demoIllSt.pc + 1 + fallbackLen (fetchOpcode demoIllSt)) % 65536
      ∧ s1.a = demoIllSt.a ∧ s1.x = demoIllSt.x ∧ s1.y = demoIllSt.y ∧ s1.sp = demoIllSt.sp
      ∧ s1.status = demoIllSt.status ∧ s1.nz = demoIllSt.nz ∧ flagC s1 = flagC demoIllSt
      ∧ CALC_STATUS s1 = CALC_STATUS demoIllSt
      ∧ s1.o.lowMem = demoIllSt.o.lowMem
      ∧ s1.o = { demoIllSt.o with errorsNum := demoIllSt.o.errorsNum + 1 } :=
  ⟨by decide, by decide, by decide,
    fallback_skips_operands demoBridge demoIllSt (by decide) (by decide) (by decide)⟩

/-! ## The error counter -/

theorem ErrKept_none (s : St H) : ErrKept s none := by
  intro x h; cases h

theorem ErrKept_some (s : St H) (x : Next H) (h : x.st.o.errorsNum = s.o.errorsNum) :
    ErrKept s (some x) := by
  intro y hy; obtain rfl := Option.some.inj hy; exact h

theorem ErrKept_ite (s : St H) {c : Prop} [Decidable c] {a b : Option (Next H)}
    (ha : ErrKept s a) (hb : ErrKept s b) : ErrKept s (if c then a else b) := by
  split <;> assumption

theorem ite_st_o (c : Prop) [Decidable c] (a b : St H) :
    (if c then a else b).o = if c then a.o else b.o := apply_ite St.o c a b

theorem ite_obj_err (c : Prop) [Decidable c] (a b : Obj H) :
    (if c then a else b).errorsNum = if c then a.errorsNum else b.errorsNum :=
  apply_ite Obj.errorsNum c a b

theorem ite_prod_snd (c : Prop) [Decidable c] (a b : Nat × St H) :
    (if c then a else b).2 = if c then a.2 else b.2 := apply_ite Prod.snd c a b

theorem ite_next_st (c : Prop) [Decidable c] (a b : Next H) :
    (if c then a else b).st = if c then a.st else b.st := apply_ite Next.st c a b

theorem often_used_err (br : Bridge H) (hk : KeepsErrors br) (opcode : Nat) (instr : Ptr)
    (data : Nat) (s : St H) :
    ErrKept s (often_used br opcode instr data s) := by
  obtain ⟨hr, hw⟩ := hk
  unfold often_used
  repeat (first
    | exact ErrKept_none _
    | apply ErrKept_ite
    | exact ErrKept_some _ _ (by
       simp [Next.st, addPc, set_a_nz, BRANCH, addTime, WRITE_LOW, cmp_data, ARITH_ADDR_MODES,
         arith_ptr, arith_abs, arith_ind, HANDLE_PAGE_CROSSING, READ, WRITE, FLUSH_TIME,
         CACHE_TIME, READ_LIKELY_PPU, store_addr, sta_ptr, a_nz_read_addr, lda_prog,
         ld_xy_abs, cp_abs, bit_tail, adc_imm, ror_a, ror_abs, rol_abs, rotate_common,
         ror_zp, rol_zp, write_nz_zp, add_nz_zp, inc_common, rti, plp, handle_cli,
         handle_sei, interrupt, handle_brk, publishStatus, SET_STATUS, PUSH,
         ite_st_o, ite_obj_err, ite_prod_snd, hr, hw]))

theorem branch_ops_err (opcode : Nat) (data : Nat) (s : St H) :
    ErrKept s (branch_ops opcode data s) := by
  unfold branch_ops
  repeat (first
    | exact ErrKept_none _
    | apply ErrKept_ite
    | exact ErrKept_some _ _ (by
       simp [Next.st, addPc, set_a_nz, BRANCH, addTime, WRITE_LOW, cmp_data, ARITH_ADDR_MODES,
         arith_ptr, arith_abs, arith_ind, HANDLE_PAGE_CROSSING, READ, WRITE, FLUSH_TIME,
         CACHE_TIME, READ_LIKELY_PPU, store_addr, sta_ptr, a_nz_read_addr, lda_prog,
         ld_xy_abs, cp_abs, bit_tail, adc_imm, ror_a, ror_abs, rol_abs, rotate_common,
         ror_zp, rol_zp, write_nz_zp, add_nz_zp, inc_common, rti, plp, handle_cli,
         handle_sei, interrupt, handle_brk, publishStatus, SET_STATUS, PUSH,
         ite_st_o, ite_obj_err, ite_prod_snd]))

theorem load_store_err (br : Bridge H) (hk : KeepsErrors br) (opcode : Nat) (instr : Ptr)
    (data : Nat) (s : St H) :
    ErrKept s (load_store br opcode instr data s) := by
  obtain ⟨hr, hw⟩ := hk
  unfold load_store
  repeat (first
    | exact ErrKept_none _
    | apply ErrKept_ite
    | exact ErrKept_some _ _ (by
       simp [Next.st, addPc, set_a_nz, BRANCH, addTime, WRITE_LOW, cmp_data, ARITH_ADDR_MODES,
         arith_ptr, arith_abs, arith_ind, HANDLE_PAGE_CROSSING, READ, WRITE, FLUSH_TIME,
         CACHE_TIME, READ_LIKELY_PPU, store_addr, sta_ptr, a_nz_read_addr, lda_prog,
         ld_xy_abs, cp_abs, bit_tail, adc_imm, ror_a, ror_abs, rol_abs, rotate_common,
         ror_zp, rol_zp, write_nz_zp, add_nz_zp, inc_common, rti, plp, handle_cli,
         handle_sei, interrupt, handle_brk, publishStatus, SET_STATUS, PUSH,
         ite_st_o, ite_obj_err, ite_prod_snd, hr, hw]))

theorem compare_err (br : Bridge H) (hk : KeepsErrors br) (opcode : Nat) (instr : Ptr)
    (data : Nat) (s : St H) :
    ErrKept s (compare br opcode instr data s) := by
  obtain ⟨hr, hw⟩ := hk
  unfold compare
  repeat (first
    | exact ErrKept_none _
    | apply ErrKept_ite
    | exact ErrKept_some _ _ (by
       simp [Next.st, addPc, set_a_nz, BRANCH, addTime, WRITE_LOW, cmp_data, ARITH_ADDR_MODES,
         arith_ptr, arith_abs, arith_ind, HANDLE_PAGE_CROSSING, READ, WRITE, FLUSH_TIME,
         CACHE_TIME, READ_LIKELY_PPU, store_addr, sta_ptr, a_nz_read_addr, lda_prog,
         ld_xy_abs, cp_abs, bit_tail, adc_imm, ror_a, ror_abs, rol_abs, rotate_common,
         ror_zp, rol_zp, write_nz_zp, add_nz_zp, inc_common, rti, plp, handle_cli,
         handle_sei, interrupt, handle_brk, publishStatus, SET_STATUS, PUSH,
         ite_st_o, ite_obj_err, ite_prod_snd, hr, hw]))

theorem logical_err (br : Bridge H) (hk : KeepsErrors br) (opcode : Nat) (instr : Ptr)
    (data : Nat) (s : St H) :
    ErrKept s (logical br opcode instr data s) := by
  obtain ⟨hr, hw⟩ := hk
  unfold logical
  repeat (first
    | exact ErrKept_none _
    | apply ErrKept_ite
    | exact ErrKept_some _ _ (by
       simp [Next.st, addPc, set_a_nz, BRANCH, addTime, WRITE_LOW, cmp_data, ARITH_ADDR_MODES,
         arith_ptr, arith_abs, arith_ind, HANDLE_PAGE_CROSSING, READ, WRITE, FLUSH_TIME,
         CACHE_TIME, READ_LIKELY_PPU, store_addr, sta_ptr, a_nz_read_addr, lda_prog,
         ld_xy_abs, cp_abs, bit_tail, adc_imm, ror_a, ror_abs, rol_abs, rotate_common,
         ror_zp, rol_zp, write_nz_zp, add_nz_zp, inc_common, rti, plp, handle_cli,
         handle_sei, interrupt, handle_brk, publishStatus, SET_STATUS, PUSH,
         ite_st_o, ite_obj_err, ite_prod_snd, hr, hw]))

theorem add_subtract_err (br : Bridge H) (hk : KeepsErrors br) (opcode : Nat) (instr : Ptr)
    (data : Nat) (s : St H) :
    ErrKept s (add_subtract br opcode instr data s) := by
  obtain ⟨hr, hw⟩ := hk
  unfold add_subtract
  repeat (first
    | exact ErrKept_none _
    | apply ErrKept_ite
    | exact ErrKept_some _ _ (by
       simp [Next.st, addPc, set_a_nz, BRANCH, addTime, WRITE_LOW, cmp_data, ARITH_ADDR_MODES,
         arith_ptr, arith_abs, arith_ind, HANDLE_PAGE_CROSSING, READ, WRITE, FLUSH_TIME,
         CACHE_TIME, READ_LIKELY_PPU, store_addr, sta_ptr, a_nz_read_addr, lda_prog,
         ld_xy_abs, cp_abs, bit_tail, adc_imm, ror_a, ror_abs, rol_abs, rotate_common,
         ror_zp, rol_zp, write_nz_zp, add_nz_zp, inc_common, rti, plp, handle_cli,
         handle_sei, interrupt, handle_brk, publishStatus, SET_STATUS, PUSH,
         ite_st_o, ite_obj_err, ite_prod_snd, hr, hw]))

theorem shift_rotate_err (br : Bridge H) (hk : KeepsErrors br) (opcode : Nat) (instr : Ptr)
    (data : Nat) (s : St H) :
    ErrKept s (shift_rotate br opcode instr data s) := by
  obtain ⟨hr, hw⟩ := hk
  unfold shift_rotate
  repeat (first
    | exact ErrKept_none _
    | apply ErrKept_ite
    | exact ErrKept_some _ _ (by
       simp [Next.st, addPc, set_a_nz, BRANCH, addTime, WRITE_LOW, cmp_data, ARITH_ADDR_MODES,
         arith_ptr, arith_abs, arith_ind, HANDLE_PAGE_CROSSING, READ, WRITE, FLUSH_TIME,
         CACHE_TIME, READ_LIKELY_PPU, store_addr, sta_ptr, a_nz_read_addr, lda_prog,
         ld_xy_abs, cp_abs, bit_tail, adc_imm, ror_a, ror_abs, rol_abs, rotate_common,
         ror_zp, rol_zp, write_nz_zp, add_nz_zp, inc_common, rti, plp, handle_cli,
         handle_sei, interrupt, handle_brk, publishStatus, SET_STATUS, PUSH,
         ite_st_o, ite_obj_err, ite_prod_snd, hr, hw]))

theorem inc_dec_err (br : Bridge H) (hk : KeepsErrors br) (opcode : Nat) (instr : Ptr)
    (data : Nat) (s : St H) :
    ErrKept s (inc_dec br opcode instr data s) := by
  obtain ⟨hr, hw⟩ := hk
  unfold inc_dec
  repeat (first
    | exact ErrKept_none _
    | apply ErrKept_ite
    | exact ErrKept_some _ _ (by
       simp [Next.st, addPc, set_a_nz, BRANCH, addTime, WRITE_LOW, cmp_data, ARITH_ADDR_MODES,
         arith_ptr, arith_abs, arith_ind, HANDLE_PAGE_CROSSING, READ, WRITE, FLUSH_TIME,
         CACHE_TIME, READ_LIKELY_PPU, store_addr, sta_ptr, a_nz_read_addr, lda_prog,
         ld_xy_abs, cp_abs, bit_tail, adc_imm, ror_a, ror_abs, rol_abs, rotate_common,
         ror_zp, rol_zp, write_nz_zp, add_nz_zp, inc_common, rti, plp, handle_cli,
         handle_sei, interrupt, handle_brk, publishStatus, SET_STATUS, PUSH,
         ite_st_o, ite_obj_err, ite_prod_snd, hr, hw]))

theorem transfer_err (opcode : Nat) (s : St H) :
    ErrKept s (transfer opcode s) := by
  unfold transfer
  repeat (first
    | exact ErrKept_none _
    | apply ErrKept_ite
    | exact ErrKept_some _ _ (by
       simp [Next.st, addPc, set_a_nz, BRANCH, addTime, WRITE_LOW, cmp_data, ARITH_ADDR_MODES,
         arith_ptr, arith_abs, arith_ind, HANDLE_PAGE_CROSSING, READ, WRITE, FLUSH_TIME,
         CACHE_TIME, READ_LIKELY_PPU, store_addr, sta_ptr, a_nz_read_addr, lda_prog,
         ld_xy_abs, cp_abs, bit_tail, adc_imm, ror_a, ror_abs, rol_abs, rotate_common,
         ror_zp, rol_zp, write_nz_zp, add_nz_zp, inc_common, rti, plp, handle_cli,
         handle_sei, interrupt, handle_brk, publishStatus, SET_STATUS, PUSH,
         ite_st_o, ite_obj_err, ite_prod_snd]))

theorem stack_err (opcode : Nat) (instr : Ptr) (s : St H) :
    ErrKept s (stack opcode instr s) := by
  unfold stack
  repeat (first
    | exact ErrKept_none _
    | apply ErrKept_ite
    | exact ErrKept_some _ _ (by
       simp [Next.st, addPc, set_a_nz, BRANCH, addTime, WRITE_LOW, cmp_data, ARITH_ADDR_MODES,
         arith_ptr, arith_abs, arith_ind, HANDLE_PAGE_CROSSING, READ, WRITE, FLUSH_TIME,
         CACHE_TIME, READ_LIKELY_PPU, store_addr, sta_ptr, a_nz_read_addr, lda_prog,
         ld_xy_abs, cp_abs, bit_tail, adc_imm, ror_a, ror_abs, rol_abs, rotate_common,
         ror_zp, rol_zp, write_nz_zp, add_nz_zp, inc_common, rti, plp, handle_cli,
         handle_sei, interrupt, handle_brk, publishStatus, SET_STATUS, PUSH,
         ite_st_o, ite_obj_err, ite_prod_snd]))

theorem flags_err (opcode : Nat) (s : St H) :
    ErrKept s (flags opcode s) := by
  unfold flags
  repeat (first
    | exact ErrKept_none _
    | apply ErrKept_ite
    | exact ErrKept_some _ _ (by
       simp [Next.st, addPc, set_a_nz, BRANCH, addTime, WRITE_LOW, cmp_data, ARITH_ADDR_MODES,
         arith_ptr, arith_abs, arith_ind, HANDLE_PAGE_CROSSING, READ, WRITE, FLUSH_TIME,
         CACHE_TIME, READ_LIKELY_PPU, store_addr, sta_ptr, a_nz_read_addr, lda_prog,
         ld_xy_abs, cp_abs, bit_tail, adc_imm, ror_a, ror_abs, rol_abs, rotate_common,
         ror_zp, rol_zp, write_nz_zp, add_nz_zp, inc_common, rti, plp, handle_cli,
         handle_sei, interrupt, handle_brk, publishStatus, SET_STATUS, PUSH,
         ite_st_o, ite_obj_err, ite_prod_snd]))

theorem unofficial_err (opcode : Nat) (data : Nat) (s : St H) :
    ErrKept s (unofficial opcode data s) := by
  unfold unofficial
  repeat (first
    | exact ErrKept_none _
    | apply ErrKept_ite
    | exact ErrKept_some _ _ (by
       simp [Next.st, addPc, set_a_nz, BRANCH, addTime, WRITE_LOW, cmp_data, ARITH_ADDR_MODES,
         arith_ptr, arith_abs, arith_ind, HANDLE_PAGE_CROSSING, READ, WRITE, FLUSH_TIME,
         CACHE_TIME, READ_LIKELY_PPU, store_addr, sta_ptr, a_nz_read_addr, lda_prog,
         ld_xy_abs, cp_abs, bit_tail, adc_imm, ror_a, ror_abs, rol_abs, rotate_common,
         ror_zp, rol_zp, write_nz_zp, add_nz_zp, inc_common, rti, plp, handle_cli,
         handle_sei, interrupt, handle_brk, publishStatus, SET_STATUS, PUSH,
         ite_st_o, ite_obj_err, ite_prod_snd]))

/-- Every opcode with a case label leaves the error counter as it was. -/
theorem exec_err (br : Bridge H) (hk : KeepsErrors br) (opcode : Nat) (instr : Ptr)
    (data : Nat) (s : St H) (h : hasCase opcode = true) :
    (exec br opcode instr data s).st.o.errorsNum = s.o.errorsNum := by
  rcases exec_of_case br opcode instr data s h with
    e | e | e | e | e | e | e | e | e | e | e | e
  · exact often_used_err br hk _ _ _ _ _ e
  · exact branch_ops_err _ _ _ _ e
  · exact load_store_err br hk _ _ _ _ _ e
  · exact compare_err br hk _ _ _ _ _ e
  · exact logical_err br hk _ _ _ _ _ e
  · exact add_subtract_err br hk _ _ _ _ _ e
  · exact shift_rotate_err br hk _ _ _ _ _ e
  · exact inc_dec_err br hk _ _ _ _ _ e
  · exact transfer_err _ _ _ e
  · exact stack_err _ _ _ _ e
  · exact flags_err _ _ _ e
  · exact unofficial_err _ _ _ _ e

theorem interrupt_err (s : St H) (r : Int) :
    (interrupt s r).o.errorsNum = s.o.errorsNum := by
  simp [interrupt, addTime, WRITE_LOW, ite_st_o, ite_obj_err]

theorem out_of_time_err (br : Bridge H)
    (hd : ∀ o t, (br.done o t).2.errorsNum = o.errorsNum) (s : St H) :
    (out_of_time br s).st.o.errorsNum = s.o.errorsNum := by
  unfold out_of_time
  generalize (s.pc + 65535) % 65536 = p
  dsimp only
  split_ifs <;> simp only [Next.st, interrupt_err, CACHE_TIME, FLUSH_TIME, hd]

/-- One pass adds one to the error counter when it executes an opcode of the fallback
set, and nothing otherwise. -/
theorem step_err (br : Bridge H) (hk : KeepsErrors br)
    (hd : ∀ o t, (br.done o t).2.errorsNum = o.errorsNum) (s : St H) :
    (step br s).st.o.errorsNum
      = s.o.errorsNum
        + (if timeCheck s = false ∧ isFallback (fetchOpcode s) = true then 1 else 0) := by
  have hop : fetchOpcode s < 256 := deref_lt _ _ _
  unfold step
  simp only [addTime, addPc]
  by_cases hc : 0 ≤ i16 (s.s_time + (clock (fetchOpcode s) : Int))
      ∧ ¬ i16 (s.s_time + (clock (fetchOpcode s) : Int)) < (clock (fetchOpcode s) : Int)
  · have ht : timeCheck s = true := by simp only [timeCheck]; exact decide_eq_true hc
    rw [if_pos (by simpa using hc), out_of_time_err br hd, ht]
    simp
  · have ht : timeCheck s = false := by simp only [timeCheck]; exact decide_eq_false hc
    rw [if_neg (by simpa using hc), ht]
    by_cases hf : isFallback (fetchOpcode s) = true
    · have hcase : hasCase (fetchOpcode s) = false := by rw [hasCase_iff _ hop, hf]; rfl
      rw [exec_default br _ _ _ _ hcase, if_pos ⟨rfl, hf⟩]
      simp only [Next.st]
      rw [(unimplemented_spec _ _ _ hop hf).2.2.2.2.2.2.2.2.2]
    · have hcase : hasCase (fetchOpcode s) = true := by
        rw [hasCase_iff _ hop]; simpa using hf
      rw [exec_err br hk _ _ _ _ hcase, if_neg (fun h => hf h.2)]
      rfl

theorem runLoop_err (br : Bridge H) (hk : KeepsErrors br)
    (hd : ∀ o t, (br.done o t).2.errorsNum = o.errorsNum) (fuel : Nat) :
    ∀ s s1 : St H, runLoop br fuel s = some s1 → s.o.errorsNum ≤ s1.o.errorsNum := by
  induction fuel with
  | zero => intro s s1 h; cases h
  | succ n ih =>
    intro s s1 h
    have hs := step_err br hk hd s
    unfold runLoop at h
    cases hst : step br s with
    | loop s2 =>
      rw [hst] at h hs
      have := ih s2 s1 h
      simp only [Next.st] at hs
      omega
    | stop s2 =>
      rw [hst] at h hs
      obtain rfl := Option.some.inj h
      simp only [Next.st] at hs
      omega

/-! ## Cycle counts -/

theorem SecAll_none (P : Next H → Prop) : SecAll P none := by
  intro x h; cases h

theorem SecAll_some (P : Next H → Prop) (x : Next H) (h : P x) : SecAll P (some x) := by
  intro y hy; obtain rfl := Option.some.inj hy; exact h

theorem SecAll_ite (P : Next H → Prop) {c : Prop} [Decidable c] {a b : Option (Next H)}
    (ha : c → SecAll P a) (hb : SecAll P b) : SecAll P (if c then a else b) := by
  split
  · next h => exact ha h
  · exact hb

theorem ite_st_time (c : Prop) [Decidable c] (a b : St H) :
    (if c then a else b).s_time = if c then a.s_time else b.s_time := apply_ite St.s_time c a b

theorem ite_obj_base (c : Prop) [Decidable c] (a b : Obj H) :
    (if c then a else b).base = if c then a.base else b.base := apply_ite Obj.base c a b

theorem ite_obj_time (c : Prop) [Decidable c] (a b : Obj H) :
    (if c then a else b).time = if c then a.time else b.time := apply_ite Obj.time c a b

theorem often_used_time (br : Bridge H) (hk : KeepsTime br) (opcode : Nat) (instr : Ptr)
    (data : Nat) (s : St H) (hs1 : -32768 ≤ s.s_time) (hs2 : s.s_time < 32768)
    (hx : s.x < 256) (hy : s.y < 256) (hd : data < 256) :
    SecAll (TimeOK opcode data s) (often_used br opcode instr data s) := by
  obtain ⟨hrt, hrb, hwt, hwb⟩ := hk
  unfold often_used
  repeat (first
    | exact SecAll_none _
    | (refine SecAll_ite _ (fun h => ?_) ?_; try subst h)
    | exact SecAll_some _ _ (by
        first
        | (rw [isArith_iff _ _ (by decide)] at h
           rcases h with h | h | h | h | h | h | h | h <;> subst h <;>
           simp [TimeOK, extraCycles, isBranch, isRebasing, isIndexedRead, isIndY,
             isAbsY, isAbsX, isSKW, unindexedLow, indexReg, i16, shr8, READ_LOW, Next.st, addPc,
             addTime, ite_st_o, ite_st_time, ite_obj_base, ite_obj_time, ite_prod_snd,
             set_a_nz, WRITE_LOW, cmp_data, ARITH_ADDR_MODES, arith_ptr, arith_abs, arith_ind,
             HANDLE_PAGE_CROSSING, READ, WRITE, FLUSH_TIME, CACHE_TIME, READ_LIKELY_PPU,
             store_addr, sta_ptr, a_nz_read_addr, lda_prog, IND_Y_temp,
             hrt, hrb, hwt, hwb] <;>
           omega)
        | (simp [TimeOK, extraCycles, isBranch, isRebasing, isIndexedRead, isIndY,
             isAbsY, isAbsX, isSKW, unindexedLow, indexReg, i16, shr8, READ_LOW, Next.st, addPc,
             addTime, ite_st_o, ite_st_time, ite_obj_base, ite_obj_time, ite_prod_snd,
             set_a_nz, WRITE_LOW, cmp_data, ARITH_ADDR_MODES, arith_ptr, arith_abs, arith_ind,
             HANDLE_PAGE_CROSSING, READ, WRITE, FLUSH_TIME, CACHE_TIME, READ_LIKELY_PPU,
             store_addr, sta_ptr, a_nz_read_addr, lda_prog, IND_Y_temp,
             hrt, hrb, hwt, hwb]
           all_goals omega)))

theorem branch_ops_time (opcode : Nat) (data : Nat) (s : St H) :
    SecAll (TimeOK opcode data s) (branch_ops opcode data s) := by
  unfold branch_ops
  repeat (first
    | exact SecAll_none _
    | (refine SecAll_ite _ (fun h => ?_) ?_; try subst h)
    | exact SecAll_some _ _ (by
        simp [TimeOK, extraCycles, isBranch, isRebasing, isIndexedRead, isIndY,
             isAbsY, isAbsX, isSKW, unindexedLow, indexReg, i16, shr8, READ_LOW, Next.st, addPc,
             addTime, ite_st_o, ite_st_time, ite_obj_base, ite_obj_time, ite_prod_snd]))

theorem load_store_time (br : Bridge H) (hk : KeepsTime br) (opcode : Nat) (instr : Ptr)
    (data : Nat) (s : St H) (hs1 : -32768 ≤ s.s_time) (hs2 : s.s_time < 32768)
    (hx : s.x < 256) (hy : s.y < 256) (hd : data < 256) :
    SecAll (TimeOK opcode data s) (load_store br opcode instr data s) := by
  obtain ⟨hrt, hrb, hwt, hwb⟩ := hk
  unfold load_store
  repeat (first
    | exact SecAll_none _
    | (refine SecAll_ite _ (fun h => ?_) ?_; try subst h)
    | exact SecAll_some _ _ (by
        simp [TimeOK, extraCycles, isBranch, isRebasing, isIndexedRead, isIndY,
             isAbsY, isAbsX, isSKW, unindexedLow, indexReg, i16, shr8, READ_LOW, Next.st, addPc,
             addTime, ite_st_o, ite_st_time, ite_obj_base, ite_obj_time, ite_prod_snd,
             WRITE_LOW, HANDLE_PAGE_CROSSING, READ, WRITE, FLUSH_TIME, CACHE_TIME, store_addr,
             ld_xy_abs,
             hrt, hrb, hwt, hwb]
        all_goals omega))

theorem compare_time (br : Bridge H) (hk : KeepsTime br) (opcode : Nat) (instr : Ptr)
    (data : Nat) (s : St H) (hs1 : -32768 ≤ s.s_time) (hs2 : s.s_time < 32768) :
    SecAll (TimeOK opcode data s) (compare br opcode instr data s) := by
  obtain ⟨hrt, hrb, hwt, hwb⟩ := hk
  unfold compare
  repeat (first
    | exact SecAll_none _
    | (refine SecAll_ite _ (fun h => ?_) ?_; try subst h)
    | exact SecAll_some _ _ (by
        simp [TimeOK, extraCycles, isBranch, isRebasing, isIndexedRead, isIndY,
             isAbsY, isAbsX, isSKW, unindexedLow, indexReg, i16, shr8, READ_LOW, Next.st, addPc,
             addTime, ite_st_o, ite_st_time, ite_obj_base, ite_obj_time, ite_prod_snd,
             cmp_data, cp_abs, READ, FLUSH_TIME, CACHE_TIME,
             hrt, hrb, hwt, hwb]
        all_goals omega))

theorem logical_time (br : Bridge H) (hk : KeepsTime br) (opcode : Nat) (instr : Ptr)
    (data : Nat) (s : St H) (hs1 : -32768 ≤ s.s_time) (hs2 : s.s_time < 32768)
    (hx : s.x < 256) (hy : s.y < 256) (hd : data < 256) :
    SecAll (TimeOK opcode data s) (logical br opcode instr data s) := by
  obtain ⟨hrt, hrb, hwt, hwb⟩ := hk
  unfold logical
  repeat (first
    | exact SecAll_none _
    | (refine SecAll_ite _ (fun h => ?_) ?_; try subst h)
    | exact SecAll_some _ _ (by
        first
        | (rw [isArith_iff _ _ (by decide)] at h
           rcases h with h | h | h | h | h | h | h | h <;> subst h <;>
           simp [TimeOK, extraCycles, isBranch, isRebasing, isIndexedRead, isIndY,
             isAbsY, isAbsX, isSKW, unindexedLow, indexReg, i16, shr8, READ_LOW, Next.st, addPc,
             addTime, ite_st_o, ite_st_time, ite_obj_base, ite_obj_time, ite_prod_snd,
             ARITH_ADDR_MODES, arith_ptr, arith_abs, arith_ind, HANDLE_PAGE_CROSSING, READ,
             FLUSH_TIME, CACHE_TIME, READ_LIKELY_PPU, bit_tail, IND_Y_temp,
             hrt, hrb, hwt, hwb] <;>
           omega)
        | (simp [TimeOK, extraCycles, isBranch, isRebasing, isIndexedRead, isIndY,
             isAbsY, isAbsX, isSKW, unindexedLow, indexReg, i16, shr8, READ_LOW, Next.st, addPc,
             addTime, ite_st_o, ite_st_time, ite_obj_base, ite_obj_time, ite_prod_snd,
             ARITH_ADDR_MODES, arith_ptr, arith_abs, arith_ind, HANDLE_PAGE_CROSSING, READ,
             FLUSH_TIME, CACHE_TIME, READ_LIKELY_PPU, bit_tail, IND_Y_temp,
             hrt, hrb, hwt, hwb]
           all_goals omega)))

theorem add_subtract_time (br : Bridge H) (hk : KeepsTime br) (opcode : Nat) (instr : Ptr)
    (data : Nat) (s : St H) (hs1 : -32768 ≤ s.s_time) (hs2 : s.s_time < 32768)
    (hx : s.x < 256) (hy : s.y < 256) (hd : data < 256) :
    SecAll (TimeOK opcode data s) (add_subtract br opcode instr data s) := by
  obtain ⟨hrt, hrb, hwt, hwb⟩ := hk
  unfold add_subtract
  repeat (first
    | exact SecAll_none _
    | (refine SecAll_ite _ (fun h => ?_) ?_; try subst h)
    | exact SecAll_some _ _ (by
        first
        | (rw [isArith_iff _ _ (by decide)] at h
           rcases h with h | h | h | h | h | h | h | h <;> subst h <;>
           simp [TimeOK, extraCycles, isBranch, isRebasing, isIndexedRead, isIndY,
             isAbsY, isAbsX, isSKW, unindexedLow, indexReg, i16, shr8, READ_LOW, Next.st, addPc,
             addTime, ite_st_o, ite_st_time, ite_obj_base, ite_obj_time, ite_prod_snd,
             ARITH_ADDR_MODES, arith_ptr, arith_abs, arith_ind, HANDLE_PAGE_CROSSING, READ,
             FLUSH_TIME, CACHE_TIME, adc_imm, IND_Y_temp,
             hrt, hrb, hwt, hwb] <;>
           omega)
        | (simp [TimeOK, extraCycles, isBranch, isRebasing, isIndexedRead, isIndY,
             isAbsY, isAbsX, isSKW, unindexedLow, indexReg, i16, shr8, READ_LOW, Next.st, addPc,
             addTime, ite_st_o, ite_st_time, ite_obj_base, ite_obj_time, ite_prod_snd,
             ARITH_ADDR_MODES, arith_ptr, arith_abs, arith_ind, HANDLE_PAGE_CROSSING, READ,
             FLUSH_TIME, CACHE_TIME, adc_imm, IND_Y_temp,
             hrt, hrb, hwt, hwb]
           all_goals omega)))

theorem shift_rotate_time (br : Bridge H) (hk : KeepsTime br) (opcode : Nat) (instr : Ptr)
    (data : Nat) (s : St H) (hs1 : -32768 ≤ s.s_time) (hs2 : s.s_time < 32768) :
    SecAll (TimeOK opcode data s) (shift_rotate br opcode instr data s) := by
  obtain ⟨hrt, hrb, hwt, hwb⟩ := hk
  unfold shift_rotate
  repeat (first
    | exact SecAll_none _
    | (refine SecAll_ite _ (fun h => ?_) ?_; try subst h)
    | exact SecAll_some _ _ (by
        simp [TimeOK, extraCycles, isBranch, isRebasing, isIndexedRead, isIndY,
             isAbsY, isAbsX, isSKW, unindexedLow, indexReg, i16, shr8, READ_LOW, Next.st, addPc,
             addTime, ite_st_o, ite_st_time, ite_obj_base, ite_obj_time, ite_prod_snd,
             ror_a, ror_abs, rol_abs, rotate_common, ror_zp, rol_zp, write_nz_zp, WRITE_LOW,
             READ, WRITE, FLUSH_TIME, CACHE_TIME,
             hrt, hrb, hwt, hwb]
        all_goals omega))

theorem inc_dec_time (br : Bridge H) (hk : KeepsTime br) (opcode : Nat) (instr : Ptr)
    (data : Nat) (s : St H) (hs1 : -32768 ≤ s.s_time) (hs2 : s.s_time < 32768) :
    SecAll (TimeOK opcode data s) (inc_dec br opcode instr data s) := by
  obtain ⟨hrt, hrb, hwt, hwb⟩ := hk
  unfold inc_dec
  repeat (first
    | exact SecAll_none _
    | (refine SecAll_ite _ (fun h => ?_) ?_; try subst h)
    | exact SecAll_some _ _ (by
        simp [TimeOK, extraCycles, isBranch, isRebasing, isIndexedRead, isIndY,
             isAbsY, isAbsX, isSKW, unindexedLow, indexReg, i16, shr8, READ_LOW, Next.st, addPc,
             addTime, ite_st_o, ite_st_time, ite_obj_base, ite_obj_time, ite_prod_snd,
             add_nz_zp, write_nz_zp, inc_common, WRITE_LOW, READ, WRITE, FLUSH_TIME, CACHE_TIME,
             hrt, hrb, hwt, hwb]
        all_goals omega))

theorem transfer_time (opcode : Nat) (data : Nat) (s : St H)
    (hs1 : -32768 ≤ s.s_time) (hs2 : s.s_time < 32768) :
    SecAll (TimeOK opcode data s) (transfer opcode s) := by
  unfold transfer
  repeat (first
    | exact SecAll_none _
    | (refine SecAll_ite _ (fun h => ?_) ?_; try subst h)
    | exact SecAll_some _ _ (by
        simp [TimeOK, extraCycles, isBranch, isRebasing, isIndexedRead, isIndY,
             isAbsY, isAbsX, isSKW, unindexedLow, indexReg, i16, shr8, READ_LOW, Next.st, addPc,
             addTime, ite_st_o, ite_st_time, ite_obj_base, ite_obj_time, ite_prod_snd]
        all_goals omega))

theorem stack_time (opcode : Nat) (instr : Ptr) (data : Nat) (s : St H)
    (hs1 : -32768 ≤ s.s_time) (hs2 : s.s_time < 32768) :
    SecAll (TimeOK opcode data s) (stack opcode instr s) := by
  unfold stack
  repeat (first
    | exact SecAll_none _
    | (refine SecAll_ite _ (fun h => ?_) ?_; try subst h)
    | exact SecAll_some _ _ (by
        simp [TimeOK, extraCycles, isBranch, isRebasing, isIndexedRead, isIndY,
             isAbsY, isAbsX, isSKW, unindexedLow, indexReg, i16, shr8, READ_LOW, Next.st, addPc,
             addTime, ite_st_o, ite_st_time, ite_obj_base, ite_obj_time, ite_prod_snd,
             set_a_nz, PUSH, WRITE_LOW, rti, plp, handle_cli, handle_sei, handle_brk, interrupt,
             publishStatus, SET_STATUS]
        all_goals omega))

theorem flags_time (opcode : Nat) (data : Nat) (s : St H)
    (hs1 : -32768 ≤ s.s_time) (hs2 : s.s_time < 32768) :
    SecAll (TimeOK opcode data s) (flags opcode s) := by
  unfold flags
  repeat (first
    | exact SecAll_none _
    | (refine SecAll_ite _ (fun h => ?_) ?_; try subst h)
    | exact SecAll_some _ _ (by
        simp [TimeOK, extraCycles, isBranch, isRebasing, isIndexedRead, isIndY,
             isAbsY, isAbsX, isSKW, unindexedLow, indexReg, i16, shr8, READ_LOW, Next.st, addPc,
             addTime, ite_st_o, ite_st_time, ite_obj_base, ite_obj_time, ite_prod_snd,
             handle_cli, handle_sei, publishStatus]
        all_goals omega))

theorem unofficial_time (opcode : Nat) (data : Nat) (s : St H)
    (hs1 : -32768 ≤ s.s_time) (hs2 : s.s_time < 32768) :
    SecAll (TimeOK opcode data s) (unofficial opcode data s) := by
  unfold unofficial
  repeat (first
    | exact SecAll_none _
    | (refine SecAll_ite _ (fun h => ?_) ?_; try subst h)
    | exact SecAll_some _ _ (by
        first
        | (simp only [isSKW, isSKB, isNOP, isHLT, Bool.or_eq_true, beq_iff_eq] at h
           casesm* _ ∨ _ <;> subst_vars <;>
           simp [TimeOK, extraCycles, isBranch, isRebasing, isIndexedRead, isIndY,
             isAbsY, isAbsX, isSKW, unindexedLow, indexReg, i16, shr8, READ_LOW, Next.st, addPc,
             addTime, ite_st_o, ite_st_time, ite_obj_base, ite_obj_time, ite_prod_snd,
             HANDLE_PAGE_CROSSING, isSKB, isNOP, isHLT, BAD_OPCODE] <;>
           omega)
        | (simp [TimeOK, extraCycles, isBranch, isRebasing, isIndexedRead, isIndY,
             isAbsY, isAbsX, isSKW, unindexedLow, indexReg, i16, shr8, READ_LOW, Next.st, addPc,
             addTime, ite_st_o, ite_st_time, ite_obj_base, ite_obj_time, ite_prod_snd,
             HANDLE_PAGE_CROSSING, isSKB, isNOP, isHLT, BAD_OPCODE]
           all_goals omega)))

/-- The counter after the case of any opcode with a case label that is not a branch. -/
theorem exec_time (br : Bridge H) (hk : KeepsTime br) (opcode : Nat) (instr : Ptr)
    (data : Nat) (s : St H) (h : hasCase opcode = true)
    (hs1 : -32768 ≤ s.s_time) (hs2 : s.s_time < 32768)
    (hx : s.x < 256) (hy : s.y < 256) (hd : data < 256) :
    TimeOK opcode data s (exec br opcode instr data s) := by
  rcases exec_of_case br opcode instr data s h with
    e | e | e | e | e | e | e | e | e | e | e | e
  · exact often_used_time br hk _ _ _ _ hs1 hs2 hx hy hd _ e
  · exact branch_ops_time _ _ _ _ e
  · exact load_store_time br hk _ _ _ _ hs1 hs2 hx hy hd _ e
  · exact compare_time br hk _ _ _ _ hs1 hs2 _ e
  · exact logical_time br hk _ _ _ _ hs1 hs2 hx hy hd _ e
  · exact add_subtract_time br hk _ _ _ _ hs1 hs2 hx hy hd _ e
  · exact shift_rotate_time br hk _ _ _ _ hs1 hs2 _ e
  · exact inc_dec_time br hk _ _ _ _ hs1 hs2 _ e
  · exact transfer_time _ _ _ hs1 hs2 _ e
  · exact stack_time _ _ _ _ hs1 hs2 _ e
  · exact flags_time _ _ _ hs1 hs2 _ e
  · exact unofficial_time _ _ _ hs1 hs2 _ e

/-- The `switch` returns to `loop` on every opcode that is not a halt opcode. -/
theorem exec_loop (br : Bridge H) (opcode : Nat) (instr : Ptr) (data : Nat) (s : St H)
    (h : isHalt opcode = false) : ∃ s1, exec br opcode instr data s = .loop s1 := by
  cases he : exec br opcode instr data s with
  | loop s1 => exact ⟨s1, rfl⟩
  | stop s1 =>
    have := (exec_stop br opcode instr data s s1 he).1
    rw [h] at this
    cases this

set_option maxRecDepth 1000000 in
/-- The table cost of every documented opcode is its reference count (BRK: 0, the 7 cycles
are charged by the interrupt sequence); no documented opcode is a halt, SKW or fallback
opcode; and there are 151 documented opcodes. -/
theorem clock_reference : (∀ opcode, opcode < 256 → isDocumented opcode = true →
      clock opcode + (if opcode = 0x00 then 7 else 0) = referenceCycles opcode
      ∧ isHalt opcode = false ∧ isSKW opcode = false ∧ isFallback opcode = false)
    ∧ ((List.range 256).filter isDocumented).length = 151 := by
  decide

set_option maxRecDepth 1000000 in
/-- The indexed and the plain reads are documented and are neither branches nor
rebasing opcodes. -/
theorem reads_documented : ∀ opcode, opcode < 256 →
    (isIndexedRead opcode = true ∨ isPlainRead opcode = true) →
      isDocumented opcode = true ∧ isBranch opcode = false ∧ isRebasing opcode = false
      ∧ (isPlainRead opcode = true → isIndexedRead opcode = false) := by
  decide

/-- C16 as stated fails: the unofficial NOP 0x1A is an undocumented opcode with a case label
of its own (as have the other unofficial NOPs, SKB, SKW, 0xEB and the halt opcodes);
executing it advances `pc` and returns to `loop`, and the error counter is what it was. -/
theorem error_counter_counterexample :
    fetchOpcode demoNop1ASt = 0x1A
    ∧ isDocumented 0x1A = false
    ∧ isNOP 0x1A = true
    ∧ timeCheck demoNop1ASt = false
    ∧ (step demoBridge demoNop1ASt).isStop = false
    ∧ (step demoBridge demoNop1ASt).st.pc = 1
    ∧ (step demoBridge demoNop1ASt).st.o.errorsNum = demoNop1ASt.o.errorsNum := by
  decide

/-- C16, as the code has it: with callbacks that leave the error counter alone, a pass of
`run` adds exactly one to the counter when it executes an opcode of the fallback
(`default`) set - low two bits 11 except 0xEB, plus 0x9C and 0x9E - and leaves it unchanged
otherwise: for every documented opcode, for the undocumented opcodes that have a case of
their own, and when the pass goes to the quantum boundary instead of executing. Hence the
counter never decreases from pass to pass, nor over a whole call of `run`. -/
theorem error_counter (br : Bridge H) (hk : KeepsErrors br)
    (hd : ∀ o t, (br.done o t).2.errorsNum = o.errorsNum) (s : St H) :
    (step br s).st.o.errorsNum
        = s.o.errorsNum
          + (if timeCheck s = false ∧ isFallback (fetchOpcode s) = true then 1 else 0)
    ∧ (isDocumented (fetchOpcode s) = true → (step br s).st.o.errorsNum = s.o.errorsNum)
    ∧ s.o.errorsNum ≤ (step br s).st.o.errorsNum
    ∧ (∀ fuel s1, runLoop br fuel s = some s1 → s.o.errorsNum ≤ s1.o.errorsNum)
    ∧ (∀ (setEndTime : Obj H → Int → Obj H) (fuel : Nat) (o : Obj H) (end_time : Int)
        (r : Bool × Obj H), (setEndTime o end_time).errorsNum = o.errorsNum →
        run br setEndTime fuel o end_time = some r → o.errorsNum ≤ r.2.errorsNum) := by
  have hstep := step_err br hk hd s
  refine ⟨hstep, ?_, ?_, ?_, ?_⟩
  · intro hdoc
    have hnf : isFallback (fetchOpcode s) = false :=
      (clock_reference.1 _ (deref_lt _ _ _) hdoc).2.2.2
    rw [hstep, hnf]
    simp
  · rw [hstep]; omega
  · intro fuel s1 h
    exact runLoop_err br hk hd fuel s s1 h
  · intro setEndTime fuel o end_time r hset hrun
    unfold run at hrun
    cases hl : runLoop br fuel (enter (setEndTime o end_time)) with
    | none => rw [hl] at hrun; cases hrun
    | some s1 =>
      rw [hl] at hrun
      obtain rfl := Option.some.inj hrun
      have := runLoop_err br hk hd fuel _ s1 hl
      have he : (enter (setEndTime o end_time)).o.errorsNum = o.errorsNum := by
        rw [← hset]; rfl
      rw [he] at this
      exact this

theorem error_counter_witness :
    KeepsErrors demoBridge
    ∧ (∀ o t, (demoBridge.done o t).2.errorsNum = o.errorsNum)
    ∧ (step demoBridge demoIllSt).st.o.errorsNum
        = demoIllSt.o.errorsNum
          + (if timeCheck demoIllSt = false ∧ isFallback (fetchOpcode demoIllSt) = true then 1
              else 0)
    ∧ (isDocumented (fetchOpcode demoIllSt) = true →
        (step demoBridge demoIllSt).st.o.errorsNum = demoIllSt.o.errorsNum)
    ∧ demoIllSt.o.errorsNum ≤ (step demoBridge demoIllSt).st.o.errorsNum
    ∧ (∀ fuel s1, runLoop demoBridge fuel demoIllSt = some s1 →
        demoIllSt.o.errorsNum ≤ s1.o.errorsNum)
    ∧ (∀ (setEndTime : Obj Unit → Int → Obj Unit) (fuel : Nat) (o : Obj Unit) (end_time : Int)
        (r : Bool × Obj Unit), (setEndTime o end_time).errorsNum = o.errorsNum →
        run demoBridge setEndTime fuel o end_time = some r → o.errorsNum ≤ r.2.errorsNum) :=
  ⟨⟨fun _ _ _ => rfl, fun _ _ _ _ => rfl⟩, fun _ _ => rfl,
    error_counter demoBridge ⟨fun _ _ _ => rfl, fun _ _ _ _ => rfl⟩ (fun _ _ => rfl) demoIllSt⟩

/-- The cycles the case adds for a documented opcode that is not a branch: 7 for BRK, the
carry of (low byte + index) for an indexed read, nothing otherwise. -/
theorem extraCycles_documented (opcode data : Nat) (s : St H) (hop : opcode < 256)
    (hdoc : isDocumented opcode = true) :
    extraCycles opcode data s
      = (if opcode = 0x00 then 7 else 0)
        + (if isIndexedRead opcode = true
            ∧ unindexedLow opcode data s + indexReg opcode s ≥ 0x100 then
            (unindexedLow opcode data s + indexReg opcode s) / 256 else 0) := by
  have hskw := (clock_reference.1 opcode hop hdoc).2.2.1
  unfold extraCycles
  by_cases h0 : opcode = 0x00
  · subst h0
    simp [isIndexedRead, isIndY, isAbsY, isAbsX]
  · rw [if_neg h0, if_neg h0, hskw]
    by_cases hi : isIndexedRead opcode = true
    · simp only [hi, Bool.or_false, if_true, true_and]
      split_ifs with hc
      · omega
      · omega
    · simp [hi]

/-- One pass over a documented opcode that is not a branch, fetched with a negative
counter: the counter advances by the reference count, plus one for an indexed read that
crosses a page, re-expressed against the base the pass leaves. -/
theorem step_documented (br : Bridge H) (hk : KeepsTime br) (s : St H)
    (hdoc : isDocumented (fetchOpcode s) = true) (hnb : isBranch (fetchOpcode s) = false)
    (ht1 : -32768 ≤ s.s_time) (ht2 : s.s_time < 0) (hx : s.x < 256) (hy : s.y < 256) :
    ∃ s1, step br s = .loop s1
      ∧ s1.s_time = i16 (s.s_time + (referenceCycles (fetchOpcode s) : Int)
          + (if isIndexedRead (fetchOpcode s) = true
                ∧ unindexedLow (fetchOpcode s) (deref s.o ((fetchPtr s).add 1) 0) s
                    + indexReg (fetchOpcode s) s ≥ 0x100 then 1 else 0)
          + (s.o.base - s1.o.base))
      ∧ (isRebasing (fetchOpcode s) = false → s1.o.base = s.o.base) := by
  have hop : fetchOpcode s < 256 := deref_lt _ _ _
  have hdat : deref s.o ((fetchPtr s).add 1) 0 < 256 := deref_lt _ _ _
  obtain ⟨hclk, hnh, -, hnf⟩ := clock_reference.1 _ hop hdoc
  have hcase : hasCase (fetchOpcode s) = true := by rw [hasCase_iff _ hop, hnf]; rfl
  have hk8 := clock_le (fetchOpcode s)
  have hstep := step_of_neg br s ht1 ht2
  obtain ⟨s0, hs0⟩ : ∃ s0 : St H,
      s0 = { s with pc := (s.pc + 1) % 65536, s_time := s.s_time + (clock (fetchOpcode s) : Int) } :=
    ⟨_, rfl⟩
  rw [← hs0] at hstep
  have h0t : s0.s_time = s.s_time + (clock (fetchOpcode s) : Int) := by rw [hs0]
  have h0o : s0.o = s.o := by rw [hs0]
  have h0x : s0.x = s.x := by rw [hs0]
  have h0y : s0.y = s.y := by rw [hs0]
  have hlo : unindexedLow (fetchOpcode s) (deref s.o ((fetchPtr s).add 1) 0) s0
      = unindexedLow (fetchOpcode s) (deref s.o ((fetchPtr s).add 1) 0) s := by
    simp only [unindexedLow, h0o]
  have hidx : indexReg (fetchOpcode s) s0 = indexReg (fetchOpcode s) s := by
    simp only [indexReg, h0x, h0y]
  have hlo256 : unindexedLow (fetchOpcode s) (deref s.o ((fetchPtr s).add 1) 0) s < 256 := by
    unfold unindexedLow
    split
    · exact READ_LOW_lt _ _
    · exact hdat
  have hidx256 : indexReg (fetchOpcode s) s < 256 := by
    unfold indexReg
    split <;> assumption
  obtain ⟨s1, he⟩ := exec_loop br (fetchOpcode s) ((fetchPtr s).add 1)
    (deref s.o ((fetchPtr s).add 1) 0) s0 hnh
  have ht := exec_time br hk (fetchOpcode s) ((fetchPtr s).add 1)
    (deref s.o ((fetchPtr s).add 1) 0) s0 hcase (by omega) (by omega) (by omega) (by omega)
    hdat hnb
  rw [he] at ht hstep
  simp only [Next.st] at ht
  rw [extraCycles_documented _ _ _ hop hdoc, hlo, hidx, h0t, h0o] at ht
  refine ⟨s1, hstep, ?_, ht.2⟩
  rw [ht.1, ← hclk]
  congr 1
  have e1 : (unindexedLow (fetchOpcode s) (deref s.o ((fetchPtr s).add 1) 0) s
      + indexReg (fetchOpcode s) s) / 256 ≤ 1 := by omega
  split_ifs <;> push_cast <;> omega

/-- C13: for every read opcode with abs,X, abs,Y or (ind),Y addressing (ORA, AND, EOR, ADC,
SBC, CMP, LDA in the three forms, LDX abs,Y, LDY abs,X) fetched with a negative counter, with
callbacks that leave the clock alone, the pass charges the table cost plus exactly 1 when
(low byte of the un-indexed address + index register) >= 0x100 and exactly the table cost
otherwise; that condition is the high byte of the effective address differing from the
un-indexed high byte; and the immediate, zero-page, zero-page-indexed, absolute and (ind,X)
forms of the read instructions charge exactly the table cost. -/
theorem page_crossing_cycle (br : Bridge H) (hk : KeepsTime br) (s : St H)
    (ht1 : -32768 ≤ s.s_time) (ht2 : s.s_time < 0) (hx : s.x < 256) (hy : s.y < 256) :
    (isIndexedRead (fetchOpcode s) = true →
      ∃ s1, step br s = .loop s1 ∧ s1.o.base = s.o.base
        ∧ s1.s_time = s.s_time + (clock (fetchOpcode s) : Int)
            + (if unindexedLow (fetchOpcode s) (deref s.o ((fetchPtr s).add 1) 0) s
                  + indexReg (fetchOpcode s) s ≥ 0x100 then 1 else 0))
    ∧ (isPlainRead (fetchOpcode s) = true →
      ∃ s1, step br s = .loop s1 ∧ s1.o.base = s.o.base
        ∧ s1.s_time = s.s_time + (clock (fetchOpcode s) : Int))
    ∧ (∀ lo hi idx : Nat, lo < 256 → hi < 256 → idx < 256 →
        (((lo + 0x100 * hi + idx) % 0x10000) / 0x100 ≠ hi ↔ lo + idx ≥ 0x100)) := by
  have hop : fetchOpcode s < 256 := deref_lt _ _ _
  have hk8 := clock_le (fetchOpcode s)
  refine ⟨?_, ?_, ?_⟩
  · intro hi
    obtain ⟨hdoc, hnb, hnr, -⟩ := reads_documented _ hop (Or.inl hi)
    obtain ⟨hclk, -⟩ := clock_reference.1 _ hop hdoc
    have h0 : fetchOpcode s ≠ 0x00 := by
      intro h; rw [h] at hnr; cases hnr
    rw [if_neg h0] at hclk
    obtain ⟨s1, hstep, htime, hbase⟩ := step_documented br hk s hdoc hnb ht1 ht2 hx hy
    have hb := hbase hnr
    refine ⟨s1, hstep, hb, ?_⟩
    rw [htime, hb, ← hclk]
    simp only [hi, true_and]
    rw [i16_of_range _ (by split_ifs <;> omega) (by split_ifs <;> omega)]
    split_ifs <;> omega
  · intro hp
    obtain ⟨hdoc, hnb, hnr, hni⟩ := reads_documented _ hop (Or.inr hp)
    obtain ⟨hclk, -⟩ := clock_reference.1 _ hop hdoc
    have h0 : fetchOpcode s ≠ 0x00 := by
      intro h; rw [h] at hnr; cases hnr
    rw [if_neg h0] at hclk
    obtain ⟨s1, hstep, htime, hbase⟩ := step_documented br hk s hdoc hnb ht1 ht2 hx hy
    have hb := hbase hnr
    refine ⟨s1, hstep, hb, ?_⟩
    rw [htime, hb, ← hclk, hni hp]
    simp only [Bool.false_eq_true, false_and, if_false]
    rw [i16_of_range _ (by omega) (by omega)]
    omega
  · intro lo hi idx h1 h2 h3
    omega

theorem page_crossing_cycle_witness :
    KeepsTime demoBridge
    ∧ -32768 ≤ demoLdaSt.s_time ∧ demoLdaSt.s_time < 0 ∧ demoLdaSt.x < 256 ∧ demoLdaSt.y < 256
    ∧ isIndexedRead (fetchOpcode demoLdaSt) = true
    ∧ unindexedLow (fetchOpcode demoLdaSt) (deref demoLdaSt.o ((fetchPtr demoLdaSt).add 1) 0)
        demoLdaSt + indexReg (fetchOpcode demoLdaSt) demoLdaSt = 0x100
    ∧ (isIndexedRead (fetchOpcode demoLdaSt) = true →
      ∃ s1, step demoBridge demoLdaSt = .loop s1 ∧ s1.o.base = demoLdaSt.o.base
        ∧ s1.s_time = demoLdaSt.s_time + (clock (fetchOpcode demoLdaSt) : Int)
            + (if unindexedLow (fetchOpcode demoLdaSt)
                    (deref demoLdaSt.o ((fetchPtr demoLdaSt).add 1) 0) demoLdaSt
                  + indexReg (fetchOpcode demoLdaSt) demoLdaSt ≥ 0x100 then 1 else 0))
    ∧ (isPlainRead (fetchOpcode demoLdaSt) = true →
      ∃ s1, step demoBridge demoLdaSt = .loop s1 ∧ s1.o.base = demoLdaSt.o.base
        ∧ s1.s_time = demoLdaSt.s_time + (clock (fetchOpcode demoLdaSt) : Int))
    ∧ (∀ lo hi idx : Nat, lo < 256 → hi < 256 → idx < 256 →
        (((lo + 0x100 * hi + idx) % 0x10000) / 0x100 ≠ hi ↔ lo + idx ≥ 0x100)) :=
  ⟨⟨fun _ _ _ => rfl, fun _ _ _ => rfl, fun _ _ _ _ => rfl, fun _ _ _ _ => rfl⟩,
    by decide, by decide, by decide, by decide, by decide, by decide,
    page_crossing_cycle demoBridge
      ⟨fun _ _ _ => rfl, fun _ _ _ => rfl, fun _ _ _ _ => rfl, fun _ _ _ _ => rfl⟩
      demoLdaSt (by decide) (by decide) (by decide) (by decide)⟩

/-- C14: for every documented opcode (151 of them) the table cost is the documented 6502
reference count (implied, accumulator, immediate 2; zero-page read or store 3; zp,X, zp,Y,
absolute read or store 4; abs,X, abs,Y read 4; (ind),Y read 5; (ind,X) 6; STA abs,X and
abs,Y 5; STA (ind),Y 6; read-modify-write zp 5, zp,X 6, abs 6, abs,X 7; PHA, PHP 3; PLA,
PLP 4; JMP abs 3; JMP (ind) 5; JSR, RTS, RTI 6; branch 3), with BRK at table cost 0 plus
the 7 cycles of the interrupt sequence; and a pass that executes one with a negative
counter and without page crossing, with callbacks that leave the clock alone, advances
the counter by exactly that count: a branch by 2 when not taken and 3 when taken, every
other opcode by the reference count, where for the opcodes that may move the time base
(BRK, PLP, RTI, CLI, SEI) the counter is re-expressed against the new base. -/
theorem reference_cycles (br : Bridge H) (hk : KeepsTime br) (s : St H)
    (hdoc : isDocumented (fetchOpcode s) = true)
    (ht1 : -32768 ≤ s.s_time) (ht2 : s.s_time < 0) (hx : s.x < 256) (hy : s.y < 256) :
    clock (fetchOpcode s) + (if fetchOpcode s = 0x00 then 7 else 0)
        = referenceCycles (fetchOpcode s)
    ∧ ∃ s1, step br s = .loop s1
      ∧ (isBranch (fetchOpcode s) = true → branchTaken (fetchOpcode s) s = false →
          s1.s_time = s.s_time + 2 ∧ s1.o.base = s.o.base)
      ∧ (isBranch (fetchOpcode s) = true → branchTaken (fetchOpcode s) s = true →
          s1.pc / 256 = ((s.pc + 2) % 65536) / 256 →
          s1.s_time = s.s_time + 3 ∧ s1.o.base = s.o.base)
      ∧ (isBranch (fetchOpcode s) = false →
          (isIndexedRead (fetchOpcode s) = true →
            unindexedLow (fetchOpcode s) (deref s.o ((fetchPtr s).add 1) 0) s
              + indexReg (fetchOpcode s) s < 0x100) →
          s1.s_time = i16 (s.s_time + (referenceCycles (fetchOpcode s) : Int)
              + (s.o.base - s1.o.base))
          ∧ (isRebasing (fetchOpcode s) = false →
              s1.o.base = s.o.base
              ∧ s1.s_time = s.s_time + (referenceCycles (fetchOpcode s) : Int))) := by
  have hop : fetchOpcode s < 256 := deref_lt _ _ _
  obtain ⟨hclk, hnh, -, -⟩ := clock_reference.1 _ hop hdoc
  have hk8 := clock_le (fetchOpcode s)
  refine ⟨hclk, ?_⟩
  by_cases hb : isBranch (fetchOpcode s) = true
  · have hk3 := clock_branch _ hb
    have hstep := step_of_neg br s ht1 ht2
    rw [exec_branch br _ _ _ _ hb, hk3] at hstep
    obtain ⟨s0, hs0⟩ : ∃ s0 : St H,
        s0 = { s with pc := (s.pc + 1) % 65536, s_time := s.s_time + ((3 : Nat) : Int) } :=
      ⟨_, rfl⟩
    rw [← hs0] at hstep
    have hbt : branchTaken (fetchOpcode s) s0 = branchTaken (fetchOpcode s) s := by
      rw [hs0]; rfl
    have hp0 : s0.pc = (s.pc + 1) % 65536 := by rw [hs0]
    have ht0 : s0.s_time = s.s_time + 3 := by rw [hs0]; rfl
    have ho0 : s0.o = s.o := by rw [hs0]
    obtain ⟨-, -, -, -, -, -, -, b8, b9, b10⟩ :=
      BRANCH_spec s0 (branchTaken (fetchOpcode s) s0) (deref s.o ((fetchPtr s).add 1) 0)
        (by omega) (by omega)
    rw [hbt] at b8 b9 b10 hstep
    have hp2 : (s0.pc + 1) % 65536 = (s.pc + 2) % 65536 := by rw [hp0]; omega
    refine ⟨_, hstep, ?_, ?_, ?_⟩
    · intro _ hf
      exact ⟨by rw [(b9 hf).2, ht0]; omega, by rw [b8, ho0]⟩
    · intro _ htk hpage
      refine ⟨?_, by rw [b8, ho0]⟩
      rw [(b10 htk).2, ht0, hp2, if_neg (by simpa using hpage)]
      omega
    · intro hnb
      rw [hb] at hnb
      cases hnb
  · have hnb : isBranch (fetchOpcode s) = false := by simpa using hb
    obtain ⟨s1, hstep, htime, hbase⟩ := step_documented br hk s hdoc hnb ht1 ht2 hx hy
    refine ⟨s1, hstep, ?_, ?_, ?_⟩
    · intro h; exact absurd h hb
    · intro h; exact absurd h hb
    · intro _ hnc
      have hext : (if isIndexedRead (fetchOpcode s) = true
          ∧ unindexedLow (fetchOpcode s) (deref s.o ((fetchPtr s).add 1) 0) s
              + indexReg (fetchOpcode s) s ≥ 0x100 then (1 : Int) else 0) = 0 := by
        rw [if_neg]
        intro h
        have := hnc h.1
        omega
      rw [hext] at htime
      refine ⟨by rw [htime]; congr 1; omega, ?_⟩
      intro hnr
      have hbs := hbase hnr
      refine ⟨hbs, ?_⟩
      have h7 : (if fetchOpcode s = 0x00 then 7 else 0 : Nat) ≤ 7 := by split <;> omega
      have hr7 : referenceCycles (fetchOpcode s) ≤ 15 := by omega
      rw [htime, hbs, i16_of_range _ (by omega) (by omega)]
      omega

theorem reference_cycles_witness :
    KeepsTime demoBridge
    ∧ (isDocumented (fetchOpcode demoLdaNearSt) = true
      ∧ -32768 ≤ demoLdaNearSt.s_time ∧ demoLdaNearSt.s_time < 0
      ∧ demoLdaNearSt.x < 256 ∧ demoLdaNearSt.y < 256)
    ∧ (fetchOpcode demoLdaNearSt = 0xBD ∧ isBranch 0xBD = false ∧ isIndexedRead 0xBD = true
      ∧ isRebasing 0xBD = false
      ∧ unindexedLow 0xBD (deref demoLdaNearSt.o ((fetchPtr demoLdaNearSt).add 1) 0)
            demoLdaNearSt + indexReg 0xBD demoLdaNearSt = 0x11
      ∧ clock 0xBD = 4 ∧ referenceCycles 0xBD = 4)
    ∧ (∃ s1, step demoBridge demoLdaNearSt = .loop s1 ∧ s1.o.base = demoLdaNearSt.o.base
        ∧ demoLdaNearSt.s_time = -5 ∧ s1.s_time = -1)
    ∧ (isDocumented (fetchOpcode demoBneSt) = true
      ∧ -32768 ≤ demoBneSt.s_time ∧ demoBneSt.s_time < 0
      ∧ demoBneSt.x < 256 ∧ demoBneSt.y < 256)
    ∧ (fetchOpcode demoBneSt = 0xD0 ∧ isBranch 0xD0 = true ∧ branchTaken 0xD0 demoBneSt = true
      ∧ clock 0xD0 = 3 ∧ referenceCycles 0xD0 = 3)
    ∧ (∃ s1, step demoBridge demoBneSt = .loop s1 ∧ s1.pc = 6 ∧ s1.o.base = demoBneSt.o.base
        ∧ demoBneSt.s_time = -3 ∧ s1.s_time = 0)
    ∧ (isDocumented (fetchOpcode (demoSt [0xF0, 0x04] (-3))) = true
      ∧ fetchOpcode (demoSt [0xF0, 0x04] (-3)) = 0xF0 ∧ isBranch 0xF0 = true
      ∧ branchTaken 0xF0 (demoSt [0xF0, 0x04] (-3)) = false)
    ∧ (∃ s1, step demoBridge (demoSt [0xF0, 0x04] (-3)) = .loop s1 ∧ s1.pc = 2
        ∧ s1.s_time = -1)
    ∧ (isDocumented (fetchOpcode demoBrkSt) = true ∧ fetchOpcode demoBrkSt = 0x00
      ∧ isBranch 0x00 = false ∧ isIndexedRead 0x00 = false ∧ clock 0x00 = 0
      ∧ referenceCycles 0x00 = 7)
    ∧ (∃ s1, step demoBridge demoBrkSt = .loop s1
        ∧ s1.s_time = i16 (demoBrkSt.s_time + 7 + (demoBrkSt.o.base - s1.o.base))) := by
  have hk : KeepsTime demoBridge :=
    ⟨fun _ _ _ => rfl, fun _ _ _ => rfl, fun _ _ _ _ => rfl, fun _ _ _ _ => rfl⟩
  obtain ⟨-, a1, a2, -, -, a3⟩ :=
    reference_cycles demoBridge hk demoLdaNearSt (by decide) (by decide) (by decide) (by decide)
      (by decide)
  obtain ⟨a4, a5⟩ := (a3 (by decide) (fun _ => by decide)).2 (by decide)
  obtain ⟨-, b1, b2, -, b3, -⟩ :=
    reference_cycles demoBridge hk demoBneSt (by decide) (by decide) (by decide) (by decide)
      (by decide)
  have b4 : (step demoBridge demoBneSt).st.pc = 6 := by decide
  rw [b2] at b4
  obtain ⟨b5, b6⟩ := b3 (by decide) (by decide) (by rw [show b1.pc = 6 from b4]; decide)
  obtain ⟨-, c1, c2, c3, -, -⟩ :=
    reference_cycles demoBridge hk (demoSt [0xF0, 0x04] (-3)) (by decide) (by decide) (by decide)
      (by decide) (by decide)
  have c4 : (step demoBridge (demoSt [0xF0, 0x04] (-3))).st.pc = 2 := by decide
  rw [c2] at c4
  obtain ⟨c5, -⟩ := c3 (by decide) (by decide)
  obtain ⟨-, d1, d2, -, -, d3⟩ :=
    reference_cycles demoBridge hk demoBrkSt (by decide) (by decide) (by decide) (by decide)
      (by decide)
  obtain ⟨d4, -⟩ := d3 (by decide) (fun h => absurd h (by decide))
  exact ⟨hk, ⟨by decide, by decide, by decide, by decide, by decide⟩,
    ⟨by decide, by decide, by decide, by decide, by decide, by decide, by decide⟩,
    ⟨a1, a2, a4, by decide, a5.trans (by decide)⟩,
    ⟨by decide, by decide, by decide, by decide, by decide⟩,
    ⟨by decide, by decide, by decide, by decide, by decide⟩,
    ⟨b1, b2, b4, b6, by decide, b5.trans (by decide)⟩,
    ⟨by decide, by decide, by decide, by decide⟩,
    ⟨c1, c2, c4, c5.trans (by decide)⟩,
    ⟨by decide, by decide, by decide, by decide, by decide, by decide⟩,
    ⟨d1, d2, d4⟩⟩

/-! ## Interrupts at the quantum boundary -/

/-- A pass entered with a counter that is not negative undoes the fetch and goes to
`out_of_time`. -/
theorem step_of_nonneg (br : Bridge H) (s : St H) (ht1 : 0 ≤ s.s_time)
    (ht2 : s.s_time + (clock (fetchOpcode s) : Int) ≤ 32767) :
    step br s = out_of_time br { s with pc := (s.pc + 1) % 65536 } := by
  have hk0 : (0 : Int) ≤ (clock (fetchOpcode s) : Int) := Int.natCast_nonneg _
  have hi := i16_of_range (s.s_time + (clock (fetchOpcode s) : Int)) (by omega) (by omega)
  have hi2 := i16_of_range s.s_time (by omega) (by omega)
  unfold step
  simp only [addTime, addPc, hi]
  rw [if_pos (by omega)]
  congr 1
  have : s.s_time + (clock (fetchOpcode s) : Int) + -(clock (fetchOpcode s) : Int)
      = s.s_time := by omega
  rw [this, hi2]

theorem i16_add_i16 (a b : Int) : i16 (i16 a + b) = i16 (a + b) := by
  unfold i16; omega

/-- At the quantum boundary the hook decides: when it answers `r >= 0` and leaves the
object `o1`, the pass runs the interrupt sequence with selector `r` on the locals as they
were before the fetch. -/
theorem step_boundary (br : Bridge H) (s : St H) (r : Int) (o1 : Obj H) (ht1 : 0 ≤ s.s_time)
    (ht2 : s.s_time + (clock (fetchOpcode s) : Int) ≤ 32767) (hpc : s.pc < 65536)
    (hdone : br.done (FLUSH_TIME s).o (TIME s) = (r, o1)) :
    step br s
      = (if r ≥ 0 then .loop (interrupt (CACHE_TIME { s with o := o1 }) r)
         else if (CACHE_TIME { s with o := o1 }).s_time < 0 then
           .loop (CACHE_TIME { s with o := o1 })
         else .stop (CACHE_TIME { s with o := o1 })) := by
  rw [step_of_nonneg br s ht1 ht2, out_of_time_restores br s hpc, hdone]

theorem or_rbit (x : Nat) : (x ||| ST_R) &&& ST_R = ST_R ∧ ((x ||| ST_R) ||| ST_B) &&& ST_R = ST_R
    ∧ ((x ||| ST_R) ||| ST_B) &&& ST_B = ST_B := by
  have h1 := Nat.and_two_pow (x ||| 32) 5
  have h2 := Nat.and_two_pow ((x ||| 32) ||| 16) 5
  have h3 := Nat.and_two_pow ((x ||| 32) ||| 16) 4
  have b1 : (32 : Nat).testBit 5 = true := by decide
  have b2 : (16 : Nat).testBit 4 = true := by decide
  simp only [Nat.testBit_or, b1, b2, Bool.or_true, Bool.true_or, Bool.toNat_true] at h1 h2 h3
  exact ⟨by simpa [ST_R] using h1, by simpa [ST_R, ST_B] using h2, by simpa [ST_R, ST_B] using h3⟩

/-- The packed status byte never has the B bit: it holds V, D, I, N, C and Z only. -/
theorem CALC_STATUS_b (s : St H) : CALC_STATUS s &&& ST_B = 0
    ∧ (CALC_STATUS s ||| ST_R) &&& ST_B = 0 := by
  have key : (CALC_STATUS s).testBit 4 = false := by
    have c1 : (0x4C : Nat).testBit 4 = false := by decide
    have c2 : (0x80 : Nat).testBit 4 = false := by decide
    have c3 : (1 : Nat).testBit 4 = false := by decide
    have c4 : (2 : Nat).testBit 4 = false := by decide
    have e1 : ST_V ||| ST_D ||| ST_I = 0x4C := by decide
    unfold CALC_STATUS
    simp only [e1, ST_N, ST_C, ST_Z]
    have m : (256 : Nat) = 2 ^ 8 := rfl
    split <;>
      simp only [m, Nat.testBit_mod_two_pow, Nat.testBit_or, Nat.testBit_and, c1, c2, c3, c4,
        Bool.and_false, Bool.or_false, Bool.false_and]
  have h1 := Nat.and_two_pow (CALC_STATUS s) 4
  have h2 := Nat.and_two_pow (CALC_STATUS s ||| 32) 4
  have b1 : (32 : Nat).testBit 4 = false := by decide
  simp only [Nat.testBit_or, key, b1, Bool.or_false, Bool.toNat_false, Nat.zero_mul] at h1 h2
  exact ⟨by simpa [ST_B] using h1, by simpa [ST_B, ST_R] using h2⟩

/-- What the interrupt sequence with selector `r` leaves: the pushed bytes, the stack
pointer, the I flag and the counter. -/
theorem interrupt_push (s : St H) (r : Int) (hsp1 : 0x100 ≤ s.sp) (hsp2 : s.sp ≤ 0x1FF)
    (hpc : s.pc < 65536) :
    READ_LOW (interrupt s r).o (0x100 + GET_SP s.sp) = s.pc / 256
    ∧ READ_LOW (interrupt s r).o (0x100 + (GET_SP s.sp + 255) % 256) = s.pc % 256
    ∧ READ_LOW (interrupt s r).o (0x100 + (GET_SP s.sp + 254) % 256)
        = (if r ≠ 0 then CALC_STATUS s ||| ST_R ||| ST_B else CALC_STATUS s ||| ST_R)
    ∧ (∀ i, i ≠ 0x100 + GET_SP s.sp → i ≠ 0x100 + (GET_SP s.sp + 255) % 256 →
        i ≠ 0x100 + (GET_SP s.sp + 254) % 256 → (interrupt s r).o.lowMem i = s.o.lowMem i)
    ∧ GET_SP (interrupt s r).sp = (GET_SP s.sp + 253) % 256
    ∧ flagI (interrupt s r) = true
    ∧ (interrupt s r).s_time = i16 (s.s_time + 7 + min 0 (s.o.base - s.o.endTime))
    ∧ (interrupt s r).o.base = s.o.base - min 0 (s.o.base - s.o.endTime) := by
  obtain ⟨i1, i2, i3, -, -, -, -, -, -, i10, i11⟩ := interrupt_spec s r hsp1 hsp2
  have hg := GET_SP_eq s.sp (by omega)
  have hcl := CALC_STATUS_lt s
  have hlt1 : CALC_STATUS s ||| ST_R < 256 := or_lt_256 _ _ hcl (by decide)
  have hlt2 : (CALC_STATUS s ||| ST_R) ||| ST_B < 256 := or_lt_256 _ _ hlt1 (by decide)
  have hmin : min 0 (s.o.base - s.o.endTime)
      = if s.o.base - s.o.endTime ≥ 0 then 0 else s.o.base - s.o.endTime := by
    split <;> omega
  refine ⟨?_, ?_, ?_, ?_, ?_, ?_, ?_, ?_⟩
  · simp only [READ_LOW, i2, hg, Nat.shiftRight_eq_div_pow]
    split_ifs <;> omega
  · simp only [READ_LOW, i2, hg, Nat.shiftRight_eq_div_pow]
    split_ifs <;> omega
  · simp only [READ_LOW, i2, hg]
    rw [if_pos (by omega)]
    split <;> simp only [Nat.mod_eq_of_lt hlt1, Nat.mod_eq_of_lt hlt2]
  · intro i n1 n2 n3
    rw [hg] at n1 n2 n3
    rw [i2]
    simp only
    rw [if_neg (by omega), if_neg (by omega), if_neg (by omega)]
  · rw [i1, hg, GET_SP_eq _ (by omega)]; omega
  · simp only [flagI, i3, set_ibit]
    decide
  · rw [i10, hmin, i16_add_i16]
  · rw [i11, hmin]

/-- C18 fails in the code: the interrupt sequence sets the B bit (0x10) of the pushed
status byte for every non-zero selector (`if (result_) temp |= ST_B;`, marked in the source
as incorrect for IRQ), not only when it was entered by BRK. A hardware interrupt for which
the hook answers the selector `r` with `r > 0`, in particular `r = 4`, the bytes
0xFFFE/0xFFFF that BRK uses, pushes a status byte with B set; B is clear only for the
selector 0. -/
theorem irq_pushes_b_flag (br : Bridge H) (s : St H) (r : Int) (o1 : Obj H)
    (ht1 : 0 ≤ s.s_time) (ht2 : s.s_time + (clock (fetchOpcode s) : Int) ≤ 32767)
    (hpc : s.pc < 65536) (hsp1 : 0x100 ≤ s.sp) (hsp2 : s.sp ≤ 0x1FF)
    (hdone : br.done (FLUSH_TIME s).o (TIME s) = (r, o1)) (h0 : 0 ≤ r) :
    ∃ s1, step br s = .loop s1
      ∧ READ_LOW s1.o (0x100 + (GET_SP s.sp + 254) % 256)
          = (if r ≠ 0 then CALC_STATUS s ||| ST_R ||| ST_B else CALC_STATUS s ||| ST_R)
      ∧ READ_LOW s1.o (0x100 + (GET_SP s.sp + 254) % 256) &&& ST_B
          = (if r ≠ 0 then ST_B else 0)
      ∧ (r = 4 → s1.pc = READ_PROG o1 0xFFFE + 0x100 * READ_PROG o1 0xFFFF) := by
  have hstep := step_boundary br s r o1 ht1 ht2 hpc hdone
  rw [if_pos h0] at hstep
  obtain ⟨-, -, p3, -⟩ := interrupt_push (CACHE_TIME { s with o := o1 }) r hsp1 hsp2 hpc
  have ipc := interrupt_pc (CACHE_TIME { s with o := o1 }) r hsp1 hsp2
  have p3a : READ_LOW (interrupt (CACHE_TIME { s with o := o1 }) r).o
      (0x100 + (GET_SP s.sp + 254) % 256)
      = (if r ≠ 0 then CALC_STATUS s ||| ST_R ||| ST_B else CALC_STATUS s ||| ST_R) := p3
  refine ⟨_, hstep, p3a, ?_, ?_⟩
  · rw [p3a]
    split
    · exact (or_rbit _).2.2
    · exact (CALC_STATUS_b _).2
  · intro h4
    rw [ipc, h4]
    exact congrArg₂ (fun a b => a + 0x100 * b) (READ_PROG_vector _).1.symm
      (READ_PROG_vector _).2.symm

theorem irq_pushes_b_flag_witness :
    (0 : Int) ≤ demoIrqSt.s_time
    ∧ demoIrqSt.s_time + (clock (fetchOpcode demoIrqSt) : Int) ≤ 32767
    ∧ demoIrqSt.pc < 65536 ∧ 0x100 ≤ demoIrqSt.sp ∧ demoIrqSt.sp ≤ 0x1FF
    ∧ demoIrqBridge.done (FLUSH_TIME demoIrqSt).o (TIME demoIrqSt) = (4, demoIrqSt.o)
    ∧ ∃ s1, step demoIrqBridge demoIrqSt = .loop s1
      ∧ READ_LOW s1.o (0x100 + (GET_SP demoIrqSt.sp + 254) % 256)
          = (if (4 : Int) ≠ 0 then CALC_STATUS demoIrqSt ||| ST_R ||| ST_B
              else CALC_STATUS demoIrqSt ||| ST_R)
      ∧ READ_LOW s1.o (0x100 + (GET_SP demoIrqSt.sp + 254) % 256) &&& ST_B
          = (if (4 : Int) ≠ 0 then ST_B else 0)
      ∧ ((4 : Int) = 4 →
          s1.pc = READ_PROG demoIrqSt.o 0xFFFE + 0x100 * READ_PROG demoIrqSt.o 0xFFFF) :=
  ⟨by decide, by decide, by decide, by decide, by decide, rfl,
    irq_pushes_b_flag demoIrqBridge demoIrqSt 4 demoIrqSt.o (by decide) (by decide)
      (by decide) (by decide) (by decide) rfl (by decide)⟩

/-! ## CLI and the pending interrupt -/

theorem ibit_testBit (n : Nat) : n &&& ST_I = (n.testBit 2).toNat * 4 := by
  simpa [ST_I] using Nat.and_two_pow n 2

theorem clear_ibit (st : Nat) : (st &&& (0xFF ^^^ ST_I)) &&& ST_I = 0 := by
  have h : (0xFF ^^^ ST_I).testBit 2 = false := by decide
  rw [ibit_testBit, Nat.testBit_and, h]
  simp

theorem plp_ibits (st temp : Nat) (h1 : st &&& ST_I ≠ 0) (h2 : temp &&& ST_I = 0) :
    (st ^^^ temp) &&& ST_I ≠ 0 ∧ (temp &&& (ST_V ||| ST_D ||| ST_I)) &&& ST_I = 0 := by
  rw [ibit_testBit] at h1 h2
  rw [ibit_testBit, ibit_testBit, Nat.testBit_xor, Nat.testBit_and]
  cases hs : st.testBit 2 <;> cases ht : temp.testBit 2 <;> simp_all

theorem exec_cli (br : Bridge H) (instr : Ptr) (data : Nat) (s : St H) :
    exec br 0x58 instr data s
      = .loop (if s.status &&& ST_I = 0 then s
          else handle_cli { s with status := s.status &&& (0xFF ^^^ ST_I) }) := by
  by_cases h : s.status &&& ST_I = 0 <;>
    simp [exec, often_used, branch_ops, load_store, compare, logical, add_subtract,
      shift_rotate, inc_dec, transfer, stack, flags, isArith, h]

theorem exec_plp (br : Bridge H) (instr : Ptr) (data : Nat) (s : St H) :
    exec br 0x28 instr data s = .loop (plp s) := by
  simp [exec, often_used, branch_ops, load_store, compare, logical, add_subtract,
    shift_rotate, inc_dec, transfer, stack, isArith]

theorem clock_cli_plp : clock 0x58 = 2 ∧ clock 0x28 = 4 := by decide

/-- The label `handle_cli` when `irqTime` lies before the base and after the time the
instruction finishes: the base becomes `irqTime` and the counter is re-expressed. -/
theorem handle_cli_early (s : St H) (h1 : 0 < s.o.base - s.o.irqTime)
    (h2 : s.s_time + (s.o.base - s.o.irqTime) < 0) (h3 : -32768 ≤ s.s_time) :
    (handle_cli s).s_time = s.s_time + (s.o.base - s.o.irqTime)
    ∧ (handle_cli s).o.base = s.o.irqTime
    ∧ (handle_cli s).o.irqTime = s.o.irqTime
    ∧ (handle_cli s).pc = s.pc ∧ (handle_cli s).status = s.status := by
  have hi := i16_of_range (s.s_time + (s.o.base - s.o.irqTime)) (by omega) (by omega)
  unfold handle_cli
  simp only [publishStatus, addTime]
  rw [if_neg (by omega), hi, if_pos h2]
  exact ⟨rfl, rfl, rfl, rfl, rfl⟩

/-- The label `handle_cli` when the counter `t` re-based to `irqTime` is not negative and
`delta >= t + 1`: the counter is set to -1 and the base to `irqTime + t + 1`. -/
theorem handle_cli_late (s : St H) (h1 : 0 ≤ i16 (s.s_time + (s.o.base - s.o.irqTime)))
    (h2 : s.o.base - s.o.irqTime ≥ i16 (s.s_time + (s.o.base - s.o.irqTime)) + 1) :
    (handle_cli s).s_time = -1
    ∧ (handle_cli s).o.base
        = s.o.irqTime + (i16 (s.s_time + (s.o.base - s.o.irqTime)) + 1)
    ∧ (handle_cli s).pc = s.pc ∧ (handle_cli s).status = s.status := by
  unfold handle_cli
  simp only [publishStatus, addTime]
  rw [if_neg (by omega), if_neg (by omega), if_pos h2]
  exact ⟨rfl, rfl, rfl, rfl⟩

/-- A pass entered with a negative counter does not go to the quantum boundary. -/
theorem timeCheck_neg (s : St H) (h1 : -32768 ≤ s.s_time) (h2 : s.s_time < 0) :
    timeCheck s = false := by
  have hk := clock_le (fetchOpcode s)
  cases h : timeCheck s with
  | false => rfl
  | true =>
    have := (timeCheck_iff s h1 (by omega)).1 h
    omega

/-- C19: when CLI, or a PLP that pulls a status byte with I clear, is fetched with a
negative counter and the I flag set, while the time base is later than `irqTime` and
`irqTime` is strictly after the absolute time at which the instruction finishes (the time
at the fetch plus its table cost, 2 for CLI and 4 for PLP), then the I flag is cleared, the
base becomes `irqTime`, the counter becomes (absolute time - `irqTime`), which is negative,
and absolute time is kept; therefore the next pass does not go to the quantum boundary
(the only place where the hook can request an interrupt) but executes the following
instruction in full, whatever its cost. -/
theorem cli_latency (br : Bridge H) (s : St H)
    (hop : fetchOpcode s = 0x58 ∨ (fetchOpcode s = 0x28 ∧ READ_LOW s.o s.sp &&& ST_I = 0))
    (ht1 : -32768 ≤ s.s_time) (ht2 : s.s_time < 0) (hI : flagI s = true)
    (hbase : s.o.irqTime < s.o.base)
    (hirq : TIME s + (clock (fetchOpcode s) : Int) < s.o.irqTime) :
    ∃ s1, step br s = .loop s1
      ∧ flagI s1 = false
      ∧ s1.o.base = s.o.irqTime
      ∧ s1.s_time = TIME s + (clock (fetchOpcode s) : Int) - s.o.irqTime
      ∧ -32768 ≤ s1.s_time ∧ s1.s_time < 0
      ∧ TIME s1 = TIME s + (clock (fetchOpcode s) : Int)
      ∧ s1.pc = (s.pc + 1) % 65536
      ∧ timeCheck s1 = false
      ∧ step br s1 = exec br (fetchOpcode s1) ((fetchPtr s1).add 1)
          (deref s1.o ((fetchPtr s1).add 1) 0)
          { s1 with pc := (s1.pc + 1) % 65536,
                    s_time := s1.s_time + (clock (fetchOpcode s1) : Int) } := by
  have hst : s.status &&& ST_I ≠ 0 := by simpa [flagI] using hI
  have hstep := step_of_neg br s ht1 ht2
  have hk8 := clock_le (fetchOpcode s)
  simp only [TIME] at hirq
  obtain ⟨s1, hs1, f1, f2, f3, f4⟩ : ∃ s1, step br s = .loop s1 ∧ flagI s1 = false
      ∧ s1.o.base = s.o.irqTime
      ∧ s1.s_time = s.s_time + (clock (fetchOpcode s) : Int) + (s.o.base - s.o.irqTime)
      ∧ s1.pc = (s.pc + 1) % 65536 := by
    rcases hop with hop | ⟨hop, hpull⟩
    · rw [hop, exec_cli] at hstep
      rw [hop] at hirq hk8
      simp only [clock_cli_plp.1] at hirq hstep
      rw [if_neg hst] at hstep
      obtain ⟨e1, e2, -, e4, e5⟩ := handle_cli_early
        { s with pc := (s.pc + 1) % 65536, s_time := s.s_time + ((2 : Nat) : Int),
                 status := s.status &&& (0xFF ^^^ ST_I) }
        (by simp only; omega) (by simp only; push_cast; omega) (by simp only; push_cast; omega)
      refine ⟨_, hstep, ?_, e2, ?_, e4⟩
      · simp only [flagI, e5, clear_ibit]; rfl
      · rw [e1, hop, clock_cli_plp.1]
    · rw [hop, exec_plp] at hstep
      rw [hop] at hirq hk8
      simp only [clock_cli_plp.2] at hirq hstep
      obtain ⟨b1, b2⟩ := plp_ibits s.status (READ_LOW s.o s.sp) hst hpull
      have hplp : plp { s with pc := (s.pc + 1) % 65536, s_time := s.s_time + ((4 : Nat) : Int) }
          = handle_cli (SET_STATUS
              { s with pc := (s.pc + 1) % 65536, s_time := s.s_time + ((4 : Nat) : Int),
                       sp := (s.sp - 0xFF) ||| 0x100 } (READ_LOW s.o s.sp)) := by
        unfold plp
        simp only
        rw [if_neg b1, if_neg (by simp only [SET_STATUS]; rw [b2]; simp)]
      rw [hplp] at hstep
      obtain ⟨e1, e2, -, e4, e5⟩ := handle_cli_early
        (SET_STATUS
          { s with pc := (s.pc + 1) % 65536, s_time := s.s_time + ((4 : Nat) : Int),
                   sp := (s.sp - 0xFF) ||| 0x100 } (READ_LOW s.o s.sp))
        (by simp only [SET_STATUS]; omega) (by simp only [SET_STATUS]; push_cast; omega)
        (by simp only [SET_STATUS]; push_cast; omega)
      refine ⟨_, hstep, ?_, e2, ?_, e4⟩
      · unfold flagI
        rw [e5]
        show ((READ_LOW s.o s.sp &&& (ST_V ||| ST_D ||| ST_I)) &&& ST_I != 0) = false
        rw [b2]; rfl
      · rw [e1, hop, clock_cli_plp.2]; rfl
  have hneg : s1.s_time < 0 := by rw [f3]; omega
  have hlow : -32768 ≤ s1.s_time := by rw [f3]; omega
  refine ⟨s1, hs1, f1, f2, ?_, hlow, hneg, ?_, f4, timeCheck_neg s1 hlow hneg,
    step_of_neg br s1 hlow hneg⟩
  · rw [f3]; simp only [TIME]; omega
  · simp only [TIME, f2, f3]; omega

theorem cli_latency_witness :
    (fetchOpcode demoCliEarlySt = 0x58
      ∨ (fetchOpcode demoCliEarlySt = 0x28
          ∧ READ_LOW demoCliEarlySt.o demoCliEarlySt.sp &&& ST_I = 0))
    ∧ -32768 ≤ demoCliEarlySt.s_time ∧ demoCliEarlySt.s_time < 0
    ∧ flagI demoCliEarlySt = true
    ∧ demoCliEarlySt.o.irqTime < demoCliEarlySt.o.base
    ∧ TIME demoCliEarlySt + (clock (fetchOpcode demoCliEarlySt) : Int)
        < demoCliEarlySt.o.irqTime
    ∧ ∃ s1, step demoBridge demoCliEarlySt = .loop s1
      ∧ flagI s1 = false
      ∧ s1.o.base = demoCliEarlySt.o.irqTime
      ∧ s1.s_time = TIME demoCliEarlySt + (clock (fetchOpcode demoCliEarlySt) : Int)
          - demoCliEarlySt.o.irqTime
      ∧ -32768 ≤ s1.s_time ∧ s1.s_time < 0
      ∧ TIME s1 = TIME demoCliEarlySt + (clock (fetchOpcode demoCliEarlySt) : Int)
      ∧ s1.pc = (demoCliEarlySt.pc + 1) % 65536
      ∧ timeCheck s1 = false
      ∧ step demoBridge s1 = exec demoBridge (fetchOpcode s1) ((fetchPtr s1).add 1)
          (deref s1.o ((fetchPtr s1).add 1) 0)
          { s1 with pc := (s1.pc + 1) % 65536,
                    s_time := s1.s_time + (clock (fetchOpcode s1) : Int) } :=
  ⟨by decide, by decide, by decide, by decide, by decide, by decide,
    cli_latency demoBridge demoCliEarlySt (by decide) (by decide) (by decide) (by decide)
      (by decide) (by decide)⟩

/-- C20 as stated fails: the counter is an `int16_t`, so the counter re-based to `irqTime`
is the sum taken modulo 2^16. With CLI fetched at counter -1, base 65540 and `irqTime = 0`
the instruction finishes at counter 1, `delta = 65540`, and the re-based counter is
`t = 65541 mod 2^16 = 5 >= 0` with `delta >= t + 1`; the engine sets the counter to -1 and
the base to `irqTime + t + 1 = 6`, so absolute time drops from 65541 to 5. -/
theorem cli_deferred_counterexample :
    fetchOpcode demoCliWrapSt = 0x58
    ∧ flagI demoCliWrapSt = true
    ∧ demoCliWrapSt.s_time = -1
    ∧ demoCliWrapSt.o.base - demoCliWrapSt.o.irqTime = 65540
    ∧ i16 (demoCliWrapSt.s_time + 2 + 65540) = 5
    ∧ (step demoBridge demoCliWrapSt).isStop = false
    ∧ flagI (step demoBridge demoCliWrapSt).st = false
    ∧ (step demoBridge demoCliWrapSt).st.s_time = -1
    ∧ (step demoBridge demoCliWrapSt).st.o.base = 6
    ∧ TIME demoCliWrapSt + 2 = 65541
    ∧ TIME (step demoBridge demoCliWrapSt).st = 5 := by
  decide

/-- C20, as the code has it: when CLI is fetched with a negative counter and the I flag
set, and the 16-bit counter `t` re-based to `irqTime` (the counter after the 2 cycles of
CLI plus `delta = base - irqTime`, as an `int16_t`) is not negative while `delta >= t + 1`,
then the I flag is cleared, the counter is set to -1 and the base to `irqTime + t + 1`, and
the next pass executes the following instruction instead of going to the quantum boundary;
absolute time (counter + base) is unchanged provided the re-based counter fits the 16-bit
counter (`counter + 2 + delta <= 32767`). -/
theorem cli_deferred (br : Bridge H) (s : St H) (hop : fetchOpcode s = 0x58)
    (ht1 : -32768 ≤ s.s_time) (ht2 : s.s_time < 0) (hI : flagI s = true)
    (ht : 0 ≤ i16 (s.s_time + 2 + (s.o.base - s.o.irqTime)))
    (hd : s.o.base - s.o.irqTime ≥ i16 (s.s_time + 2 + (s.o.base - s.o.irqTime)) + 1) :
    ∃ s1, step br s = .loop s1
      ∧ flagI s1 = false
      ∧ s1.s_time = -1
      ∧ s1.o.base = s.o.irqTime + (i16 (s.s_time + 2 + (s.o.base - s.o.irqTime)) + 1)
      ∧ s1.pc = (s.pc + 1) % 65536
      ∧ (s.s_time + 2 + (s.o.base - s.o.irqTime) ≤ 32767 → TIME s1 = TIME s + 2)
      ∧ timeCheck s1 = false
      ∧ step br s1 = exec br (fetchOpcode s1) ((fetchPtr s1).add 1)
          (deref s1.o ((fetchPtr s1).add 1) 0)
          { s1 with pc := (s1.pc + 1) % 65536,
                    s_time := s1.s_time + (clock (fetchOpcode s1) : Int) } := by
  have hst : s.status &&& ST_I ≠ 0 := by simpa [flagI] using hI
  have hstep := step_of_neg br s ht1 ht2
  rw [hop, exec_cli] at hstep
  simp only [clock_cli_plp.1] at hstep
  rw [if_neg hst] at hstep
  obtain ⟨e1, e2, e3, e4⟩ := handle_cli_late
    { s with pc := (s.pc + 1) % 65536, s_time := s.s_time + ((2 : Nat) : Int),
             status := s.status &&& (0xFF ^^^ ST_I) }
    (by simpa using ht) (by simpa using hd)
  have e2a : (handle_cli
      { s with pc := (s.pc + 1) % 65536, s_time := s.s_time + ((2 : Nat) : Int),
               status := s.status &&& (0xFF ^^^ ST_I) }).o.base
      = s.o.irqTime + (i16 (s.s_time + 2 + (s.o.base - s.o.irqTime)) + 1) := by
    rw [e2]; simp
  refine ⟨_, hstep, ?_, e1, e2a, e3, ?_, timeCheck_neg _ (by rw [e1]; omega) (by rw [e1]; omega),
    step_of_neg br _ (by rw [e1]; omega) (by rw [e1]; omega)⟩
  · simp only [flagI, e4, clear_ibit]; rfl
  · intro hfit
    have hi := i16_of_range (s.s_time + 2 + (s.o.base - s.o.irqTime)) (by omega) (by omega)
    simp only [TIME, e1, e2a, hi]
    omega

theorem cli_deferred_witness :
    fetchOpcode demoCliLateSt = 0x58
    ∧ -32768 ≤ demoCliLateSt.s_time ∧ demoCliLateSt.s_time < 0
    ∧ flagI demoCliLateSt = true
    ∧ 0 ≤ i16 (demoCliLateSt.s_time + 2 + (demoCliLateSt.o.base - demoCliLateSt.o.irqTime))
    ∧ demoCliLateSt.o.base - demoCliLateSt.o.irqTime
        ≥ i16 (demoCliLateSt.s_time + 2 + (demoCliLateSt.o.base - demoCliLateSt.o.irqTime)) + 1
    ∧ demoCliLateSt.s_time + 2 + (demoCliLateSt.o.base - demoCliLateSt.o.irqTime) ≤ 32767
    ∧ ∃ s1, step demoBridge demoCliLateSt = .loop s1
      ∧ flagI s1 = false
      ∧ s1.s_time = -1
      ∧ s1.o.base = demoCliLateSt.o.irqTime
          + (i16 (demoCliLateSt.s_time + 2
              + (demoCliLateSt.o.base - demoCliLateSt.o.irqTime)) + 1)
      ∧ s1.pc = (demoCliLateSt.pc + 1) % 65536
      ∧ (demoCliLateSt.s_time + 2 + (demoCliLateSt.o.base - demoCliLateSt.o.irqTime) ≤ 32767 →
          TIME s1 = TIME demoCliLateSt + 2)
      ∧ timeCheck s1 = false
      ∧ step demoBridge s1 = exec demoBridge (fetchOpcode s1) ((fetchPtr s1).add 1)
          (deref s1.o ((fetchPtr s1).add 1) 0)
          { s1 with pc := (s1.pc + 1) % 65536,
                    s_time := s1.s_time + (clock (fetchOpcode s1) : Int) } :=
  ⟨by decide, by decide, by decide, by decide, by decide, by decide, by decide,
    cli_deferred demoBridge demoCliLateSt (by decide) (by decide) (by decide) (by decide)
      (by decide) (by decide)⟩

/-! ## `reset` and `mapCode` -/

theorem Ptr_add_add (p : Ptr) (a b : Nat) : (p.add a).add b = p.add (a + b) := by
  simp [Ptr.add, Nat.add_assoc]

theorem Ptr_add_eq (p : Ptr) (a b : Nat) (h : a = b) : p.add a = p.add b := by rw [h]

theorem Ptr_add_zero (p : Ptr) (a : Nat) (h : a = 0) : p.add a = p := by
  subst h; rfl

theorem Obj_ext (a b : Obj H) (h1 : a.regs = b.regs) (h2 : a.lowMem = b.lowMem)
    (h3 : ∀ j, a.code_map j = b.code_map j) (h4 : a.time = b.time) (h5 : a.base = b.base)
    (h6 : a.irqTime = b.irqTime) (h7 : a.endTime = b.endTime)
    (h8 : a.errorsNum = b.errorsNum) (h9 : a.ext = b.ext) (h10 : a.host = b.host) : a = b := by
  have h3a : a.code_map = b.code_map := funext h3
  cases a
  cases b
  simp only at h1 h2 h3a h4 h5 h6 h7 h8 h9 h10
  subst h1 h2 h3a h4 h5 h6 h7 h8 h9 h10
  rfl

/-- The loop of `mapCode` entered with a count `cnt >= 1`: it makes `cnt` assignments, to
the pages `page .. page + cnt - 1`. -/
theorem mapCode_loop_spec (cnt : Nat) : ∀ (fuel : Nat) (o : Obj H) (page : Nat) (data : Ptr)
    (mirror : Bool) (n : Nat), 1 ≤ cnt → cnt ≤ fuel → page + cnt ≤ 4294967296 →
    mapCode_loop fuel o page cnt data mirror n
      = ({ o with code_map := fun j =>
            if page ≤ j ∧ j < page + cnt then
              (if mirror then data else data.add ((j - page) * PAGE_SIZE))
            else o.code_map j }, n + cnt) := by
  induction cnt with
  | zero => intro fuel o page data mirror n h; omega
  | succ c ih =>
    intro fuel o page data mirror n _ hf hp
    obtain ⟨f, rfl⟩ : ∃ f, fuel = f + 1 := ⟨fuel - 1, by omega⟩
    have hc : (c + 1 + 4294967295) % 4294967296 = c := by omega
    rw [mapCode_loop]
    simp only [hc]
    by_cases h0 : c = 0
    · subst h0
      simp only [ne_eq, not_true_eq_false, if_false]
      refine Prod.ext ?_ rfl
      refine Obj_ext _ _ rfl rfl ?_ rfl rfl rfl rfl rfl rfl rfl
      intro j
      simp only [m_setCodePage, PAGE_SIZE]
      cases mirror <;> simp only [Bool.false_eq_true, if_false, if_true] <;> split_ifs <;>
        first
        | rfl
        | (exfalso; omega)
        | (exact (Ptr_add_zero _ _ (by omega)).symm)
    · have hpg : (page + 1) % 4294967296 = page + 1 := by omega
      rw [if_pos h0, hpg, ih f _ (page + 1) _ mirror (n + 1) (by omega) (by omega) (by omega)]
      refine Prod.ext ?_ (by simp only; omega)
      refine Obj_ext _ _ rfl rfl ?_ rfl rfl rfl rfl rfl rfl rfl
      intro j
      simp only [m_setCodePage, PAGE_SIZE]
      cases mirror <;>
        simp only [Bool.false_eq_true, if_false, if_true, Bool.not_false, Bool.not_true,
          Ptr_add_add] <;>
        split_ifs <;>
        first
        | rfl
        | (exfalso; omega)
        | (exact (Ptr_add_zero _ _ (by omega)).symm)
        | (exact Ptr_add_eq _ _ _ (by omega))
theorem mapCode_require_iff (start size : Nat) :
    mapCode_require start size = true
      ↔ start % PAGE_SIZE = 0 ∧ size % PAGE_SIZE = 0
        ∧ (start + size) % 4294967296 ≤ 0x10000 := by
  simp only [mapCode_require, Bool.and_eq_true, decide_eq_true_eq, and_assoc]

/-- What `mapCode` does on a non-empty region that satisfies the requirements. -/
theorem mapCode_run_eq (o : Obj H) (start size : Nat) (data : Ptr) (mirror : Bool)
    (h1 : start % PAGE_SIZE = 0) (h2 : size % PAGE_SIZE = 0) (h3 : start + size ≤ 0x10000)
    (h4 : 0 < size) :
    mapCode_run o start size data mirror
      = some ({ o with code_map := fun j =>
                  if start / PAGE_SIZE ≤ j ∧ j < (start + size) / PAGE_SIZE then
                    regionPage start data mirror j
                  else o.code_map j }, size / PAGE_SIZE) := by
  simp only [PAGE_SIZE] at h1 h2
  have hreq : mapCode_require start size = true := by
    rw [mapCode_require_iff]
    simp only [PAGE_SIZE]
    omega
  have hend : (start + size) / PAGE_SIZE = start / PAGE_SIZE + size / PAGE_SIZE := by
    simp only [PAGE_SIZE]; omega
  unfold mapCode_run
  rw [if_pos hreq, mapCode_loop_spec (size / PAGE_SIZE) _ o (start / PAGE_SIZE) data mirror 0
    (by simp only [PAGE_SIZE]; omega) (by simp only [PAGE_SIZE]; omega)
    (by simp only [PAGE_SIZE]; omega), hend, Nat.zero_add]
  rfl

theorem mapCode_eq (o : Obj H) (start size : Nat) (data : Ptr) (mirror : Bool)
    (h1 : start % PAGE_SIZE = 0) (h2 : size % PAGE_SIZE = 0) (h3 : start + size ≤ 0x10000)
    (h4 : 0 < size) :
    mapCode o start size data mirror
      = some { o with code_map := fun j =>
                  if start / PAGE_SIZE ≤ j ∧ j < (start + size) / PAGE_SIZE then
                    regionPage start data mirror j
                  else o.code_map j } := by
  unfold mapCode
  rw [mapCode_run_eq o start size data mirror h1 h2 h3 h4]
  rfl

/-- The loop of `mapCode` entered with a count `1 <= cnt <= 2^32`: it makes `cnt`
assignments, to the pages `page, page + 1, ...` taken modulo 2^32 (the `unsigned` page index
wraps). -/
theorem mapCode_loop_wrap (cnt : Nat) : ∀ (fuel : Nat) (o : Obj H) (page : Nat) (data : Ptr)
    (mirror : Bool) (n : Nat), 1 ≤ cnt → cnt ≤ fuel → cnt ≤ 4294967296 → page < 4294967296 →
    mapCode_loop fuel o page cnt data mirror n
      = ({ o with code_map := fun j =>
            if j < 4294967296 ∧ (j + 4294967296 - page) % 4294967296 < cnt then
              (if mirror then data
                else data.add (((j + 4294967296 - page) % 4294967296) * PAGE_SIZE))
            else o.code_map j }, n + cnt) := by
  induction cnt with
  | zero => intro fuel o page data mirror n h; omega
  | succ c ih =>
    intro fuel o page data mirror n _ hf hc4 hp
    obtain ⟨f, rfl⟩ : ∃ f, fuel = f + 1 := ⟨fuel - 1, by omega⟩
    have hc : (c + 1 + 4294967295) % 4294967296 = c := by omega
    rw [mapCode_loop]
    simp only [hc]
    by_cases h0 : c = 0
    · subst h0
      simp only [ne_eq, not_true_eq_false, if_false]
      refine Prod.ext ?_ rfl
      refine Obj_ext _ _ rfl rfl ?_ rfl rfl rfl rfl rfl rfl rfl
      intro j
      simp only [m_setCodePage, PAGE_SIZE]
      cases mirror <;> simp only [Bool.false_eq_true, if_false, if_true] <;> split_ifs <;>
        first
        | rfl
        | (exfalso; omega)
        | (exact (Ptr_add_zero _ _ (by omega)).symm)
    · rw [if_pos h0, ih f _ ((page + 1) % 4294967296) _ mirror (n + 1) (by omega) (by omega)
        (by omega) (Nat.mod_lt _ (by decide))]
      refine Prod.ext ?_ (by simp only; omega)
      refine Obj_ext _ _ rfl rfl ?_ rfl rfl rfl rfl rfl rfl rfl
      intro j
      simp only [m_setCodePage, PAGE_SIZE]
      cases mirror <;>
        simp only [Bool.false_eq_true, if_false, if_true, Bool.not_false, Bool.not_true,
          Ptr_add_add] <;>
        split_ifs <;>
        first
        | rfl
        | (exfalso; omega)
        | (exact (Ptr_add_zero _ _ (by omega)).symm)
        | (exact Ptr_add_eq _ _ _ (by omega))

/-- C23 (the code departs from it on an empty region): for every call
`mapCode(start, 0, data, mirror)` with `start` a multiple of the page size 0x800 and
`start <= 0x10000`, the three checks pass (`size = 0` is a multiple of the page size and
`start + 0 <= 0x10000`), and the loop, a `do ... while (--cnt)` on the `unsigned` count
`cnt = size / 0x800 = 0`, runs its body before the count is tested and then decrements 0 to
0xFFFFFFFF: page `start / 0x800` is made to point at `data` although no page index lies in
`[start / 0x800, (start + 0) / 0x800)`, and the loop goes on for 2^32 passes instead of
`size / 0x800 = 0`, handing `m_setCodePage` every 32-bit page index, the `k`-th from
`start / 0x800` (modulo 2^32) with `data` when mirrored and `data + k * 0x800` otherwise;
among them the indices above `PAGES_NUM`, which no address of the 64 KB space maps to.
The rest of the object is as before. -/
theorem mapCode_empty_region (o : Obj H) (start : Nat) (data : Ptr) (mirror : Bool)
    (h1 : start % PAGE_SIZE = 0) (h3 : start + 0 ≤ 0x10000) :
    (0 : Nat) % PAGE_SIZE = 0
    ∧ mapCode_require start 0 = true
    ∧ (∀ j, ¬ (start / PAGE_SIZE ≤ j ∧ j < (start + 0) / PAGE_SIZE))
    ∧ ∃ o1, mapCode o start 0 data mirror = some o1
      ∧ mapCode_run o start 0 data mirror = some (o1, 4294967296)
      ∧ o1.code_map (start / PAGE_SIZE) = data
      ∧ (∀ j, j < 4294967296 →
          o1.code_map j
            = if mirror then data
              else data.add (((j + 4294967296 - start / PAGE_SIZE) % 4294967296) * PAGE_SIZE))
      ∧ (∀ j, PAGES_NUM < j → j < 4294967296 →
          o1.code_map j
            = if mirror then data else data.add ((j - start / PAGE_SIZE) * PAGE_SIZE))
      ∧ (∀ j, 4294967296 ≤ j → o1.code_map j = o.code_map j)
      ∧ o1 = { o with code_map := o1.code_map } := by
  have hreq : mapCode_require start 0 = true := by
    rw [mapCode_require_iff]
    exact ⟨h1, by decide, by omega⟩
  have hp : start / PAGE_SIZE ≤ 32 := by simp only [PAGE_SIZE]; omega
  have e : (4294967296 : Nat) = 4294967295 + 1 := rfl
  have hc : (0 + 4294967295) % 4294967296 = 4294967295 := rfl
  have hz : (0 : Nat) / PAGE_SIZE = 0 := by decide
  have hrun : mapCode_run o start 0 data mirror
      = some ({ o with code_map := fun j =>
            if j < 4294967296 then
              (if mirror then data
                else data.add (((j + 4294967296 - start / PAGE_SIZE) % 4294967296) * PAGE_SIZE))
            else o.code_map j }, 4294967296) := by
    unfold mapCode_run
    rw [if_pos hreq, hz]
    nth_rewrite 1 [e]
    rw [mapCode_loop]
    simp only [hc]
    rw [if_pos (by decide), mapCode_loop_wrap 4294967295 4294967295 _ _ _ mirror 1
      (by decide) (Nat.le_refl _) (by decide) (Nat.mod_lt _ (by decide))]
    refine congrArg some (Prod.ext ?_ rfl)
    refine Obj_ext _ _ rfl rfl ?_ rfl rfl rfl rfl rfl rfl rfl
    intro j
    simp only [m_setCodePage, PAGE_SIZE] at hp ⊢
    cases mirror <;>
      simp only [Bool.false_eq_true, if_false, if_true, Bool.not_false, Bool.not_true,
        Ptr_add_add] <;>
      split_ifs <;>
      first
      | rfl
      | (exfalso; omega)
      | (exact (Ptr_add_zero _ _ (by omega)).symm)
      | (exact Ptr_add_eq _ _ _ (by omega))
  refine ⟨by decide, hreq, fun j hj => by simp only [PAGE_SIZE] at hj; omega, _, ?_, hrun, ?_, ?_, ?_, ?_, rfl⟩
  · unfold mapCode
    rw [hrun]
    rfl
  · simp only
    rw [if_pos (by omega)]
    cases mirror
    · simp only [Bool.false_eq_true, if_false]
      exact Ptr_add_zero _ _ (by simp only [PAGE_SIZE] at hp ⊢; omega)
    · exact if_pos rfl
  · intro j hj
    simp only
    rw [if_pos hj]
  · intro j hj1 hj2
    simp only
    rw [if_pos hj2]
    cases mirror
    · simp only [Bool.false_eq_true, if_false]
      exact Ptr_add_eq _ _ _ (by simp only [PAGE_SIZE, PAGES_NUM] at hp hj1 ⊢; omega)
    · rw [if_pos rfl, if_pos rfl]
  · intro j hj
    simp only
    rw [if_neg (by omega)]

theorem mapCode_empty_region_witness :
    (0x2000 : Nat) % PAGE_SIZE = 0 ∧ (0x2000 : Nat) + 0 ≤ 0x10000
    ∧ (0x2000 : Nat) / PAGE_SIZE = 4 ∧ (0 : Nat) / PAGE_SIZE = 0
    ∧ (demoObj [] 0).code_map 4 = ⟨1, 0⟩ ∧ (demoObj [] 0).code_map 33 = ⟨1, 0⟩
    ∧ (0 : Nat) % PAGE_SIZE = 0
    ∧ mapCode_require 0x2000 0 = true
    ∧ (∀ j, ¬ (0x2000 / PAGE_SIZE ≤ j ∧ j < (0x2000 + 0) / PAGE_SIZE))
    ∧ ∃ o1, mapCode (demoObj [] 0) 0x2000 0 ⟨2, 0⟩ false = some o1
      ∧ mapCode_run (demoObj [] 0) 0x2000 0 ⟨2, 0⟩ false = some (o1, 4294967296)
      ∧ o1.code_map (0x2000 / PAGE_SIZE) = ⟨2, 0⟩
      ∧ (∀ j, j < 4294967296 →
          o1.code_map j
            = if false then (⟨2, 0⟩ : Ptr)
              else (⟨2, 0⟩ : Ptr).add
                (((j + 4294967296 - 0x2000 / PAGE_SIZE) % 4294967296) * PAGE_SIZE))
      ∧ (∀ j, PAGES_NUM < j → j < 4294967296 →
          o1.code_map j
            = if false then (⟨2, 0⟩ : Ptr)
              else (⟨2, 0⟩ : Ptr).add ((j - 0x2000 / PAGE_SIZE) * PAGE_SIZE))
      ∧ (∀ j, 4294967296 ≤ j → o1.code_map j = (demoObj [] 0).code_map j)
      ∧ o1 = { demoObj [] 0 with code_map := o1.code_map } :=
  ⟨by decide, by decide, by decide, by decide, by decide, by decide,
    mapCode_empty_region (demoObj [] 0) 0x2000 ⟨2, 0⟩ false (by decide) (by decide)⟩

/-- The call `mapCode(start, size, data, mirror)` on a non-empty region: with `start` and
`size` multiples of the page size 0x800, `start + size <= 0x10000` and `size > 0`, the
three checks pass and exactly the pages with index in
`[start / 0x800, (start + size) / 0x800)` are changed: the `i`-th page of the region points
at `data` when `mirror` is true and at `data + i * 0x800` when it is false; every page
outside the region and everything else in the object is as before; and the loop makes
exactly `size / 0x800` page assignments. -/
theorem mapCode_region (o : Obj H) (start size : Nat) (data : Ptr) (mirror : Bool)
    (h1 : start % PAGE_SIZE = 0) (h2 : size % PAGE_SIZE = 0) (h3 : start + size ≤ 0x10000)
    (h4 : 0 < size) :
    ∃ o1, mapCode o start size data mirror = some o1
      ∧ mapCode_run o start size data mirror = some (o1, size / PAGE_SIZE)
      ∧ (∀ i, i < size / PAGE_SIZE →
          o1.code_map (start / PAGE_SIZE + i)
            = if mirror then data else data.add (i * PAGE_SIZE))
      ∧ (∀ j, ¬ (start / PAGE_SIZE ≤ j ∧ j < (start + size) / PAGE_SIZE) →
          o1.code_map j = o.code_map j)
      ∧ o1 = { o with code_map := o1.code_map } := by
  have hend : (start + size) / PAGE_SIZE = start / PAGE_SIZE + size / PAGE_SIZE := by
    simp only [PAGE_SIZE] at h1 h2 ⊢; omega
  refine ⟨_, mapCode_eq o start size data mirror h1 h2 h3 h4,
    mapCode_run_eq o start size data mirror h1 h2 h3 h4, ?_, ?_, rfl⟩
  · intro i hi
    simp only
    rw [if_pos (by rw [hend]; omega)]
    simp only [regionPage, Nat.add_sub_cancel_left]
  · intro j hj
    simp only
    rw [if_neg hj]

theorem mapCode_region_witness :
    (0x2000 : Nat) % PAGE_SIZE = 0 ∧ (0xE000 : Nat) % PAGE_SIZE = 0
    ∧ (0x2000 : Nat) + 0xE000 ≤ 0x10000 ∧ (0 : Nat) < 0xE000
    ∧ ∃ o1, mapCode (demoObj [] 0) 0x2000 0xE000 ⟨1, 0⟩ false = some o1
      ∧ mapCode_run (demoObj [] 0) 0x2000 0xE000 ⟨1, 0⟩ false = some (o1, 0xE000 / PAGE_SIZE)
      ∧ (∀ i, i < 0xE000 / PAGE_SIZE →
          o1.code_map (0x2000 / PAGE_SIZE + i)
            = if false then (⟨1, 0⟩ : Ptr) else (⟨1, 0⟩ : Ptr).add (i * PAGE_SIZE))
      ∧ (∀ j, ¬ (0x2000 / PAGE_SIZE ≤ j ∧ j < (0x2000 + 0xE000) / PAGE_SIZE) →
          o1.code_map j = (demoObj [] 0).code_map j)
      ∧ o1 = { demoObj [] 0 with code_map := o1.code_map } :=
  ⟨by decide, by decide, by decide, by decide,
    mapCode_region (demoObj [] 0) 0x2000 0xE000 ⟨1, 0⟩ false (by decide) (by decide)
      (by decide) (by decide)⟩

/-- C24 (the code departs from it where `start + size` overflows): the three `require`
checks of `mapCode` pass if and only if `start` and `size` are multiples of the page size
and `start + size`, which the third check computes on `unsigned` and so modulo 2^32, is at
most 0x10000. When `start + size` does not overflow (`start + size < 2^32`) that is exactly
the region `[start, start + size)` lying within the 64 KB address space; when it overflows,
a region that reaches beyond the address space passes the check that is there to reject
it. A call passes the checks exactly when it yields an object, and a call that fails a
check yields none: it stops at the `require`, before the loop that assigns pages. -/
theorem mapCode_checks (o : Obj H) (start size : Nat) (data : Ptr) (mirror : Bool) :
    (mapCode_require start size = true
      ↔ start % PAGE_SIZE = 0 ∧ size % PAGE_SIZE = 0
        ∧ (start + size) % 4294967296 ≤ 0x10000)
    ∧ (start + size < 4294967296 →
        (mapCode_require start size = true
          ↔ start % PAGE_SIZE = 0 ∧ size % PAGE_SIZE = 0 ∧ start + size ≤ 0x10000))
    ∧ ((mapCode o start size data mirror).isSome = mapCode_require start size)
    ∧ (mapCode_require start size = false →
        mapCode o start size data mirror = none
        ∧ mapCode_run o start size data mirror = none) := by
  refine ⟨mapCode_require_iff start size, ?_, ?_, ?_⟩
  · intro h
    rw [mapCode_require_iff, Nat.mod_eq_of_lt h]
  · unfold mapCode mapCode_run
    cases mapCode_require start size <;> rfl
  · intro h
    unfold mapCode mapCode_run
    rw [h]
    exact ⟨rfl, rfl⟩

/-- The call `mapCode(0x800, 0xFFFFF800, data, true)`: both arguments are multiples of the
page size and `start + size = 2^32` wraps to 0, so all three checks pass although the
region reaches far beyond the 64 KB address space; pages are then assigned, page 1 first,
and page indices above `PAGES_NUM` as well. -/
theorem mapCode_checks_witness :
    (0x800 : Nat) < 4294967296 ∧ (0xFFFFF800 : Nat) < 4294967296
    ∧ (0x800 : Nat) % PAGE_SIZE = 0 ∧ (0xFFFFF800 : Nat) % PAGE_SIZE = 0
    ∧ ((0x800 : Nat) + 0xFFFFF800) % 4294967296 = 0
    ∧ ¬ ((0x800 : Nat) + 0xFFFFF800 ≤ 0x10000)
    ∧ mapCode_require 0x800 0xFFFFF800 = true
    ∧ (mapCode (demoObj [] 0) 0x800 0xFFFFF800 ⟨2, 0⟩ true).isSome = true
    ∧ (demoObj [] 0).code_map 1 = ⟨0, 0⟩ ∧ (demoObj [] 0).code_map 33 = ⟨1, 0⟩
    ∧ (mapCode (demoObj [] 0) 0x800 0xFFFFF800 ⟨2, 0⟩ true).map (fun o => o.code_map 1)
        = some ⟨2, 0⟩
    ∧ (mapCode (demoObj [] 0) 0x800 0xFFFFF800 ⟨2, 0⟩ true).map (fun o => o.code_map 33)
        = some ⟨2, 0⟩ := by
  obtain ⟨c1, -, c3, -⟩ := mapCode_checks (demoObj [] 0) 0x800 0xFFFFF800 ⟨2, 0⟩ true
  have hreq : mapCode_require 0x800 0xFFFFF800 = true :=
    c1.2 ⟨by decide, by decide, by decide⟩
  have hrun : mapCode (demoObj [] 0) 0x800 0xFFFFF800 ⟨2, 0⟩ true
      = some (mapCode_loop 4294967296 (demoObj [] 0) 1 2097151 ⟨2, 0⟩ true 0).1 := by
    unfold mapCode mapCode_run
    rw [if_pos hreq]
    rfl
  refine ⟨by decide, by decide, by decide, by decide, by decide, by decide, hreq,
    c3.trans hreq, by decide, by decide, ?_, ?_⟩
  · rw [hrun, mapCode_loop_spec 2097151 _ _ 1 _ true 0 (by decide) (by decide) (by decide)]
    rfl
  · rw [hrun, mapCode_loop_spec 2097151 _ _ 1 _ true 0 (by decide) (by decide) (by decide)]
    rfl

/-- C22: `reset(unmapped_page)` returns (its `mapCode` calls pass their checks) and leaves:
status exactly the I flag (0x04), sp = 0xFF, pc = 0, a = x = y = 0; time counter and base
0; `irqTime` and `endTime` both the constant `future_nes_time`; the error counter 0; low
memory, the host's buffers and the host as they were; every address in 0x0000..0x1FFF
resolving to the low-memory buffer at offset (address mod 0x800); every address in
0x2000..0xFFFF resolving to `unmapped_page` at offset (address mod 0x800); and the extra
page `PAGES_NUM` pointing at `unmapped_page` too. -/
theorem reset_state (future_nes_time : Int) (unmapped_page : Ptr) (o : Obj H) :
    ∃ o1, reset future_nes_time unmapped_page o = some o1
      ∧ o1.regs = { pc := 0, a := 0, x := 0, y := 0, status := 0x04, sp := 0xFF }
      ∧ o1.time = 0 ∧ o1.base = 0
      ∧ o1.irqTime = future_nes_time ∧ o1.endTime = future_nes_time
      ∧ o1.errorsNum = 0
      ∧ o1.lowMem = o.lowMem ∧ o1.ext = o.ext ∧ o1.host = o.host
      ∧ (∀ addr, addr < 0x2000 →
          o1.code_map (addr >>> PAGE_BITS) = ⟨0, 0⟩ ∧ PAGE_OFFSET addr = addr % 0x800
          ∧ READ_PROG o1 addr = READ_LOW o1 (addr % 0x800))
      ∧ (∀ addr, 0x2000 ≤ addr → addr ≤ 0xFFFF →
          o1.code_map (addr >>> PAGE_BITS) = unmapped_page ∧ PAGE_OFFSET addr = addr % 0x800
          ∧ READ_PROG o1 addr = deref o1 unmapped_page (addr % 0x800))
      ∧ o1.code_map PAGES_NUM = unmapped_page := by
  have hoff : ∀ addr : Nat, PAGE_OFFSET addr = addr % 0x800 := by
    intro addr
    simpa [PAGE_OFFSET, PAGE_SIZE] using Nat.and_pow_two_sub_one_eq_mod addr 11
  have hshift : ∀ addr : Nat, addr >>> PAGE_BITS = addr / 2048 := by
    intro addr
    simp [PAGE_BITS, Nat.shiftRight_eq_div_pow]
  unfold reset
  simp only
  rw [mapCode_eq _ 0 0x2000 ⟨0, 0⟩ true (by decide) (by decide) (by decide) (by decide)]
  simp only
  rw [mapCode_eq _ 0x2000 0xE000 unmapped_page true (by decide) (by decide) (by decide)
    (by decide)]
  simp only [regionPage, if_true, m_setCodePage, PAGE_SIZE, PAGES_NUM]
  refine ⟨_, rfl, rfl, rfl, rfl, rfl, rfl, rfl, rfl, rfl, rfl, ?_, ?_, ?_⟩
  · intro addr h
    have hmap : (if addr >>> PAGE_BITS = 32 then unmapped_page
        else if 8192 / 2048 ≤ addr >>> PAGE_BITS ∧ addr >>> PAGE_BITS < (8192 + 57344) / 2048
          then unmapped_page
        else if 0 / 2048 ≤ addr >>> PAGE_BITS ∧ addr >>> PAGE_BITS < (0 + 8192) / 2048
          then (⟨0, 0⟩ : Ptr)
        else o.code_map (addr >>> PAGE_BITS)) = ⟨0, 0⟩ := by
      rw [hshift]
      rw [if_neg (by omega), if_neg (by omega), if_pos (by omega)]
    refine ⟨hmap, hoff addr, ?_⟩
    simp only [READ_PROG, hmap, hoff, deref, READ_LOW, if_true, Nat.zero_add]
  · intro addr h1 h2
    have hmap : (if addr >>> PAGE_BITS = 32 then unmapped_page
        else if 8192 / 2048 ≤ addr >>> PAGE_BITS ∧ addr >>> PAGE_BITS < (8192 + 57344) / 2048
          then unmapped_page
        else if 0 / 2048 ≤ addr >>> PAGE_BITS ∧ addr >>> PAGE_BITS < (0 + 8192) / 2048
          then (⟨0, 0⟩ : Ptr)
        else o.code_map (addr >>> PAGE_BITS)) = unmapped_page := by
      rw [hshift]
      rw [if_neg (by omega), if_pos (by omega)]
    refine ⟨hmap, hoff addr, ?_⟩
    simp only [READ_PROG, hmap, hoff]
  · simp

/-! ## The status byte -/

set_option maxRecDepth 1000000 in
/-- Unpacking a status byte and packing it again, for all 256 bytes. -/
theorem status_table : ∀ b, b < 256 →
    CALC_STATUS (SET_STATUS (demoSt [] 0) b) = b &&& 0xCF
    ∧ flagN (SET_STATUS (demoSt [] 0) b) = (b &&& ST_N != 0)
    ∧ flagV (SET_STATUS (demoSt [] 0) b) = (b &&& ST_V != 0)
    ∧ flagD (SET_STATUS (demoSt [] 0) b) = (b &&& ST_D != 0)
    ∧ flagI (SET_STATUS (demoSt [] 0) b) = (b &&& ST_I != 0)
    ∧ flagZ (SET_STATUS (demoSt [] 0) b) = (b &&& ST_Z != 0)
    ∧ flagC (SET_STATUS (demoSt [] 0) b) = (b &&& ST_C != 0)
    ∧ (b &&& 0xCF) &&& ST_B = 0 ∧ (b &&& 0xCF) &&& ST_R = 0
    ∧ (b &&& 0xCF) &&& (ST_N ||| ST_V ||| ST_D ||| ST_I ||| ST_Z ||| ST_C)
        = b &&& (ST_N ||| ST_V ||| ST_D ||| ST_I ||| ST_Z ||| ST_C) := by
  decide

/-- The packed status of an unpacked byte does not depend on the rest of the state. -/
theorem SET_STATUS_flags (s : St H) (b : Nat) :
    CALC_STATUS (SET_STATUS s b) = CALC_STATUS (SET_STATUS (demoSt [] 0) b)
    ∧ flagN (SET_STATUS s b) = flagN (SET_STATUS (demoSt [] 0) b)
    ∧ flagV (SET_STATUS s b) = flagV (SET_STATUS (demoSt [] 0) b)
    ∧ flagD (SET_STATUS s b) = flagD (SET_STATUS (demoSt [] 0) b)
    ∧ flagI (SET_STATUS s b) = flagI (SET_STATUS (demoSt [] 0) b)
    ∧ flagZ (SET_STATUS s b) = flagZ (SET_STATUS (demoSt [] 0) b)
    ∧ flagC (SET_STATUS s b) = flagC (SET_STATUS (demoSt [] 0) b) :=
  ⟨rfl, rfl, rfl, rfl, rfl, rfl, rfl⟩

/-- C29: for every status byte `b` in 0..255 and every state, unpacking `b` with
`SET_STATUS` and packing the result with `CALC_STATUS` yields `b AND 0xCF`: each of the
flags N, V, D, I, Z, C of the unpacked state is the corresponding bit of `b` (for all 256
values, so also with N and Z both set), the packed byte agrees with `b` on these six bits,
and its bits 4 (B) and 5 (reserved) are clear. -/
theorem status_round_trip (s : St H) (b : Nat) (hb : b < 256) :
    CALC_STATUS (SET_STATUS s b) = b &&& 0xCF
    ∧ flagN (SET_STATUS s b) = (b &&& ST_N != 0)
    ∧ flagV (SET_STATUS s b) = (b &&& ST_V != 0)
    ∧ flagD (SET_STATUS s b) = (b &&& ST_D != 0)
    ∧ flagI (SET_STATUS s b) = (b &&& ST_I != 0)
    ∧ flagZ (SET_STATUS s b) = (b &&& ST_Z != 0)
    ∧ flagC (SET_STATUS s b) = (b &&& ST_C != 0)
    ∧ CALC_STATUS (SET_STATUS s b) &&& ST_B = 0
    ∧ CALC_STATUS (SET_STATUS s b) &&& ST_R = 0
    ∧ CALC_STATUS (SET_STATUS s b) &&& (ST_N ||| ST_V ||| ST_D ||| ST_I ||| ST_Z ||| ST_C)
        = b &&& (ST_N ||| ST_V ||| ST_D ||| ST_I ||| ST_Z ||| ST_C) := by
  obtain ⟨t1, t2, t3, t4, t5, t6, t7, t8, t9, t10⟩ := status_table b hb
  obtain ⟨e1, e2, e3, e4, e5, e6, e7⟩ := SET_STATUS_flags s b
  rw [e1, e2, e3, e4, e5, e6, e7, t1]
  exact ⟨rfl, t2, t3, t4, t5, t6, t7, t8, t9, t10⟩

theorem status_round_trip_witness :
    (0x82 : Nat) < 256
    ∧ CALC_STATUS (SET_STATUS demoNopSt 0x82) = 0x82 &&& 0xCF
    ∧ flagN (SET_STATUS demoNopSt 0x82) = (0x82 &&& ST_N != 0)
    ∧ flagV (SET_STATUS demoNopSt 0x82) = (0x82 &&& ST_V != 0)
    ∧ flagD (SET_STATUS demoNopSt 0x82) = (0x82 &&& ST_D != 0)
    ∧ flagI (SET_STATUS demoNopSt 0x82) = (0x82 &&& ST_I != 0)
    ∧ flagZ (SET_STATUS demoNopSt 0x82) = (0x82 &&& ST_Z != 0)
    ∧ flagC (SET_STATUS demoNopSt 0x82) = (0x82 &&& ST_C != 0)
    ∧ CALC_STATUS (SET_STATUS demoNopSt 0x82) &&& ST_B = 0
    ∧ CALC_STATUS (SET_STATUS demoNopSt 0x82) &&& ST_R = 0
    ∧ CALC_STATUS (SET_STATUS demoNopSt 0x82)
          &&& (ST_N ||| ST_V ||| ST_D ||| ST_I ||| ST_Z ||| ST_C)
        = 0x82 &&& (ST_N ||| ST_V ||| ST_D ||| ST_I ||| ST_Z ||| ST_C) :=
  ⟨by decide, status_round_trip demoNopSt 0x82 (by decide)⟩

/-! ## `run` entered at the quantum boundary -/

set_option maxRecDepth 100000 in
theorem GET_SP_SET_SP : ∀ v, v < 256 → GET_SP (SET_SP v) = v := by
  decide

theorem i16_idem (z : Int) : i16 (i16 z) = i16 z := by
  unfold i16; omega

theorem CALC_STATUS_enter (o : Obj H) (h : o.regs.status < 256) :
    CALC_STATUS (enter o) = o.regs.status &&& 0xCF := by
  unfold enter
  exact (SET_STATUS_flags _ _).1.trans (status_table _ h).1

/-- The program NOP, halt entered with the counter at 32766 and a hook that requests no
interrupt: the NOP is executed (the fused time check wraps), then the halt opcode stops
the run, which returns true with `pc` past the halt opcode. -/
theorem run_at_boundary_counterexample :
    0 ≤ (enter demoEdgeObj).s_time
    ∧ (demoBridge.done demoEdgeObj 32766).1 < 0
    ∧ (run demoBridge (fun o _ => o) 2 demoEdgeObj 0).map (fun r => (r.1, r.2.regs.pc, r.2.time))
        = some (true, 2, -32766) := by
  decide

/-- C30, on the counters whose charge fits the 16-bit counter: when `run` is entered (after
`setEndTime`) with a counter `t >= 0` such that `t` plus the table cost of the opcode at
`pc` is at most 32767, and the hook at the quantum boundary answers a negative value and
hands the object back as it got it, then the first pass goes to `stop` without executing
an instruction, `run` returns false, and the committed object has the same `pc`, `a`, `x`,
`y`, `sp`, low memory, page map, time base, `irqTime`, `endTime` and error counter, the
counter `t` as its time (the stored time itself when that fits 16 bits), and the status
byte `status AND 0xCF`; `GET_SP(SET_SP(v)) = v` for every byte `v`. -/
theorem run_at_boundary (br : Bridge H) (setEndTime : Obj H → Int → Obj H) (fuel : Nat)
    (o0 o : Obj H) (end_time r : Int)
    (ho : setEndTime o0 end_time = o)
    (ht1 : 0 ≤ (enter o).s_time)
    (ht2 : (enter o).s_time + (clock (fetchOpcode (enter o)) : Int) ≤ 32767)
    (hpc : o.regs.pc < 65536) (hsp : o.regs.sp < 256) (hst : o.regs.status < 256)
    (hdone : br.done (FLUSH_TIME (enter o)).o (TIME (enter o)) = (r, (FLUSH_TIME (enter o)).o))
    (hr : r < 0) :
    ∃ s1, step br (enter o) = .stop s1
      ∧ s1 = { enter o with o := { o with time := i16 o.time } }
      ∧ run br setEndTime (fuel + 1) o0 end_time = some (false, commit s1)
      ∧ (commit s1).regs.pc = o.regs.pc ∧ (commit s1).regs.a = o.regs.a
      ∧ (commit s1).regs.x = o.regs.x ∧ (commit s1).regs.y = o.regs.y
      ∧ (commit s1).regs.sp = o.regs.sp
      ∧ (commit s1).regs.status = o.regs.status &&& 0xCF
      ∧ (commit s1).time = i16 o.time
      ∧ (-32768 ≤ o.time → o.time ≤ 32767 → (commit s1).time = o.time)
      ∧ (commit s1).lowMem = o.lowMem ∧ (commit s1).code_map = o.code_map
      ∧ (commit s1).base = o.base ∧ (commit s1).irqTime = o.irqTime
      ∧ (commit s1).endTime = o.endTime ∧ (commit s1).errorsNum = o.errorsNum
      ∧ (∀ v, v < 256 → GET_SP (SET_SP v) = v) := by
  have hs : step br (enter o)
      = .stop { enter o with o := { o with time := i16 o.time } } := by
    rw [step_boundary br (enter o) r _ ht1 ht2 hpc hdone, if_neg (by omega)]
    have e : (CACHE_TIME { enter o with o := (FLUSH_TIME (enter o)).o }).s_time
        = i16 o.time := i16_idem o.time
    rw [if_neg (by rw [e]; exact not_lt.2 ht1)]
    show Next.stop { enter o with s_time := i16 (i16 o.time), o := { o with time := i16 o.time } }
      = _
    rw [i16_idem]
    rfl
  refine ⟨_, hs, rfl, ?_, rfl, rfl, rfl, rfl, GET_SP_SET_SP _ hsp, ?_, rfl, ?_, rfl, rfl, rfl,
    rfl, rfl, rfl, GET_SP_SET_SP⟩
  · have hres : result { enter o with o := { o with time := i16 o.time } } = false := by
      simp only [result, decide_eq_false_iff_not, not_lt]
      exact ht1
    unfold run
    rw [ho]
    simp only [runLoop, hs, hres]
  · exact CALC_STATUS_enter o hst
  · intro h1 h2
    exact i16_of_range _ h1 (by omega)

theorem run_at_boundary_witness :
    0 ≤ (enter demoStopObj).s_time
    ∧ (demoBridge.done (FLUSH_TIME (enter demoStopObj)).o (TIME (enter demoStopObj))).1 < 0
    ∧ ∃ s1, step demoBridge (enter demoStopObj) = .stop s1
      ∧ s1 = { enter demoStopObj with o := { demoStopObj with time := i16 demoStopObj.time } }
      ∧ run demoBridge (fun o _ => o) 1 demoStopObj 0 = some (false, commit s1)
      ∧ (commit s1).regs.pc = demoStopObj.regs.pc ∧ (commit s1).regs.a = demoStopObj.regs.a
      ∧ (commit s1).regs.x = demoStopObj.regs.x ∧ (commit s1).regs.y = demoStopObj.regs.y
      ∧ (commit s1).regs.sp = demoStopObj.regs.sp
      ∧ (commit s1).regs.status = demoStopObj.regs.status &&& 0xCF
      ∧ (commit s1).time = i16 demoStopObj.time
      ∧ (-32768 ≤ demoStopObj.time → demoStopObj.time ≤ 32767
          → (commit s1).time = demoStopObj.time)
      ∧ (commit s1).lowMem = demoStopObj.lowMem ∧ (commit s1).code_map = demoStopObj.code_map
      ∧ (commit s1).base = demoStopObj.base ∧ (commit s1).irqTime = demoStopObj.irqTime
      ∧ (commit s1).endTime = demoStopObj.endTime
      ∧ (commit s1).errorsNum = demoStopObj.errorsNum
      ∧ (∀ v, v < 256 → GET_SP (SET_SP v) = v) :=
  ⟨by decide, by decide,
    run_at_boundary demoBridge (fun o _ => o) 0 demoStopObj demoStopObj 0 (-1) rfl
      (by decide) (by decide) (by decide) (by decide) (by decide) rfl (by decide)⟩

/-! ## Setting the I flag -/

theorem exec_sei (br : Bridge H) (instr : Ptr) (data : Nat) (s : St H) :
    exec br 0x78 instr data s
      = .loop (if s.status &&& ST_I ≠ 0 then s
          else handle_sei { s with status := (s.status ||| ST_I) % 256 }) := by
  by_cases h : s.status &&& ST_I = 0 <;>
    simp [exec, often_used, branch_ops, load_store, compare, logical, add_subtract,
      shift_rotate, inc_dec, transfer, stack, flags, isArith, h]

theorem exec_rti (br : Bridge H) (instr : Ptr) (data : Nat) (s : St H) :
    exec br 0x40 instr data s = .loop (rti s) := by
  simp [exec, often_used, branch_ops, load_store, compare, logical, add_subtract,
    shift_rotate, inc_dec, transfer, stack, isArith]

theorem clock_sei_rti : clock 0x78 = 2 ∧ clock 0x40 = 6 := by decide

/-- A status byte with the I flag set, pulled while the I flag is clear, changes it. -/
theorem pull_ibits (st temp : Nat) (h1 : st &&& ST_I = 0) (h2 : temp &&& ST_I ≠ 0) :
    (st ^^^ temp) &&& ST_I ≠ 0 ∧ (temp &&& (ST_V ||| ST_D ||| ST_I)) &&& ST_I ≠ 0
    ∧ (st ^^^ (temp &&& (ST_V ||| ST_D ||| ST_I))) &&& ST_I ≠ 0 := by
  have hm : (ST_V ||| ST_D ||| ST_I).testBit 2 = true := by decide
  rw [ibit_testBit] at h1 h2
  rw [ibit_testBit, ibit_testBit, ibit_testBit, Nat.testBit_xor, Nat.testBit_and,
    Nat.testBit_xor, Nat.testBit_and, hm]
  cases hs : st.testBit 2 <;> cases ht : temp.testBit 2 <;> simp_all

/-- The label `handle_sei`: the base becomes `endTime`, the counter is re-expressed. -/
theorem handle_sei_spec (s : St H) :
    (handle_sei s).o.base = s.o.endTime
    ∧ (handle_sei s).s_time = i16 (s.s_time + (s.o.base - s.o.endTime))
    ∧ (handle_sei s).o.endTime = s.o.endTime
    ∧ (handle_sei s).status = s.status
    ∧ (handle_sei s).o.regs.status = s.status
    ∧ (handle_sei s).pc = s.pc :=
  ⟨rfl, rfl, rfl, rfl, rfl, rfl⟩

/-- RTI that pulls a status byte with the I flag set while the I flag is clear: the
status is published and nothing else is done about the clock. -/
theorem rti_set (s : St H) (h1 : s.status &&& ST_I = 0) (h2 : READ_LOW s.o s.sp &&& ST_I ≠ 0) :
    (rti s).o.base = s.o.base ∧ (rti s).s_time = s.s_time
    ∧ (rti s).status = READ_LOW s.o s.sp &&& (ST_V ||| ST_D ||| ST_I)
    ∧ (rti s).o.regs.status = READ_LOW s.o s.sp &&& (ST_V ||| ST_D ||| ST_I)
    ∧ (rti s).o.endTime = s.o.endTime := by
  obtain ⟨-, b2, b3⟩ := pull_ibits s.status (READ_LOW s.o s.sp) h1 h2
  unfold rti
  simp only [SET_STATUS, publishStatus]
  rw [if_neg b3]
  split_ifs
  all_goals exact ⟨rfl, rfl, rfl, rfl, rfl⟩

/-- C21 as stated fails for RTI: an RTI that pulls a status byte with the I flag set while
the I flag is clear, with base 5 and `endTime = 0`, sets the I flag and leaves the base
at 5; the counter only advances by the 6 cycles of RTI. -/
theorem sei_rebase_counterexample :
    fetchOpcode demoRtiSt = 0x40
    ∧ flagI demoRtiSt = false
    ∧ demoRtiSt.s_time = -10
    ∧ demoRtiSt.o.base = 5 ∧ demoRtiSt.o.endTime = 0
    ∧ (step demoBridge demoRtiSt).isStop = false
    ∧ flagI (step demoBridge demoRtiSt).st = true
    ∧ (step demoBridge demoRtiSt).st.o.base = 5
    ∧ (step demoBridge demoRtiSt).st.o.endTime = 0
    ∧ (step demoBridge demoRtiSt).st.s_time = -4 := by
  decide

/-- C21, as the code has it: when SEI, or a PLP that pulls a status byte with the I flag
set, is fetched with a negative counter and the I flag clear, the I flag is set (and
published), the base becomes `endTime`, and the counter becomes the counter after the
table cost (2 for SEI, 4 for PLP) plus (old base - `endTime`), as an `int16_t`; absolute
time is then the time at the fetch plus the table cost provided that sum fits the 16-bit
counter, and from then on the counter is non-negative exactly when absolute time has
reached `endTime`. An RTI that pulls a status byte with the I flag set while the I flag is
clear sets (and publishes) the flag but leaves the base alone: the counter advances by
its 6 cycles only. SEI fetched with the I flag set changes nothing but `pc` (by 1) and the
counter (by 2). -/
theorem sei_rebase (br : Bridge H) (s : St H) (ht1 : -32768 ≤ s.s_time) (ht2 : s.s_time < 0) :
    ((fetchOpcode s = 0x78 ∨ (fetchOpcode s = 0x28 ∧ READ_LOW s.o s.sp &&& ST_I ≠ 0)) →
      flagI s = false →
      ∃ s1, step br s = .loop s1
        ∧ flagI s1 = true ∧ s1.o.regs.status = s1.status
        ∧ s1.o.base = s.o.endTime ∧ s1.o.endTime = s.o.endTime
        ∧ s1.s_time = i16 (s.s_time + (clock (fetchOpcode s) : Int)
            + (s.o.base - s.o.endTime))
        ∧ (-32768 ≤ s.s_time + (clock (fetchOpcode s) : Int) + (s.o.base - s.o.endTime) →
            s.s_time + (clock (fetchOpcode s) : Int) + (s.o.base - s.o.endTime) ≤ 32767 →
            TIME s1 = TIME s + (clock (fetchOpcode s) : Int))
        ∧ (0 ≤ s1.s_time ↔ s1.o.endTime ≤ TIME s1)
        ∧ s1.pc = (s.pc + 1) % 65536)
    ∧ (fetchOpcode s = 0x40 → READ_LOW s.o s.sp &&& ST_I ≠ 0 → flagI s = false →
      ∃ s1, step br s = .loop s1
        ∧ flagI s1 = true ∧ s1.o.regs.status = s1.status
        ∧ s1.o.base = s.o.base ∧ s1.o.endTime = s.o.endTime
        ∧ s1.s_time = s.s_time + 6
        ∧ TIME s1 = TIME s + 6)
    ∧ (fetchOpcode s = 0x78 → flagI s = true →
      step br s = .loop { s with pc := (s.pc + 1) % 65536, s_time := s.s_time + 2 }) := by
  have hstep := step_of_neg br s ht1 ht2
  refine ⟨?_, ?_, ?_⟩
  · intro hop hI
    have hst : s.status &&& ST_I = 0 := by simpa [flagI] using hI
    obtain ⟨s1, hs1, f1, f2, f3, f4, f5, f6⟩ : ∃ s1, step br s = .loop s1 ∧ flagI s1 = true
        ∧ s1.o.regs.status = s1.status
        ∧ s1.o.base = s.o.endTime ∧ s1.o.endTime = s.o.endTime
        ∧ s1.s_time = i16 (s.s_time + (clock (fetchOpcode s) : Int)
            + (s.o.base - s.o.endTime))
        ∧ s1.pc = (s.pc + 1) % 65536 := by
      rcases hop with hop | ⟨hop, hpull⟩
      · rw [hop, exec_sei] at hstep
        simp only [clock_sei_rti.1] at hstep
        rw [if_neg (not_not.2 hst)] at hstep
        refine ⟨_, hstep, ?_, rfl, rfl, rfl, ?_, rfl⟩
        · unfold flagI
          rw [(handle_sei_spec _).2.2.2.1]
          show ((s.status ||| ST_I) % 256 &&& ST_I != 0) = true
          rw [set_ibit]; rfl
        · rw [(handle_sei_spec _).2.1, hop, clock_sei_rti.1]
      · rw [hop, exec_plp] at hstep
        simp only [clock_cli_plp.2] at hstep
        obtain ⟨b1, b2, -⟩ := pull_ibits s.status (READ_LOW s.o s.sp) hst hpull
        have hplp : plp { s with pc := (s.pc + 1) % 65536, s_time := s.s_time + ((4 : Nat) : Int) }
            = handle_sei (SET_STATUS
                { s with pc := (s.pc + 1) % 65536, s_time := s.s_time + ((4 : Nat) : Int),
                         sp := (s.sp - 0xFF) ||| 0x100 } (READ_LOW s.o s.sp)) := by
          unfold plp
          simp only
          rw [if_neg b1, if_pos (by simp only [SET_STATUS]; exact b2)]
        rw [hplp] at hstep
        refine ⟨_, hstep, ?_, rfl, rfl, rfl, ?_, rfl⟩
        · unfold flagI
          rw [(handle_sei_spec _).2.2.2.1]
          show ((READ_LOW s.o s.sp &&& (ST_V ||| ST_D ||| ST_I)) &&& ST_I != 0) = true
          simpa using b2
        · rw [(handle_sei_spec _).2.1, hop, clock_cli_plp.2]; rfl
    refine ⟨s1, hs1, f1, f2, f3, f4, f5, ?_, ?_, f6⟩
    · intro h1 h2
      rw [i16_of_range _ h1 (by omega)] at f5
      simp only [TIME, f3, f5]; omega
    · simp only [TIME, f3, f4]; omega
  · intro hop hpull hI
    have hst : s.status &&& ST_I = 0 := by simpa [flagI] using hI
    rw [hop, exec_rti] at hstep
    simp only [clock_sei_rti.2] at hstep
    obtain ⟨e1, e2, e3, e4, e5⟩ := rti_set
      { s with pc := (s.pc + 1) % 65536, s_time := s.s_time + ((6 : Nat) : Int) } hst hpull
    obtain ⟨-, b2, -⟩ := pull_ibits s.status (READ_LOW s.o s.sp) hst hpull
    refine ⟨_, hstep, ?_, ?_, e1, e5, ?_, ?_⟩
    · unfold flagI
      rw [e3]
      simpa using b2
    · rw [e3, e4]
    · rw [e2]; rfl
    · simp only [TIME, e1, e2]; push_cast; omega
  · intro hop hI
    have hst : s.status &&& ST_I ≠ 0 := by simpa [flagI] using hI
    rw [hop, exec_sei] at hstep
    simp only [clock_sei_rti.1] at hstep
    rw [if_pos hst] at hstep
    rw [hstep]; rfl

theorem sei_rebase_witness :
    -32768 ≤ demoSeiSt.s_time ∧ demoSeiSt.s_time < 0
    ∧ fetchOpcode demoSeiSt = 0x78 ∧ flagI demoSeiSt = false
    ∧ ((fetchOpcode demoSeiSt = 0x78
          ∨ (fetchOpcode demoSeiSt = 0x28 ∧ READ_LOW demoSeiSt.o demoSeiSt.sp &&& ST_I ≠ 0)) →
      flagI demoSeiSt = false →
      ∃ s1, step demoBridge demoSeiSt = .loop s1
        ∧ flagI s1 = true ∧ s1.o.regs.status = s1.status
        ∧ s1.o.base = demoSeiSt.o.endTime ∧ s1.o.endTime = demoSeiSt.o.endTime
        ∧ s1.s_time = i16 (demoSeiSt.s_time + (clock (fetchOpcode demoSeiSt) : Int)
            + (demoSeiSt.o.base - demoSeiSt.o.endTime))
        ∧ (-32768 ≤ demoSeiSt.s_time + (clock (fetchOpcode demoSeiSt) : Int)
              + (demoSeiSt.o.base - demoSeiSt.o.endTime) →
            demoSeiSt.s_time + (clock (fetchOpcode demoSeiSt) : Int)
              + (demoSeiSt.o.base - demoSeiSt.o.endTime) ≤ 32767 →
            TIME s1 = TIME demoSeiSt + (clock (fetchOpcode demoSeiSt) : Int))
        ∧ (0 ≤ s1.s_time ↔ s1.o.endTime ≤ TIME s1)
        ∧ s1.pc = (demoSeiSt.pc + 1) % 65536) :=
  ⟨by decide, by decide, by decide, by decide,
    (sei_rebase demoBridge demoSeiSt (by decide) (by decide)).1⟩

/-! ## Rebasing and absolute time -/

theorem i16_eq_iff (z : Int) : i16 z = z ↔ -32768 ≤ z ∧ z ≤ 32767 := by
  unfold i16; omega

/-- The four labels that move the time base re-express the counter modulo 2^16. -/
theorem rebase_labels (s : St H) (r : Int) :
    (TIME (handle_sei s) - TIME s) % 65536 = 0
    ∧ (TIME (handle_cli s) - TIME s) % 65536 = 0
    ∧ (TIME (rti s) - TIME s) % 65536 = 0
    ∧ (TIME (interrupt s r) - (TIME s + 7)) % 65536 = 0 := by
  refine ⟨?_, ?_, ?_, ?_⟩
  · simp only [TIME, handle_sei, publishStatus, addTime, i16]
    omega
  · unfold handle_cli
    simp only [TIME, publishStatus, addTime, i16]
    split_ifs <;> simp only [] <;> omega
  · unfold rti
    simp only [TIME, publishStatus, addTime, SET_STATUS, i16]
    split_ifs <;> simp only [] <;> omega
  · unfold interrupt
    simp only [TIME, addTime, WRITE_LOW, i16]
    split_ifs <;> simp only [] <;> omega

/-- C28 as stated fails: SEI fetched at counter -1 with the I flag clear, base 40000 and
`endTime = 0` finishes at absolute time 40001; the rebase to `endTime` adds
`delta = 40000` to the `int16_t` counter, which becomes 40001 - 65536 = -25535, so
absolute time after the instruction is -25535. -/
theorem rebase_keeps_time_counterexample :
    fetchOpcode demoSeiWrapSt = 0x78
    ∧ flagI demoSeiWrapSt = false
    ∧ demoSeiWrapSt.s_time = -1
    ∧ demoSeiWrapSt.o.base = 40000 ∧ demoSeiWrapSt.o.endTime = 0
    ∧ TIME demoSeiWrapSt + 2 = 40001
    ∧ (step demoBridge demoSeiWrapSt).isStop = false
    ∧ (step demoBridge demoSeiWrapSt).st.o.base = 0
    ∧ (step demoBridge demoSeiWrapSt).st.s_time = -25535
    ∧ TIME (step demoBridge demoSeiWrapSt).st = -25535 := by
  decide

/-- C28, as the code has it: the counter is an `int16_t`, so each of the four labels that
move the time base (`handle_sei`, `handle_cli`, the rebase of RTI, the rebase after the
interrupt sequence, which first charges 7 cycles) keeps absolute time (counter + base)
modulo 2^16. For a pass over any opcode with a case label that is not a branch, fetched with
a negative counter and with callbacks that leave the clock alone, absolute time after the
pass is congruent modulo 2^16 to the time at the fetch plus the cycles of the instruction
(table cost, plus 7 for BRK, plus the page-crossing cycle); it is equal to it exactly when
the counter re-expressed against the new base fits the 16-bit counter, and always when
the opcode is not one of BRK, PLP, RTI, CLI, SEI, which leave the base alone. -/
theorem rebase_keeps_time (br : Bridge H) (hk : KeepsTime br) (s : St H) (r : Int)
    (hcase : hasCase (fetchOpcode s) = true) (hnb : isBranch (fetchOpcode s) = false)
    (ht1 : -32768 ≤ s.s_time) (ht2 : s.s_time < 0) (hx : s.x < 256) (hy : s.y < 256) :
    (TIME (handle_sei s) - TIME s) % 65536 = 0
    ∧ (TIME (handle_cli s) - TIME s) % 65536 = 0
    ∧ (TIME (rti s) - TIME s) % 65536 = 0
    ∧ (TIME (interrupt s r) - (TIME s + 7)) % 65536 = 0
    ∧ (TIME (step br s).st - (TIME s + (clock (fetchOpcode s) : Int)
          + (extraCycles (fetchOpcode s) (deref s.o ((fetchPtr s).add 1) 0) s : Int)))
        % 65536 = 0
    ∧ (TIME (step br s).st = TIME s + (clock (fetchOpcode s) : Int)
          + (extraCycles (fetchOpcode s) (deref s.o ((fetchPtr s).add 1) 0) s : Int)
        ↔ -32768 ≤ s.s_time + (clock (fetchOpcode s) : Int)
              + (extraCycles (fetchOpcode s) (deref s.o ((fetchPtr s).add 1) 0) s : Int)
              + (s.o.base - (step br s).st.o.base)
          ∧ s.s_time + (clock (fetchOpcode s) : Int)
              + (extraCycles (fetchOpcode s) (deref s.o ((fetchPtr s).add 1) 0) s : Int)
              + (s.o.base - (step br s).st.o.base) ≤ 32767)
    ∧ (isRebasing (fetchOpcode s) = false →
        (step br s).st.o.base = s.o.base
        ∧ TIME (step br s).st = TIME s + (clock (fetchOpcode s) : Int)
          + (extraCycles (fetchOpcode s) (deref s.o ((fetchPtr s).add 1) 0) s : Int)) := by
  obtain ⟨l1, l2, l3, l4⟩ := rebase_labels s r
  have hdat : deref s.o ((fetchPtr s).add 1) 0 < 256 := deref_lt _ _ _
  have hk8 := clock_le (fetchOpcode s)
  have hstep := step_of_neg br s ht1 ht2
  obtain ⟨s0, hs0⟩ : ∃ s0 : St H,
      s0 = { s with pc := (s.pc + 1) % 65536, s_time := s.s_time + (clock (fetchOpcode s) : Int) } :=
    ⟨_, rfl⟩
  rw [← hs0] at hstep
  have h0t : s0.s_time = s.s_time + (clock (fetchOpcode s) : Int) := by rw [hs0]
  have h0o : s0.o = s.o := by rw [hs0]
  have h0x : s0.x = s.x := by rw [hs0]
  have h0y : s0.y = s.y := by rw [hs0]
  have hex : extraCycles (fetchOpcode s) (deref s.o ((fetchPtr s).add 1) 0) s0
      = extraCycles (fetchOpcode s) (deref s.o ((fetchPtr s).add 1) 0) s := by
    simp only [extraCycles, unindexedLow, indexReg, h0o, h0x, h0y]
  have hlo256 : unindexedLow (fetchOpcode s) (deref s.o ((fetchPtr s).add 1) 0) s < 256 := by
    unfold unindexedLow
    split
    · exact READ_LOW_lt _ _
    · exact hdat
  have hidx256 : indexReg (fetchOpcode s) s < 256 := by
    unfold indexReg
    split <;> assumption
  have hex7 : extraCycles (fetchOpcode s) (deref s.o ((fetchPtr s).add 1) 0) s ≤ 7 := by
    unfold extraCycles
    split_ifs <;> omega
  have ht := exec_time br hk (fetchOpcode s) ((fetchPtr s).add 1)
    (deref s.o ((fetchPtr s).add 1) 0) s0 hcase (by omega) (by omega) (by omega) (by omega)
    hdat hnb
  rw [← hstep, hex, h0t, h0o] at ht
  obtain ⟨t1, t2⟩ := ht
  generalize extraCycles (fetchOpcode s) (deref s.o ((fetchPtr s).add 1) 0) s = e at t1 hex7 ⊢
  generalize clock (fetchOpcode s) = k at t1 hk8 ⊢
  refine ⟨l1, l2, l3, l4, ?_, ?_, ?_⟩
  · simp only [TIME, t1, i16]; omega
  · rw [← i16_eq_iff, ← t1]
    simp only [TIME]
    constructor <;> intro h <;> omega
  · intro hr
    have hb := t2 hr
    refine ⟨hb, ?_⟩
    rw [hb] at t1
    simp only [TIME, t1, hb, i16]
    omega

theorem rebase_keeps_time_witness :
    KeepsTime demoBridge
    ∧ hasCase (fetchOpcode demoCliEarlySt) = true ∧ isBranch (fetchOpcode demoCliEarlySt) = false
    ∧ isRebasing (fetchOpcode demoCliEarlySt) = true
    ∧ -32768 ≤ demoCliEarlySt.s_time ∧ demoCliEarlySt.s_time < 0
    ∧ demoCliEarlySt.x < 256 ∧ demoCliEarlySt.y < 256
    ∧ (TIME (step demoBridge demoCliEarlySt).st - (TIME demoCliEarlySt
          + (clock (fetchOpcode demoCliEarlySt) : Int)
          + (extraCycles (fetchOpcode demoCliEarlySt)
              (deref demoCliEarlySt.o ((fetchPtr demoCliEarlySt).add 1) 0) demoCliEarlySt : Int)))
        % 65536 = 0 :=
  ⟨⟨fun _ _ _ => rfl, fun _ _ _ => rfl, fun _ _ _ _ => rfl, fun _ _ _ _ => rfl⟩,
    by decide, by decide, by decide, by decide, by decide, by decide, by decide,
    (rebase_keeps_time demoBridge
      ⟨fun _ _ _ => rfl, fun _ _ _ => rfl, fun _ _ _ _ => rfl, fun _ _ _ _ => rfl⟩
      demoCliEarlySt 0 (by decide) (by decide) (by decide) (by decide) (by decide)
      (by decide)).2.2.2.2.1⟩

/-! ## The stack pointer stays in the stack page -/

theorem ite_st_sp (c : Prop) [Decidable c] (a b : St H) :
    (if c then a else b).sp = if c then a.sp else b.sp := apply_ite St.sp c a b

theorem ite_st_a (c : Prop) [Decidable c] (a b : St H) :
    (if c then a else b).a = if c then a.a else b.a := apply_ite St.a c a b

theorem ite_st_x (c : Prop) [Decidable c] (a b : St H) :
    (if c then a else b).x = if c then a.x else b.x := apply_ite St.x c a b

theorem ite_st_y (c : Prop) [Decidable c] (a b : St H) :
    (if c then a else b).y = if c then a.y else b.y := apply_ite St.y c a b

/-- The stack pointers the cases compute from a stack pointer in range are in range. -/
theorem sp_steps (sp : Nat) (h1 : 0x100 ≤ sp) (h2 : sp ≤ 0x1FF) :
    (256 ≤ sp - 1 ||| 256 ∧ sp - 1 ||| 256 ≤ 511)
    ∧ (256 ≤ sp - 2 ||| 256 ∧ sp - 2 ||| 256 ≤ 511)
    ∧ (256 ≤ sp - 3 ||| 256 ∧ sp - 3 ||| 256 ≤ 511)
    ∧ (256 ≤ sp - 255 ||| 256 ∧ sp - 255 ||| 256 ≤ 511)
    ∧ (256 ≤ sp - 254 ||| 256 ∧ sp - 254 ||| 256 ≤ 511)
    ∧ (256 ≤ sp - 253 ||| 256 ∧ sp - 253 ||| 256 ≤ 511) := by
  have a1 := (sp_or sp 1 h1 h2 (by omega)).2
  have a2 := (sp_or sp 2 h1 h2 (by omega)).2
  have a3 := (sp_or sp 3 h1 h2 (by omega)).2
  have a4 := (sp_or sp 255 h1 h2 (by omega)).2
  have a5 := (sp_or sp 254 h1 h2 (by omega)).2
  have a6 := (sp_or sp 253 h1 h2 (by omega)).2
  simp only [Nat.reduceSub] at a1 a2 a3 a4 a5 a6
  rw [a1, a2, a3, a4, a5, a6]
  omega

theorem SET_SP_range (v : Nat) (h : v < 256) : 0x100 ≤ SET_SP v ∧ SET_SP v ≤ 0x1FF := by
  unfold SET_SP
  rw [(or_0x100 (v + 1) (by omega)).2]
  omega

theorem GET_SP_lt (sp : Nat) : GET_SP sp < 256 := by
  unfold GET_SP u8i; omega

theorem stack_regs (opcode : Nat) (instr : Ptr) (s : St H) (hr : RegsOk s) :
    SecAll (fun x => RegsOk x.st) (stack opcode instr s) := by
  obtain ⟨h1, h2, h3, h4, h5⟩ := hr
  obtain ⟨e1, e2, e3, e4, e5, e6⟩ := sp_steps s.sp h1 h2
  have hsx := SET_SP_range s.x h4
  have hg := GET_SP_lt s.sp
  unfold stack
  repeat (first
    | exact SecAll_none _
    | (refine SecAll_ite _ (fun h => ?_) ?_; try subst h)
    | exact SecAll_some _ _ (by
        simp only [RegsOk, Next.st, addPc, set_a_nz, addTime, rti, plp, handle_cli,
          handle_sei, interrupt, handle_brk, publishStatus, SET_STATUS, PUSH,
          ite_st_sp, ite_st_a, ite_st_x, ite_st_y, ite_self]
        omega))
theorem often_used_regs (br : Bridge H) (opcode : Nat) (instr : Ptr) (data : Nat) (s : St H) (hr : RegsOk s) :
    SecAll (fun x => RegsOk x.st) (often_used br opcode instr data s) := by
  obtain ⟨h1, h2, h3, h4, h5⟩ := hr
  obtain ⟨e1, e2, e3, e4, e5, e6⟩ := sp_steps s.sp h1 h2
  have hsx := SET_SP_range s.x h4
  have hg := GET_SP_lt s.sp
  unfold often_used
  repeat (first
    | exact SecAll_none _
    | (refine SecAll_ite _ (fun h => ?_) ?_; try subst h)
    | exact SecAll_some _ _ (by
        simp [RegsOk, Next.st, addPc, addTime, ite_st_sp, ite_st_a, ite_st_x, ite_st_y, ite_prod_snd,
          set_a_nz, BRANCH, cmp_data, ARITH_ADDR_MODES, arith_ptr, arith_abs, arith_ind,
          HANDLE_PAGE_CROSSING, READ, WRITE, FLUSH_TIME, CACHE_TIME, READ_LIKELY_PPU,
          store_addr, sta_ptr, a_nz_read_addr, lda_prog]
        all_goals first
          | omega
          | (split_ifs <;> omega)))

theorem branch_ops_regs (opcode : Nat) (data : Nat) (s : St H) (hr : RegsOk s) :
    SecAll (fun x => RegsOk x.st) (branch_ops opcode data s) := by
  obtain ⟨h1, h2, h3, h4, h5⟩ := hr
  obtain ⟨e1, e2, e3, e4, e5, e6⟩ := sp_steps s.sp h1 h2
  have hsx := SET_SP_range s.x h4
  have hg := GET_SP_lt s.sp
  unfold branch_ops
  repeat (first
    | exact SecAll_none _
    | (refine SecAll_ite _ (fun h => ?_) ?_; try subst h)
    | exact SecAll_some _ _ (by
        simp [RegsOk, Next.st, addPc, addTime, ite_st_sp, ite_st_a, ite_st_x, ite_st_y, ite_prod_snd,
          BRANCH]
        all_goals omega))

theorem load_store_regs (br : Bridge H) (opcode : Nat) (instr : Ptr) (data : Nat) (s : St H) (hr : RegsOk s) :
    SecAll (fun x => RegsOk x.st) (load_store br opcode instr data s) := by
  obtain ⟨h1, h2, h3, h4, h5⟩ := hr
  obtain ⟨e1, e2, e3, e4, e5, e6⟩ := sp_steps s.sp h1 h2
  have hsx := SET_SP_range s.x h4
  have hg := GET_SP_lt s.sp
  unfold load_store
  repeat (first
    | exact SecAll_none _
    | (refine SecAll_ite _ (fun h => ?_) ?_; try subst h)
    | exact SecAll_some _ _ (by
        simp [RegsOk, Next.st, addPc, addTime, ite_st_sp, ite_st_a, ite_st_x, ite_st_y, ite_prod_snd,
          HANDLE_PAGE_CROSSING, READ, WRITE, FLUSH_TIME, CACHE_TIME, store_addr,
          ld_xy_abs]
        all_goals omega))

theorem compare_regs (br : Bridge H) (opcode : Nat) (instr : Ptr) (data : Nat) (s : St H) (hr : RegsOk s) :
    SecAll (fun x => RegsOk x.st) (compare br opcode instr data s) := by
  obtain ⟨h1, h2, h3, h4, h5⟩ := hr
  obtain ⟨e1, e2, e3, e4, e5, e6⟩ := sp_steps s.sp h1 h2
  have hsx := SET_SP_range s.x h4
  have hg := GET_SP_lt s.sp
  unfold compare
  repeat (first
    | exact SecAll_none _
    | (refine SecAll_ite _ (fun h => ?_) ?_; try subst h)
    | exact SecAll_some _ _ (by
        simp [RegsOk, Next.st, addPc, addTime, ite_st_sp, ite_st_a, ite_st_x, ite_st_y, ite_prod_snd,
          cmp_data, cp_abs, READ, FLUSH_TIME, CACHE_TIME]
        all_goals omega))

theorem logical_regs (br : Bridge H) (opcode : Nat) (instr : Ptr) (data : Nat) (s : St H) (hr : RegsOk s) :
    SecAll (fun x => RegsOk x.st) (logical br opcode instr data s) := by
  obtain ⟨h1, h2, h3, h4, h5⟩ := hr
  obtain ⟨e1, e2, e3, e4, e5, e6⟩ := sp_steps s.sp h1 h2
  have hsx := SET_SP_range s.x h4
  have hg := GET_SP_lt s.sp
  unfold logical
  repeat (first
    | exact SecAll_none _
    | (refine SecAll_ite _ (fun h => ?_) ?_; try subst h)
    | exact SecAll_some _ _ (by
        simp [RegsOk, Next.st, addPc, addTime, ite_st_sp, ite_st_a, ite_st_x, ite_st_y, ite_prod_snd,
          ARITH_ADDR_MODES, arith_ptr, arith_abs, arith_ind, HANDLE_PAGE_CROSSING, READ,
          FLUSH_TIME, CACHE_TIME, READ_LIKELY_PPU, bit_tail]
        all_goals omega))

theorem add_subtract_regs (br : Bridge H) (opcode : Nat) (instr : Ptr) (data : Nat) (s : St H) (hr : RegsOk s) :
    SecAll (fun x => RegsOk x.st) (add_subtract br opcode instr data s) := by
  obtain ⟨h1, h2, h3, h4, h5⟩ := hr
  obtain ⟨e1, e2, e3, e4, e5, e6⟩ := sp_steps s.sp h1 h2
  have hsx := SET_SP_range s.x h4
  have hg := GET_SP_lt s.sp
  unfold add_subtract
  repeat (first
    | exact SecAll_none _
    | (refine SecAll_ite _ (fun h => ?_) ?_; try subst h)
    | exact SecAll_some _ _ (by
        simp [RegsOk, Next.st, addPc, addTime, ite_st_sp, ite_st_a, ite_st_x, ite_st_y, ite_prod_snd,
          ARITH_ADDR_MODES, arith_ptr, arith_abs, arith_ind, HANDLE_PAGE_CROSSING, READ,
          FLUSH_TIME, CACHE_TIME, adc_imm]
        all_goals omega))

theorem shift_rotate_regs (br : Bridge H) (opcode : Nat) (instr : Ptr) (data : Nat) (s : St H) (hr : RegsOk s) :
    SecAll (fun x => RegsOk x.st) (shift_rotate br opcode instr data s) := by
  obtain ⟨h1, h2, h3, h4, h5⟩ := hr
  obtain ⟨e1, e2, e3, e4, e5, e6⟩ := sp_steps s.sp h1 h2
  have hsx := SET_SP_range s.x h4
  have hg := GET_SP_lt s.sp
  unfold shift_rotate
  repeat (first
    | exact SecAll_none _
    | (refine SecAll_ite _ (fun h => ?_) ?_; try subst h)
    | exact SecAll_some _ _ (by
        simp [RegsOk, Next.st, addPc, addTime, ite_st_sp, ite_st_a, ite_st_x, ite_st_y, ite_prod_snd,
          ror_a, ror_abs, rol_abs, rotate_common, ror_zp, rol_zp, write_nz_zp,
          READ, WRITE, FLUSH_TIME, CACHE_TIME]
        all_goals omega))

theorem inc_dec_regs (br : Bridge H) (opcode : Nat) (instr : Ptr) (data : Nat) (s : St H) (hr : RegsOk s) :
    SecAll (fun x => RegsOk x.st) (inc_dec br opcode instr data s) := by
  obtain ⟨h1, h2, h3, h4, h5⟩ := hr
  obtain ⟨e1, e2, e3, e4, e5, e6⟩ := sp_steps s.sp h1 h2
  have hsx := SET_SP_range s.x h4
  have hg := GET_SP_lt s.sp
  unfold inc_dec
  repeat (first
    | exact SecAll_none _
    | (refine SecAll_ite _ (fun h => ?_) ?_; try subst h)
    | exact SecAll_some _ _ (by
        simp [RegsOk, Next.st, addPc, addTime, ite_st_sp, ite_st_a, ite_st_x, ite_st_y, ite_prod_snd,
          add_nz_zp, write_nz_zp, inc_common, READ, WRITE, FLUSH_TIME, CACHE_TIME]
        all_goals omega))

theorem transfer_regs (opcode : Nat) (s : St H) (hr : RegsOk s) :
    SecAll (fun x => RegsOk x.st) (transfer opcode s) := by
  obtain ⟨h1, h2, h3, h4, h5⟩ := hr
  obtain ⟨e1, e2, e3, e4, e5, e6⟩ := sp_steps s.sp h1 h2
  have hsx := SET_SP_range s.x h4
  have hg := GET_SP_lt s.sp
  unfold transfer
  repeat (first
    | exact SecAll_none _
    | (refine SecAll_ite _ (fun h => ?_) ?_; try subst h)
    | exact SecAll_some _ _ (by
        simp [RegsOk, Next.st, addPc, addTime, ite_st_sp, ite_st_a, ite_st_x, ite_st_y, ite_prod_snd]
        all_goals omega))

theorem flags_regs (opcode : Nat) (s : St H) (hr : RegsOk s) :
    SecAll (fun x => RegsOk x.st) (flags opcode s) := by
  obtain ⟨h1, h2, h3, h4, h5⟩ := hr
  obtain ⟨e1, e2, e3, e4, e5, e6⟩ := sp_steps s.sp h1 h2
  have hsx := SET_SP_range s.x h4
  have hg := GET_SP_lt s.sp
  unfold flags
  repeat (first
    | exact SecAll_none _
    | (refine SecAll_ite _ (fun h => ?_) ?_; try subst h)
    | exact SecAll_some _ _ (by
        simp [RegsOk, Next.st, addPc, addTime, ite_st_sp, ite_st_a, ite_st_x, ite_st_y, ite_prod_snd,
          handle_cli, handle_sei, publishStatus]
        all_goals omega))

theorem unofficial_regs (opcode : Nat) (data : Nat) (s : St H) (hr : RegsOk s) :
    SecAll (fun x => RegsOk x.st) (unofficial opcode data s) := by
  obtain ⟨h1, h2, h3, h4, h5⟩ := hr
  obtain ⟨e1, e2, e3, e4, e5, e6⟩ := sp_steps s.sp h1 h2
  have hsx := SET_SP_range s.x h4
  have hg := GET_SP_lt s.sp
  unfold unofficial
  repeat (first
    | exact SecAll_none _
    | (refine SecAll_ite _ (fun h => ?_) ?_; try subst h)
    | exact SecAll_some _ _ (by
        simp [RegsOk, Next.st, addPc, addTime, ite_st_sp, ite_st_a, ite_st_x, ite_st_y, ite_prod_snd,
          HANDLE_PAGE_CROSSING]
        all_goals omega))

theorem unimplemented_regs (opcode data : Nat) (s : St H) (hr : RegsOk s) :
    RegsOk (unimplemented opcode data s) := by
  obtain ⟨h1, h2, h3, h4, h5⟩ := hr
  unfold unimplemented
  simp only [RegsOk, HANDLE_PAGE_CROSSING, addTime, addPc, ite_st_sp, ite_st_a, ite_st_x,
    ite_st_y, ite_self]
  exact ⟨h1, h2, h3, h4, h5⟩

/-- The `switch` keeps the registers in range. -/
theorem exec_regs (br : Bridge H) (opcode : Nat) (instr : Ptr) (data : Nat) (s : St H)
    (hr : RegsOk s) : RegsOk (exec br opcode instr data s).st := by
  cases h : hasCase opcode with
  | false =>
    rw [exec_default br opcode instr data s h]
    exact unimplemented_regs opcode data s hr
  | true =>
    rcases exec_of_case br opcode instr data s h with
      e | e | e | e | e | e | e | e | e | e | e | e
    · exact often_used_regs br _ _ _ _ hr _ e
    · exact branch_ops_regs _ _ _ hr _ e
    · exact load_store_regs br _ _ _ _ hr _ e
    · exact compare_regs br _ _ _ _ hr _ e
    · exact logical_regs br _ _ _ _ hr _ e
    · exact add_subtract_regs br _ _ _ _ hr _ e
    · exact shift_rotate_regs br _ _ _ _ hr _ e
    · exact inc_dec_regs br _ _ _ _ hr _ e
    · exact transfer_regs _ _ hr _ e
    · exact stack_regs _ _ _ hr _ e
    · exact flags_regs _ _ hr _ e
    · exact unofficial_regs _ _ _ hr _ e

theorem interrupt_regs (s : St H) (r : Int) (hr : RegsOk s) : RegsOk (interrupt s r) := by
  obtain ⟨h1, h2, h3, h4, h5⟩ := hr
  obtain ⟨-, -, e3, -, -, -⟩ := sp_steps s.sp h1 h2
  unfold interrupt
  simp only [RegsOk, addTime, ite_st_sp, ite_st_a, ite_st_x, ite_st_y, ite_self]
  exact ⟨e3.1, e3.2, h3, h4, h5⟩

theorem out_of_time_regs (br : Bridge H) (s : St H) (hr : RegsOk s) :
    RegsOk (out_of_time br s).st := by
  unfold out_of_time
  generalize (s.pc + 65535) % 65536 = p
  dsimp only
  split_ifs
  · exact interrupt_regs _ _ hr
  · exact hr
  · exact hr

/-- Every pass of the loop keeps the registers in range. -/
theorem step_regs (br : Bridge H) (s : St H) (hr : RegsOk s) : RegsOk (step br s).st := by
  unfold step
  dsimp only
  split_ifs
  · exact out_of_time_regs br _ hr
  · exact exec_regs br _ _ _ _ hr

theorem passes_regs (br : Bridge H) (n : Nat) (s : St H) (hr : RegsOk s) :
    RegsOk (passes br n s).st := by
  induction n with
  | zero => exact hr
  | succ n ih =>
    simp only [passes]
    cases h : passes br n s with
    | loop s1 =>
      rw [h] at ih
      exact step_regs br s1 ih
    | stop s1 =>
      rw [h] at ih
      exact ih

theorem enter_regs (o : Obj H) (hsp : o.regs.sp < 256) (ha : o.regs.a < 256)
    (hx : o.regs.x < 256) (hy : o.regs.y < 256) : RegsOk (enter o) := by
  obtain ⟨e1, e2⟩ := SET_SP_range o.regs.sp hsp
  exact ⟨e1, e2, ha, hx, hy⟩

/-- What `runLoop` returns has its registers in range. -/
theorem runLoop_regs (br : Bridge H) (fuel : Nat) (s s1 : St H)
    (h : runLoop br fuel s = some s1) : RegsOk s → RegsOk s1 := by
  induction fuel generalizing s with
  | zero => simp [runLoop] at h
  | succ n ih =>
    intro hr
    simp only [runLoop] at h
    have hs := step_regs br s hr
    split at h
    · next s2 he =>
      rw [he] at hs
      exact ih s2 h hs
    · next s2 he =>
      rw [he] at hs
      obtain rfl := Option.some.inj h
      exact hs

/-! ## Pushes and pulls -/

/-- The addresses and stack pointers the cases compute, as cells of the stack page. -/
theorem stack_addrs (sp : Nat) (h1 : 0x100 ≤ sp) (h2 : sp ≤ 0x1FF) :
    (sp - 1 ||| 256 = stackAddr sp 0 ∧ 256 ||| sp - 1 = stackAddr sp 0)
    ∧ (sp - 2 ||| 256 = stackAddr sp 255 ∧ 256 ||| sp - 2 = stackAddr sp 255)
    ∧ sp - 3 ||| 256 = stackAddr sp 254
    ∧ sp = stackAddr sp 1
    ∧ (sp - 255 ||| 256 = stackAddr sp 2 ∧ 256 ||| sp - 255 = stackAddr sp 2)
    ∧ (sp - 254 ||| 256 = stackAddr sp 3 ∧ 256 ||| sp - 254 = stackAddr sp 3)
    ∧ sp - 253 ||| 256 = stackAddr sp 4 := by
  have e : ∀ k, stackAddr sp k = 256 + (sp + 255 + k) % 256 := by
    intro k
    unfold stackAddr
    rw [GET_SP_eq sp (by omega)]
    omega
  refine ⟨⟨?_, ?_⟩, ⟨?_, ?_⟩, ?_, ?_, ⟨?_, ?_⟩, ⟨?_, ?_⟩, ?_⟩
  · rw [(sp_or sp 1 h1 h2 (by omega)).2, e]
  · rw [(sp_or sp 1 h1 h2 (by omega)).1, e]
  · rw [(sp_or sp 2 h1 h2 (by omega)).2, e]; omega
  · rw [(sp_or sp 2 h1 h2 (by omega)).1, e]; omega
  · rw [(sp_or sp 3 h1 h2 (by omega)).2, e]; omega
  · rw [e]; omega
  · rw [(sp_or sp 255 h1 h2 (by omega)).2, e]; omega
  · rw [(sp_or sp 255 h1 h2 (by omega)).1, e]; omega
  · rw [(sp_or sp 254 h1 h2 (by omega)).2, e]; omega
  · rw [(sp_or sp 254 h1 h2 (by omega)).1, e]; omega
  · rw [(sp_or sp 253 h1 h2 (by omega)).2, e]; omega

theorem stackAddr_range (sp k : Nat) : 0x100 ≤ stackAddr sp k ∧ stackAddr sp k ≤ 0x1FF := by
  unfold stackAddr; omega

/-- The stack pointer register behind the internal stack pointer `stackAddr sp k`. -/
theorem GET_SP_stackAddr (sp k : Nat) : GET_SP (stackAddr sp k) = (GET_SP sp + k + 255) % 256 := by
  have h := GET_SP_lt sp
  rw [GET_SP_eq _ (by unfold stackAddr; omega)]
  unfold stackAddr
  omega

theorem exec_push_pull (br : Bridge H) (instr : Ptr) (data : Nat) (s : St H) :
    exec br 0x48 instr data s = .loop (PUSH s s.a)
    ∧ exec br 0x08 instr data s = .loop (PUSH s (CALC_STATUS s ||| (ST_B ||| ST_R)))
    ∧ exec br 0x68 instr data s
        = .loop { set_a_nz s (READ_LOW s.o s.sp) with sp := (s.sp - 0xFF) ||| 0x100 } := by
  refine ⟨?_, ?_, ?_⟩ <;>
    simp [exec, often_used, branch_ops, load_store, compare, logical, add_subtract,
      shift_rotate, inc_dec, transfer, stack, isArith]

/-- The pushes and pulls of the stack instructions, for a stack pointer in range. -/
theorem stack_access (br : Bridge H) (instr : Ptr) (data : Nat) (s : St H) (r : Int)
    (h1 : 0x100 ≤ s.sp) (h2 : s.sp ≤ 0x1FF) :
    -- PHA
    exec br 0x48 instr data s
      = .loop { s with sp := stackAddr s.sp 0, o := WRITE_LOW s.o (stackAddr s.sp 0) s.a }
    -- PHP
    ∧ exec br 0x08 instr data s
      = .loop { s with sp := stackAddr s.sp 0,
                       o := WRITE_LOW s.o (stackAddr s.sp 0) (CALC_STATUS s ||| (ST_B ||| ST_R)) }
    -- PLA
    ∧ exec br 0x68 instr data s
      = .loop { set_a_nz s (READ_LOW s.o (stackAddr s.sp 1)) with sp := stackAddr s.sp 2 }
    -- PLP
    ∧ (∃ s1, exec br 0x28 instr data s = .loop s1 ∧ s1.sp = stackAddr s.sp 2
        ∧ s1.status = READ_LOW s.o (stackAddr s.sp 1) &&& (ST_V ||| ST_D ||| ST_I)
        ∧ s1.nz = (SET_STATUS s (READ_LOW s.o (stackAddr s.sp 1))).nz
        ∧ s1.c = (SET_STATUS s (READ_LOW s.o (stackAddr s.sp 1))).c
        ∧ s1.o.lowMem = s.o.lowMem)
    -- JSR
    ∧ exec br 0x20 instr data s
      = .loop { s with pc := GET_ADDR s instr, sp := stackAddr s.sp 255,
                       o := WRITE_LOW (WRITE_LOW s.o (stackAddr s.sp 0)
                              (((s.pc + 1) % 65536) >>> 8))
                              (stackAddr s.sp 255) ((s.pc + 1) % 65536) }
    -- RTS
    ∧ exec br 0x60 instr data s
      = .loop { s with pc := ((1 + READ_LOW s.o (stackAddr s.sp 1)) % 65536
                              + 0x100 * READ_LOW s.o (stackAddr s.sp 2)) % 65536,
                       sp := stackAddr s.sp 3 }
    -- RTI
    ∧ (∃ s1, exec br 0x40 instr data s = .loop s1 ∧ s1.sp = stackAddr s.sp 4
        ∧ s1.status = READ_LOW s.o (stackAddr s.sp 1) &&& (ST_V ||| ST_D ||| ST_I)
        ∧ s1.nz = (SET_STATUS s (READ_LOW s.o (stackAddr s.sp 1))).nz
        ∧ s1.c = (SET_STATUS s (READ_LOW s.o (stackAddr s.sp 1))).c
        ∧ s1.pc = (READ_LOW s.o (stackAddr s.sp 2)
            ||| READ_LOW s.o (stackAddr s.sp 3) * 0x100) % 65536
        ∧ s1.o.lowMem = s.o.lowMem)
    -- BRK and the interrupt sequence
    ∧ exec br 0x00 instr data s = .loop (interrupt (addPc s 1) 4)
    ∧ (interrupt s r).sp = stackAddr s.sp 254
    ∧ (interrupt s r).o.lowMem (stackAddr s.sp 0) = (s.pc >>> 8) % 256
    ∧ (interrupt s r).o.lowMem (stackAddr s.sp 255) = s.pc % 256
    ∧ (interrupt s r).o.lowMem (stackAddr s.sp 254)
        = (if r ≠ 0 then CALC_STATUS s ||| ST_R ||| ST_B else CALC_STATUS s ||| ST_R)
    ∧ (∀ i, i ≠ stackAddr s.sp 0 → i ≠ stackAddr s.sp 255 → i ≠ stackAddr s.sp 254 →
        (interrupt s r).o.lowMem i = s.o.lowMem i) := by
  obtain ⟨⟨a1, b1⟩, ⟨a2, b2⟩, a3, a4, ⟨a5, b5⟩, ⟨a6, b6⟩, a7⟩ := stack_addrs s.sp h1 h2
  obtain ⟨p1, p2, p3⟩ := exec_push_pull br instr data s
  have a4r : READ_LOW s.o (stackAddr s.sp 1) = READ_LOW s.o s.sp := by rw [← a4]
  refine ⟨?_, ?_, ?_, ?_, ?_, ?_, ?_, ?_, ?_, ?_, ?_, ?_, ?_⟩
  · rw [p1]; simp only [PUSH, a1]
  · rw [p2]; simp only [PUSH, a1]
  · rw [p3]; simp only [Nat.reduceSub, a5]; rw [← a4]
  · rw [exec_plp]
    refine ⟨_, rfl, ?_, ?_, ?_, ?_, ?_⟩
    · unfold plp
      simp only [SET_STATUS, handle_sei, handle_cli, publishStatus, addTime, ite_st_sp, ite_self,
        Nat.reduceSub, a5]
    · rw [← a4]
      unfold plp
      simp only [SET_STATUS, handle_sei, handle_cli, publishStatus, addTime, ite_self]
      split_ifs <;> rfl
    · rw [← a4]
      unfold plp
      simp only [SET_STATUS, handle_sei, handle_cli, publishStatus, addTime, ite_self]
      split_ifs <;> rfl
    · rw [← a4]
      unfold plp
      simp only [SET_STATUS, handle_sei, handle_cli, publishStatus, addTime, ite_self]
      split_ifs <;> rfl
    · unfold plp
      simp only [SET_STATUS, handle_sei, handle_cli, publishStatus, addTime, ite_self]
      split_ifs <;> rfl
  · rw [exec_jsr]; simp only [b1, a2]
  · rw [exec_rts]; simp only [Nat.reduceSub, b5, a6]; rw [← a4]
  · rw [exec_rti]
    refine ⟨_, rfl, ?_, ?_, ?_, ?_, ?_, ?_⟩
    · unfold rti
      simp only [SET_STATUS, publishStatus, addTime, ite_st_sp, ite_self, Nat.reduceSub, a7]
    all_goals
      unfold rti
      simp only [a4r, SET_STATUS, publishStatus, addTime, ite_self, Nat.reduceSub, b5, b6]
      split_ifs <;> rfl
  · rw [exec_brk]; rfl
  · unfold interrupt
    simp only [addTime, ite_st_sp, ite_self, a3]
  all_goals
    have hc := CALC_STATUS_lt s
    have q1 : CALC_STATUS s ||| ST_R < 256 := or_lt_256 _ _ hc (by decide)
    have q2 : CALC_STATUS s ||| ST_R ||| ST_B < 256 := or_lt_256 _ _ q1 (by decide)
    have hg := GET_SP_eq s.sp (by omega)
    have f0 : stackAddr s.sp 0 = 0x100 + (s.sp + 255) % 256 := by unfold stackAddr; omega
    have f255 : stackAddr s.sp 255 = 0x100 + (s.sp + 254) % 256 := by unfold stackAddr; omega
    have f254 : stackAddr s.sp 254 = 0x100 + (s.sp + 253) % 256 := by unfold stackAddr; omega
    simp only [(interrupt_spec s r h1 h2).2.1, f0, f255, f254]
    clear a1 b1 a2 b2 a3 a4 a5 b5 a6 b6 a7 a4r p1 p2 p3 f0 f255 f254 hg
  · rw [if_neg (by omega), if_neg (by omega), if_pos trivial]
  · rw [if_neg (by omega), if_pos trivial]
  · rw [if_pos trivial, Nat.mod_eq_of_lt q1]
    split_ifs
    · rw [Nat.mod_eq_of_lt q2, Nat.mod_eq_of_lt q2]
    · rw [Nat.mod_eq_of_lt q1]
  · intro i n1 n2 n3
    rw [if_neg n3, if_neg n2, if_neg n1]

/-! ## The stack page -/

/-- C25: from an object whose registers are bytes, every state `s` that `run` reaches (the
state after any number of passes from the entry state, and every state `runLoop` returns)
has its internal stack pointer in `0x100..0x1FF`, so the committed `sp` is a byte `SP` with
internal `sp = 0x100 + (SP + 1) mod 256`. Writing `stackAddr sp k` for the cell
`0x100 + (SP + k) mod 256` (always within `0x100..0x1FF`): PHA and PHP write the cell at
SP and leave SP - 1 (mod 256; from SP = 0x00 to 0xFF); JSR writes the cells at SP and
SP - 1 and leaves SP - 2; BRK and the interrupt sequence write the cells at SP, SP - 1,
SP - 2, no other cell, and leave SP - 3; PLA and PLP read the cell at SP + 1 and leave
SP + 1; RTS reads the cells at SP + 1, SP + 2 and leaves SP + 2; RTI reads the cells at
SP + 1, SP + 2, SP + 3 and leaves SP + 3; the pulls leave low memory as it was. -/
theorem stack_page_invariant (br : Bridge H) (o : Obj H) (n : Nat) (s : St H)
    (hsp : o.regs.sp < 256) (ha : o.regs.a < 256) (hx : o.regs.x < 256) (hy : o.regs.y < 256)
    (hs : s = (passes br n (enter o)).st) :
    (0x100 ≤ s.sp ∧ s.sp ≤ 0x1FF)
    ∧ (commit s).regs.sp < 256
    ∧ s.sp = 0x100 + ((commit s).regs.sp + 1) % 256
    ∧ (∀ fuel s1, runLoop br fuel (enter o) = some s1 →
        0x100 ≤ s1.sp ∧ s1.sp ≤ 0x1FF ∧ (commit s1).regs.sp < 256)
    ∧ (∀ k, 0x100 ≤ stackAddr s.sp k ∧ stackAddr s.sp k ≤ 0x1FF
        ∧ stackAddr s.sp k = 0x100 + ((commit s).regs.sp + k) % 256)
    ∧ (∀ k, GET_SP (stackAddr s.sp k) = (GET_SP s.sp + k + 255) % 256)
    ∧ (GET_SP s.sp = 0x00 → GET_SP (stackAddr s.sp 0) = 0xFF)
    ∧ ∀ (instr : Ptr) (data : Nat) (r : Int),
      -- PHA
      exec br 0x48 instr data s
        = .loop { s with sp := stackAddr s.sp 0, o := WRITE_LOW s.o (stackAddr s.sp 0) s.a }
      -- PHP
      ∧ exec br 0x08 instr data s
        = .loop { s with sp := stackAddr s.sp 0,
                         o := WRITE_LOW s.o (stackAddr s.sp 0) (CALC_STATUS s ||| (ST_B ||| ST_R)) }
      -- PLA
      ∧ exec br 0x68 instr data s
        = .loop { set_a_nz s (READ_LOW s.o (stackAddr s.sp 1)) with sp := stackAddr s.sp 2 }
      -- PLP
      ∧ (∃ s1, exec br 0x28 instr data s = .loop s1 ∧ s1.sp = stackAddr s.sp 2
          ∧ s1.status = READ_LOW s.o (stackAddr s.sp 1) &&& (ST_V ||| ST_D ||| ST_I)
          ∧ s1.nz = (SET_STATUS s (READ_LOW s.o (stackAddr s.sp 1))).nz
          ∧ s1.c = (SET_STATUS s (READ_LOW s.o (stackAddr s.sp 1))).c
          ∧ s1.o.lowMem = s.o.lowMem)
      -- JSR
      ∧ exec br 0x20 instr data s
        = .loop { s with pc := GET_ADDR s instr, sp := stackAddr s.sp 255,
                         o := WRITE_LOW (WRITE_LOW s.o (stackAddr s.sp 0)
                                (((s.pc + 1) % 65536) >>> 8))
                                (stackAddr s.sp 255) ((s.pc + 1) % 65536) }
      -- RTS
      ∧ exec br 0x60 instr data s
        = .loop { s with pc := ((1 + READ_LOW s.o (stackAddr s.sp 1)) % 65536
                                + 0x100 * READ_LOW s.o (stackAddr s.sp 2)) % 65536,
                         sp := stackAddr s.sp 3 }
      -- RTI
      ∧ (∃ s1, exec br 0x40 instr data s = .loop s1 ∧ s1.sp = stackAddr s.sp 4
          ∧ s1.status = READ_LOW s.o (stackAddr s.sp 1) &&& (ST_V ||| ST_D ||| ST_I)
          ∧ s1.nz = (SET_STATUS s (READ_LOW s.o (stackAddr s.sp 1))).nz
          ∧ s1.c = (SET_STATUS s (READ_LOW s.o (stackAddr s.sp 1))).c
          ∧ s1.pc = (READ_LOW s.o (stackAddr s.sp 2)
              ||| READ_LOW s.o (stackAddr s.sp 3) * 0x100) % 65536
          ∧ s1.o.lowMem = s.o.lowMem)
      -- BRK and the interrupt sequence
      ∧ exec br 0x00 instr data s = .loop (interrupt (addPc s 1) 4)
      ∧ (interrupt s r).sp = stackAddr s.sp 254
      ∧ (interrupt s r).o.lowMem (stackAddr s.sp 0) = (s.pc >>> 8) % 256
      ∧ (interrupt s r).o.lowMem (stackAddr s.sp 255) = s.pc % 256
      ∧ (interrupt s r).o.lowMem (stackAddr s.sp 254)
          = (if r ≠ 0 then CALC_STATUS s ||| ST_R ||| ST_B else CALC_STATUS s ||| ST_R)
      ∧ (∀ i, i ≠ stackAddr s.sp 0 → i ≠ stackAddr s.sp 255 → i ≠ stackAddr s.sp 254 →
          (interrupt s r).o.lowMem i = s.o.lowMem i) := by
  have hr : RegsOk s := by
    rw [hs]
    exact passes_regs br n _ (enter_regs o hsp ha hx hy)
  obtain ⟨h1, h2, -, -, -⟩ := hr
  have hg := GET_SP_eq s.sp (by omega)
  refine ⟨⟨h1, h2⟩, GET_SP_lt _, ?_, ?_, ?_, GET_SP_stackAddr s.sp, ?_, ?_⟩
  · show s.sp = 0x100 + (GET_SP s.sp + 1) % 256
    omega
  · intro fuel s1 hrun
    obtain ⟨g1, g2, -, -, -⟩ := runLoop_regs br fuel _ s1 hrun (enter_regs o hsp ha hx hy)
    exact ⟨g1, g2, GET_SP_lt _⟩
  · intro k
    exact ⟨(stackAddr_range s.sp k).1, (stackAddr_range s.sp k).2, rfl⟩
  · intro h0
    rw [GET_SP_stackAddr, h0]
  · intro instr data r
    exact stack_access br instr data s r h1 h2

theorem stack_page_invariant_witness :
    (demoObj [0x48] (-3)).regs.sp < 256 ∧ (demoObj [0x48] (-3)).regs.a < 256
    ∧ (demoObj [0x48] (-3)).regs.x < 256 ∧ (demoObj [0x48] (-3)).regs.y < 256
    ∧ fetchOpcode (enter (demoObj [0x48] (-3))) = 0x48
    ∧ (passes demoBridge 1 (enter (demoObj [0x48] (-3)))).st.sp = 0x1FF
    ∧ (0x100 ≤ (passes demoBridge 1 (enter (demoObj [0x48] (-3)))).st.sp
        ∧ (passes demoBridge 1 (enter (demoObj [0x48] (-3)))).st.sp ≤ 0x1FF) :=
  ⟨by decide, by decide, by decide, by decide, by decide, by decide,
    (stack_page_invariant demoBridge (demoObj [0x48] (-3)) 1 _ (by decide) (by decide)
      (by decide) (by decide) rfl).1⟩

/-! ## A program run from the reset state -/

/-- The object that `reset` leaves. -/
theorem reset_eq (f : Int) (u : Ptr) (o : Obj H) :
    reset f u o = some
      { o with
        time := 0
        base := 0
        regs := { pc := 0, a := 0, x := 0, y := 0, status := ST_I, sp := 0xFF }
        irqTime := f
        endTime := f
        errorsNum := 0
        code_map := fun j =>
          if j = 32 then u
          else if 4 ≤ j ∧ j < 32 then u
          else if 0 ≤ j ∧ j < 4 then ⟨0, 0⟩
          else o.code_map j } := by
  unfold reset
  simp only
  rw [mapCode_eq _ 0 0x2000 ⟨0, 0⟩ true (by decide) (by decide) (by decide) (by decide)]
  simp only
  rw [mapCode_eq _ 0x2000 0xE000 u true (by decide) (by decide) (by decide) (by decide)]
  simp only [regionPage, if_true, m_setCodePage, PAGE_SIZE, PAGES_NUM]

/-- What `reset` leaves, as far as the execution of a program in low memory needs it. -/
theorem reset_facts (f : Int) (u : Ptr) (o : Obj H) :
    ∃ o1, reset f u o = some o1
      ∧ o1.regs = { pc := 0, a := 0, x := 0, y := 0, status := ST_I, sp := 0xFF }
      ∧ o1.lowMem = o.lowMem ∧ o1.ext = o.ext
      ∧ o1.code_map 0 = ⟨0, 0⟩ ∧ o1.code_map 31 = u :=
  ⟨_, reset_eq f u o, rfl, rfl, rfl, rfl, rfl⟩

/-- The opcode and the operand byte fetched at an address of the first page when that
page is mapped to low memory. -/
theorem fetch_low (s : St H) (hmap : s.o.code_map 0 = ⟨0, 0⟩) (hpc : s.pc + 1 < 0x800) :
    fetchOpcode s = s.o.lowMem s.pc % 256
    ∧ deref s.o ((fetchPtr s).add 1) 0 = s.o.lowMem (s.pc + 1) % 256 := by
  have h1 : s.pc >>> PAGE_BITS = 0 := by
    simp only [PAGE_BITS, Nat.shiftRight_eq_div_pow]
    omega
  have h2 : PAGE_OFFSET s.pc = s.pc := by
    have := Nat.and_pow_two_sub_one_eq_mod s.pc 11
    simp only [PAGE_OFFSET, PAGE_SIZE]
    norm_num at this ⊢
    rw [this]
    omega
  simp only [fetchOpcode, fetchPtr, h1, h2, hmap, deref, Ptr.add, if_true, Nat.zero_add,
    Nat.add_zero]
  exact ⟨trivial, trivial⟩

theorem exec_zp (br : Bridge H) (instr : Ptr) (data : Nat) (s : St H) :
    exec br 0x85 instr data s = .loop { addPc s 1 with o := WRITE_LOW s.o data s.a }
    ∧ exec br 0xA5 instr data s = .loop (addPc (set_a_nz s (READ_LOW s.o data)) 1) := by
  constructor <;> simp [exec, often_used, isArith]

theorem exec_adc_imm (br : Bridge H) (instr : Ptr) (data : Nat) (s : St H) :
    exec br 0x69 instr data s = .loop (adc_imm s data) := by
  rw [exec_adc br 0x69 instr data s (by decide)]
  simp [ARITH_ADDR_MODES]

/-- C26: from the object `o1` that `reset` leaves when low memory holds
`A9 05 85 10 A5 10 69 03 00` at addresses 0..8, entered into the loop of `run` as `o`
(`o1` with only its clock changed, the counter `t` with `-32768 <= t <= -11`, enough for
five instructions), with any callbacks: the first four passes execute LDA #5, STA $10,
LDA $10, ADC #3 and leave A = 8, C = 0, N = 0, Z = 0, low memory[0x10] = 5, PC = 8, the
counter at `t + 10`; the fifth pass is the BRK interrupt sequence: it pushes PC = 0x000A
(high byte at 0x1FF, low byte at 0x1FE) and the status byte 0x34 (at 0x1FD), leaves
SP = 0xFC and I set, and loads PC from the vector bytes at 0xFFFE/0xFFFF, which lie in the
filler page `unmapped_page` at offsets 0x7FE/0x7FF. -/
theorem program_end_to_end (br : Bridge H) (future_nes_time : Int) (unmapped_page : Ptr)
    (o0 o1 o : Obj H)
    (hreset : reset future_nes_time unmapped_page o0 = some o1)
    (hprog : ∀ i, i < 9 →
      o0.lowMem i = [0xA9, 0x05, 0x85, 0x10, 0xA5, 0x10, 0x69, 0x03, 0x00].getD i 0)
    (hregs : o.regs = o1.regs) (hmem : o.lowMem = o1.lowMem)
    (hmap : o.code_map = o1.code_map) (hext : o.ext = o1.ext)
    (ht1 : -32768 ≤ o.time) (ht2 : o.time ≤ -11) :
    ∃ s4 s5, passes br 4 (enter o) = .loop s4 ∧ passes br 5 (enter o) = .loop s5
      ∧ s4.a = 8 ∧ flagC s4 = false ∧ flagN s4 = false ∧ flagZ s4 = false
      ∧ READ_LOW s4.o 0x10 = 5 ∧ s4.pc = 8 ∧ s4.s_time = o.time + 10
      ∧ s5 = interrupt { s4 with pc := 0x000A } 4
      ∧ s5.pc = deref o unmapped_page 0x7FE + 0x100 * deref o unmapped_page 0x7FF
      ∧ s5.pc = READ_PROG o 0xFFFE + 0x100 * READ_PROG o 0xFFFF
      ∧ READ_LOW s5.o 0x1FF = 0x00 ∧ READ_LOW s5.o 0x1FE = 0x0A ∧ READ_LOW s5.o 0x1FD = 0x34
      ∧ GET_SP s5.sp = 0xFC ∧ flagI s5 = true ∧ s5.a = 8
      ∧ s5.s_time = i16 (o.time + 17 + min 0 (o.base - o.endTime)) := by
  obtain ⟨o1a, r0, r1, r2, r3, r4, r5⟩ := reset_facts future_nes_time unmapped_page o0
  obtain rfl : o1a = o1 := Option.some.inj (r0.symm.trans hreset)
  have hm0 : o.code_map 0 = ⟨0, 0⟩ := by rw [hmap, r4]
  have hm31 : o.code_map 31 = unmapped_page := by rw [hmap, r5]
  have hb : ∀ i, i < 9 →
      o.lowMem i = [0xA9, 0x05, 0x85, 0x10, 0xA5, 0x10, 0x69, 0x03, 0x00].getD i 0 := by
    intro i hi
    rw [hmem, r2]
    exact hprog i hi
  have b0 := hb 0 (by omega)
  have b1 := hb 1 (by omega)
  have b2 := hb 2 (by omega)
  have b3 := hb 3 (by omega)
  have b4 := hb 4 (by omega)
  have b5 := hb 5 (by omega)
  have b6 := hb 6 (by omega)
  have b7 := hb 7 (by omega)
  have b8 := hb 8 (by omega)
  simp only [List.getD_cons_zero, List.getD_cons_succ] at b0 b1 b2 b3 b4 b5 b6 b7 b8
  -- the entry state
  have e0 : enter o =
      { pc := 0, a := 0, x := 0, y := 0, sp := 0x100, status := 0x04, c := 0x0400,
        nz := 0x0402, s_time := o.time, o := o } := by
    unfold enter
    rw [hregs, r1, i16_of_range _ ht1 (by omega)]
    rfl
  -- LDA #5
  obtain ⟨s0, hs0⟩ : ∃ s0 : St H, s0 =
      { pc := 0, a := 0, x := 0, y := 0, sp := 0x100, status := 0x04, c := 0x0400,
        nz := 0x0402, s_time := o.time, o := o } := ⟨_, rfl⟩
  have f0 := fetch_low s0 (by rw [hs0]; exact hm0) (by rw [hs0]; norm_num)
  have st0 : step br s0 = .loop
      { pc := 2, a := 5, x := 0, y := 0, sp := 0x100, status := 0x04, c := 0x0400, nz := 5,
        s_time := o.time + 2, o := o } := by
    rw [step_of_neg br s0 (by rw [hs0]; exact ht1) (by rw [hs0]; show o.time < 0; omega),
      f0.1, f0.2]
    rw [hs0]
    simp only [b0, b1]
    rw [exec_lda_imm]
    rfl
  -- STA $10
  obtain ⟨s1, hs1⟩ : ∃ s1 : St H, s1 =
      { pc := 2, a := 5, x := 0, y := 0, sp := 0x100, status := 0x04, c := 0x0400, nz := 5,
        s_time := o.time + 2, o := o } := ⟨_, rfl⟩
  have f1 := fetch_low s1 (by rw [hs1]; exact hm0) (by rw [hs1]; norm_num)
  have st1 : step br s1 = .loop
      { pc := 4, a := 5, x := 0, y := 0, sp := 0x100, status := 0x04, c := 0x0400, nz := 5,
        s_time := o.time + 5, o := WRITE_LOW o 0x10 5 } := by
    rw [step_of_neg br s1 (by rw [hs1]; show -32768 ≤ o.time + 2; omega)
      (by rw [hs1]; show o.time + 2 < 0; omega), f1.1, f1.2]
    rw [hs1]
    simp only [b2, b3]
    rw [(exec_zp _ _ _ _).1]
    simp only [addPc, Nat.reduceMod, Nat.reduceAdd, Next.loop.injEq, St.mk.injEq, true_and,
      and_true]
    show o.time + 2 + ((clock 0x85 : Nat) : Int) = o.time + 5
    have : clock 0x85 = 3 := by decide
    rw [this]; push_cast; omega
  -- LDA $10
  obtain ⟨s2, hs2⟩ : ∃ s2 : St H, s2 =
      { pc := 4, a := 5, x := 0, y := 0, sp := 0x100, status := 0x04, c := 0x0400, nz := 5,
        s_time := o.time + 5, o := WRITE_LOW o 0x10 5 } := ⟨_, rfl⟩
  have w4 : (WRITE_LOW o 0x10 5).lowMem 4 = 0xA5 := by simp only [WRITE_LOW]; rw [if_neg (by decide), b4]
  have w5 : (WRITE_LOW o 0x10 5).lowMem 5 = 0x10 := by simp only [WRITE_LOW]; rw [if_neg (by decide), b5]
  have w6 : (WRITE_LOW o 0x10 5).lowMem 6 = 0x69 := by simp only [WRITE_LOW]; rw [if_neg (by decide), b6]
  have w7 : (WRITE_LOW o 0x10 5).lowMem 7 = 0x03 := by simp only [WRITE_LOW]; rw [if_neg (by decide), b7]
  have w8 : (WRITE_LOW o 0x10 5).lowMem 8 = 0x00 := by simp only [WRITE_LOW]; rw [if_neg (by decide), b8]
  have w10 : READ_LOW (WRITE_LOW o 0x10 5) 0x10 = 5 := by simp [READ_LOW, WRITE_LOW]
  have f2 := fetch_low s2 (by rw [hs2]; exact hm0) (by rw [hs2]; norm_num)
  have st2 : step br s2 = .loop
      { pc := 6, a := 5, x := 0, y := 0, sp := 0x100, status := 0x04, c := 0x0400, nz := 5,
        s_time := o.time + 8, o := WRITE_LOW o 0x10 5 } := by
    rw [step_of_neg br s2 (by rw [hs2]; show -32768 ≤ o.time + 5; omega)
      (by rw [hs2]; show o.time + 5 < 0; omega), f2.1, f2.2]
    rw [hs2]
    simp only [w4, w5]
    rw [(exec_zp _ _ _ _).2]
    simp only [addPc, set_a_nz, w10, Nat.reduceMod, Nat.reduceAdd, Next.loop.injEq, St.mk.injEq,
      true_and, and_true]
    show o.time + 5 + ((clock 0xA5 : Nat) : Int) = o.time + 8
    have : clock 0xA5 = 3 := by decide
    rw [this]; push_cast; omega
  -- ADC #3
  obtain ⟨s3, hs3⟩ : ∃ s3 : St H, s3 =
      { pc := 6, a := 5, x := 0, y := 0, sp := 0x100, status := 0x04, c := 0x0400, nz := 5,
        s_time := o.time + 8, o := WRITE_LOW o 0x10 5 } := ⟨_, rfl⟩
  have f3 := fetch_low s3 (by rw [hs3]; exact hm0) (by rw [hs3]; norm_num)
  have st3 : step br s3 = .loop
      { pc := 8, a := 8, x := 0, y := 0, sp := 0x100, status := 0x04, c := 8, nz := 8,
        s_time := o.time + 10, o := WRITE_LOW o 0x10 5 } := by
    rw [step_of_neg br s3 (by rw [hs3]; show -32768 ≤ o.time + 8; omega)
      (by rw [hs3]; show o.time + 8 < 0; omega), f3.1, f3.2]
    rw [hs3]
    simp only [w6, w7]
    rw [exec_adc_imm]
    have hst : (adc_imm
        ({ pc := 0, a := 5, x := 0, y := 0, sp := 0, status := 0x04, c := 0x0400, nz := 5,
           s_time := 0, o := o } : St H) 3).status = 0x04 := by
      simp only [adc_imm]
      decide
    simp only [adc_imm] at hst
    simp only [adc_imm, hst, Nat.reduceMod, Nat.reduceAdd, Next.loop.injEq, St.mk.injEq, true_and,
      and_true]
    refine ⟨by decide, by decide, by decide, ?_⟩
    show o.time + 8 + ((clock 0x69 : Nat) : Int) = o.time + 10
    have : clock 0x69 = 2 := by decide
    rw [this]; push_cast; omega
  -- BRK
  obtain ⟨s4, hs4⟩ : ∃ s4 : St H, s4 =
      { pc := 8, a := 8, x := 0, y := 0, sp := 0x100, status := 0x04, c := 8, nz := 8,
        s_time := o.time + 10, o := WRITE_LOW o 0x10 5 } := ⟨_, rfl⟩
  have f4 := fetch_low s4 (by rw [hs4]; exact hm0) (by rw [hs4]; norm_num)
  have st4 : step br s4 = .loop (interrupt { s4 with pc := 0x000A } 4) := by
    rw [step_brk br s4 (by rw [f4.1, hs4]; simp only [w8])
      (by rw [hs4]; show -32768 ≤ o.time + 10; omega)
      (by rw [hs4]; show o.time + 10 < 0; omega)]
    rw [hs4]
    rfl
  rw [← hs4] at st3
  rw [← hs3] at st2
  rw [← hs2] at st1
  rw [← hs1] at st0
  rw [← hs0] at e0
  have p4 : passes br 4 (enter o) = .loop s4 := by
    simp only [passes, e0, st0, st1, st2, st3]
  have p5 : passes br 5 (enter o) = .loop (interrupt { s4 with pc := 0x000A } 4) := by
    simp only [passes, e0, st0, st1, st2, st3, st4]
  obtain ⟨s4b, hs4b⟩ : ∃ s4b : St H, s4b = { s4 with pc := 0x000A } := ⟨_, rfl⟩
  rw [← hs4b] at p5
  have hsp : s4b.sp = 0x100 := by rw [hs4b, hs4]
  have hgs : GET_SP s4b.sp = 0xFF := by rw [hsp]; decide
  have hcs : CALC_STATUS s4b ||| ST_R ||| ST_B = 0x34 := by
    have h : ∀ s : St H, s.status = 4 → s.nz = 8 → s.c = 8 →
        CALC_STATUS s ||| ST_R ||| ST_B = 0x34 := by
      intro s e1 e2 e3
      unfold CALC_STATUS
      rw [e1, e2, e3]
      decide
    exact h _ (by rw [hs4b, hs4]) (by rw [hs4b, hs4]) (by rw [hs4b, hs4])
  obtain ⟨i1, i2, i3, -, i5, i6, i7, -⟩ := interrupt_push s4b 4
    (by omega) (by omega) (by rw [hs4b]; show (0x000A : Nat) < 65536; decide)
  have ipc := interrupt_pc s4b 4 (by omega)
    (by omega)
  have ia := (interrupt_spec s4b 4 (by omega)
    (by omega)).2.2.2.2.1
  have ho : s4b.o = WRITE_LOW o 0x10 5 := by rw [hs4b, hs4]
  have hpcb : s4b.pc = 0x000A := by rw [hs4b]
  have hvec : ∀ k, 0x7FE ≤ k →
      deref (WRITE_LOW o 0x10 5) unmapped_page k = deref o unmapped_page k := by
    intro k hk
    simp only [deref, WRITE_LOW]
    split
    · rw [if_neg (by omega)]
    · rfl
  rw [hgs] at i1 i2 i3
  rw [hpcb] at i1 i2
  rw [hgs] at i5
  rw [ho] at ipc
  refine ⟨s4, interrupt s4b 4, p4, p5, by rw [hs4],
    by rw [hs4]; show (8 &&& 0x100 != 0) = false; decide,
    by rw [hs4]; show (8 &&& 0x8080 != 0) = false; decide,
    by rw [hs4]; show (8 &&& 0xFF == 0) = false; decide,
    by rw [hs4]; exact w10, by rw [hs4], by rw [hs4], by rw [hs4b],
    ?_, ?_, by simpa using i1, by simpa using i2, ?_, by simpa using i5, i6, ?_, ?_⟩
  · rw [ipc]
    show deref (WRITE_LOW o 0x10 5) (o.code_map 31) 0x7FE
        + 0x100 * deref (WRITE_LOW o 0x10 5) (o.code_map 31) 0x7FF = _
    rw [hm31, hvec _ (by omega), hvec _ (by omega)]
  · rw [ipc, (READ_PROG_vector o).1, (READ_PROG_vector o).2]
    show deref (WRITE_LOW o 0x10 5) (o.code_map 31) 0x7FE
        + 0x100 * deref (WRITE_LOW o 0x10 5) (o.code_map 31) 0x7FF = _
    rw [hm31, hvec _ (by omega), hvec _ (by omega)]
  · have h3 : READ_LOW (interrupt s4b 4).o 0x1FD
        = CALC_STATUS s4b ||| ST_R ||| ST_B := by
      simpa using i3
    rw [h3, hcs]
  · rw [ia, hs4b, hs4]
  · rw [i7, hs4b, hs4]
    show i16 (o.time + 10 + 7 + min 0 (o.base - o.endTime)) = _
    rw [show o.time + 10 + 7 = o.time + 17 by omega]
theorem program_end_to_end_witness :
    ∃ o1, reset 0x40000000 ⟨1, 0⟩ demoProgObj = some o1
    ∧ (∀ i, i < 9 →
        demoProgObj.lowMem i = [0xA9, 0x05, 0x85, 0x10, 0xA5, 0x10, 0x69, 0x03, 0x00].getD i 0)
    ∧ demoProgRun.regs = o1.regs ∧ demoProgRun.lowMem = o1.lowMem
    ∧ demoProgRun.code_map = o1.code_map ∧ demoProgRun.ext = o1.ext
    ∧ -32768 ≤ demoProgRun.time ∧ demoProgRun.time ≤ -11
    ∧ ∃ s4 s5, passes demoBridge 4 (enter demoProgRun) = .loop s4
      ∧ passes demoBridge 5 (enter demoProgRun) = .loop s5
      ∧ s4.a = 8 ∧ flagC s4 = false ∧ flagN s4 = false ∧ flagZ s4 = false
      ∧ READ_LOW s4.o 0x10 = 5 ∧ s4.pc = 8 ∧ s4.s_time = demoProgRun.time + 10
      ∧ s5 = interrupt { s4 with pc := 0x000A } 4
      ∧ s5.pc = deref demoProgRun ⟨1, 0⟩ 0x7FE + 0x100 * deref demoProgRun ⟨1, 0⟩ 0x7FF
      ∧ s5.pc = READ_PROG demoProgRun 0xFFFE + 0x100 * READ_PROG demoProgRun 0xFFFF
      ∧ READ_LOW s5.o 0x1FF = 0x00 ∧ READ_LOW s5.o 0x1FE = 0x0A ∧ READ_LOW s5.o 0x1FD = 0x34
      ∧ GET_SP s5.sp = 0xFC ∧ flagI s5 = true ∧ s5.a = 8
      ∧ s5.s_time
          = i16 (demoProgRun.time + 17 + min 0 (demoProgRun.base - demoProgRun.endTime)) := by
  have hmap : demoProgRun.code_map
      = (fun j => if j = 32 then (⟨1, 0⟩ : Ptr) else if 4 ≤ j ∧ j < 32 then ⟨1, 0⟩
          else if 0 ≤ j ∧ j < 4 then ⟨0, 0⟩ else demoProgObj.code_map j) := by
    funext j
    simp only [demoProgRun, demoProgObj, demoObj]
    split_ifs <;> first | rfl | omega
  exact ⟨_, reset_eq 0x40000000 ⟨1, 0⟩ demoProgObj, fun _ _ => rfl, rfl, rfl, hmap, rfl,
    by decide, by decide,
    program_end_to_end demoBridge 0x40000000 ⟨1, 0⟩ demoProgObj _ demoProgRun
      (reset_eq 0x40000000 ⟨1, 0⟩ demoProgObj) (fun _ _ => rfl) rfl rfl hmap rfl
      (by decide) (by decide)⟩

/-! ## Addresses handed to the bridge -/

theorem exec_ld_xy_indexed (br : Bridge H) (instr : Ptr) (data : Nat) (s : St H) :
    exec br 0xBC instr data s
      = .loop (ld_xy_abs br false (HANDLE_PAGE_CROSSING s ((data + s.x) % 65536)) instr
          ((data + s.x) % 65536))
    ∧ exec br 0xBE instr data s
      = .loop (ld_xy_abs br true (HANDLE_PAGE_CROSSING s ((data + s.y) % 65536)) instr
          ((data + s.y) % 65536)) := by
  constructor <;> simp [exec, often_used, branch_ops, load_store, isArith]

/-- C27 fails for LDY abs,X and LDX abs,Y: their effective address is
`unsigned addr = data + 0x100 * GET_MSB()` with `data` the low operand byte plus the index,
and it is handed to `READ` as it is. On the recording host, a pass that fetches LDY abs,X
(0xBC) or LDX abs,Y (0xBE) with a negative counter hands the read callback the address
(low byte + index + 0x100 * high byte), not reduced modulo 0x10000: it is 0x10000 or more
whenever the high byte is 0xFF and low byte + index carries. -/
theorem indexed_load_address (s : St Nat)
    (hop : fetchOpcode s = 0xBC ∨ fetchOpcode s = 0xBE)
    (ht1 : -32768 ≤ s.s_time) (ht2 : s.s_time < 0) (hx : s.x < 256) (hy : s.y < 256) :
    (step traceBridge s).isStop = false
    ∧ (step traceBridge s).st.o.host
        = deref s.o ((fetchPtr s).add 1) 0 + (if fetchOpcode s = 0xBC then s.x else s.y)
          + 0x100 * deref s.o ((fetchPtr s).add 1) 1
    ∧ (deref s.o ((fetchPtr s).add 1) 1 = 0xFF →
        0x100 ≤ deref s.o ((fetchPtr s).add 1) 0 + (if fetchOpcode s = 0xBC then s.x else s.y) →
        0x10000 ≤ (step traceBridge s).st.o.host) := by
  have hd := deref_lt s.o ((fetchPtr s).add 1) 0
  have key : (step traceBridge s).isStop = false
      ∧ (step traceBridge s).st.o.host
        = deref s.o ((fetchPtr s).add 1) 0 + (if fetchOpcode s = 0xBC then s.x else s.y)
          + 0x100 * deref s.o ((fetchPtr s).add 1) 1 := by
    rw [step_of_neg traceBridge s ht1 ht2]
    rcases hop with hop | hop
    · rw [hop, (exec_ld_xy_indexed _ _ _ _).1]
      have e : (deref s.o ((fetchPtr s).add 1) 0 + s.x) % 65536
          = deref s.o ((fetchPtr s).add 1) 0 + s.x := Nat.mod_eq_of_lt (by omega)
      simp [ld_xy_abs, READ, traceBridge, CACHE_TIME, FLUSH_TIME, HANDLE_PAGE_CROSSING, addTime,
        addPc, GET_MSB, Next.st, Next.isStop, e]
    · rw [hop, (exec_ld_xy_indexed _ _ _ _).2]
      have e : (deref s.o ((fetchPtr s).add 1) 0 + s.y) % 65536
          = deref s.o ((fetchPtr s).add 1) 0 + s.y := Nat.mod_eq_of_lt (by omega)
      simp [ld_xy_abs, READ, traceBridge, CACHE_TIME, FLUSH_TIME, HANDLE_PAGE_CROSSING, addTime,
        addPc, GET_MSB, Next.st, Next.isStop, e]
  refine ⟨key.1, key.2, ?_⟩
  intro h1 h2
  rw [key.2, h1]
  omega

theorem indexed_load_address_witness :
    (fetchOpcode demoLdySt = 0xBC ∨ fetchOpcode demoLdySt = 0xBE)
    ∧ demoLdySt.x = 1
    ∧ deref demoLdySt.o ((fetchPtr demoLdySt).add 1) 0 = 0xFF
    ∧ deref demoLdySt.o ((fetchPtr demoLdySt).add 1) 1 = 0xFF
    ∧ (step traceBridge demoLdySt).st.o.host = 0x10000
    ∧ (step traceBridge demoLdxSt).st.o.host = 0x10000
    ∧ (step traceBridge demoAdcAbsXSt).st.o.host = 0x0000
    ∧ (step traceBridge demoStaAbsXSt).st.o.host = 0x0000
    ∧ (step traceBridge demoLdySt).isStop = false
    ∧ (step traceBridge demoLdySt).st.o.host
        = deref demoLdySt.o ((fetchPtr demoLdySt).add 1) 0
          + (if fetchOpcode demoLdySt = 0xBC then demoLdySt.x else demoLdySt.y)
          + 0x100 * deref demoLdySt.o ((fetchPtr demoLdySt).add 1) 1
    ∧ (deref demoLdySt.o ((fetchPtr demoLdySt).add 1) 1 = 0xFF →
        0x100 ≤ deref demoLdySt.o ((fetchPtr demoLdySt).add 1) 0
          + (if fetchOpcode demoLdySt = 0xBC then demoLdySt.x else demoLdySt.y) →
        0x10000 ≤ (step traceBridge demoLdySt).st.o.host) :=
  ⟨by decide, by decide, by decide, by decide, by decide, by decide, by decide, by decide,
    indexed_load_address demoLdySt (by decide) (by decide) (by decide) (by decide) (by decide)⟩

/-! ## BRK followed by RTI -/

theorem and_pow_bne (x k : Nat) : (x &&& 2 ^ k != 0) = x.testBit k := by
  rw [Nat.and_two_pow]
  cases x.testBit k <;> simp

/-- Each flag of a state is its bit of the packed status byte. -/
theorem CALC_STATUS_bits (s : St H) :
    (CALC_STATUS s).testBit 7 = flagN s
    ∧ (CALC_STATUS s).testBit 6 = flagV s
    ∧ (CALC_STATUS s).testBit 3 = flagD s
    ∧ (CALC_STATUS s).testBit 2 = flagI s
    ∧ (CALC_STATUS s).testBit 1 = flagZ s
    ∧ (CALC_STATUS s).testBit 0 = flagC s := by
  have e1 : ST_V ||| ST_D ||| ST_I = 0x4C := by decide
  have m : (256 : Nat) = 2 ^ 8 := rfl
  have fN : flagN s = (s.nz.testBit 15 || s.nz.testBit 7) := by
    have h : (0x8080 : Nat) = 2 ^ 15 ||| 2 ^ 7 := by decide
    simp only [flagN, IS_NEG, h, Nat.and_or_distrib_left, Nat.and_two_pow]
    cases s.nz.testBit 15 <;> cases s.nz.testBit 7 <;> decide
  have fV : flagV s = s.status.testBit 6 := and_pow_bne s.status 6
  have fD : flagD s = s.status.testBit 3 := and_pow_bne s.status 3
  have fI : flagI s = s.status.testBit 2 := and_pow_bne s.status 2
  have fC : flagC s = s.c.testBit 8 := and_pow_bne s.c 8
  have k76 : (76 : Nat).testBit 7 = false ∧ (76 : Nat).testBit 6 = true
      ∧ (76 : Nat).testBit 3 = true ∧ (76 : Nat).testBit 2 = true
      ∧ (76 : Nat).testBit 1 = false ∧ (76 : Nat).testBit 0 = false := by decide
  have k128 : (128 : Nat).testBit 7 = true ∧ (128 : Nat).testBit 6 = false
      ∧ (128 : Nat).testBit 3 = false ∧ (128 : Nat).testBit 2 = false
      ∧ (128 : Nat).testBit 1 = false ∧ (128 : Nat).testBit 0 = false := by decide
  have k1 : (1 : Nat).testBit 7 = false ∧ (1 : Nat).testBit 6 = false
      ∧ (1 : Nat).testBit 3 = false ∧ (1 : Nat).testBit 2 = false
      ∧ (1 : Nat).testBit 1 = false ∧ (1 : Nat).testBit 0 = true := by decide
  have k2 : (2 : Nat).testBit 7 = false ∧ (2 : Nat).testBit 6 = false
      ∧ (2 : Nat).testBit 3 = false ∧ (2 : Nat).testBit 2 = false
      ∧ (2 : Nat).testBit 1 = true ∧ (2 : Nat).testBit 0 = false := by decide
  obtain ⟨a7, a6, a3, a2, a1, a0⟩ := k76
  obtain ⟨b7, b6, b3, b2, b1, b0⟩ := k128
  obtain ⟨c7, c6, c3, c2, c1, c0⟩ := k1
  obtain ⟨d7, d6, d3, d2, d1, d0⟩ := k2
  rw [fN, fV, fD, fI, fC]
  unfold CALC_STATUS flagZ
  simp only [e1, ST_N, ST_C, ST_Z]
  split <;> rename_i hz <;>
    (simp only [m, Nat.testBit_mod_two_pow, Nat.testBit_or, Nat.testBit_and,
      Nat.testBit_shiftRight, a7, a6, a3, a2, a1, a0, b7, b6, b3, b2, b1, b0,
      c7, c6, c3, c2, c1, c0, d7, d6, d3, d2, d1, d0, hz, Bool.and_false, Bool.and_true,
      Bool.or_false, Bool.or_true, Bool.false_or, Bool.true_and, Bool.false_and,
      Nat.reduceAdd, Nat.reduceLT, decide_True, beq_self_eq_true, and_self, and_true]
     try simp [hz])

/-- The packed status byte never has the reserved bit either. -/
theorem CALC_STATUS_r (s : St H) : CALC_STATUS s &&& (ST_R ||| ST_B) = 0 := by
  have key : (CALC_STATUS s).testBit 5 = false := by
    have c1 : (0x4C : Nat).testBit 5 = false := by decide
    have c2 : (0x80 : Nat).testBit 5 = false := by decide
    have c3 : (1 : Nat).testBit 5 = false := by decide
    have c4 : (2 : Nat).testBit 5 = false := by decide
    have e1 : ST_V ||| ST_D ||| ST_I = 0x4C := by decide
    unfold CALC_STATUS
    simp only [e1, ST_N, ST_C, ST_Z]
    have m : (256 : Nat) = 2 ^ 8 := rfl
    split <;>
      simp only [m, Nat.testBit_mod_two_pow, Nat.testBit_or, Nat.testBit_and, c1, c2, c3, c4,
        Bool.and_false, Bool.or_false, Bool.false_and]
  have h1 := Nat.and_two_pow (CALC_STATUS s) 5
  rw [key] at h1
  have h2 : CALC_STATUS s &&& ST_R = 0 := by simpa [ST_R] using h1
  rw [Nat.and_or_distrib_left, h2, (CALC_STATUS_b s).1]
  rfl

set_option maxRecDepth 100000 in
theorem brk_byte_table : ∀ c, c < 256 → c &&& (ST_R ||| ST_B) = 0 →
    (c ||| ST_R ||| ST_B) &&& 0xCF = c
    ∧ ((c ||| ST_R ||| ST_B) &&& ST_N != 0) = c.testBit 7
    ∧ ((c ||| ST_R ||| ST_B) &&& ST_V != 0) = c.testBit 6
    ∧ ((c ||| ST_R ||| ST_B) &&& ST_D != 0) = c.testBit 3
    ∧ ((c ||| ST_R ||| ST_B) &&& ST_I != 0) = c.testBit 2
    ∧ ((c ||| ST_R ||| ST_B) &&& ST_Z != 0) = c.testBit 1
    ∧ ((c ||| ST_R ||| ST_B) &&& ST_C != 0) = c.testBit 0 := by
  decide

/-- Unpacking the status byte that BRK pushes for a state gives that state its flags
back. -/
theorem brk_status_flags (s0 s2 : St H) :
    CALC_STATUS (SET_STATUS s2 (CALC_STATUS s0 ||| ST_R ||| ST_B)) = CALC_STATUS s0
    ∧ flagN (SET_STATUS s2 (CALC_STATUS s0 ||| ST_R ||| ST_B)) = flagN s0
    ∧ flagV (SET_STATUS s2 (CALC_STATUS s0 ||| ST_R ||| ST_B)) = flagV s0
    ∧ flagD (SET_STATUS s2 (CALC_STATUS s0 ||| ST_R ||| ST_B)) = flagD s0
    ∧ flagI (SET_STATUS s2 (CALC_STATUS s0 ||| ST_R ||| ST_B)) = flagI s0
    ∧ flagZ (SET_STATUS s2 (CALC_STATUS s0 ||| ST_R ||| ST_B)) = flagZ s0
    ∧ flagC (SET_STATUS s2 (CALC_STATUS s0 ||| ST_R ||| ST_B)) = flagC s0 := by
  have hc := CALC_STATUS_lt s0
  have hb : CALC_STATUS s0 ||| ST_R ||| ST_B < 256 :=
    or_lt_256 _ _ (or_lt_256 _ _ hc (by decide)) (by decide)
  obtain ⟨t0, t1, t2, t3, t4, t5, t6, -⟩ := status_table _ hb
  obtain ⟨u0, u1, u2, u3, u4, u5, u6⟩ := SET_STATUS_flags s2 (CALC_STATUS s0 ||| ST_R ||| ST_B)
  obtain ⟨v0, v1, v2, v3, v4, v5, v6⟩ := brk_byte_table _ hc (CALC_STATUS_r s0)
  obtain ⟨w1, w2, w3, w4, w5, w6⟩ := CALC_STATUS_bits s0
  exact ⟨by rw [u0, t0, v0], by rw [u1, t1, v1, w1], by rw [u2, t2, v2, w2],
    by rw [u3, t3, v3, w3], by rw [u4, t4, v4, w4], by rw [u5, t5, v5, w5],
    by rw [u6, t6, v6, w6]⟩

theorem byte_or (lo hi : Nat) (h : lo < 256) :
    lo ||| hi * 0x100 = lo + 0x100 * hi ∧ lo ||| hi <<< 8 = lo + 0x100 * hi := by
  have e := Nat.mul_add_lt_is_or (i := 8) (show lo < 2 ^ 8 from h) hi
  have e2 : hi <<< 8 = 2 ^ 8 * hi := by rw [Nat.shiftLeft_eq]; ring
  have e3 : hi * 0x100 = 2 ^ 8 * hi := by ring
  rw [e2, e3, Nat.or_comm, ← e]
  exact ⟨by ring, by ring⟩

/-- C35: BRK followed by RTI is a round trip. For every state whose fetched opcode is BRK
(at address `p = s.pc`, fetched with a negative counter, stack pointer in the stack page),
the pass sets the I flag and moves the stack pointer down by 3; and for every state in
which RTI is then fetched with that stack pointer and the three pushed stack bytes
unchanged, RTI leaves PC = (p + 2) mod 0x10000, the stack pointer of before the BRK, and
the flags N, V, D, I, Z, C (the whole packed status byte) of before the BRK. -/
theorem brk_rti_round_trip (br : Bridge H) (s : St H) (hop : fetchOpcode s = 0x00)
    (ht1 : -32768 ≤ s.s_time) (ht2 : s.s_time < 0)
    (hsp1 : 0x100 ≤ s.sp) (hsp2 : s.sp ≤ 0x1FF) :
    ∃ s1, step br s = .loop s1
      ∧ GET_SP s1.sp = (GET_SP s.sp + 253) % 256
      ∧ flagI s1 = true
      ∧ (∀ s2 : St H, fetchOpcode s2 = 0x40 → -32768 ≤ s2.s_time → s2.s_time < 0 →
          s2.sp = s1.sp →
          READ_LOW s2.o (0x100 + GET_SP s.sp) = READ_LOW s1.o (0x100 + GET_SP s.sp) →
          READ_LOW s2.o (0x100 + (GET_SP s.sp + 255) % 256)
            = READ_LOW s1.o (0x100 + (GET_SP s.sp + 255) % 256) →
          READ_LOW s2.o (0x100 + (GET_SP s.sp + 254) % 256)
            = READ_LOW s1.o (0x100 + (GET_SP s.sp + 254) % 256) →
          ∃ s3, step br s2 = .loop s3 ∧ s3.pc = (s.pc + 2) % 65536
            ∧ s3.sp = s.sp ∧ GET_SP s3.sp = GET_SP s.sp
            ∧ flagN s3 = flagN s ∧ flagV s3 = flagV s ∧ flagD s3 = flagD s
            ∧ flagI s3 = flagI s ∧ flagZ s3 = flagZ s ∧ flagC s3 = flagC s
            ∧ CALC_STATUS s3 = CALC_STATUS s) := by
  obtain ⟨s0, hs0⟩ : ∃ s0 : St H, s0 = { s with pc := (s.pc + 2) % 65536 } := ⟨_, rfl⟩
  have hstep := step_brk br s hop ht1 ht2
  rw [← hs0] at hstep
  have h0sp : s0.sp = s.sp := by rw [hs0]
  have h0pc : s0.pc = (s.pc + 2) % 65536 := by rw [hs0]
  have hpc : s0.pc < 65536 := by rw [h0pc]; omega
  obtain ⟨p1, p2, p3, -, p5, p6, -, -⟩ :=
    interrupt_push s0 4 (by rw [h0sp]; exact hsp1) (by rw [h0sp]; exact hsp2) hpc
  rw [if_pos (by decide)] at p3
  rw [h0sp] at p1 p2 p3 p5
  have q1 := (stack_access br ⟨0, 0⟩ 0 s0 4 (by rw [h0sp]; exact hsp1)
    (by rw [h0sp]; exact hsp2)).2.2.2.2.2.2.2.2.1
  rw [h0sp] at q1
  have hg := GET_SP_lt s.sp
  refine ⟨_, hstep, p5, p6, ?_⟩
  intro s2 hop2 u1 u2 hsp hr1 hr2 hr3
  rw [q1] at hsp
  rw [p1] at hr1
  rw [p2] at hr2
  rw [p3] at hr3
  obtain ⟨r1, r2⟩ := stackAddr_range s.sp 254
  have hstep2 := step_of_neg br s2 u1 u2
  rw [hop2] at hstep2
  obtain ⟨s2b, hs2b⟩ : ∃ s2b : St H, s2b =
      { s2 with pc := (s2.pc + 1) % 65536, s_time := s2.s_time + (clock 0x40 : Int) } :=
    ⟨_, rfl⟩
  rw [← hs2b] at hstep2
  have hbsp : s2b.sp = s2.sp := by rw [hs2b]
  have hbo : s2b.o = s2.o := by rw [hs2b]
  obtain ⟨s3, e3, f1, f2, f3, f4, f5, -⟩ :=
    (stack_access br ((fetchPtr s2).add 1) (deref s2.o ((fetchPtr s2).add 1) 0) s2b 0
      (by rw [hbsp, hsp]; exact r1) (by rw [hbsp, hsp]; exact r2)).2.2.2.2.2.2.1
  rw [hbsp] at f1 f2 f3 f4 f5
  rw [hbo] at f2 f3 f4 f5
  have g := GET_SP_stackAddr s.sp 254
  have a1 : stackAddr s2.sp 1 = 0x100 + (GET_SP s.sp + 254) % 256 := by
    rw [hsp]; show 0x100 + (GET_SP (stackAddr s.sp 254) + 1) % 256 = _; rw [g]; omega
  have a2 : stackAddr s2.sp 2 = 0x100 + (GET_SP s.sp + 255) % 256 := by
    rw [hsp]; show 0x100 + (GET_SP (stackAddr s.sp 254) + 2) % 256 = _; rw [g]; omega
  have a3 : stackAddr s2.sp 3 = 0x100 + GET_SP s.sp := by
    rw [hsp]; show 0x100 + (GET_SP (stackAddr s.sp 254) + 3) % 256 = _; rw [g]; omega
  have a4 : stackAddr s2.sp 4 = s.sp := by
    rw [hsp]
    have h := (stack_addrs s.sp hsp1 hsp2).2.2.2.1
    show 0x100 + (GET_SP (stackAddr s.sp 254) + 4) % 256 = _
    rw [g]
    unfold stackAddr at h
    omega
  rw [a1, hr3] at f2 f3 f4
  rw [a2, a3, hr1, hr2] at f5
  rw [a4] at f1
  have hcs : CALC_STATUS s0 = CALC_STATUS s := by rw [hs0]; rfl
  rw [hcs] at f2 f3 f4
  obtain ⟨v0, v1, v2, v3, v4, v5, v6⟩ := brk_status_flags s s2b
  have hst : (SET_STATUS s2b (CALC_STATUS s ||| ST_R ||| ST_B)).status = s3.status := by
    rw [f2]; rfl
  have hfl : ∀ t : St H, t.status = s3.status → t.nz = s3.nz → t.c = s3.c →
      CALC_STATUS s3 = CALC_STATUS t ∧ flagN s3 = flagN t ∧ flagV s3 = flagV t
      ∧ flagD s3 = flagD t ∧ flagI s3 = flagI t ∧ flagZ s3 = flagZ t ∧ flagC s3 = flagC t := by
    intro t h1 h2 h3
    simp only [CALC_STATUS, flagN, IS_NEG, flagV, flagD, flagI, flagZ, flagC, h1, h2, h3,
      and_self]
  obtain ⟨w0, w1, w2, w3, w4, w5, w6⟩ := hfl _ hst f3.symm f4.symm
  refine ⟨s3, by rw [hstep2, e3], ?_, f1, by rw [f1], by rw [w1, v1], by rw [w2, v2],
    by rw [w3, v3], by rw [w4, v4], by rw [w5, v5], by rw [w6, v6], by rw [w0, v0]⟩
  rw [f5, (byte_or _ _ (Nat.mod_lt _ (by decide))).1, h0pc]
  omega

theorem brk_rti_round_trip_witness :
    fetchOpcode demoBrkSt = 0x00 ∧ -32768 ≤ demoBrkSt.s_time ∧ demoBrkSt.s_time < 0
    ∧ 0x100 ≤ demoBrkSt.sp ∧ demoBrkSt.sp ≤ 0x1FF ∧
    ∃ s1, step demoBridge demoBrkSt = .loop s1
      ∧ GET_SP s1.sp = (GET_SP demoBrkSt.sp + 253) % 256
      ∧ flagI s1 = true
      ∧ (∀ s2 : St Unit, fetchOpcode s2 = 0x40 → -32768 ≤ s2.s_time → s2.s_time < 0 →
          s2.sp = s1.sp →
          READ_LOW s2.o (0x100 + GET_SP demoBrkSt.sp)
            = READ_LOW s1.o (0x100 + GET_SP demoBrkSt.sp) →
          READ_LOW s2.o (0x100 + (GET_SP demoBrkSt.sp + 255) % 256)
            = READ_LOW s1.o (0x100 + (GET_SP demoBrkSt.sp + 255) % 256) →
          READ_LOW s2.o (0x100 + (GET_SP demoBrkSt.sp + 254) % 256)
            = READ_LOW s1.o (0x100 + (GET_SP demoBrkSt.sp + 254) % 256) →
          ∃ s3, step demoBridge s2 = .loop s3 ∧ s3.pc = (demoBrkSt.pc + 2) % 65536
            ∧ s3.sp = demoBrkSt.sp ∧ GET_SP s3.sp = GET_SP demoBrkSt.sp
            ∧ flagN s3 = flagN demoBrkSt ∧ flagV s3 = flagV demoBrkSt
            ∧ flagD s3 = flagD demoBrkSt ∧ flagI s3 = flagI demoBrkSt
            ∧ flagZ s3 = flagZ demoBrkSt ∧ flagC s3 = flagC demoBrkSt
            ∧ CALC_STATUS s3 = CALC_STATUS demoBrkSt) :=
  ⟨by decide, by decide, by decide, by decide, by decide,
    brk_rti_round_trip demoBridge demoBrkSt (by decide) (by decide) (by decide) (by decide)
      (by decide)⟩

/-! ## JMP (ind) -/

theorem exec_jmp_ind (br : Bridge H) (instr : Ptr) (data : Nat) (s : St H) :
    exec br 0x6C instr data s = .loop { s with pc := jmp_ind s instr } := by
  simp [exec, often_used, branch_ops, load_store, compare, logical, add_subtract,
    shift_rotate, inc_dec, transfer, stack, isArith]

/-- The address of the high byte of an indirect jump: the pointer with one added to its
low byte only. -/
theorem jmp_ind_high (p : Nat) (hp : p < 65536) :
    (p &&& 0xFF00) ||| ((p + 1) &&& 0xFF) = p / 256 * 256 + (p + 1) % 256 := by
  have e1 : p &&& 0xFF00 = 2 ^ 8 * (p / 256) := by
    apply Nat.eq_of_testBit_eq
    intro j
    rw [Nat.testBit_and, Nat.testBit_mul_pow_two]
    have hm : (0xFF00 : Nat) = 2 ^ 8 * 0xFF := by decide
    rw [hm, Nat.testBit_mul_pow_two]
    by_cases hj : 8 ≤ j
    · have e : p / 256 = p >>> 8 := by rw [Nat.shiftRight_eq_div_pow]
      rw [e, Nat.testBit_shiftRight]
      have e2 : 8 + (j - 8) = j := by omega
      rw [e2]
      by_cases h16 : j < 16
      · have hb : (0xFF : Nat).testBit (j - 8) = true := by
          have : j - 8 < 8 := by omega
          interval_cases (j - 8) <;> decide
        simp [hj, hb]
      · have hlt : p < 2 ^ j :=
          lt_of_lt_of_le hp (by
            have : 2 ^ 16 ≤ 2 ^ j := Nat.pow_le_pow_right (by decide) (by omega)
            simpa using this)
        simp [Nat.testBit_lt_two_pow hlt]
    · simp [hj]
  rw [e1, and_0xFF, ← Nat.mul_add_lt_is_or (Nat.mod_lt _ (by decide))]
  ring

/-- C31: for every pointer address `p` (the operand of a JMP (ind) fetched with a negative
counter), the pass loads the PC low byte from `p` and the PC high byte from
`(p AND 0xFF00) OR ((p + 1) AND 0xFF)`, which is `p` with one added to its low byte only:
`p + 1` unless `p` ends in `0xFF`, and `p - 0xFF` (the start of the same 256-byte page)
when it does; both bytes come from the one mapped page `code_map[p >> PAGE_BITS]`, which
is also the page of the high-byte address; nothing but PC and the clock (5 cycles)
changes. The debugging `check` on the pointer is left out of the model. -/
theorem jmp_indirect (br : Bridge H) (s : St H) (p : Nat) (hop : fetchOpcode s = 0x6C)
    (hptr : GET_LE16 s.o ((fetchPtr s).add 1) = p)
    (ht1 : -32768 ≤ s.s_time) (ht2 : s.s_time < 0) :
    ∃ s1, step br s = .loop s1
      ∧ p < 65536
      ∧ s1.pc = READ_PROG s.o p + 0x100 * READ_PROG s.o ((p &&& 0xFF00) ||| ((p + 1) &&& 0xFF))
      ∧ s1.pc = deref s.o (s.o.code_map (p >>> PAGE_BITS)) (PAGE_OFFSET p)
          + 0x100 * deref s.o (s.o.code_map (p >>> PAGE_BITS))
              (PAGE_OFFSET ((p &&& 0xFF00) ||| ((p + 1) &&& 0xFF)))
      ∧ (p &&& 0xFF00) ||| ((p + 1) &&& 0xFF) = p / 256 * 256 + (p + 1) % 256
      ∧ (p % 256 = 0xFF → (p &&& 0xFF00) ||| ((p + 1) &&& 0xFF) = p - 0xFF)
      ∧ (p % 256 ≠ 0xFF → (p &&& 0xFF00) ||| ((p + 1) &&& 0xFF) = p + 1)
      ∧ ((p &&& 0xFF00) ||| ((p + 1) &&& 0xFF)) / 256 = p / 256
      ∧ ((p &&& 0xFF00) ||| ((p + 1) &&& 0xFF)) >>> PAGE_BITS = p >>> PAGE_BITS
      ∧ s1.a = s.a ∧ s1.x = s.x ∧ s1.y = s.y ∧ s1.sp = s.sp ∧ s1.status = s.status
      ∧ s1.c = s.c ∧ s1.nz = s.nz ∧ s1.o = s.o ∧ s1.s_time = s.s_time + 5 := by
  have hp : p < 65536 := by
    have h0 := deref_lt s.o ((fetchPtr s).add 1) 0
    have h1 := deref_lt s.o ((fetchPtr s).add 1) 1
    rw [← hptr]; unfold GET_LE16; omega
  have hk : clock 0x6C = 5 := by decide
  have hstep := step_of_neg br s ht1 ht2
  rw [hop, exec_jmp_ind, hk] at hstep
  have hh := jmp_ind_high p hp
  have hpage : ((p &&& 0xFF00) ||| ((p + 1) &&& 0xFF)) >>> PAGE_BITS = p >>> PAGE_BITS := by
    rw [hh]
    simp only [PAGE_BITS, Nat.shiftRight_eq_div_pow]
    omega
  have hj : jmp_ind { s with pc := (s.pc + 1) % 65536, s_time := s.s_time + ((5 : Nat) : Int) }
      ((fetchPtr s).add 1)
      = deref s.o (s.o.code_map (p >>> PAGE_BITS)) (PAGE_OFFSET p)
          + 0x100 * deref s.o (s.o.code_map (p >>> PAGE_BITS))
              (PAGE_OFFSET ((p &&& 0xFF00) ||| ((p + 1) &&& 0xFF))) := by
    have h0 := deref_lt s.o (s.o.code_map (p >>> PAGE_BITS)) (PAGE_OFFSET p)
    have h1 := deref_lt s.o (s.o.code_map (p >>> PAGE_BITS))
      (PAGE_OFFSET ((p &&& 0xFF00) ||| ((p + 1) &&& 0xFF)))
    unfold jmp_ind
    simp only [GET_ADDR, hptr, Nat.mod_eq_of_lt hp]
    rw [(byte_or _ _ h0).2]
    omega
  refine ⟨_, hstep, hp, ?_, hj, hh, ?_, ?_, ?_, hpage, rfl, rfl, rfl, rfl, rfl, rfl, rfl, rfl,
    by simp⟩
  · rw [READ_PROG, READ_PROG, hpage]; exact hj
  · intro h; rw [hh]; omega
  · intro h; rw [hh]; omega
  · rw [hh]; omega

theorem jmp_indirect_witness :
    fetchOpcode demoJmpIndSt = 0x6C
    ∧ GET_LE16 demoJmpIndSt.o ((fetchPtr demoJmpIndSt).add 1) = 0x00FF
    ∧ -32768 ≤ demoJmpIndSt.s_time ∧ demoJmpIndSt.s_time < 0
    ∧ ∃ s1, step demoBridge demoJmpIndSt = .loop s1
      ∧ 0x00FF < 65536
      ∧ s1.pc = READ_PROG demoJmpIndSt.o 0x00FF
          + 0x100 * READ_PROG demoJmpIndSt.o ((0x00FF &&& 0xFF00) ||| ((0x00FF + 1) &&& 0xFF))
      ∧ s1.pc = deref demoJmpIndSt.o (demoJmpIndSt.o.code_map (0x00FF >>> PAGE_BITS))
            (PAGE_OFFSET 0x00FF)
          + 0x100 * deref demoJmpIndSt.o (demoJmpIndSt.o.code_map (0x00FF >>> PAGE_BITS))
              (PAGE_OFFSET ((0x00FF &&& 0xFF00) ||| ((0x00FF + 1) &&& 0xFF)))
      ∧ (0x00FF &&& 0xFF00) ||| ((0x00FF + 1) &&& 0xFF) = 0x00FF / 256 * 256 + (0x00FF + 1) % 256
      ∧ (0x00FF % 256 = 0xFF → (0x00FF &&& 0xFF00) ||| ((0x00FF + 1) &&& 0xFF) = 0x00FF - 0xFF)
      ∧ (0x00FF % 256 ≠ 0xFF → (0x00FF &&& 0xFF00) ||| ((0x00FF + 1) &&& 0xFF) = 0x00FF + 1)
      ∧ ((0x00FF &&& 0xFF00) ||| ((0x00FF + 1) &&& 0xFF)) / 256 = 0x00FF / 256
      ∧ ((0x00FF &&& 0xFF00) ||| ((0x00FF + 1) &&& 0xFF)) >>> PAGE_BITS = 0x00FF >>> PAGE_BITS
      ∧ s1.a = demoJmpIndSt.a ∧ s1.x = demoJmpIndSt.x ∧ s1.y = demoJmpIndSt.y
      ∧ s1.sp = demoJmpIndSt.sp ∧ s1.status = demoJmpIndSt.status
      ∧ s1.c = demoJmpIndSt.c ∧ s1.nz = demoJmpIndSt.nz ∧ s1.o = demoJmpIndSt.o
      ∧ s1.s_time = demoJmpIndSt.s_time + 5 :=
  ⟨by decide, by decide, by decide, by decide,
    jmp_indirect demoBridge demoJmpIndSt 0x00FF (by decide) (by decide) (by decide)
      (by decide)⟩

/-! ## Stores and read-modify-write instructions with an index -/

/-- C32: store and read-modify-write instructions charge a fixed cost, whatever the base
address and the index register (so with or without a page crossing): fetched with a
negative counter, with callbacks that leave the clock alone, STA abs,X (0x9D) and
STA abs,Y (0x99) advance the counter by exactly 5, STA (ind),Y (0x91) by exactly 6, and
ASL, LSR, ROL, ROR, INC, DEC abs,X (0x1E, 0x5E, 0x3E, 0x7E, 0xFE, 0xDE) by exactly 7; the
time base is unchanged, so absolute time advances by the same amount. -/
theorem store_rmw_fixed_cost (br : Bridge H) (hk : KeepsTime br) (s : St H) (n : Nat)
    (hop : ((fetchOpcode s = 0x9D ∨ fetchOpcode s = 0x99) ∧ n = 5)
      ∨ (fetchOpcode s = 0x91 ∧ n = 6)
      ∨ ((fetchOpcode s = 0x1E ∨ fetchOpcode s = 0x5E ∨ fetchOpcode s = 0x3E
          ∨ fetchOpcode s = 0x7E ∨ fetchOpcode s = 0xFE ∨ fetchOpcode s = 0xDE) ∧ n = 7))
    (ht1 : -32768 ≤ s.s_time) (ht2 : s.s_time < 0) (hx : s.x < 256) (hy : s.y < 256) :
    ∃ s1, step br s = .loop s1 ∧ s1.s_time = s.s_time + (n : Int)
      ∧ s1.o.base = s.o.base ∧ TIME s1 = TIME s + (n : Int) := by
  have key : isDocumented (fetchOpcode s) = true ∧ isBranch (fetchOpcode s) = false
      ∧ isIndexedRead (fetchOpcode s) = false ∧ isRebasing (fetchOpcode s) = false
      ∧ referenceCycles (fetchOpcode s) = n := by
    rcases hop with ⟨h | h, rfl⟩ | ⟨h, rfl⟩ | ⟨h | h | h | h | h | h, rfl⟩ <;>
      rw [h] <;> decide
  obtain ⟨k1, k2, k3, k4, k5⟩ := key
  obtain ⟨s1, e1, e2, e3⟩ := step_documented br hk s k1 k2 ht1 ht2 hx hy
  have hb := e3 k4
  have hn : n ≤ 7 := by
    rcases hop with ⟨-, rfl⟩ | ⟨-, rfl⟩ | ⟨-, rfl⟩ <;> decide
  have hs : s1.s_time = s.s_time + (n : Int) := by
    rw [e2, k3, k5, hb]
    simp only [Bool.false_eq_true, false_and, if_false, sub_self, add_zero]
    exact i16_of_range _ (by omega) (by omega)
  exact ⟨s1, e1, hs, hb, by unfold TIME; rw [hs, hb]; ring⟩

theorem store_rmw_fixed_cost_witness :
    KeepsTime traceBridge
    ∧ (((fetchOpcode demoStaAbsXSt = 0x9D ∨ fetchOpcode demoStaAbsXSt = 0x99) ∧ 5 = 5)
      ∨ (fetchOpcode demoStaAbsXSt = 0x91 ∧ 5 = 6)
      ∨ ((fetchOpcode demoStaAbsXSt = 0x1E ∨ fetchOpcode demoStaAbsXSt = 0x5E
          ∨ fetchOpcode demoStaAbsXSt = 0x3E ∨ fetchOpcode demoStaAbsXSt = 0x7E
          ∨ fetchOpcode demoStaAbsXSt = 0xFE ∨ fetchOpcode demoStaAbsXSt = 0xDE) ∧ 5 = 7))
    ∧ -32768 ≤ demoStaAbsXSt.s_time ∧ demoStaAbsXSt.s_time < 0
    ∧ demoStaAbsXSt.x < 256 ∧ demoStaAbsXSt.y < 256
    ∧ ∃ s1, step traceBridge demoStaAbsXSt = .loop s1
      ∧ s1.s_time = demoStaAbsXSt.s_time + ((5 : Nat) : Int)
      ∧ s1.o.base = demoStaAbsXSt.o.base ∧ TIME s1 = TIME demoStaAbsXSt + ((5 : Nat) : Int) :=
  ⟨⟨fun _ _ _ => rfl, fun _ _ _ => rfl, fun _ _ _ _ => rfl, fun _ _ _ _ => rfl⟩,
    by decide, by decide, by decide, by decide, by decide,
    store_rmw_fixed_cost traceBridge
      ⟨fun _ _ _ => rfl, fun _ _ _ => rfl, fun _ _ _ _ => rfl, fun _ _ _ _ => rfl⟩
      demoStaAbsXSt 5 (by decide) (by decide) (by decide) (by decide) (by decide)⟩

/-! ## The footprint of a pass in the low-memory array -/

theorem Fence_ite {α β : Type} (g : α → β) {c : Prop} [Decidable c] {a b : Option α}
    {a1 b1 : Option β} (ha : c → a1 = Option.map g a) (hb : ¬c → b1 = Option.map g b) :
    (if c then a1 else b1) = Option.map g (if c then a else b) := by
  split
  · next h => exact ha h
  · next h => exact hb h

theorem Fence_loop (A : Nat → Bool) (m : Nat → Nat) (x x1 : St H) (h : x1 = fence A m x) :
    some (Next.loop x1) = Option.map (fenceN A m) (some (Next.loop x)) := by
  rw [h]; rfl

theorem Fence_stop (A : Nat → Bool) (m : Nat → Nat) (x x1 : St H) (h : x1 = fence A m x) :
    some (Next.stop x1) = Option.map (fenceN A m) (some (Next.stop x)) := by
  rw [h]; rfl

theorem READ_LOW_fence (A : Nat → Bool) (m : Nat → Nat) (o : Obj H) (c : Nat)
    (h : A c = true) : READ_LOW (fenceO A m o) c = READ_LOW o c := by
  simp only [READ_LOW, fenceO, h, if_true]

theorem WRITE_LOW_fence (A : Nat → Bool) (m : Nat → Nat) (o : Obj H) (c v : Nat)
    (h : A c = true) : WRITE_LOW (fenceO A m o) c v = fenceO A m (WRITE_LOW o c v) := by
  unfold WRITE_LOW fenceO
  congr 1
  funext i
  by_cases hi : i = c
  · subst hi; simp only [h, if_true]
  · simp only [hi, if_false]

/-- The fields of a fenced state. -/
theorem fence_fields (A : Nat → Bool) (m : Nat → Nat) :
    (∀ s : St H, (fence A m s).pc = s.pc) ∧ (∀ s : St H, (fence A m s).a = s.a)
    ∧ (∀ s : St H, (fence A m s).x = s.x) ∧ (∀ s : St H, (fence A m s).y = s.y)
    ∧ (∀ s : St H, (fence A m s).sp = s.sp) ∧ (∀ s : St H, (fence A m s).status = s.status)
    ∧ (∀ s : St H, (fence A m s).c = s.c) ∧ (∀ s : St H, (fence A m s).nz = s.nz)
    ∧ (∀ s : St H, (fence A m s).s_time = s.s_time)
    ∧ (∀ s : St H, (fence A m s).o = fenceO A m s.o) :=
  ⟨fun _ => rfl, fun _ => rfl, fun _ => rfl, fun _ => rfl, fun _ => rfl, fun _ => rfl,
    fun _ => rfl, fun _ => rfl, fun _ => rfl, fun _ => rfl⟩

/-- The fields of a fenced object, the low memory apart. -/
theorem fenceO_fields (A : Nat → Bool) (m : Nat → Nat) :
    (∀ o : Obj H, (fenceO A m o).regs = o.regs)
    ∧ (∀ o : Obj H, (fenceO A m o).code_map = o.code_map)
    ∧ (∀ o : Obj H, (fenceO A m o).time = o.time)
    ∧ (∀ o : Obj H, (fenceO A m o).base = o.base)
    ∧ (∀ o : Obj H, (fenceO A m o).irqTime = o.irqTime)
    ∧ (∀ o : Obj H, (fenceO A m o).endTime = o.endTime)
    ∧ (∀ o : Obj H, (fenceO A m o).errorsNum = o.errorsNum)
    ∧ (∀ o : Obj H, (fenceO A m o).ext = o.ext)
    ∧ (∀ o : Obj H, (fenceO A m o).host = o.host) :=
  ⟨fun _ => rfl, fun _ => rfl, fun _ => rfl, fun _ => rfl, fun _ => rfl, fun _ => rfl,
    fun _ => rfl, fun _ => rfl, fun _ => rfl⟩

/-- An object built on the low memory of a fenced object is the fenced object built on the
low memory of the object. -/
theorem Obj_mk_fence (A : Nat → Bool) (m : Nat → Nat) (o : Obj H) (r : Regs) (cm : Nat → Ptr)
    (t b irq e : Int) (err : Nat) (ext : Nat → Nat → Nat) (host : H) :
    (⟨r, (fenceO A m o).lowMem, cm, t, b, irq, e, err, ext, host⟩ : Obj H)
      = fenceO A m ⟨r, o.lowMem, cm, t, b, irq, e, err, ext, host⟩ := rfl

/-- A state built on a fenced object is the fenced state built on the object. -/
theorem St_mk_fence (A : Nat → Bool) (m : Nat → Nat) (o : Obj H) (pc a x y sp st c nz : Nat)
    (t : Int) :
    (⟨pc, a, x, y, sp, st, c, nz, t, fenceO A m o⟩ : St H)
      = fence A m ⟨pc, a, x, y, sp, st, c, nz, t, o⟩ := rfl

theorem storeCells_mem (addr : Nat) (h : addr ≤ 0x7FF) : addr ∈ storeCells addr := by
  unfold storeCells; rw [if_pos h]; exact List.Mem.head _

theorem store_addr_fence (A : Nat → Bool) (m : Nat → Nat) (br : Bridge H)
    (hb : FencedBridge A br) (s : St H) (addr v : Nat) (h : addr ≤ 0x7FF → A addr = true) :
    store_addr br (fence A m s) addr v = fence A m (store_addr br s addr v) := by
  unfold store_addr
  split
  · next h1 =>
    show ({ fence A m s with o := WRITE_LOW (fenceO A m s.o) addr v } : St H) = _
    rw [WRITE_LOW_fence A m _ _ _ (h h1)]
    rfl
  · obtain ⟨f1, f2, f3, f4, f5, f6, f7, f8, f9, f10⟩ := fence_fields (H := H) A m
    obtain ⟨g1, g2, g3, g4, g5, g6, g7, g8, g9⟩ := fenceO_fields (H := H) A m
    simp only [CACHE_TIME, WRITE, FLUSH_TIME, TIME, f1, f2, f3, f4, f5, f6, f7, f8, f9, f10,
      g1, g2, g3, g4, g5, g6, g7, g8, g9, Obj_mk_fence, hb.2, St_mk_fence]

theorem fence_ite (A : Nat → Bool) (m : Nat → Nat) (c : Prop) [Decidable c] (a b : St H) :
    fence A m (if c then a else b) = if c then fence A m a else fence A m b :=
  apply_ite (fence A m) c a b

theorem deref_fence (A : Nat → Bool) (m : Nat → Nat) (o : Obj H) (p : Ptr) (i : Nat)
    (h : p.buf = 0 → A (p.off + i) = true) : deref (fenceO A m o) p i = deref o p i := by
  unfold deref
  by_cases hb : p.buf = 0
  · simp only [hb, if_true, fenceO, h hb]
  · simp only [hb, if_false, fenceO]

theorem PAGE_OFFSET_lt (addr : Nat) : PAGE_OFFSET addr < 0x800 := by
  unfold PAGE_OFFSET PAGE_SIZE
  exact lt_of_le_of_lt Nat.and_le_right (by decide)

theorem READ_PROG_fence (A : Nat → Bool) (m : Nat → Nat) (o : Obj H) (addr : Nat)
    (hv : ∀ k j, j < 0x800 → (o.code_map k).buf = 0 → A ((o.code_map k).off + j) = true) :
    READ_PROG (fenceO A m o) addr = READ_PROG o addr := by
  unfold READ_PROG
  exact deref_fence A m o _ _ (hv _ _ (PAGE_OFFSET_lt addr))

theorem BRANCH_fence (A : Nat → Bool) (m : Nat → Nat) (c : Bool) (data : Nat) (s : St H) :
    BRANCH c data (fence A m s) = fence A m (BRANCH c data s) := by
  unfold BRANCH
  simp only [fence_ite]
  rfl

theorem bit_tail_fence (A : Nat → Bool) (m : Nat → Nat) (s : St H) (v : Nat) :
    bit_tail (fence A m s) v = fence A m (bit_tail s v) := by
  unfold bit_tail
  simp only [fence_ite]
  rfl

theorem handle_cli_fence (A : Nat → Bool) (m : Nat → Nat) (s : St H) :
    handle_cli (fence A m s) = fence A m (handle_cli s) := by
  unfold handle_cli
  simp only [fence_ite]
  rfl

theorem handle_sei_fence (A : Nat → Bool) (m : Nat → Nat) (s : St H) :
    handle_sei (fence A m s) = fence A m (handle_sei s) := rfl

theorem lda_prog_fence (A : Nat → Bool) (m : Nat → Nat) (br : Bridge H)
    (hb : FencedBridge A br) (s : St H) (addr : Nat)
    (hv : ∀ k j, j < 0x800 → (s.o.code_map k).buf = 0 → A ((s.o.code_map k).off + j) = true) :
    lda_prog br (fence A m s) addr = fence A m (lda_prog br s addr) := by
  obtain ⟨f1, f2, f3, f4, f5, f6, f7, f8, f9, f10⟩ := fence_fields (H := H) A m
  obtain ⟨g1, g2, g3, g4, g5, g6, g7, g8, g9⟩ := fenceO_fields (H := H) A m
  unfold lda_prog
  simp only [f1, f2, f3, f4, f5, f6, f7, f8, f9, f10, g1, g2, g3, g4, g5, g6, g7, g8, g9,
    Obj_mk_fence, St_mk_fence, READ_PROG_fence A m s.o addr hv, hb.1, fence_ite,
    a_nz_read_addr, READ, FLUSH_TIME, CACHE_TIME, TIME]

theorem rti_fence (A : Nat → Bool) (m : Nat → Nat) (s : St H) (h1 : A s.sp = true)
    (h2 : A (0x100 ||| (s.sp - 0xFF)) = true) (h3 : A (0x100 ||| (s.sp - 0xFE)) = true) :
    rti (fence A m s) = fence A m (rti s) := by
  obtain ⟨f1, f2, f3, f4, f5, f6, f7, f8, f9, f10⟩ := fence_fields (H := H) A m
  obtain ⟨g1, g2, g3, g4, g5, g6, g7, g8, g9⟩ := fenceO_fields (H := H) A m
  unfold rti
  simp only [f1, f2, f3, f4, f5, f6, f7, f8, f9, f10, g1, g2, g3, g4, g5, g6, g7, g8, g9,
    Obj_mk_fence, St_mk_fence, READ_LOW_fence A m _ _ h1, READ_LOW_fence A m _ _ h2,
    READ_LOW_fence A m _ _ h3, fence_ite, SET_STATUS, publishStatus, addTime]

theorem plp_fence (A : Nat → Bool) (m : Nat → Nat) (s : St H) (h1 : A s.sp = true) :
    plp (fence A m s) = fence A m (plp s) := by
  obtain ⟨f1, f2, f3, f4, f5, f6, f7, f8, f9, f10⟩ := fence_fields (H := H) A m
  obtain ⟨g1, g2, g3, g4, g5, g6, g7, g8, g9⟩ := fenceO_fields (H := H) A m
  unfold plp
  simp only [f1, f2, f3, f4, f5, f6, f7, f8, f9, f10, g1, g2, g3, g4, g5, g6, g7, g8, g9,
    Obj_mk_fence, St_mk_fence, READ_LOW_fence A m _ _ h1, fence_ite, SET_STATUS,
    handle_cli_fence, handle_sei_fence]

theorem jmp_ind_fence (A : Nat → Bool) (m : Nat → Nat) (s : St H) (instr : Ptr)
    (hg : GET_ADDR (fence A m s) instr = GET_ADDR s instr)
    (hv : ∀ k j, j < 0x800 → (s.o.code_map k).buf = 0 → A ((s.o.code_map k).off + j) = true) :
    jmp_ind (fence A m s) instr = jmp_ind s instr := by
  obtain ⟨f1, f2, f3, f4, f5, f6, f7, f8, f9, f10⟩ := fence_fields (H := H) A m
  obtain ⟨g1, g2, g3, g4, g5, g6, g7, g8, g9⟩ := fenceO_fields (H := H) A m
  unfold jmp_ind
  simp only [f10, g2, hg, deref_fence A m s.o _ _ (hv _ _ (PAGE_OFFSET_lt _))]

theorem Ptr_add_fields (p : Ptr) (n : Nat) : (p.add n).buf = p.buf ∧ (p.add n).off = p.off + n :=
  ⟨rfl, rfl⟩

theorem interrupt_fence (A : Nat → Bool) (m : Nat → Nat) (s : St H) (r : Int)
    (hr : r.toNat ≤ 4)
    (h1 : A (0x100 ||| (s.sp - 1)) = true) (h2 : A (0x100 ||| (s.sp - 2)) = true)
    (h3 : A ((s.sp - 3) ||| 0x100) = true)
    (hv : ∀ k j, j < 0x800 → (s.o.code_map k).buf = 0 → A ((s.o.code_map k).off + j) = true) :
    interrupt (fence A m s) r = fence A m (interrupt s r) := by
  obtain ⟨f1, f2, f3, f4, f5, f6, f7, f8, f9, f10⟩ := fence_fields (H := H) A m
  obtain ⟨g1, g2, g3, g4, g5, g6, g7, g8, g9⟩ := fenceO_fields (H := H) A m
  have hc : ∀ (o : Obj H) c v, (WRITE_LOW o c v).code_map = o.code_map := fun _ _ _ => rfl
  have hd : ∀ (o : Obj H) i, i ≤ 1 →
      deref (fenceO A m o) (((s.o.code_map (0xFFFA >>> PAGE_BITS)).add (PAGE_OFFSET 0xFFFA)).add
        r.toNat) i
      = deref o (((s.o.code_map (0xFFFA >>> PAGE_BITS)).add (PAGE_OFFSET 0xFFFA)).add
        r.toNat) i := by
    intro o i hi
    apply deref_fence
    intro hbuf
    have e := hv (0xFFFA >>> PAGE_BITS) (PAGE_OFFSET 0xFFFA + r.toNat + i)
      (by rw [vector_page.1.2]; omega) hbuf
    have q : ∀ a b c d : Nat, a + b + c + d = a + (b + c + d) := by intros; omega
    simp only [Ptr.add]
    rw [q]
    exact e
  unfold interrupt
  simp only [f1, f2, f3, f4, f5, f6, f7, f8, f9, f10, g1, g2, g3, g4, g5, g6, g7, g8, g9,
    Obj_mk_fence, St_mk_fence, WRITE_LOW_fence A m _ _ _ h1, WRITE_LOW_fence A m _ _ _ h2,
    WRITE_LOW_fence A m _ _ _ h3, fence_ite, addTime, hc, GET_LE16,
    hd _ 0 (Nat.zero_le _), hd _ 1 (Nat.le_refl _)]
  rfl

/-- The cells of each addressing mode, from the case labels. -/
theorem lowCells_modes (opcode : Nat) (instr : Ptr) (data : Nat) (s : St H) :
    (isZpCase opcode = true → lowCells opcode instr data s = [data])
    ∧ (isZpXCase opcode = true → lowCells opcode instr data s = [(data + s.x) % 256])
    ∧ (isZpYCase opcode = true → lowCells opcode instr data s = [(data + s.y) % 256])
    ∧ (isIndXCase opcode = true → lowCells opcode instr data s
        = [((data + s.x) % 65536 + 1) % 256, (data + s.x) % 65536 % 256])
    ∧ (isIndYCase opcode = true → lowCells opcode instr data s = [data, (data + 1) % 256]) := by
  refine ⟨?_, ?_, ?_, ?_, ?_⟩
  · intro h
    simp only [isZpCase, List.contains_cons, List.contains_nil, Bool.or_eq_true, beq_iff_eq,
      Bool.or_false] at h
    rcases h with rfl | rfl | rfl | rfl | rfl | rfl | rfl | rfl | rfl | rfl | rfl | rfl | rfl | rfl | rfl | rfl | rfl | rfl | rfl | rfl | rfl | rfl <;> rfl
  · intro h
    simp only [isZpXCase, List.contains_cons, List.contains_nil, Bool.or_eq_true, beq_iff_eq,
      Bool.or_false] at h
    rcases h with rfl | rfl | rfl | rfl | rfl | rfl | rfl | rfl | rfl | rfl | rfl | rfl | rfl | rfl | rfl | rfl <;> rfl
  · intro h
    simp only [isZpYCase, List.contains_cons, List.contains_nil, Bool.or_eq_true, beq_iff_eq,
      Bool.or_false] at h
    rcases h with rfl | rfl <;> rfl
  · intro h
    simp only [isIndXCase, List.contains_cons, List.contains_nil, Bool.or_eq_true, beq_iff_eq,
      Bool.or_false] at h
    rcases h with rfl | rfl | rfl | rfl | rfl | rfl | rfl | rfl <;> rfl
  · intro h
    simp only [isIndYCase, List.contains_cons, List.contains_nil, Bool.or_eq_true, beq_iff_eq,
      Bool.or_false] at h
    rcases h with rfl | rfl | rfl | rfl | rfl | rfl | rfl | rfl <;> rfl

/-- The cells of each case, as facts about a set `A` that holds them. -/
theorem cells_cases (A : Nat → Bool) (opcode : Nat) (instr : Ptr) (data : Nat) (s : St H)
    (hA : ∀ c, c ∈ lowCells opcode instr data s → A c = true) :
    (isZpCase opcode = true → A data = true)
    ∧ (isZpXCase opcode = true → A ((data + s.x) % 256) = true)
    ∧ (isZpYCase opcode = true → A ((data + s.y) % 256) = true)
    ∧ (isIndXCase opcode = true → A (((data + s.x) % 65536 + 1) % 256) = true
        ∧ A ((data + s.x) % 65536 % 256) = true)
    ∧ (isIndYCase opcode = true → A data = true ∧ A ((data + 1) % 256) = true)
    ∧ (opcode = 0x48 ∨ opcode = 0x08 → A ((s.sp - 1) ||| 0x100) = true)
    ∧ (opcode = 0x68 ∨ opcode = 0x28 → A s.sp = true)
    ∧ (opcode = 0x20 → A (0x100 ||| (s.sp - 1)) = true ∧ A ((s.sp - 2) ||| 0x100) = true)
    ∧ (opcode = 0x60 → A s.sp = true ∧ A (0x100 ||| (s.sp - 0xFF)) = true)
    ∧ (opcode = 0x40 → A s.sp = true ∧ A (0x100 ||| (s.sp - 0xFF)) = true
        ∧ A (0x100 ||| (s.sp - 0xFE)) = true)
    ∧ (opcode = 0x00 → A (0x100 ||| (s.sp - 1)) = true ∧ A (0x100 ||| (s.sp - 2)) = true
        ∧ A ((s.sp - 3) ||| 0x100) = true)
    ∧ (opcode = 0x8D → GET_ADDR s instr % 65536 ≤ 0x7FF →
        A (GET_ADDR s instr % 65536) = true)
    ∧ (opcode = 0x9D → (s.x + GET_ADDR s instr) % 65536 ≤ 0x7FF →
        A ((s.x + GET_ADDR s instr) % 65536) = true)
    ∧ (opcode = 0x99 → (s.y + GET_ADDR s instr) % 65536 ≤ 0x7FF →
        A ((s.y + GET_ADDR s instr) % 65536) = true)
    ∧ (opcode = 0x8C ∨ opcode = 0x8E → GET_ADDR s instr ≤ 0x7FF →
        A (GET_ADDR s instr) = true) := by
  obtain ⟨m1, m2, m3, m4, m5⟩ := lowCells_modes opcode instr data s
  have t1 : ∀ a (l : List Nat), a ∈ a :: l := fun _ _ => List.Mem.head _
  have t2 : ∀ a b (l : List Nat), b ∈ a :: b :: l := fun _ _ _ => List.Mem.tail _ (List.Mem.head _)
  have t3 : ∀ a b c (l : List Nat), c ∈ a :: b :: c :: l :=
    fun _ _ _ _ => List.Mem.tail _ (List.Mem.tail _ (List.Mem.head _))
  refine ⟨?_, ?_, ?_, ?_, ?_, ?_, ?_, ?_, ?_, ?_, ?_, ?_, ?_, ?_, ?_⟩
  · intro h; exact hA _ (by rw [m1 h]; exact t1 _ _)
  · intro h; exact hA _ (by rw [m2 h]; exact t1 _ _)
  · intro h; exact hA _ (by rw [m3 h]; exact t1 _ _)
  · intro h; exact ⟨hA _ (by rw [m4 h]; exact t1 _ _), hA _ (by rw [m4 h]; exact t2 _ _ _)⟩
  · intro h; exact ⟨hA _ (by rw [m5 h]; exact t1 _ _), hA _ (by rw [m5 h]; exact t2 _ _ _)⟩
  · rintro (rfl | rfl) <;> exact hA _ (t1 _ _)
  · rintro (rfl | rfl) <;> exact hA _ (t1 _ _)
  · rintro rfl; exact ⟨hA _ (t1 _ _), hA _ (t2 _ _ _)⟩
  · rintro rfl; exact ⟨hA _ (t1 _ _), hA _ (t2 _ _ _)⟩
  · rintro rfl; exact ⟨hA _ (t1 _ _), hA _ (t2 _ _ _), hA _ (t3 _ _ _ _)⟩
  · rintro rfl; exact ⟨hA _ (t1 _ _), hA _ (t2 _ _ _), hA _ (t3 _ _ _ _)⟩
  · rintro rfl h; exact hA _ (storeCells_mem _ h)
  · rintro rfl h; exact hA _ (storeCells_mem _ h)
  · rintro rfl h; exact hA _ (storeCells_mem _ h)
  · rintro (rfl | rfl) h <;> exact hA _ (storeCells_mem _ h)

theorem Pair_ite (g : St H → St H) {c : Prop} [Decidable c] {a b a1 b1 : Nat × St H}
    (ha : c → a1 = (a.1, g a.2)) (hb : ¬c → b1 = (b.1, g b.2)) :
    (if c then a1 else b1) = ((if c then a else b).1, g (if c then a else b).2) := by
  split
  · next h => exact ha h
  · next h => exact hb h

theorem unimplemented_fence (A : Nat → Bool) (m : Nat → Nat) (opcode : Nat) (instr : Ptr)
    (data : Nat) (s : St H) (hA : ∀ c, c ∈ lowCells opcode instr data s → A c = true) :
    unimplemented opcode data (fence A m s) = fence A m (unimplemented opcode data s) := by
  obtain ⟨f1, f2, f3, f4, f5, f6, f7, f8, f9, f10⟩ := fence_fields (H := H) A m
  obtain ⟨g1, g2, g3, g4, g5, g6, g7, g8, g9⟩ := fenceO_fields (H := H) A m
  unfold unimplemented
  by_cases h3 : opcode = 0xB3
  · subst h3
    have c1 := hA _ (List.Mem.head _)
    simp only [f1, f2, f3, f4, f5, f6, f7, f8, f9, f10, g1, g2, g3, g4, g5, g6, g7, g8, g9,
      Obj_mk_fence, St_mk_fence, READ_LOW_fence A m _ _ c1, addPc, addTime,
      HANDLE_PAGE_CROSSING, Nat.reduceEqDiff, if_false, if_true, Nat.reduceShiftRight, ne_eq,
      not_false_eq_true]
  · by_cases hf : opcode = 0xFF
    · subst hf
      simp only [f1, f2, f3, f4, f5, f6, f7, f8, f9, f10, g1, g2, g3, g4, g5, g6, g7, g8, g9,
        Obj_mk_fence, St_mk_fence, addPc, addTime, HANDLE_PAGE_CROSSING, Nat.reduceEqDiff,
        if_false, if_true, Nat.reduceShiftRight]
    · simp only [h3, hf, f1, f2, f3, f4, f5, f6, f7, f8, f9, f10, g1, g2, g3, g4, g5, g6, g7,
        g8, g9, Obj_mk_fence, St_mk_fence, addPc, addTime, HANDLE_PAGE_CROSSING, if_false,
        fence_ite]

set_option maxRecDepth 100000 in
theorem ARITH_fence (A : Nat → Bool) (m : Nat → Nat) (br : Bridge H) (hb : FencedBridge A br)
    (op opcode : Nat) (instr : Ptr) (data : Nat) (s : St H)
    (hop : op = 0xC5 ∨ op = 0x25 ∨ op = 0x45 ∨ op = 0x05 ∨ op = 0xE5 ∨ op = 0x65)
    (hA : ∀ c, c ∈ lowCells opcode instr data s → A c = true)
    (hi : ∀ i, i ≤ 1 → readsOperand opcode = true →
      deref (fenceO A m s.o) instr i = deref s.o instr i) :
    ARITH_ADDR_MODES br op opcode instr data (fence A m s)
      = ((ARITH_ADDR_MODES br op opcode instr data s).1,
          fence A m (ARITH_ADDR_MODES br op opcode instr data s).2) := by
  obtain ⟨f1, f2, f3, f4, f5, f6, f7, f8, f9, f10⟩ := fence_fields (H := H) A m
  obtain ⟨g1, g2, g3, g4, g5, g6, g7, g8, g9⟩ := fenceO_fields (H := H) A m
  obtain ⟨hz, hzx, -, hix, hiy, -, -, -, -, -, -, -, -, -, -⟩ :=
    cells_cases A opcode instr data s hA
  unfold ARITH_ADDR_MODES
  rcases hop with rfl | rfl | rfl | rfl | rfl | rfl <;>
  repeat (first
    | rfl
    | (refine Pair_ite _ (fun h => ?_) (fun _ => ?_)
       try first
         | subst h
         | (have h1 := Nat.eq_sub_of_add_eq h; subst h1))
    | (simp (disch := first
            | exact hz (by decide)
            | exact hzx (by decide)
            | exact (hix (by decide)).1
            | exact (hix (by decide)).2
            | exact (hiy (by decide)).1
            | exact (hiy (by decide)).2
            | decide) only
          [f1, f2, f3, f4, f5, f6, f7, f8, f9, f10, g1, g2, g3, g4, g5, g6, g7, g8, g9,
           Obj_mk_fence, St_mk_fence, READ_LOW_fence, hb.1, hi, GET_MSB,
           arith_ptr, arith_abs, arith_ind, IND_X, IND_Y, IND_Y_temp,
           addPc, addTime, HANDLE_PAGE_CROSSING, READ, FLUSH_TIME, CACHE_TIME, TIME]))

set_option maxRecDepth 100000 in
theorem often_used_fence (A : Nat → Bool) (m : Nat → Nat) (br : Bridge H)
    (hb : FencedBridge A br) (opcode : Nat) (instr : Ptr) (data : Nat) (s : St H)
    (hA : ∀ c, c ∈ lowCells opcode instr data s → A c = true)
    (hi : ∀ i, i ≤ 1 → readsOperand opcode = true →
      deref (fenceO A m s.o) instr i = deref s.o instr i)
    (hp : readsProg opcode = true → ∀ k j, j < 0x800 → (s.o.code_map k).buf = 0 →
      A ((s.o.code_map k).off + j) = true) :
    often_used br opcode instr data (fence A m s) = Option.map (fenceN A m) (often_used br opcode instr data s) := by
  obtain ⟨f1, f2, f3, f4, f5, f6, f7, f8, f9, f10⟩ := fence_fields (H := H) A m
  obtain ⟨g1, g2, g3, g4, g5, g6, g7, g8, g9⟩ := fenceO_fields (H := H) A m
  obtain ⟨hz, hzx, hzy, hix, hiy, hpush, hpull, hjsr, hrts, hrti, hbrk, hs1, hs2, hs3, hs4⟩ :=
    cells_cases A opcode instr data s hA
  have hga : readsOperand opcode = true → GET_ADDR (fence A m s) instr = GET_ADDR s instr := by
    intro h
    simp only [GET_ADDR, GET_LE16, f10, hi 0 (Nat.zero_le _) h, hi 1 (Nat.le_refl _) h]
  unfold often_used
  repeat (first
    | rfl
    | (refine Fence_ite _ (fun h => ?_) (fun _ => ?_); try subst h)
    | (refine Fence_loop A m _ _ ?_
       simp (disch := first
            | exact hz (by decide)
            | exact hzx (by decide)
            | exact hzy (by decide)
            | exact (hix (by decide)).1
            | exact (hix (by decide)).2
            | exact (hiy (by decide)).1
            | exact (hiy (by decide)).2
            | exact hpush (by decide)
            | exact hpull (by decide)
            | exact (hjsr rfl).1
            | exact (hjsr rfl).2
            | exact (hrts rfl).1
            | exact (hrts rfl).2
            | exact (hrti rfl).1
            | exact (hrti rfl).2.1
            | exact (hrti rfl).2.2
            | exact (hbrk rfl).1
            | exact (hbrk rfl).2.1
            | exact (hbrk rfl).2.2
            | exact hs1 rfl
            | exact hs2 rfl
            | exact hs3 rfl
            | exact hs4 (by decide)
            | exact hp (by decide)
            | exact hga (by decide)
            | exact hA
            | exact hi
            | decide) only
          [f1, f2, f3, f4, f5, f6, f7, f8, f9, f10, g1, g2, g3, g4, g5, g6, g7, g8, g9,
           Obj_mk_fence, St_mk_fence, READ_LOW_fence, WRITE_LOW_fence, hb.1, hb.2, hi, hga,
           store_addr_fence A m br hb, lda_prog_fence A m br hb, ARITH_fence A m br hb,
           BRANCH_fence, set_a_nz, cmp_data, sta_ptr, a_nz_read_addr, READ_LIKELY_PPU, IND_X,
           IND_Y, IND_Y_temp, INC_DEC_nz, IS_NEG, WRITE, READ, FLUSH_TIME, CACHE_TIME, TIME,
           addPc, addTime, HANDLE_PAGE_CROSSING])
    | exact Fence_stop A m _ _ rfl
    | dsimp only)

theorem branch_ops_fence (A : Nat → Bool) (m : Nat → Nat) (opcode : Nat) (data : Nat) (s : St H) :
    branch_ops opcode data (fence A m s) = Option.map (fenceN A m) (branch_ops opcode data s) := by
  obtain ⟨f1, f2, f3, f4, f5, f6, f7, f8, f9, f10⟩ := fence_fields (H := H) A m
  unfold branch_ops
  repeat (first
    | rfl
    | (refine Fence_ite _ (fun h => ?_) (fun _ => ?_); try subst h)
    | (refine Fence_loop A m _ _ ?_
       simp only [f1, f2, f3, f4, f5, f6, f7, f8, f9, f10, St_mk_fence, BRANCH_fence])
    | exact Fence_stop A m _ _ rfl
    | dsimp only)

set_option maxRecDepth 100000 in
theorem load_store_fence (A : Nat → Bool) (m : Nat → Nat) (br : Bridge H)
    (hb : FencedBridge A br) (opcode : Nat) (instr : Ptr) (data : Nat) (s : St H)
    (hA : ∀ c, c ∈ lowCells opcode instr data s → A c = true)
    (hi : ∀ i, i ≤ 1 → readsOperand opcode = true →
      deref (fenceO A m s.o) instr i = deref s.o instr i)
    (hp : readsProg opcode = true → ∀ k j, j < 0x800 → (s.o.code_map k).buf = 0 →
      A ((s.o.code_map k).off + j) = true) :
    load_store br opcode instr data (fence A m s) = Option.map (fenceN A m) (load_store br opcode instr data s) := by
  obtain ⟨f1, f2, f3, f4, f5, f6, f7, f8, f9, f10⟩ := fence_fields (H := H) A m
  obtain ⟨g1, g2, g3, g4, g5, g6, g7, g8, g9⟩ := fenceO_fields (H := H) A m
  obtain ⟨hz, hzx, hzy, hix, hiy, hpush, hpull, hjsr, hrts, hrti, hbrk, hs1, hs2, hs3, hs4⟩ :=
    cells_cases A opcode instr data s hA
  have hga : readsOperand opcode = true → GET_ADDR (fence A m s) instr = GET_ADDR s instr := by
    intro h
    simp only [GET_ADDR, GET_LE16, f10, hi 0 (Nat.zero_le _) h, hi 1 (Nat.le_refl _) h]
  unfold load_store
  repeat (first
    | rfl
    | (refine Fence_ite _ (fun h => ?_) (fun _ => ?_); try subst h)
    | (refine Fence_loop A m _ _ ?_
       simp (disch := first
            | exact hz (by decide)
            | exact hzx (by decide)
            | exact hzy (by decide)
            | exact (hix (by decide)).1
            | exact (hix (by decide)).2
            | exact (hiy (by decide)).1
            | exact (hiy (by decide)).2
            | exact hpush (by decide)
            | exact hpull (by decide)
            | exact (hjsr rfl).1
            | exact (hjsr rfl).2
            | exact (hrts rfl).1
            | exact (hrts rfl).2
            | exact (hrti rfl).1
            | exact (hrti rfl).2.1
            | exact (hrti rfl).2.2
            | exact (hbrk rfl).1
            | exact (hbrk rfl).2.1
            | exact (hbrk rfl).2.2
            | exact hs1 rfl
            | exact hs2 rfl
            | exact hs3 rfl
            | exact hs4 (by decide)
            | exact hp (by decide)
            | exact hga (by decide)
            | exact hA
            | exact hi
            | decide) only
          [f1, f2, f3, f4, f5, f6, f7, f8, f9, f10, g1, g2, g3, g4, g5, g6, g7, g8, g9,
           Obj_mk_fence, St_mk_fence, READ_LOW_fence, WRITE_LOW_fence, hb.1, hb.2, hi, hga,
           store_addr_fence A m br hb, GET_MSB, ld_xy_abs, READ, FLUSH_TIME, CACHE_TIME, TIME,
           addPc, addTime, HANDLE_PAGE_CROSSING, Bool.false_eq_true, if_false, if_true])
    | exact Fence_stop A m _ _ rfl
    | dsimp only)

set_option maxRecDepth 100000 in
theorem compare_fence (A : Nat → Bool) (m : Nat → Nat) (br : Bridge H)
    (hb : FencedBridge A br) (opcode : Nat) (instr : Ptr) (data : Nat) (s : St H)
    (hA : ∀ c, c ∈ lowCells opcode instr data s → A c = true)
    (hi : ∀ i, i ≤ 1 → readsOperand opcode = true →
      deref (fenceO A m s.o) instr i = deref s.o instr i)
    (hp : readsProg opcode = true → ∀ k j, j < 0x800 → (s.o.code_map k).buf = 0 →
      A ((s.o.code_map k).off + j) = true) :
    compare br opcode instr data (fence A m s) = Option.map (fenceN A m) (compare br opcode instr data s) := by
  obtain ⟨f1, f2, f3, f4, f5, f6, f7, f8, f9, f10⟩ := fence_fields (H := H) A m
  obtain ⟨g1, g2, g3, g4, g5, g6, g7, g8, g9⟩ := fenceO_fields (H := H) A m
  obtain ⟨hz, hzx, hzy, hix, hiy, hpush, hpull, hjsr, hrts, hrti, hbrk, hs1, hs2, hs3, hs4⟩ :=
    cells_cases A opcode instr data s hA
  have hga : readsOperand opcode = true → GET_ADDR (fence A m s) instr = GET_ADDR s instr := by
    intro h
    simp only [GET_ADDR, GET_LE16, f10, hi 0 (Nat.zero_le _) h, hi 1 (Nat.le_refl _) h]
  unfold compare
  repeat (first
    | rfl
    | (refine Fence_ite _ (fun h => ?_) (fun _ => ?_); try subst h)
    | (refine Fence_loop A m _ _ ?_
       simp (disch := first
            | exact hz (by decide)
            | exact hzx (by decide)
            | exact hzy (by decide)
            | exact (hix (by decide)).1
            | exact (hix (by decide)).2
            | exact (hiy (by decide)).1
            | exact (hiy (by decide)).2
            | exact hpush (by decide)
            | exact hpull (by decide)
            | exact (hjsr rfl).1
            | exact (hjsr rfl).2
            | exact (hrts rfl).1
            | exact (hrts rfl).2
            | exact (hrti rfl).1
            | exact (hrti rfl).2.1
            | exact (hrti rfl).2.2
            | exact (hbrk rfl).1
            | exact (hbrk rfl).2.1
            | exact (hbrk rfl).2.2
            | exact hs1 rfl
            | exact hs2 rfl
            | exact hs3 rfl
            | exact hs4 (by decide)
            | exact hp (by decide)
            | exact hga (by decide)
            | exact hA
            | exact hi
            | decide) only
          [f1, f2, f3, f4, f5, f6, f7, f8, f9, f10, g1, g2, g3, g4, g5, g6, g7, g8, g9,
           Obj_mk_fence, St_mk_fence, READ_LOW_fence, WRITE_LOW_fence, hb.1, hb.2, hi, hga,
           cmp_data, cp_abs, READ, FLUSH_TIME, CACHE_TIME, TIME, addPc])
    | exact Fence_stop A m _ _ rfl
    | dsimp only)

set_option maxRecDepth 100000 in
theorem logical_fence (A : Nat → Bool) (m : Nat → Nat) (br : Bridge H)
    (hb : FencedBridge A br) (opcode : Nat) (instr : Ptr) (data : Nat) (s : St H)
    (hA : ∀ c, c ∈ lowCells opcode instr data s → A c = true)
    (hi : ∀ i, i ≤ 1 → readsOperand opcode = true →
      deref (fenceO A m s.o) instr i = deref s.o instr i)
    (hp : readsProg opcode = true → ∀ k j, j < 0x800 → (s.o.code_map k).buf = 0 →
      A ((s.o.code_map k).off + j) = true) :
    logical br opcode instr data (fence A m s) = Option.map (fenceN A m) (logical br opcode instr data s) := by
  obtain ⟨f1, f2, f3, f4, f5, f6, f7, f8, f9, f10⟩ := fence_fields (H := H) A m
  obtain ⟨g1, g2, g3, g4, g5, g6, g7, g8, g9⟩ := fenceO_fields (H := H) A m
  obtain ⟨hz, hzx, hzy, hix, hiy, hpush, hpull, hjsr, hrts, hrti, hbrk, hs1, hs2, hs3, hs4⟩ :=
    cells_cases A opcode instr data s hA
  have hga : readsOperand opcode = true → GET_ADDR (fence A m s) instr = GET_ADDR s instr := by
    intro h
    simp only [GET_ADDR, GET_LE16, f10, hi 0 (Nat.zero_le _) h, hi 1 (Nat.le_refl _) h]
  unfold logical
  repeat (first
    | rfl
    | (refine Fence_ite _ (fun h => ?_) (fun _ => ?_); try subst h)
    | (refine Fence_loop A m _ _ ?_
       simp (disch := first
            | exact hz (by decide)
            | exact hzx (by decide)
            | exact hzy (by decide)
            | exact (hix (by decide)).1
            | exact (hix (by decide)).2
            | exact (hiy (by decide)).1
            | exact (hiy (by decide)).2
            | exact hpush (by decide)
            | exact hpull (by decide)
            | exact (hjsr rfl).1
            | exact (hjsr rfl).2
            | exact (hrts rfl).1
            | exact (hrts rfl).2
            | exact (hrti rfl).1
            | exact (hrti rfl).2.1
            | exact (hrti rfl).2.2
            | exact (hbrk rfl).1
            | exact (hbrk rfl).2.1
            | exact (hbrk rfl).2.2
            | exact hs1 rfl
            | exact hs2 rfl
            | exact hs3 rfl
            | exact hs4 (by decide)
            | exact hp (by decide)
            | exact hga (by decide)
            | exact hA
            | exact hi
            | decide) only
          [f1, f2, f3, f4, f5, f6, f7, f8, f9, f10, g1, g2, g3, g4, g5, g6, g7, g8, g9,
           Obj_mk_fence, St_mk_fence, READ_LOW_fence, WRITE_LOW_fence, hb.1, hb.2, hi, hga,
           ARITH_fence A m br hb, bit_tail_fence, READ_LIKELY_PPU, READ, FLUSH_TIME, CACHE_TIME,
           TIME, addPc])
    | exact Fence_stop A m _ _ rfl
    | dsimp only)

set_option maxRecDepth 100000 in
theorem add_subtract_fence (A : Nat → Bool) (m : Nat → Nat) (br : Bridge H)
    (hb : FencedBridge A br) (opcode : Nat) (instr : Ptr) (data : Nat) (s : St H)
    (hA : ∀ c, c ∈ lowCells opcode instr data s → A c = true)
    (hi : ∀ i, i ≤ 1 → readsOperand opcode = true →
      deref (fenceO A m s.o) instr i = deref s.o instr i)
    (hp : readsProg opcode = true → ∀ k j, j < 0x800 → (s.o.code_map k).buf = 0 →
      A ((s.o.code_map k).off + j) = true) :
    add_subtract br opcode instr data (fence A m s) = Option.map (fenceN A m) (add_subtract br opcode instr data s) := by
  obtain ⟨f1, f2, f3, f4, f5, f6, f7, f8, f9, f10⟩ := fence_fields (H := H) A m
  obtain ⟨g1, g2, g3, g4, g5, g6, g7, g8, g9⟩ := fenceO_fields (H := H) A m
  obtain ⟨hz, hzx, hzy, hix, hiy, hpush, hpull, hjsr, hrts, hrti, hbrk, hs1, hs2, hs3, hs4⟩ :=
    cells_cases A opcode instr data s hA
  have hga : readsOperand opcode = true → GET_ADDR (fence A m s) instr = GET_ADDR s instr := by
    intro h
    simp only [GET_ADDR, GET_LE16, f10, hi 0 (Nat.zero_le _) h, hi 1 (Nat.le_refl _) h]
  unfold add_subtract
  repeat (first
    | rfl
    | (refine Fence_ite _ (fun h => ?_) (fun _ => ?_); try subst h)
    | (refine Fence_loop A m _ _ ?_
       simp (disch := first
            | exact hz (by decide)
            | exact hzx (by decide)
            | exact hzy (by decide)
            | exact (hix (by decide)).1
            | exact (hix (by decide)).2
            | exact (hiy (by decide)).1
            | exact (hiy (by decide)).2
            | exact hpush (by decide)
            | exact hpull (by decide)
            | exact (hjsr rfl).1
            | exact (hjsr rfl).2
            | exact (hrts rfl).1
            | exact (hrts rfl).2
            | exact (hrti rfl).1
            | exact (hrti rfl).2.1
            | exact (hrti rfl).2.2
            | exact (hbrk rfl).1
            | exact (hbrk rfl).2.1
            | exact (hbrk rfl).2.2
            | exact hs1 rfl
            | exact hs2 rfl
            | exact hs3 rfl
            | exact hs4 (by decide)
            | exact hp (by decide)
            | exact hga (by decide)
            | exact hA
            | exact hi
            | decide) only
          [f1, f2, f3, f4, f5, f6, f7, f8, f9, f10, g1, g2, g3, g4, g5, g6, g7, g8, g9,
           Obj_mk_fence, St_mk_fence, READ_LOW_fence, WRITE_LOW_fence, hb.1, hb.2, hi, hga,
           ARITH_fence A m br hb, adc_imm])
    | exact Fence_stop A m _ _ rfl
    | dsimp only)

set_option maxRecDepth 100000 in
theorem shift_rotate_fence (A : Nat → Bool) (m : Nat → Nat) (br : Bridge H)
    (hb : FencedBridge A br) (opcode : Nat) (instr : Ptr) (data : Nat) (s : St H)
    (hA : ∀ c, c ∈ lowCells opcode instr data s → A c = true)
    (hi : ∀ i, i ≤ 1 → readsOperand opcode = true →
      deref (fenceO A m s.o) instr i = deref s.o instr i)
    (hp : readsProg opcode = true → ∀ k j, j < 0x800 → (s.o.code_map k).buf = 0 →
      A ((s.o.code_map k).off + j) = true) :
    shift_rotate br opcode instr data (fence A m s) = Option.map (fenceN A m) (shift_rotate br opcode instr data s) := by
  obtain ⟨f1, f2, f3, f4, f5, f6, f7, f8, f9, f10⟩ := fence_fields (H := H) A m
  obtain ⟨g1, g2, g3, g4, g5, g6, g7, g8, g9⟩ := fenceO_fields (H := H) A m
  obtain ⟨hz, hzx, hzy, hix, hiy, hpush, hpull, hjsr, hrts, hrti, hbrk, hs1, hs2, hs3, hs4⟩ :=
    cells_cases A opcode instr data s hA
  have hga : readsOperand opcode = true → GET_ADDR (fence A m s) instr = GET_ADDR s instr := by
    intro h
    simp only [GET_ADDR, GET_LE16, f10, hi 0 (Nat.zero_le _) h, hi 1 (Nat.le_refl _) h]
  unfold shift_rotate
  repeat (first
    | rfl
    | (refine Fence_ite _ (fun h => ?_) (fun _ => ?_); try subst h)
    | (refine Fence_loop A m _ _ ?_
       simp (disch := first
            | exact hz (by decide)
            | exact hzx (by decide)
            | exact hzy (by decide)
            | exact (hix (by decide)).1
            | exact (hix (by decide)).2
            | exact (hiy (by decide)).1
            | exact (hiy (by decide)).2
            | exact hpush (by decide)
            | exact hpull (by decide)
            | exact (hjsr rfl).1
            | exact (hjsr rfl).2
            | exact (hrts rfl).1
            | exact (hrts rfl).2
            | exact (hrti rfl).1
            | exact (hrti rfl).2.1
            | exact (hrti rfl).2.2
            | exact (hbrk rfl).1
            | exact (hbrk rfl).2.1
            | exact (hbrk rfl).2.2
            | exact hs1 rfl
            | exact hs2 rfl
            | exact hs3 rfl
            | exact hs4 (by decide)
            | exact hp (by decide)
            | exact hga (by decide)
            | exact hA
            | exact hi
            | decide) only
          [f1, f2, f3, f4, f5, f6, f7, f8, f9, f10, g1, g2, g3, g4, g5, g6, g7, g8, g9,
           Obj_mk_fence, St_mk_fence, READ_LOW_fence, WRITE_LOW_fence, hb.1, hb.2, hi, hga,
           ror_a, ror_abs, rol_abs, rotate_common, ror_zp, rol_zp, write_nz_zp, GET_MSB,
           READ, WRITE, FLUSH_TIME, CACHE_TIME, TIME, addPc])
    | exact Fence_stop A m _ _ rfl
    | dsimp only)

set_option maxRecDepth 100000 in
theorem inc_dec_fence (A : Nat → Bool) (m : Nat → Nat) (br : Bridge H)
    (hb : FencedBridge A br) (opcode : Nat) (instr : Ptr) (data : Nat) (s : St H)
    (hA : ∀ c, c ∈ lowCells opcode instr data s → A c = true)
    (hi : ∀ i, i ≤ 1 → readsOperand opcode = true →
      deref (fenceO A m s.o) instr i = deref s.o instr i)
    (hp : readsProg opcode = true → ∀ k j, j < 0x800 → (s.o.code_map k).buf = 0 →
      A ((s.o.code_map k).off + j) = true) :
    inc_dec br opcode instr data (fence A m s) = Option.map (fenceN A m) (inc_dec br opcode instr data s) := by
  obtain ⟨f1, f2, f3, f4, f5, f6, f7, f8, f9, f10⟩ := fence_fields (H := H) A m
  obtain ⟨g1, g2, g3, g4, g5, g6, g7, g8, g9⟩ := fenceO_fields (H := H) A m
  obtain ⟨hz, hzx, hzy, hix, hiy, hpush, hpull, hjsr, hrts, hrti, hbrk, hs1, hs2, hs3, hs4⟩ :=
    cells_cases A opcode instr data s hA
  have hga : readsOperand opcode = true → GET_ADDR (fence A m s) instr = GET_ADDR s instr := by
    intro h
    simp only [GET_ADDR, GET_LE16, f10, hi 0 (Nat.zero_le _) h, hi 1 (Nat.le_refl _) h]
  unfold inc_dec
  repeat (first
    | rfl
    | (refine Fence_ite _ (fun h => ?_) (fun _ => ?_); try subst h)
    | (refine Fence_loop A m _ _ ?_
       simp (disch := first
            | exact hz (by decide)
            | exact hzx (by decide)
            | exact hzy (by decide)
            | exact (hix (by decide)).1
            | exact (hix (by decide)).2
            | exact (hiy (by decide)).1
            | exact (hiy (by decide)).2
            | exact hpush (by decide)
            | exact hpull (by decide)
            | exact (hjsr rfl).1
            | exact (hjsr rfl).2
            | exact (hrts rfl).1
            | exact (hrts rfl).2
            | exact (hrti rfl).1
            | exact (hrti rfl).2.1
            | exact (hrti rfl).2.2
            | exact (hbrk rfl).1
            | exact (hbrk rfl).2.1
            | exact (hbrk rfl).2.2
            | exact hs1 rfl
            | exact hs2 rfl
            | exact hs3 rfl
            | exact hs4 (by decide)
            | exact hp (by decide)
            | exact hga (by decide)
            | exact hA
            | exact hi
            | decide) only
          [f1, f2, f3, f4, f5, f6, f7, f8, f9, f10, g1, g2, g3, g4, g5, g6, g7, g8, g9,
           Obj_mk_fence, St_mk_fence, READ_LOW_fence, WRITE_LOW_fence, hb.1, hb.2, hi, hga,
           add_nz_zp, write_nz_zp, inc_common, INC_DEC_nz, READ, WRITE, FLUSH_TIME, CACHE_TIME,
           TIME, addPc])
    | exact Fence_stop A m _ _ rfl
    | dsimp only)

theorem transfer_fence (A : Nat → Bool) (m : Nat → Nat) (opcode : Nat) (s : St H) :
    transfer opcode (fence A m s) = Option.map (fenceN A m) (transfer opcode s) := by
  unfold transfer
  repeat (first
    | rfl
    | (refine Fence_ite _ (fun h => ?_) (fun _ => ?_); try subst h)
    | exact Fence_stop A m _ _ rfl
    | dsimp only)

set_option maxRecDepth 100000 in
theorem stack_fence (A : Nat → Bool) (m : Nat → Nat) (opcode : Nat) (instr : Ptr) (data : Nat) (s : St H)
    (hA : ∀ c, c ∈ lowCells opcode instr data s → A c = true)
    (hi : ∀ i, i ≤ 1 → readsOperand opcode = true →
      deref (fenceO A m s.o) instr i = deref s.o instr i)
    (hp : readsProg opcode = true → ∀ k j, j < 0x800 → (s.o.code_map k).buf = 0 →
      A ((s.o.code_map k).off + j) = true) :
    stack opcode instr (fence A m s) = Option.map (fenceN A m) (stack opcode instr s) := by
  obtain ⟨f1, f2, f3, f4, f5, f6, f7, f8, f9, f10⟩ := fence_fields (H := H) A m
  obtain ⟨g1, g2, g3, g4, g5, g6, g7, g8, g9⟩ := fenceO_fields (H := H) A m
  obtain ⟨hz, hzx, hzy, hix, hiy, hpush, hpull, hjsr, hrts, hrti, hbrk, hs1, hs2, hs3, hs4⟩ :=
    cells_cases A opcode instr data s hA
  have hga : readsOperand opcode = true → GET_ADDR (fence A m s) instr = GET_ADDR s instr := by
    intro h
    simp only [GET_ADDR, GET_LE16, f10, hi 0 (Nat.zero_le _) h, hi 1 (Nat.le_refl _) h]
  unfold stack
  repeat (first
    | rfl
    | (refine Fence_ite _ (fun h => ?_) (fun _ => ?_); try subst h)
    | (refine Fence_loop A m _ _ ?_
       simp (disch := first
            | exact hz (by decide)
            | exact hzx (by decide)
            | exact hzy (by decide)
            | exact (hix (by decide)).1
            | exact (hix (by decide)).2
            | exact (hiy (by decide)).1
            | exact (hiy (by decide)).2
            | exact hpush (by decide)
            | exact hpull (by decide)
            | exact (hjsr rfl).1
            | exact (hjsr rfl).2
            | exact (hrts rfl).1
            | exact (hrts rfl).2
            | exact (hrti rfl).1
            | exact (hrti rfl).2.1
            | exact (hrti rfl).2.2
            | exact (hbrk rfl).1
            | exact (hbrk rfl).2.1
            | exact (hbrk rfl).2.2
            | exact hs1 rfl
            | exact hs2 rfl
            | exact hs3 rfl
            | exact hs4 (by decide)
            | exact hp (by decide)
            | exact hga (by decide)
            | exact hA
            | exact hi
            | decide) only
          [f1, f2, f3, f4, f5, f6, f7, f8, f9, f10, g1, g2, g3, g4, g5, g6, g7, g8, g9,
           Obj_mk_fence, St_mk_fence, READ_LOW_fence, WRITE_LOW_fence, hi, hga,
           rti_fence, plp_fence, jmp_ind_fence, interrupt_fence, PUSH, set_a_nz, handle_brk,
           addPc])
    | exact Fence_stop A m _ _ rfl
    | dsimp only)

theorem flags_fence (A : Nat → Bool) (m : Nat → Nat) (opcode : Nat) (s : St H) :
    flags opcode (fence A m s) = Option.map (fenceN A m) (flags opcode s) := by
  obtain ⟨f1, f2, f3, f4, f5, f6, f7, f8, f9, f10⟩ := fence_fields (H := H) A m
  unfold flags
  repeat (first
    | rfl
    | (refine Fence_ite _ (fun h => ?_) (fun _ => ?_); try subst h)
    | (refine Fence_loop A m _ _ ?_
       simp only [f1, f2, f3, f4, f5, f6, f7, f8, f9, f10, St_mk_fence, handle_cli_fence, handle_sei_fence])
    | exact Fence_stop A m _ _ rfl
    | dsimp only)

theorem unofficial_fence (A : Nat → Bool) (m : Nat → Nat) (opcode : Nat) (data : Nat) (s : St H) :
    unofficial opcode data (fence A m s) = Option.map (fenceN A m) (unofficial opcode data s) := by
  unfold unofficial
  repeat (first
    | rfl
    | (refine Fence_ite _ (fun h => ?_) (fun _ => ?_); try subst h)
    | exact Fence_stop A m _ _ rfl
    | dsimp only)

/-- The `switch` on a fenced object: when the set `A` holds the cells of the case (and the
program bytes the case reads, where they lie in the array), the outcome is the fenced
outcome: the case neither reads nor writes a low-memory cell outside `A`. -/
theorem exec_fence (A : Nat → Bool) (m : Nat → Nat) (br : Bridge H)
    (hb : FencedBridge A br) (opcode : Nat) (instr : Ptr) (data : Nat) (s : St H)
    (hA : ∀ c, c ∈ lowCells opcode instr data s → A c = true)
    (hi : ∀ i, i ≤ 1 → readsOperand opcode = true →
      deref (fenceO A m s.o) instr i = deref s.o instr i)
    (hp : readsProg opcode = true → ∀ k j, j < 0x800 → (s.o.code_map k).buf = 0 →
      A ((s.o.code_map k).off + j) = true) :
    exec br opcode instr data (fence A m s) = fenceN A m (exec br opcode instr data s) := by
  unfold exec
  rw [often_used_fence A m br hb opcode instr data s hA hi hp,
    branch_ops_fence A m opcode data s,
    load_store_fence A m br hb opcode instr data s hA hi hp,
    compare_fence A m br hb opcode instr data s hA hi hp,
    logical_fence A m br hb opcode instr data s hA hi hp,
    add_subtract_fence A m br hb opcode instr data s hA hi hp,
    shift_rotate_fence A m br hb opcode instr data s hA hi hp,
    inc_dec_fence A m br hb opcode instr data s hA hi hp,
    transfer_fence A m opcode s,
    stack_fence A m opcode instr data s hA hi hp,
    flags_fence A m opcode s,
    unofficial_fence A m opcode data s,
    unimplemented_fence A m opcode instr data s hA]
  cases often_used br opcode instr data s with
  | some r => rfl
  | none =>
  cases branch_ops opcode data s with
  | some r => rfl
  | none =>
  cases load_store br opcode instr data s with
  | some r => rfl
  | none =>
  cases compare br opcode instr data s with
  | some r => rfl
  | none =>
  cases logical br opcode instr data s with
  | some r => rfl
  | none =>
  cases add_subtract br opcode instr data s with
  | some r => rfl
  | none =>
  cases shift_rotate br opcode instr data s with
  | some r => rfl
  | none =>
  cases inc_dec br opcode instr data s with
  | some r => rfl
  | none =>
  cases transfer opcode s with
  | some r => rfl
  | none =>
  cases stack opcode instr s with
  | some r => rfl
  | none =>
  cases flags opcode s with
  | some r => rfl
  | none =>
  cases unofficial opcode data s with
  | some r => rfl
  | none => rfl

set_option maxRecDepth 100000 in
/-- The cells of the stack cases, and of the absolute stores. -/
theorem lowCells_stack (instr : Ptr) (data : Nat) (s : St H) :
    lowCells 0x48 instr data s = [(s.sp - 1) ||| 0x100]
    ∧ lowCells 0x08 instr data s = [(s.sp - 1) ||| 0x100]
    ∧ lowCells 0x68 instr data s = [s.sp]
    ∧ lowCells 0x28 instr data s = [s.sp]
    ∧ lowCells 0x20 instr data s = [0x100 ||| (s.sp - 1), (s.sp - 2) ||| 0x100]
    ∧ lowCells 0x60 instr data s = [s.sp, 0x100 ||| (s.sp - 0xFF)]
    ∧ lowCells 0x40 instr data s = [s.sp, 0x100 ||| (s.sp - 0xFF), 0x100 ||| (s.sp - 0xFE)]
    ∧ lowCells 0x00 instr data s
        = [0x100 ||| (s.sp - 1), 0x100 ||| (s.sp - 2), (s.sp - 3) ||| 0x100]
    ∧ lowCells 0x8D instr data s = storeCells (GET_ADDR s instr % 65536)
    ∧ lowCells 0x9D instr data s = storeCells ((s.x + GET_ADDR s instr) % 65536)
    ∧ lowCells 0x99 instr data s = storeCells ((s.y + GET_ADDR s instr) % 65536)
    ∧ lowCells 0x8C instr data s = storeCells (GET_ADDR s instr)
    ∧ lowCells 0x8E instr data s = storeCells (GET_ADDR s instr) :=
  ⟨rfl, rfl, rfl, rfl, rfl, rfl, rfl, rfl, rfl, rfl, rfl, rfl, rfl⟩

theorem storeCells_le (addr c : Nat) (h : c ∈ storeCells addr) : c ≤ 0x7FF := by
  unfold storeCells at h
  split at h
  · next h1 => rw [List.mem_singleton] at h; rw [h]; exact h1
  · cases h

/-- Where the cells of each case lie: zero-page forms in `0..0xFF`, stack forms in
`0x100..0x1FF`, the fast path of the absolute stores at an address `<= 0x7FF`. -/
theorem lowCells_bounds (opcode : Nat) (instr : Ptr) (data : Nat) (s : St H) (hr : RegsOk s)
    (hd : data < 256) :
    (∀ c, c ∈ lowCells opcode instr data s → c ≤ 0x7FF)
    ∧ (isZpCase opcode = true ∨ isZpXCase opcode = true ∨ isZpYCase opcode = true
        ∨ isIndXCase opcode = true ∨ isIndYCase opcode = true →
        ∀ c, c ∈ lowCells opcode instr data s → c ≤ 0xFF)
    ∧ (opcode = 0x48 ∨ opcode = 0x08 ∨ opcode = 0x68 ∨ opcode = 0x28 ∨ opcode = 0x20
        ∨ opcode = 0x60 ∨ opcode = 0x40 ∨ opcode = 0x00 →
        ∀ c, c ∈ lowCells opcode instr data s → 0x100 ≤ c ∧ c ≤ 0x1FF) := by
  obtain ⟨h1, h2, -, -, -⟩ := hr
  obtain ⟨m1, m2, m3, m4, m5⟩ := lowCells_modes opcode instr data s
  obtain ⟨⟨a1, b1⟩, ⟨a2, b2⟩, a3, -, ⟨-, b5⟩, ⟨-, b6⟩, -⟩ := stack_addrs s.sp h1 h2
  have r0 := stackAddr_range s.sp 0
  have r1 := stackAddr_range s.sp 255
  have r2 := stackAddr_range s.sp 254
  have r3 := stackAddr_range s.sp 2
  have r4 := stackAddr_range s.sp 3
  have zp : isZpCase opcode = true ∨ isZpXCase opcode = true ∨ isZpYCase opcode = true
        ∨ isIndXCase opcode = true ∨ isIndYCase opcode = true →
        ∀ c, c ∈ lowCells opcode instr data s → c ≤ 0xFF := by
    rintro (h | h | h | h | h) c hc
    · rw [m1 h] at hc; simp only [List.mem_singleton] at hc; omega
    · rw [m2 h] at hc; simp only [List.mem_singleton] at hc; omega
    · rw [m3 h] at hc; simp only [List.mem_singleton] at hc; omega
    · rw [m4 h] at hc; simp only [List.mem_cons, List.mem_singleton, List.not_mem_nil,
        or_false] at hc; omega
    · rw [m5 h] at hc; simp only [List.mem_cons, List.mem_singleton, List.not_mem_nil,
        or_false] at hc; omega
  have st : opcode = 0x48 ∨ opcode = 0x08 ∨ opcode = 0x68 ∨ opcode = 0x28 ∨ opcode = 0x20
        ∨ opcode = 0x60 ∨ opcode = 0x40 ∨ opcode = 0x00 →
        ∀ c, c ∈ lowCells opcode instr data s → 0x100 ≤ c ∧ c ≤ 0x1FF := by
    obtain ⟨k1, k2, k3, k4, k5, k6, k7, k8, -⟩ := lowCells_stack instr data s
    rintro (rfl | rfl | rfl | rfl | rfl | rfl | rfl | rfl) c hc
    · rw [k1] at hc; simp only [List.mem_singleton] at hc; omega
    · rw [k2] at hc; simp only [List.mem_singleton] at hc; omega
    · rw [k3] at hc; simp only [List.mem_singleton] at hc; omega
    · rw [k4] at hc; simp only [List.mem_singleton] at hc; omega
    · rw [k5] at hc
      simp only [List.mem_cons, List.mem_singleton, List.not_mem_nil, or_false] at hc; omega
    · rw [k6] at hc
      simp only [List.mem_cons, List.mem_singleton, List.not_mem_nil, or_false] at hc; omega
    · rw [k7] at hc
      simp only [List.mem_cons, List.mem_singleton, List.not_mem_nil, or_false] at hc; omega
    · rw [k8] at hc
      simp only [List.mem_cons, List.mem_singleton, List.not_mem_nil, or_false] at hc; omega
  refine ⟨?_, zp, st⟩
  intro c hc
  by_cases hz : isZpCase opcode = true ∨ isZpXCase opcode = true ∨ isZpYCase opcode = true
        ∨ isIndXCase opcode = true ∨ isIndYCase opcode = true
  · have := zp hz c hc; omega
  · by_cases hs : opcode = 0x48 ∨ opcode = 0x08 ∨ opcode = 0x68 ∨ opcode = 0x28
        ∨ opcode = 0x20 ∨ opcode = 0x60 ∨ opcode = 0x40 ∨ opcode = 0x00
    · have := st hs c hc; omega
    · simp only [not_or, Bool.not_eq_true] at hz hs
      obtain ⟨z1, z2, z3, z4, z5⟩ := hz
      obtain ⟨s1, s2, s3, s4, s5, s6, s7, s8⟩ := hs
      simp only [lowCells, z1, z2, z3, z4, z5, s1, s2, s3, s4, s5, s6, s7, s8,
        Bool.false_eq_true, if_false, or_self] at hc
      split_ifs at hc
      all_goals first
        | exact storeCells_le _ _ hc
        | cases hc

theorem lowCells_of_fields (opcode : Nat) (instr : Ptr) (data : Nat) (s t : St H)
    (hx : t.x = s.x) (hy : t.y = s.y) (hsp : t.sp = s.sp) (ho : t.o = s.o) :
    lowCells opcode instr data t = lowCells opcode instr data s := by
  unfold lowCells interruptCells GET_ADDR
  rw [hx, hy, hsp, ho]

/-- A pass that executes an instruction, on a fenced object: when the set `A` holds the
cells of the case and the program bytes that lie in the array, the outcome is the fenced
outcome. -/
theorem step_fence (A : Nat → Bool) (m : Nat → Nat) (br : Bridge H) (hb : FencedBridge A br)
    (s : St H) (ht1 : -32768 ≤ s.s_time) (ht2 : s.s_time < 0)
    (hA : ∀ c, c ∈ lowCells (fetchOpcode s) ((fetchPtr s).add 1)
      (deref s.o ((fetchPtr s).add 1) 0) s → A c = true)
    (hf : (fetchPtr s).buf = 0 → ∀ i, i ≤ 2 → A ((fetchPtr s).off + i) = true)
    (hp : ∀ k j, j < 0x800 → (s.o.code_map k).buf = 0 →
      A ((s.o.code_map k).off + j) = true) :
    step br (fence A m s) = fenceN A m (step br s) := by
  have e2 : fetchOpcode (fence A m s) = fetchOpcode s :=
    deref_fence A m s.o (fetchPtr s) 0 (fun h => hf h 0 (by omega))
  have e3 : ∀ i, i ≤ 1 → deref (fenceO A m s.o) ((fetchPtr s).add 1) i
      = deref s.o ((fetchPtr s).add 1) i := by
    intro i hi
    apply deref_fence
    intro h
    have e := hf h (1 + i) (by omega)
    simp only [Ptr.add]
    rw [Nat.add_assoc]
    exact e
  have e4 : deref (fence A m s).o ((fetchPtr (fence A m s)).add 1) 0
      = deref s.o ((fetchPtr s).add 1) 0 := e3 0 (by omega)
  obtain ⟨s0, hs0⟩ : ∃ s0 : St H, s0 =
      { s with pc := (s.pc + 1) % 65536, s_time := s.s_time + (clock (fetchOpcode s) : Int) } :=
    ⟨_, rfl⟩
  have q1 : step br s = exec br (fetchOpcode s) ((fetchPtr s).add 1)
      (deref s.o ((fetchPtr s).add 1) 0) s0 := by
    rw [hs0]; exact step_of_neg br s ht1 ht2
  have q2 : step br (fence A m s) = exec br (fetchOpcode s) ((fetchPtr s).add 1)
      (deref s.o ((fetchPtr s).add 1) 0) (fence A m s0) := by
    rw [step_of_neg br (fence A m s) ht1 ht2, e2, e4, hs0]
    rfl
  have hx : s0.x = s.x := by rw [hs0]
  have hy : s0.y = s.y := by rw [hs0]
  have hsp : s0.sp = s.sp := by rw [hs0]
  have ho : s0.o = s.o := by rw [hs0]
  rw [q1, q2]
  refine exec_fence A m br hb _ _ _ s0 ?_ ?_ ?_
  · intro c hc
    rw [lowCells_of_fields _ _ _ s s0 hx hy hsp ho] at hc
    exact hA c hc
  · intro i hi _
    rw [ho]
    exact e3 i hi
  · intro _
    rw [ho]
    exact hp

/-! ## Zero-page address arithmetic -/

/-- The cases with zp,X, zp,Y, (ind,X) or (ind),Y addressing do not read the operand
through `GET_ADDR()` or `GET_MSB()`, and only LDA (ind),Y reads program bytes. -/
theorem modes_code (opcode : Nat)
    (h : isZpXCase opcode = true ∨ isZpYCase opcode = true ∨ isIndXCase opcode = true
      ∨ isIndYCase opcode = true) :
    readsOperand opcode = false ∧ (readsProg opcode = true → opcode = 0xB1) := by
  rcases h with h | h | h | h
  · simp only [isZpXCase, List.contains_cons, List.contains_nil, Bool.or_eq_true, beq_iff_eq,
      Bool.or_false] at h
    rcases h with rfl | rfl | rfl | rfl | rfl | rfl | rfl | rfl | rfl | rfl | rfl | rfl | rfl | rfl | rfl | rfl <;> decide
  · simp only [isZpYCase, List.contains_cons, List.contains_nil, Bool.or_eq_true, beq_iff_eq,
      Bool.or_false] at h
    rcases h with rfl | rfl <;> decide
  · simp only [isIndXCase, List.contains_cons, List.contains_nil, Bool.or_eq_true, beq_iff_eq,
      Bool.or_false] at h
    rcases h with rfl | rfl | rfl | rfl | rfl | rfl | rfl | rfl <;> decide
  · simp only [isIndYCase, List.contains_cons, List.contains_nil, Bool.or_eq_true, beq_iff_eq,
      Bool.or_false] at h
    rcases h with rfl | rfl | rfl | rfl | rfl | rfl | rfl | rfl <;> decide

theorem exec_zp_x (br : Bridge H) (instr : Ptr) (d : Nat) (s : St H) (v : Nat)
    (hv : v = READ_LOW s.o ((d + s.x) % 256)) :
    exec br 0xB5 instr d s = .loop (addPc (set_a_nz s v) 1)
        ∧ exec br 0xB4 instr d s = .loop { addPc s 1 with y := v % 256, nz := v }
        ∧ exec br 0x95 instr d s
            = .loop { addPc s 1 with o := WRITE_LOW s.o ((d + s.x) % 256) s.a }
        ∧ exec br 0x94 instr d s
            = .loop { addPc s 1 with o := WRITE_LOW s.o ((d + s.x) % 256) s.y }
        ∧ exec br 0xD5 instr d s = .loop (cmp_data s s.a v)
        ∧ exec br 0x35 instr d s
            = .loop (addPc { s with a := (s.a &&& v) % 256, nz := (s.a &&& v) % 256 } 1)
        ∧ exec br 0x55 instr d s
            = .loop (addPc { s with a := (s.a ^^^ v) % 256, nz := (s.a ^^^ v) % 256 } 1)
        ∧ exec br 0x15 instr d s
            = .loop (addPc { s with a := (s.a ||| v) % 256, nz := (s.a ||| v) % 256 } 1)
        ∧ exec br 0xF5 instr d s = .loop (adc_imm s (v ^^^ 0xFF))
        ∧ exec br 0x75 instr d s = .loop (adc_imm s v) := by
  subst hv
  refine ⟨?_, ?_, ?_, ?_, ?_, ?_, ?_, ?_, ?_, ?_⟩ <;>
    simp [exec, often_used, branch_ops, load_store, compare, logical, add_subtract, isArith,
      ARITH_ADDR_MODES]

theorem exec_zp_x_rmw (br : Bridge H) (instr : Ptr) (d : Nat) (s : St H) :
    exec br 0x76 instr d s = .loop (ror_zp s ((d + s.x) % 256))
    ∧ exec br 0x56 instr d s = .loop (ror_zp { s with c := 0 } ((d + s.x) % 256))
    ∧ exec br 0x36 instr d s = .loop (rol_zp s ((d + s.x) % 256))
    ∧ exec br 0x16 instr d s = .loop (rol_zp { s with c := 0 } ((d + s.x) % 256))
    ∧ exec br 0xF6 instr d s = .loop (add_nz_zp s 1 ((d + s.x) % 256))
    ∧ exec br 0xD6 instr d s = .loop (add_nz_zp s 0xFFFF ((d + s.x) % 256)) := by
  refine ⟨?_, ?_, ?_, ?_, ?_, ?_⟩ <;>
    simp [exec, often_used, branch_ops, load_store, compare, logical, add_subtract,
      shift_rotate, inc_dec, isArith]

theorem exec_zp_y (br : Bridge H) (instr : Ptr) (d : Nat) (s : St H) :
    exec br 0xB6 instr d s
        = .loop { addPc s 1 with
            x := READ_LOW s.o ((d + s.y) % 256) % 256,
            nz := READ_LOW s.o ((d + s.y) % 256) }
    ∧ exec br 0x96 instr d s
        = .loop { addPc s 1 with o := WRITE_LOW s.o ((d + s.y) % 256) s.x } := by
  refine ⟨?_, ?_⟩ <;>
    simp [exec, often_used, branch_ops, load_store, isArith]

theorem exec_ind_x (br : Bridge H) (instr : Ptr) (d : Nat) (s : St H) (r : Nat × St H)
    (hr : r = arith_ptr br s (IND_X s d)) :
    exec br 0x81 instr d s = .loop (sta_ptr br (addPc s 1) (IND_X s d))
        ∧ exec br 0xA1 instr d s = .loop (a_nz_read_addr br (addPc s 1) (IND_X s d))
        ∧ exec br 0xC1 instr d s = .loop (cmp_data r.2 r.2.a r.1)
        ∧ exec br 0x21 instr d s
            = .loop (addPc { r.2 with a := (r.2.a &&& r.1) % 256, nz := (r.2.a &&& r.1) % 256 } 1)
        ∧ exec br 0x41 instr d s
            = .loop (addPc { r.2 with a := (r.2.a ^^^ r.1) % 256, nz := (r.2.a ^^^ r.1) % 256 } 1)
        ∧ exec br 0x01 instr d s
            = .loop (addPc { r.2 with a := (r.2.a ||| r.1) % 256, nz := (r.2.a ||| r.1) % 256 } 1)
        ∧ exec br 0xE1 instr d s = .loop (adc_imm r.2 (r.1 ^^^ 0xFF))
        ∧ exec br 0x61 instr d s = .loop (adc_imm r.2 r.1) := by
  subst hr
  refine ⟨?_, ?_, ?_, ?_, ?_, ?_, ?_, ?_⟩ <;>
    simp [exec, often_used, branch_ops, load_store, compare, logical, add_subtract, isArith,
      ARITH_ADDR_MODES]

theorem exec_ind_y (br : Bridge H) (instr : Ptr) (d : Nat) (s : St H) (q : Nat × St H)
    (hq : q = arith_ptr br (HANDLE_PAGE_CROSSING s (IND_Y_temp s d)) (IND_Y s d)) :
    exec br 0x91 instr d s = .loop (sta_ptr br (addPc s 1) (IND_Y s d))
        ∧ exec br 0xB1 instr d s
            = .loop (lda_prog br (addPc (HANDLE_PAGE_CROSSING s (IND_Y_temp s d)) 1)
                (IND_Y s d))
        ∧ exec br 0xD1 instr d s = .loop (cmp_data q.2 q.2.a q.1)
        ∧ exec br 0x31 instr d s
            = .loop (addPc { q.2 with a := (q.2.a &&& q.1) % 256, nz := (q.2.a &&& q.1) % 256 } 1)
        ∧ exec br 0x51 instr d s
            = .loop (addPc { q.2 with a := (q.2.a ^^^ q.1) % 256, nz := (q.2.a ^^^ q.1) % 256 } 1)
        ∧ exec br 0x11 instr d s
            = .loop (addPc { q.2 with a := (q.2.a ||| q.1) % 256, nz := (q.2.a ||| q.1) % 256 } 1)
        ∧ exec br 0xF1 instr d s = .loop (adc_imm q.2 (q.1 ^^^ 0xFF))
        ∧ exec br 0x71 instr d s = .loop (adc_imm q.2 q.1) := by
  subst hq
  refine ⟨?_, ?_, ?_, ?_, ?_, ?_, ?_, ?_⟩ <;>
    simp [exec, often_used, branch_ops, load_store, compare, logical, add_subtract, isArith,
      ARITH_ADDR_MODES]

/-- C33: zero-page address arithmetic wraps within page zero. For every operand byte `d`
and every state (so every index value):
every zp,X form works on the cell `(d + X) mod 256` of the low-memory array: LDA and LDY
load it, STA and STY store to it, CMP, AND, EOR, ORA, SBC and ADC take it as their operand,
and ROR, LSR, ROL, ASL, INC and DEC read it and write the result back to it (the labels
`ror_zp`, `rol_zp` and `add_nz_zp` read and write the one cell they are given);
LDX zp,Y loads and STX zp,Y stores the cell `(d + Y) mod 256`;
the pointer of every (ind,X) form is `IND_X`, whose bytes come from the cells
`(d + X) mod 256` and `(d + X + 1) mod 256`, and the pointer of every (ind),Y form is
`IND_Y`, whose bytes come from the cells `d` and `(d + 1) mod 256`; these forms hand the
pointer to the bridge (LDA (ind),Y to `READ_PROG` first);
the cells listed for the case of the opcode are exactly these, each below `0x100`;
and the case touches no other low-memory cell: on an object whose cells outside any set `A`
that holds those cells are replaced by arbitrary ones (with callbacks that keep to `A`,
and for LDA (ind),Y the code pages inside `A` where they lie in the array), the outcome is
the same, with the replaced cells left as they were. -/
theorem zero_page_wrap (br : Bridge H) (opcode : Nat) (instr : Ptr) (d : Nat) (s : St H)
    (hd : d < 256)
    (hmode : isZpXCase opcode = true ∨ isZpYCase opcode = true ∨ isIndXCase opcode = true
      ∨ isIndYCase opcode = true) :
    (∀ v, v = READ_LOW s.o ((d + s.x) % 256) →
        exec br 0xB5 instr d s = .loop (addPc (set_a_nz s v) 1)
        ∧ exec br 0xB4 instr d s = .loop { addPc s 1 with y := v % 256, nz := v }
        ∧ exec br 0x95 instr d s
            = .loop { addPc s 1 with o := WRITE_LOW s.o ((d + s.x) % 256) s.a }
        ∧ exec br 0x94 instr d s
            = .loop { addPc s 1 with o := WRITE_LOW s.o ((d + s.x) % 256) s.y }
        ∧ exec br 0xD5 instr d s = .loop (cmp_data s s.a v)
        ∧ exec br 0x35 instr d s
            = .loop (addPc { s with a := (s.a &&& v) % 256, nz := (s.a &&& v) % 256 } 1)
        ∧ exec br 0x55 instr d s
            = .loop (addPc { s with a := (s.a ^^^ v) % 256, nz := (s.a ^^^ v) % 256 } 1)
        ∧ exec br 0x15 instr d s
            = .loop (addPc { s with a := (s.a ||| v) % 256, nz := (s.a ||| v) % 256 } 1)
        ∧ exec br 0xF5 instr d s = .loop (adc_imm s (v ^^^ 0xFF))
        ∧ exec br 0x75 instr d s = .loop (adc_imm s v))
    ∧ (exec br 0x76 instr d s = .loop (ror_zp s ((d + s.x) % 256))
    ∧ exec br 0x56 instr d s = .loop (ror_zp { s with c := 0 } ((d + s.x) % 256))
    ∧ exec br 0x36 instr d s = .loop (rol_zp s ((d + s.x) % 256))
    ∧ exec br 0x16 instr d s = .loop (rol_zp { s with c := 0 } ((d + s.x) % 256))
    ∧ exec br 0xF6 instr d s = .loop (add_nz_zp s 1 ((d + s.x) % 256))
    ∧ exec br 0xD6 instr d s = .loop (add_nz_zp s 0xFFFF ((d + s.x) % 256)))
    ∧ (∀ (t : St H) (n c : Nat),
        ror_zp t c
          = { t with nz := (((t.c >>> 1) &&& 0x80) ||| (READ_LOW t.o c >>> 1)) % 65536,
                     c := (READ_LOW t.o c <<< 8) % 65536,
                     pc := (t.pc + 1) % 65536,
                     o := WRITE_LOW t.o c
                       ((((t.c >>> 1) &&& 0x80) ||| (READ_LOW t.o c >>> 1)) % 65536) }
        ∧ rol_zp t c
          = { t with nz := ((t.c >>> 8) &&& 1) ||| ((READ_LOW t.o c <<< 1) % 65536),
                     c := (READ_LOW t.o c <<< 1) % 65536,
                     pc := (t.pc + 1) % 65536,
                     o := WRITE_LOW t.o c
                       (((t.c >>> 8) &&& 1) ||| ((READ_LOW t.o c <<< 1) % 65536)) }
        ∧ add_nz_zp t n c
          = { t with nz := (n + READ_LOW t.o c) % 65536,
                     pc := (t.pc + 1) % 65536,
                     o := WRITE_LOW t.o c ((n + READ_LOW t.o c) % 65536) })
    ∧ (exec br 0xB6 instr d s
        = .loop { addPc s 1 with
            x := READ_LOW s.o ((d + s.y) % 256) % 256,
            nz := READ_LOW s.o ((d + s.y) % 256) }
    ∧ exec br 0x96 instr d s
        = .loop { addPc s 1 with o := WRITE_LOW s.o ((d + s.y) % 256) s.x })
    ∧ IND_X s d
        = (0x100 * READ_LOW s.o ((d + s.x + 1) % 256) + READ_LOW s.o ((d + s.x) % 256)) % 65536
    ∧ IND_Y_temp s d = (READ_LOW s.o d + s.y) % 65536
    ∧ IND_Y s d = (READ_LOW s.o d + s.y + 0x100 * READ_LOW s.o ((d + 1) % 256)) % 65536
    ∧ (∀ r, r = arith_ptr br s (IND_X s d) →
        exec br 0x81 instr d s = .loop (sta_ptr br (addPc s 1) (IND_X s d))
        ∧ exec br 0xA1 instr d s = .loop (a_nz_read_addr br (addPc s 1) (IND_X s d))
        ∧ exec br 0xC1 instr d s = .loop (cmp_data r.2 r.2.a r.1)
        ∧ exec br 0x21 instr d s
            = .loop (addPc { r.2 with a := (r.2.a &&& r.1) % 256, nz := (r.2.a &&& r.1) % 256 } 1)
        ∧ exec br 0x41 instr d s
            = .loop (addPc { r.2 with a := (r.2.a ^^^ r.1) % 256, nz := (r.2.a ^^^ r.1) % 256 } 1)
        ∧ exec br 0x01 instr d s
            = .loop (addPc { r.2 with a := (r.2.a ||| r.1) % 256, nz := (r.2.a ||| r.1) % 256 } 1)
        ∧ exec br 0xE1 instr d s = .loop (adc_imm r.2 (r.1 ^^^ 0xFF))
        ∧ exec br 0x61 instr d s = .loop (adc_imm r.2 r.1))
    ∧ (∀ q, q = arith_ptr br (HANDLE_PAGE_CROSSING s (IND_Y_temp s d)) (IND_Y s d) →
        exec br 0x91 instr d s = .loop (sta_ptr br (addPc s 1) (IND_Y s d))
        ∧ exec br 0xB1 instr d s
            = .loop (lda_prog br (addPc (HANDLE_PAGE_CROSSING s (IND_Y_temp s d)) 1)
                (IND_Y s d))
        ∧ exec br 0xD1 instr d s = .loop (cmp_data q.2 q.2.a q.1)
        ∧ exec br 0x31 instr d s
            = .loop (addPc { q.2 with a := (q.2.a &&& q.1) % 256, nz := (q.2.a &&& q.1) % 256 } 1)
        ∧ exec br 0x51 instr d s
            = .loop (addPc { q.2 with a := (q.2.a ^^^ q.1) % 256, nz := (q.2.a ^^^ q.1) % 256 } 1)
        ∧ exec br 0x11 instr d s
            = .loop (addPc { q.2 with a := (q.2.a ||| q.1) % 256, nz := (q.2.a ||| q.1) % 256 } 1)
        ∧ exec br 0xF1 instr d s = .loop (adc_imm q.2 (q.1 ^^^ 0xFF))
        ∧ exec br 0x71 instr d s = .loop (adc_imm q.2 q.1))
    ∧ (isZpXCase opcode = true → lowCells opcode instr d s = [(d + s.x) % 256])
    ∧ (isZpYCase opcode = true → lowCells opcode instr d s = [(d + s.y) % 256])
    ∧ (isIndXCase opcode = true →
        lowCells opcode instr d s = [(d + s.x + 1) % 256, (d + s.x) % 256])
    ∧ (isIndYCase opcode = true → lowCells opcode instr d s = [d, (d + 1) % 256])
    ∧ (∀ c, c ∈ lowCells opcode instr d s → c < 0x100)
    ∧ (∀ (A : Nat → Bool) (m : Nat → Nat), FencedBridge A br →
        (∀ c, c ∈ lowCells opcode instr d s → A c = true) →
        (opcode = 0xB1 → ∀ k j, j < 0x800 → (s.o.code_map k).buf = 0 →
          A ((s.o.code_map k).off + j) = true) →
        exec br opcode instr d (fence A m s) = fenceN A m (exec br opcode instr d s)) := by
  obtain ⟨-, m2, m3, m4, m5⟩ := lowCells_modes opcode instr d s
  obtain ⟨k1, k2⟩ := modes_code opcode hmode
  have e4 : ((d + s.x) % 65536 + 1) % 256 = (d + s.x + 1) % 256 := by omega
  have e5 : (d + s.x) % 65536 % 256 = (d + s.x) % 256 := by omega
  refine ⟨exec_zp_x br instr d s, exec_zp_x_rmw br instr d s, fun _ _ _ => ⟨rfl, rfl, rfl⟩,
    exec_zp_y br instr d s, ?_, rfl, ?_, exec_ind_x br instr d s, exec_ind_y br instr d s,
    m2, m3, ?_, m5, ?_, ?_⟩
  · unfold IND_X
    simp only [e4, e5]
  · unfold IND_Y IND_Y_temp
    omega
  · intro h; rw [m4 h, e4, e5]
  · intro c hc
    rcases hmode with h | h | h | h
    · rw [m2 h] at hc; simp only [List.mem_singleton] at hc; omega
    · rw [m3 h] at hc; simp only [List.mem_singleton] at hc; omega
    · rw [m4 h] at hc
      simp only [List.mem_cons, List.mem_singleton, List.not_mem_nil, or_false] at hc; omega
    · rw [m5 h] at hc
      simp only [List.mem_cons, List.mem_singleton, List.not_mem_nil, or_false] at hc; omega
  · intro A m hb hA hp
    refine exec_fence A m br hb opcode instr d s hA ?_ ?_
    · intro i _ h
      rw [k1] at h
      cases h
    · intro h
      exact hp (k2 h)

theorem zero_page_wrap_witness :
    (0xFF : Nat) < 256
    ∧ (isZpXCase 0xB5 = true ∨ isZpYCase 0xB5 = true ∨ isIndXCase 0xB5 = true
      ∨ isIndYCase 0xB5 = true)
    ∧ (0xFF + demoZpxSt.x) % 256 = 0x01 ∧ (0xFF + demoZpxSt.y) % 256 = 0x02
    ∧ lowCells 0xB5 ⟨0, 1⟩ 0xFF demoZpxSt = [0x01]
    ∧ demoZpxSt.o.lowMem 0x01 = 0xFF ∧ demoZpxSt.o.lowMem 0x101 = 0
    ∧ (exec demoBridge 0xB5 ⟨0, 1⟩ 0xFF demoZpxSt).st.a = 0xFF
    ∧ (exec demoBridge 0x96 ⟨0, 1⟩ 0xFF demoZpxSt).st.o.lowMem 0x02 = 2
    ∧ (exec demoBridge 0x96 ⟨0, 1⟩ 0xFF demoZpxSt).st.o.lowMem 0x102 = 0
    ∧ (
    (∀ v, v = READ_LOW demoZpxSt.o ((0xFF + demoZpxSt.x) % 256) →
        exec demoBridge 0xB5 ⟨0, 1⟩ 0xFF demoZpxSt = .loop (addPc (set_a_nz demoZpxSt v) 1)
        ∧ exec demoBridge 0xB4 ⟨0, 1⟩ 0xFF demoZpxSt = .loop { addPc demoZpxSt 1 with y := v % 256, nz := v }
        ∧ exec demoBridge 0x95 ⟨0, 1⟩ 0xFF demoZpxSt
            = .loop { addPc demoZpxSt 1 with o := WRITE_LOW demoZpxSt.o ((0xFF + demoZpxSt.x) % 256) demoZpxSt.a }
        ∧ exec demoBridge 0x94 ⟨0, 1⟩ 0xFF demoZpxSt
            = .loop { addPc demoZpxSt 1 with o := WRITE_LOW demoZpxSt.o ((0xFF + demoZpxSt.x) % 256) demoZpxSt.y }
        ∧ exec demoBridge 0xD5 ⟨0, 1⟩ 0xFF demoZpxSt = .loop (cmp_data demoZpxSt demoZpxSt.a v)
        ∧ exec demoBridge 0x35 ⟨0, 1⟩ 0xFF demoZpxSt
            = .loop (addPc { demoZpxSt with a := (demoZpxSt.a &&& v) % 256, nz := (demoZpxSt.a &&& v) % 256 } 1)
        ∧ exec demoBridge 0x55 ⟨0, 1⟩ 0xFF demoZpxSt
            = .loop (addPc { demoZpxSt with a := (demoZpxSt.a ^^^ v) % 256, nz := (demoZpxSt.a ^^^ v) % 256 } 1)
        ∧ exec demoBridge 0x15 ⟨0, 1⟩ 0xFF demoZpxSt
            = .loop (addPc { demoZpxSt with a := (demoZpxSt.a ||| v) % 256, nz := (demoZpxSt.a ||| v) % 256 } 1)
        ∧ exec demoBridge 0xF5 ⟨0, 1⟩ 0xFF demoZpxSt = .loop (adc_imm demoZpxSt (v ^^^ 0xFF))
        ∧ exec demoBridge 0x75 ⟨0, 1⟩ 0xFF demoZpxSt = .loop (adc_imm demoZpxSt v))
    ∧ (exec demoBridge 0x76 ⟨0, 1⟩ 0xFF demoZpxSt = .loop (ror_zp demoZpxSt ((0xFF + demoZpxSt.x) % 256))
    ∧ exec demoBridge 0x56 ⟨0, 1⟩ 0xFF demoZpxSt = .loop (ror_zp { demoZpxSt with c := 0 } ((0xFF + demoZpxSt.x) % 256))
    ∧ exec demoBridge 0x36 ⟨0, 1⟩ 0xFF demoZpxSt = .loop (rol_zp demoZpxSt ((0xFF + demoZpxSt.x) % 256))
    ∧ exec demoBridge 0x16 ⟨0, 1⟩ 0xFF demoZpxSt = .loop (rol_zp { demoZpxSt with c := 0 } ((0xFF + demoZpxSt.x) % 256))
    ∧ exec demoBridge 0xF6 ⟨0, 1⟩ 0xFF demoZpxSt = .loop (add_nz_zp demoZpxSt 1 ((0xFF + demoZpxSt.x) % 256))
    ∧ exec demoBridge 0xD6 ⟨0, 1⟩ 0xFF demoZpxSt = .loop (add_nz_zp demoZpxSt 0xFFFF ((0xFF + demoZpxSt.x) % 256)))
    ∧ (∀ (t : St Unit) (n c : Nat),
        ror_zp t c
          = { t with nz := (((t.c >>> 1) &&& 0x80) ||| (READ_LOW t.o c >>> 1)) % 65536,
                     c := (READ_LOW t.o c <<< 8) % 65536,
                     pc := (t.pc + 1) % 65536,
                     o := WRITE_LOW t.o c
                       ((((t.c >>> 1) &&& 0x80) ||| (READ_LOW t.o c >>> 1)) % 65536) }
        ∧ rol_zp t c
          = { t with nz := ((t.c >>> 8) &&& 1) ||| ((READ_LOW t.o c <<< 1) % 65536),
                     c := (READ_LOW t.o c <<< 1) % 65536,
                     pc := (t.pc + 1) % 65536,
                     o := WRITE_LOW t.o c
                       (((t.c >>> 8) &&& 1) ||| ((READ_LOW t.o c <<< 1) % 65536)) }
        ∧ add_nz_zp t n c
          = { t with nz := (n + READ_LOW t.o c) % 65536,
                     pc := (t.pc + 1) % 65536,
                     o := WRITE_LOW t.o c ((n + READ_LOW t.o c) % 65536) })
    ∧ (exec demoBridge 0xB6 ⟨0, 1⟩ 0xFF demoZpxSt
        = .loop { addPc demoZpxSt 1 with
            x := READ_LOW demoZpxSt.o ((0xFF + demoZpxSt.y) % 256) % 256,
            nz := READ_LOW demoZpxSt.o ((0xFF + demoZpxSt.y) % 256) }
    ∧ exec demoBridge 0x96 ⟨0, 1⟩ 0xFF demoZpxSt
        = .loop { addPc demoZpxSt 1 with o := WRITE_LOW demoZpxSt.o ((0xFF + demoZpxSt.y) % 256) demoZpxSt.x })
    ∧ IND_X demoZpxSt 0xFF
        = (0x100 * READ_LOW demoZpxSt.o ((0xFF + demoZpxSt.x + 1) % 256) + READ_LOW demoZpxSt.o ((0xFF + demoZpxSt.x) % 256)) % 65536
    ∧ IND_Y_temp demoZpxSt 0xFF = (READ_LOW demoZpxSt.o 0xFF + demoZpxSt.y) % 65536
    ∧ IND_Y demoZpxSt 0xFF = (READ_LOW demoZpxSt.o 0xFF + demoZpxSt.y + 0x100 * READ_LOW demoZpxSt.o ((0xFF + 1) % 256)) % 65536
    ∧ (∀ r, r = arith_ptr demoBridge demoZpxSt (IND_X demoZpxSt 0xFF) →
        exec demoBridge 0x81 ⟨0, 1⟩ 0xFF demoZpxSt = .loop (sta_ptr demoBridge (addPc demoZpxSt 1) (IND_X demoZpxSt 0xFF))
        ∧ exec demoBridge 0xA1 ⟨0, 1⟩ 0xFF demoZpxSt = .loop (a_nz_read_addr demoBridge (addPc demoZpxSt 1) (IND_X demoZpxSt 0xFF))
        ∧ exec demoBridge 0xC1 ⟨0, 1⟩ 0xFF demoZpxSt = .loop (cmp_data r.2 r.2.a r.1)
        ∧ exec demoBridge 0x21 ⟨0, 1⟩ 0xFF demoZpxSt
            = .loop (addPc { r.2 with a := (r.2.a &&& r.1) % 256, nz := (r.2.a &&& r.1) % 256 } 1)
        ∧ exec demoBridge 0x41 ⟨0, 1⟩ 0xFF demoZpxSt
            = .loop (addPc { r.2 with a := (r.2.a ^^^ r.1) % 256, nz := (r.2.a ^^^ r.1) % 256 } 1)
        ∧ exec demoBridge 0x01 ⟨0, 1⟩ 0xFF demoZpxSt
            = .loop (addPc { r.2 with a := (r.2.a ||| r.1) % 256, nz := (r.2.a ||| r.1) % 256 } 1)
        ∧ exec demoBridge 0xE1 ⟨0, 1⟩ 0xFF demoZpxSt = .loop (adc_imm r.2 (r.1 ^^^ 0xFF))
        ∧ exec demoBridge 0x61 ⟨0, 1⟩ 0xFF demoZpxSt = .loop (adc_imm r.2 r.1))
    ∧ (∀ q, q = arith_ptr demoBridge (HANDLE_PAGE_CROSSING demoZpxSt (IND_Y_temp demoZpxSt 0xFF)) (IND_Y demoZpxSt 0xFF) →
        exec demoBridge 0x91 ⟨0, 1⟩ 0xFF demoZpxSt = .loop (sta_ptr demoBridge (addPc demoZpxSt 1) (IND_Y demoZpxSt 0xFF))
        ∧ exec demoBridge 0xB1 ⟨0, 1⟩ 0xFF demoZpxSt
            = .loop (lda_prog demoBridge (addPc (HANDLE_PAGE_CROSSING demoZpxSt (IND_Y_temp demoZpxSt 0xFF)) 1)
                (IND_Y demoZpxSt 0xFF))
        ∧ exec demoBridge 0xD1 ⟨0, 1⟩ 0xFF demoZpxSt = .loop (cmp_data q.2 q.2.a q.1)
        ∧ exec demoBridge 0x31 ⟨0, 1⟩ 0xFF demoZpxSt
            = .loop (addPc { q.2 with a := (q.2.a &&& q.1) % 256, nz := (q.2.a &&& q.1) % 256 } 1)
        ∧ exec demoBridge 0x51 ⟨0, 1⟩ 0xFF demoZpxSt
            = .loop (addPc { q.2 with a := (q.2.a ^^^ q.1) % 256, nz := (q.2.a ^^^ q.1) % 256 } 1)
        ∧ exec demoBridge 0x11 ⟨0, 1⟩ 0xFF demoZpxSt
            = .loop (addPc { q.2 with a := (q.2.a ||| q.1) % 256, nz := (q.2.a ||| q.1) % 256 } 1)
        ∧ exec demoBridge 0xF1 ⟨0, 1⟩ 0xFF demoZpxSt = .loop (adc_imm q.2 (q.1 ^^^ 0xFF))
        ∧ exec demoBridge 0x71 ⟨0, 1⟩ 0xFF demoZpxSt = .loop (adc_imm q.2 q.1))
    ∧ (isZpXCase 0xB5 = true → lowCells 0xB5 ⟨0, 1⟩ 0xFF demoZpxSt = [(0xFF + demoZpxSt.x) % 256])
    ∧ (isZpYCase 0xB5 = true → lowCells 0xB5 ⟨0, 1⟩ 0xFF demoZpxSt = [(0xFF + demoZpxSt.y) % 256])
    ∧ (isIndXCase 0xB5 = true →
        lowCells 0xB5 ⟨0, 1⟩ 0xFF demoZpxSt = [(0xFF + demoZpxSt.x + 1) % 256, (0xFF + demoZpxSt.x) % 256])
    ∧ (isIndYCase 0xB5 = true → lowCells 0xB5 ⟨0, 1⟩ 0xFF demoZpxSt = [0xFF, (0xFF + 1) % 256])
    ∧ (∀ c, c ∈ lowCells 0xB5 ⟨0, 1⟩ 0xFF demoZpxSt → c < 0x100)
    ∧ (∀ (A : Nat → Bool) (m : Nat → Nat), FencedBridge A demoBridge →
        (∀ c, c ∈ lowCells 0xB5 ⟨0, 1⟩ 0xFF demoZpxSt → A c = true) →
        (0xB5 = 0xB1 → ∀ k j, j < 0x800 → (demoZpxSt.o.code_map k).buf = 0 →
          A ((demoZpxSt.o.code_map k).off + j) = true) →
        exec demoBridge 0xB5 ⟨0, 1⟩ 0xFF (fence A m demoZpxSt) = fenceN A m (exec demoBridge 0xB5 ⟨0, 1⟩ 0xFF demoZpxSt))) :=
  ⟨by decide, Or.inl (by decide), by decide, by decide, by decide, by decide, by decide,
    by decide, by decide, by decide,
    zero_page_wrap demoBridge 0xB5 ⟨0, 1⟩ 0xFF demoZpxSt (by decide) (Or.inl (by decide))⟩

/-! ## Direct accesses to the low-memory array -/

theorem exec_store_abs (br : Bridge H) (instr : Ptr) (data : Nat) (s : St H) :
    exec br 0x8D instr data s
      = .loop (store_addr br (addPc s 2) (GET_ADDR s instr % 65536) s.a)
    ∧ exec br 0x9D instr data s
      = .loop (store_addr br (addPc s 2) ((s.x + GET_ADDR s instr) % 65536) s.a)
    ∧ exec br 0x99 instr data s
      = .loop (store_addr br (addPc s 2) ((s.y + GET_ADDR s instr) % 65536) s.a)
    ∧ exec br 0x8C instr data s = .loop (store_addr br (addPc s 2) (GET_ADDR s instr) s.y)
    ∧ exec br 0x8E instr data s = .loop (store_addr br (addPc s 2) (GET_ADDR s instr) s.x) := by
  refine ⟨?_, ?_, ?_, ?_, ?_⟩ <;> simp [exec, often_used, branch_ops, load_store, isArith]

/-- The set `lowArray` holds everything up to `0x7FF`. -/
theorem lowArray_of_le (c : Nat) (h : c ≤ 0x7FF) : lowArray c = true := by
  unfold lowArray
  exact decide_eq_true (by omega)

/-- C34: from an object whose registers are bytes, in every state `s` that `run` reaches
(the state after any number of passes from the entry state), whatever the opcode, the
operand pointer and the operand byte: every index that the case hands to `READ_LOW` or
`WRITE_LOW` is in `0..0x7FF`; the zero-page forms (zp, zp,X, zp,Y and the pointer cells of
(ind,X) and (ind),Y) index `0..0xFF`; the stack forms (PHA, PHP, PLA, PLP, JSR, RTS, RTI,
BRK and the interrupt sequence) index `0x100..0x1FF`; STA abs, abs,X, abs,Y, STY abs and
STX abs write the array directly exactly when their 16-bit address is `<= 0x7FF` and
go through the `WRITE` of the bridge otherwise; and a pass that executes an instruction,
like the interrupt sequence, touches the array nowhere else: started on an object whose
cells beyond `0x7FF` are replaced by arbitrary ones (with callbacks that keep to
`0..0x7FF`, the instruction bytes inside the array where they lie in it, and the code
pages that lie in the array starting at its first cell) it has the same outcome, with the
replaced cells still in place; and the same holds of every case for any set of cells that
holds the indices listed for it. -/
theorem low_memory_bounds (br : Bridge H) (o : Obj H) (n : Nat) (s : St H)
    (hsp : o.regs.sp < 256) (ha : o.regs.a < 256) (hx : o.regs.x < 256) (hy : o.regs.y < 256)
    (hs : s = (passes br n (enter o)).st) :
    RegsOk s
    ∧ (∀ (opcode : Nat) (instr : Ptr) (data : Nat), data < 256 →
        (∀ c, c ∈ lowCells opcode instr data s → c ≤ 0x7FF)
        ∧ (isZpCase opcode = true ∨ isZpXCase opcode = true ∨ isZpYCase opcode = true
            ∨ isIndXCase opcode = true ∨ isIndYCase opcode = true →
            ∀ c, c ∈ lowCells opcode instr data s → c ≤ 0xFF)
        ∧ (opcode = 0x48 ∨ opcode = 0x08 ∨ opcode = 0x68 ∨ opcode = 0x28 ∨ opcode = 0x20
            ∨ opcode = 0x60 ∨ opcode = 0x40 ∨ opcode = 0x00 →
            ∀ c, c ∈ lowCells opcode instr data s → 0x100 ≤ c ∧ c ≤ 0x1FF))
    ∧ (∀ c, c ∈ interruptCells s → 0x100 ≤ c ∧ c ≤ 0x1FF)
    ∧ (∀ (instr : Ptr) (data : Nat),
        (exec br 0x8D instr data s
            = .loop (store_addr br (addPc s 2) (GET_ADDR s instr % 65536) s.a)
          ∧ lowCells 0x8D instr data s = storeCells (GET_ADDR s instr % 65536))
        ∧ (exec br 0x9D instr data s
            = .loop (store_addr br (addPc s 2) ((s.x + GET_ADDR s instr) % 65536) s.a)
          ∧ lowCells 0x9D instr data s = storeCells ((s.x + GET_ADDR s instr) % 65536))
        ∧ (exec br 0x99 instr data s
            = .loop (store_addr br (addPc s 2) ((s.y + GET_ADDR s instr) % 65536) s.a)
          ∧ lowCells 0x99 instr data s = storeCells ((s.y + GET_ADDR s instr) % 65536))
        ∧ (exec br 0x8C instr data s
            = .loop (store_addr br (addPc s 2) (GET_ADDR s instr) s.y)
          ∧ lowCells 0x8C instr data s = storeCells (GET_ADDR s instr))
        ∧ (exec br 0x8E instr data s
            = .loop (store_addr br (addPc s 2) (GET_ADDR s instr) s.x)
          ∧ lowCells 0x8E instr data s = storeCells (GET_ADDR s instr)))
    ∧ (∀ (t : St H) (addr v : Nat),
        (addr ≤ 0x7FF → storeCells addr = [addr]
          ∧ store_addr br t addr v = { t with o := WRITE_LOW t.o addr v })
        ∧ (0x7FF < addr → storeCells addr = []
          ∧ store_addr br t addr v = CACHE_TIME (WRITE br (FLUSH_TIME t) addr v)))
    ∧ (∀ m : Nat → Nat, FencedBridge lowArray br →
        -32768 ≤ s.s_time → s.s_time < 0 →
        ((fetchPtr s).buf = 0 → (fetchPtr s).off + 2 < 0x800) →
        (∀ k, (s.o.code_map k).buf = 0 → (s.o.code_map k).off = 0) →
        step br (fence lowArray m s) = fenceN lowArray m (step br s))
    ∧ (∀ (m : Nat → Nat) (r : Int), r.toNat ≤ 4 →
        (∀ k, (s.o.code_map k).buf = 0 → (s.o.code_map k).off = 0) →
        interrupt (fence lowArray m s) r = fence lowArray m (interrupt s r))
    ∧ (∀ (A : Nat → Bool) (m : Nat → Nat) (opcode : Nat) (instr : Ptr) (data : Nat),
        FencedBridge A br →
        (∀ c, c ∈ lowCells opcode instr data s → A c = true) →
        (∀ i, i ≤ 1 → readsOperand opcode = true →
          deref (fenceO A m s.o) instr i = deref s.o instr i) →
        (readsProg opcode = true → ∀ k j, j < 0x800 → (s.o.code_map k).buf = 0 →
          A ((s.o.code_map k).off + j) = true) →
        exec br opcode instr data (fence A m s)
          = fenceN A m (exec br opcode instr data s)) := by
  have hr : RegsOk s := by
    rw [hs]
    exact passes_regs br n _ (enter_regs o hsp ha hx hy)
  have hpg : (∀ k, (s.o.code_map k).buf = 0 → (s.o.code_map k).off = 0) →
      ∀ k j, j < 0x800 → (s.o.code_map k).buf = 0 →
        lowArray ((s.o.code_map k).off + j) = true := by
    intro hp k j hj hb
    rw [hp k hb]
    exact lowArray_of_le _ (by omega)
  have hic : ∀ c, c ∈ interruptCells s → 0x100 ≤ c ∧ c ≤ 0x1FF := by
    intro c hc
    exact (lowCells_bounds 0x00 ⟨0, 0⟩ 0 s hr (by decide)).2.2 (by decide) c
      (by rw [(lowCells_stack ⟨0, 0⟩ 0 s).2.2.2.2.2.2.2.1]; exact hc)
  refine ⟨hr, ?_, hic, ?_, ?_, ?_, ?_,
    fun A m opcode instr data hb hA hi hp => exec_fence A m br hb opcode instr data s hA hi hp⟩
  · intro opcode instr data hd
    exact lowCells_bounds opcode instr data s hr hd
  · intro instr data
    obtain ⟨-, -, -, -, -, -, -, -, k9, k10, k11, k12, k13⟩ := lowCells_stack instr data s
    obtain ⟨x1, x2, x3, x4, x5⟩ := exec_store_abs br instr data s
    exact ⟨⟨x1, k9⟩, ⟨x2, k10⟩, ⟨x3, k11⟩, ⟨x4, k12⟩, ⟨x5, k13⟩⟩
  · intro t addr v
    refine ⟨fun h => ⟨?_, ?_⟩, fun h => ⟨?_, ?_⟩⟩
    · unfold storeCells; rw [if_pos h]
    · unfold store_addr; rw [if_pos h]
    · unfold storeCells; rw [if_neg (by omega)]
    · unfold store_addr; rw [if_neg (by omega)]
  · intro m hb ht1 ht2 hf hp
    refine step_fence lowArray m br hb s ht1 ht2 ?_ ?_ (hpg hp)
    · intro c hc
      exact lowArray_of_le c
        ((lowCells_bounds _ _ _ s hr (deref_lt _ _ _)).1 c hc)
    · intro h i hi
      exact lowArray_of_le _ (by have := hf h; omega)
  · intro m r hr4 hp
    have h1 := (hic _ (List.Mem.head _))
    have h2 := (hic _ (List.Mem.tail _ (List.Mem.head _)))
    have h3 := (hic _ (List.Mem.tail _ (List.Mem.tail _ (List.Mem.head _))))
    exact interrupt_fence lowArray m s r hr4 (lowArray_of_le _ (by omega))
      (lowArray_of_le _ (by omega)) (lowArray_of_le _ (by omega)) (hpg hp)

theorem low_memory_bounds_witness :
    (demoObj [0x8D, 0x00, 0x08] (-4)).regs.sp < 256
    ∧ (demoObj [0x8D, 0x00, 0x08] (-4)).regs.a < 256
    ∧ (demoObj [0x8D, 0x00, 0x08] (-4)).regs.x < 256
    ∧ (demoObj [0x8D, 0x00, 0x08] (-4)).regs.y < 256
    ∧ fetchOpcode (enter (demoObj [0x8D, 0x00, 0x08] (-4))) = 0x8D
    ∧ GET_ADDR (enter (demoObj [0x8D, 0x00, 0x08] (-4))) ⟨0, 1⟩ = 0x800
    ∧ (
    RegsOk (passes demoBridge 0 (enter (demoObj [0x8D, 0x00, 0x08] (-4)))).st
    ∧ (∀ (opcode : Nat) (instr : Ptr) (data : Nat), data < 256 →
        (∀ c, c ∈ lowCells opcode instr data (passes demoBridge 0 (enter (demoObj [0x8D, 0x00, 0x08] (-4)))).st → c ≤ 0x7FF)
        ∧ (isZpCase opcode = true ∨ isZpXCase opcode = true ∨ isZpYCase opcode = true
            ∨ isIndXCase opcode = true ∨ isIndYCase opcode = true →
            ∀ c, c ∈ lowCells opcode instr data (passes demoBridge 0 (enter (demoObj [0x8D, 0x00, 0x08] (-4)))).st → c ≤ 0xFF)
        ∧ (opcode = 0x48 ∨ opcode = 0x08 ∨ opcode = 0x68 ∨ opcode = 0x28 ∨ opcode = 0x20
            ∨ opcode = 0x60 ∨ opcode = 0x40 ∨ opcode = 0x00 →
            ∀ c, c ∈ lowCells opcode instr data (passes demoBridge 0 (enter (demoObj [0x8D, 0x00, 0x08] (-4)))).st → 0x100 ≤ c ∧ c ≤ 0x1FF))
    ∧ (∀ c, c ∈ interruptCells (passes demoBridge 0 (enter (demoObj [0x8D, 0x00, 0x08] (-4)))).st → 0x100 ≤ c ∧ c ≤ 0x1FF)
    ∧ (∀ (instr : Ptr) (data : Nat),
        (exec demoBridge 0x8D instr data (passes demoBridge 0 (enter (demoObj [0x8D, 0x00, 0x08] (-4)))).st
            = .loop (store_addr demoBridge (addPc (passes demoBridge 0 (enter (demoObj [0x8D, 0x00, 0x08] (-4)))).st 2) (GET_ADDR (passes demoBridge 0 (enter (demoObj [0x8D, 0x00, 0x08] (-4)))).st instr % 65536) (passes demoBridge 0 (enter (demoObj [0x8D, 0x00, 0x08] (-4)))).st.a)
          ∧ lowCells 0x8D instr data (passes demoBridge 0 (enter (demoObj [0x8D, 0x00, 0x08] (-4)))).st = storeCells (GET_ADDR (passes demoBridge 0 (enter (demoObj [0x8D, 0x00, 0x08] (-4)))).st instr % 65536))
        ∧ (exec demoBridge 0x9D instr data (passes demoBridge 0 (enter (demoObj [0x8D, 0x00, 0x08] (-4)))).st
            = .loop (store_addr demoBridge (addPc (passes demoBridge 0 (enter (demoObj [0x8D, 0x00, 0x08] (-4)))).st 2) (((passes demoBridge 0 (enter (demoObj [0x8D, 0x00, 0x08] (-4)))).st.x + GET_ADDR (passes demoBridge 0 (enter (demoObj [0x8D, 0x00, 0x08] (-4)))).st instr) % 65536) (passes demoBridge 0 (enter (demoObj [0x8D, 0x00, 0x08] (-4)))).st.a)
          ∧ lowCells 0x9D instr data (passes demoBridge 0 (enter (demoObj [0x8D, 0x00, 0x08] (-4)))).st = storeCells (((passes demoBridge 0 (enter (demoObj [0x8D, 0x00, 0x08] (-4)))).st.x + GET_ADDR (passes demoBridge 0 (enter (demoObj [0x8D, 0x00, 0x08] (-4)))).st instr) % 65536))
        ∧ (exec demoBridge 0x99 instr data (passes demoBridge 0 (enter (demoObj [0x8D, 0x00, 0x08] (-4)))).st
            = .loop (store_addr demoBridge (addPc (passes demoBridge 0 (enter (demoObj [0x8D, 0x00, 0x08] (-4)))).st 2) (((passes demoBridge 0 (enter (demoObj [0x8D, 0x00, 0x08] (-4)))).st.y + GET_ADDR (passes demoBridge 0 (enter (demoObj [0x8D, 0x00, 0x08] (-4)))).st instr) % 65536) (passes demoBridge 0 (enter (demoObj [0x8D, 0x00, 0x08] (-4)))).st.a)
          ∧ lowCells 0x99 instr data (passes demoBridge 0 (enter (demoObj [0x8D, 0x00, 0x08] (-4)))).st = storeCells (((passes demoBridge 0 (enter (demoObj [0x8D, 0x00, 0x08] (-4)))).st.y + GET_ADDR (passes demoBridge 0 (enter (demoObj [0x8D, 0x00, 0x08] (-4)))).st instr) % 65536))
        ∧ (exec demoBridge 0x8C instr data (passes demoBridge 0 (enter (demoObj [0x8D, 0x00, 0x08] (-4)))).st
            = .loop (store_addr demoBridge (addPc (passes demoBridge 0 (enter (demoObj [0x8D, 0x00, 0x08] (-4)))).st 2) (GET_ADDR (passes demoBridge 0 (enter (demoObj [0x8D, 0x00, 0x08] (-4)))).st instr) (passes demoBridge 0 (enter (demoObj [0x8D, 0x00, 0x08] (-4)))).st.y)
          ∧ lowCells 0x8C instr data (passes demoBridge 0 (enter (demoObj [0x8D, 0x00, 0x08] (-4)))).st = storeCells (GET_ADDR (passes demoBridge 0 (enter (demoObj [0x8D, 0x00, 0x08] (-4)))).st instr))
        ∧ (exec demoBridge 0x8E instr data (passes demoBridge 0 (enter (demoObj [0x8D, 0x00, 0x08] (-4)))).st
            = .loop (store_addr demoBridge (addPc (passes demoBridge 0 (enter (demoObj [0x8D, 0x00, 0x08] (-4)))).st 2) (GET_ADDR (passes demoBridge 0 (enter (demoObj [0x8D, 0x00, 0x08] (-4)))).st instr) (passes demoBridge 0 (enter (demoObj [0x8D, 0x00, 0x08] (-4)))).st.x)
          ∧ lowCells 0x8E instr data (passes demoBridge 0 (enter (demoObj [0x8D, 0x00, 0x08] (-4)))).st = storeCells (GET_ADDR (passes demoBridge 0 (enter (demoObj [0x8D, 0x00, 0x08] (-4)))).st instr)))
    ∧ (∀ (t : St Unit) (addr v : Nat),
        (addr ≤ 0x7FF → storeCells addr = [addr]
          ∧ store_addr demoBridge t addr v = { t with o := WRITE_LOW t.o addr v })
        ∧ (0x7FF < addr → storeCells addr = []
          ∧ store_addr demoBridge t addr v = CACHE_TIME (WRITE demoBridge (FLUSH_TIME t) addr v)))
    ∧ (∀ m : Nat → Nat, FencedBridge lowArray demoBridge →
        -32768 ≤ (passes demoBridge 0 (enter (demoObj [0x8D, 0x00, 0x08] (-4)))).st.s_time → (passes demoBridge 0 (enter (demoObj [0x8D, 0x00, 0x08] (-4)))).st.s_time < 0 →
        ((fetchPtr (passes demoBridge 0 (enter (demoObj [0x8D, 0x00, 0x08] (-4)))).st).buf = 0 → (fetchPtr (passes demoBridge 0 (enter (demoObj [0x8D, 0x00, 0x08] (-4)))).st).off + 2 < 0x800) →
        (∀ k, ((passes demoBridge 0 (enter (demoObj [0x8D, 0x00, 0x08] (-4)))).st.o.code_map k).buf = 0 → ((passes demoBridge 0 (enter (demoObj [0x8D, 0x00, 0x08] (-4)))).st.o.code_map k).off = 0) →
        step demoBridge (fence lowArray m (passes demoBridge 0 (enter (demoObj [0x8D, 0x00, 0x08] (-4)))).st) = fenceN lowArray m (step demoBridge (passes demoBridge 0 (enter (demoObj [0x8D, 0x00, 0x08] (-4)))).st))
    ∧ (∀ (m : Nat → Nat) (r : Int), r.toNat ≤ 4 →
        (∀ k, ((passes demoBridge 0 (enter (demoObj [0x8D, 0x00, 0x08] (-4)))).st.o.code_map k).buf = 0 → ((passes demoBridge 0 (enter (demoObj [0x8D, 0x00, 0x08] (-4)))).st.o.code_map k).off = 0) →
        interrupt (fence lowArray m (passes demoBridge 0 (enter (demoObj [0x8D, 0x00, 0x08] (-4)))).st) r = fence lowArray m (interrupt (passes demoBridge 0 (enter (demoObj [0x8D, 0x00, 0x08] (-4)))).st r))
    ∧ (∀ (A : Nat → Bool) (m : Nat → Nat) (opcode : Nat) (instr : Ptr) (data : Nat),
        FencedBridge A demoBridge →
        (∀ c, c ∈ lowCells opcode instr data (passes demoBridge 0 (enter (demoObj [0x8D, 0x00, 0x08] (-4)))).st → A c = true) →
        (∀ i, i ≤ 1 → readsOperand opcode = true →
          deref (fenceO A m (passes demoBridge 0 (enter (demoObj [0x8D, 0x00, 0x08] (-4)))).st.o) instr i = deref (passes demoBridge 0 (enter (demoObj [0x8D, 0x00, 0x08] (-4)))).st.o instr i) →
        (readsProg opcode = true → ∀ k j, j < 0x800 → ((passes demoBridge 0 (enter (demoObj [0x8D, 0x00, 0x08] (-4)))).st.o.code_map k).buf = 0 →
          A (((passes demoBridge 0 (enter (demoObj [0x8D, 0x00, 0x08] (-4)))).st.o.code_map k).off + j) = true) →
        exec demoBridge opcode instr data (fence A m (passes demoBridge 0 (enter (demoObj [0x8D, 0x00, 0x08] (-4)))).st)
          = fenceN A m (exec demoBridge opcode instr data (passes demoBridge 0 (enter (demoObj [0x8D, 0x00, 0x08] (-4)))).st))) :=
  ⟨by decide, by decide, by decide, by decide, by decide, by decide,
    low_memory_bounds demoBridge (demoObj [0x8D, 0x00, 0x08] (-4)) 0 _ (by decide) (by decide)
      (by decide) (by decide) rfl⟩

end NesCpu
